import Mathlib

/-!
# UDF file-system driver: request dispatcher, exception completion and FCB chain cleanup

A shallow embedding of the concurrency and object-lifecycle core of the UDF driver
(`misc.cpp`, `close.cpp`, `read.cpp`, `lockctrl.cpp`, `fscntrl.cpp`, `pnp.cpp`,
`shutdown.cpp`) together with the properties established about it.

Conventions of the embedding:

* `ULONG` fields are natural numbers below `2^32`; `++` and `--` are `ulongInc` and
  `ulongDec`, which wrap between `0xFFFFFFFF` and `0` as the machine operations do.
* Flag words are records of booleans, one field per flag bit that the code tests.
* Pointers are `Option`; dereferencing `NULL` raises `STATUS_ACCESS_VIOLATION`.
* Calls that leave the driver (`IoCompleteRequest`, `ExFreeToNPagedLookasideList`,
  resource acquire/release, ...) are recorded as events in a trace.
-/

namespace UDF

/-! ## Machine integers and status codes -/

/-- Largest value of a `ULONG`, `0xFFFFFFFF`. -/
def ULONG_MAX : Nat := 4294967295

/-- Number of values of a `ULONG`. -/
@[irreducible] def ULONG_RANGE : Nat := 4294967296

/-- The C statement `x++` on a `ULONG`: the largest value wraps to zero. -/
def ulongInc (x : Nat) : Nat := if x = ULONG_MAX then 0 else x + 1

/-- The C statement `x--` on a `ULONG` (also `InterlockedDecrement`): zero wraps to the
largest value. -/
def ulongDec (x : Nat) : Nat := if x = 0 then ULONG_MAX else x - 1

/-- An `NTSTATUS` is a 32-bit code. -/
abbrev NTSTATUS := Nat

def STATUS_SUCCESS : NTSTATUS := 0x00000000
def STATUS_PENDING : NTSTATUS := 0x00000103
def STATUS_VERIFY_REQUIRED : NTSTATUS := 0x80000016
def STATUS_DATATYPE_MISALIGNMENT : NTSTATUS := 0x80000002
def STATUS_ACCESS_VIOLATION : NTSTATUS := 0xC0000005
def STATUS_IN_PAGE_ERROR : NTSTATUS := 0xC0000006
def STATUS_INVALID_DEVICE_REQUEST : NTSTATUS := 0xC0000010
def STATUS_NO_MEDIA_IN_DEVICE : NTSTATUS := 0xC0000013
def STATUS_UNRECOGNIZED_MEDIA : NTSTATUS := 0xC0000014
def STATUS_ILLEGAL_INSTRUCTION : NTSTATUS := 0xC000001D
def STATUS_INSUFFICIENT_RESOURCES : NTSTATUS := 0xC000009A
def STATUS_MEDIA_WRITE_PROTECTED : NTSTATUS := 0xC00000A2
def STATUS_DEVICE_NOT_READY : NTSTATUS := 0xC00000A3
def STATUS_INSTRUCTION_MISALIGNMENT : NTSTATUS := 0xC00000AA
def STATUS_IO_TIMEOUT : NTSTATUS := 0xC00000B5
def STATUS_CANT_WAIT : NTSTATUS := 0xC00000D8
def STATUS_WRONG_VOLUME : NTSTATUS := 0xC0000012
def STATUS_DRIVER_INTERNAL_ERROR : NTSTATUS := 0xC0000183
def STATUS_UNSUCCESSFUL : NTSTATUS := 0xC0000001
def STATUS_INVALID_PARAMETER : NTSTATUS := 0xC000000D
def STATUS_ACCESS_DENIED : NTSTATUS := 0xC0000022
def STATUS_NOT_LOCKED : NTSTATUS := 0xC000002A
def STATUS_DELETE_PENDING : NTSTATUS := 0xC0000056
def STATUS_RANGE_NOT_LOCKED : NTSTATUS := 0xC000007E
def STATUS_VOLUME_DISMOUNTED : NTSTATUS := 0xC000026E
def STATUS_CRC_ERROR : NTSTATUS := 0xC000003F
def STATUS_FILE_CORRUPT_ERROR : NTSTATUS := 0xC0000102
def STATUS_UNRECOGNIZED_VOLUME : NTSTATUS := 0xC000014F

/-- The kernel macro `NT_SUCCESS`: the status, read as a signed 32-bit value, is not
negative. -/
def NT_SUCCESS (Status : NTSTATUS) : Bool := decide (Status < 0x80000000)

/-! ## Request contexts and the per-volume dispatcher fields -/

/-- An `IRP` is identified by its address. -/
abbrev PIRP := Nat

/-- The fields of `IRP_CONTEXT` that the dispatcher and the exception path use.
`Tag` stands for the address of the structure; `Irp` is `NULL` for a posted close.
`Flags` is split into the bits that are tested. -/
structure IRP_CONTEXT where
  Tag : Nat
  Irp : Option PIRP
  MajorFunction : Nat
  MinorFunction : Nat
  FlagWait : Bool
  FlagDisablePopups : Bool
  FlagOnStack : Bool
  FlagNotTopLevel : Bool
  IrpCompleted : Bool
  ExceptionCode : NTSTATUS
  deriving DecidableEq, Repr

/-- The overflow-queue fields of the `VCB`, all guarded by `OverflowQueueSpinLock`.
`OverflowQueue` lists the queued contexts from the list head to the tail. -/
structure VCB where
  PostedRequestCount : Nat
  OverflowQueue : List IRP_CONTEXT
  OverflowQueueCount : Nat
  deriving DecidableEq, Repr

/-- The fields as `UDFInitializeVCB` leaves them (misc.cpp 1430-1434). -/
def VCB.initial : VCB :=
  { PostedRequestCount := 0, OverflowQueue := [], OverflowQueueCount := 0 }

/-! ## `UDFPostRequest` (misc.cpp 1030-1100) -/

/-- What a call of `UDFPostRequest` did: the volume fields afterwards, the context handed to
`ExQueueWorkItem` (if any), whether `IoMarkIrpPending` ran, and the returned status. -/
structure PostResult where
  Vcb : VCB
  WorkItem : Option IRP_CONTEXT
  MarkedPending : Bool
  Status : NTSTATUS
  deriving DecidableEq, Repr

/-- The routine `UDFPostRequest(IrpContext, Irp)`; `FSP_PER_DEVICE_THRESHOLD` is a constant of a header
that is not part of the sources and is taken as a parameter. -/
def UDFPostRequest (FSP_PER_DEVICE_THRESHOLD : Nat) (Vcb : VCB) (IrpContext : IRP_CONTEXT)
    (Irp : Option PIRP) : PostResult :=
  if Vcb.PostedRequestCount > FSP_PER_DEVICE_THRESHOLD then
    { Vcb := { Vcb with
                OverflowQueue := Vcb.OverflowQueue ++ [IrpContext]
                OverflowQueueCount := ulongInc Vcb.OverflowQueueCount }
      WorkItem := none
      MarkedPending := Irp.isSome
      Status := STATUS_PENDING }
  else
    { Vcb := { Vcb with PostedRequestCount := ulongInc Vcb.PostedRequestCount }
      WorkItem := some IrpContext
      MarkedPending := Irp.isSome
      Status := STATUS_PENDING }

/-! ## The spinlock sections of `UDFFspDispatch` (misc.cpp 1221-1270) -/

/-- Outcome of the section at lines 1221-1247. -/
inductive Dequeue where
  /-- Zero `OverflowQueueCount`: the lock is dropped and the loop breaks. -/
  | empty
  /-- The count was decremented and `RemoveHeadList` returned a queued context. -/
  | entry (Vcb : VCB) (IrpContext : IRP_CONTEXT)
  /-- The count was non-zero on an empty list: `RemoveHeadList` returns the list head,
  which is not a context. -/
  | listHead (Vcb : VCB)
  deriving DecidableEq, Repr

/-- Lines 1221-1247 of `UDFFspDispatch`. -/
def overflowDequeue (Vcb : VCB) : Dequeue :=
  if Vcb.OverflowQueueCount = 0 then .empty
  else
    match Vcb.OverflowQueue with
    | [] => .listHead { Vcb with OverflowQueueCount := ulongDec Vcb.OverflowQueueCount }
    | Entry :: rest =>
      .entry { Vcb with OverflowQueue := rest
                        OverflowQueueCount := ulongDec Vcb.OverflowQueueCount } Entry

/-- Lines 1267-1270 of `UDFFspDispatch`: the lock is taken again and
`PostedRequestCount` is decremented. -/
def postedDecrement (Vcb : VCB) : VCB :=
  { Vcb with PostedRequestCount := ulongDec Vcb.PostedRequestCount }

/-! ## Interleaving model of one volume's dispatcher

Every access to the three `VCB` fields happens inside one of three spinlock sections:
the body of `UDFPostRequest`, the check-and-dequeue of a worker, and the final decrement of a
worker. A worker that found the queue empty has released the lock (line 1224) before it
takes it again for the decrement (line 1268), so other sections may run in between. -/

/-- Where a worker thread stands. -/
inductive WorkerPhase where
  /-- Running a handler; its next section is the check-and-dequeue. -/
  | executing
  /-- Left the loop at line 1226; its next section is the final decrement. -/
  | leaving
  deriving DecidableEq, Repr

/-- A worker thread inside `UDFFspDispatch`. -/
structure Worker where
  IrpContext : IRP_CONTEXT
  phase : WorkerPhase
  deriving DecidableEq, Repr

/-- One volume with its worker threads and the history of queue operations. -/
structure Dispatcher where
  Vcb : VCB
  workers : List Worker
  /-- Contexts passed to `ExQueueWorkItem`, oldest first. -/
  workItems : List IRP_CONTEXT
  /-- Contexts passed to `InsertTailList`, oldest first. -/
  inserted : List IRP_CONTEXT
  /-- Contexts returned by `RemoveHeadList`, oldest first. -/
  removed : List IRP_CONTEXT
  deriving DecidableEq, Repr

/-- A freshly initialised volume with no worker. -/
def Dispatcher.initial : Dispatcher :=
  { Vcb := VCB.initial, workers := [], workItems := [], inserted := [], removed := [] }

/-- The atomic steps. -/
inductive Step where
  /-- Some thread calls `UDFPostRequest` for the context. -/
  | post (IrpContext : IRP_CONTEXT)
  /-- Worker number `w` finished a handler and runs lines 1221-1257. -/
  | dequeue (w : Nat)
  /-- Worker number `w` runs lines 1267-1270 and returns. -/
  | finish (w : Nat)
  deriving DecidableEq, Repr

/-- One step; `none` when the step is not enabled (no such worker, wrong phase) or when the
worker would continue with the list head as its context. -/
def step (thr : Nat) (s : Dispatcher) : Step → Option Dispatcher
  | .post c =>
    let r := UDFPostRequest thr s.Vcb c c.Irp
    match r.WorkItem with
    | some item =>
      some { s with Vcb := r.Vcb
                    workers := s.workers ++ [{ IrpContext := item, phase := .executing }]
                    workItems := s.workItems ++ [item] }
    | none => some { s with Vcb := r.Vcb, inserted := s.inserted ++ [c] }
  | .dequeue w =>
    match s.workers.get? w with
    | some { IrpContext := _, phase := .executing } =>
      match overflowDequeue s.Vcb with
      | .empty =>
        some { s with workers := s.workers.modify (fun x => { x with phase := .leaving }) w }
      | .entry Vcb next =>
        some { s with Vcb := Vcb
                      workers := s.workers.modify (fun x => { x with IrpContext := next }) w
                      removed := s.removed ++ [next] }
      | .listHead _ => none
    | _ => none
  | .finish w =>
    match s.workers.get? w with
    | some { IrpContext := _, phase := .leaving } =>
      some { s with Vcb := postedDecrement s.Vcb, workers := s.workers.eraseIdx w }
    | _ => none

/-- Run a schedule of steps from a state. -/
def run (thr : Nat) : Dispatcher → List Step → Option Dispatcher
  | s, [] => some s
  | s, a :: rest =>
    match step thr s a with
    | some s' => run thr s' rest
    | none => none

/-! ## IRPs, events and exceptions -/

/-- The part of an `IRP` the driver writes before completing it. -/
structure IRP where
  Address : PIRP
  Status : NTSTATUS
  Information : Nat
  deriving DecidableEq, Repr

/-- Calls that leave the dispatcher, in program order. -/
inductive Event where
  /-- The call `IoCompleteRequest(Irp, ...)`, with the `IoStatus` the IRP carries. -/
  | IoCompleteRequest (Irp : IRP)
  | IoMarkIrpPending (Irp : PIRP)
  | IoRaiseHardError (Irp : PIRP)
  /-- The call `ExQueueWorkItem` for the context with this tag. -/
  | ExQueueWorkItem (Tag : Nat)
  /-- The call `InsertTailList` on the overflow queue for the context with this tag. -/
  | InsertTailList (Tag : Nat)
  /-- The call `UDFCleanupIrpContext` for the context with this tag. -/
  | UDFCleanupIrpContext (Tag : Nat)
  /-- The call `ExFreeToNPagedLookasideList` made by `UDFCleanupIrpContext`. -/
  | ExFreeToNPagedLookasideList (Tag : Nat)
  | UDFLogEvent (RC : NTSTATUS)
  /-- A call made inside a routine that is not part of the sources. -/
  | external (Name : String) (Tag : Nat)
  deriving DecidableEq, Repr

/-- The fields of `EXCEPTION_RECORD` read by `UDFExceptionFilter`. -/
structure EXCEPTION_RECORD where
  ExceptionCode : NTSTATUS
  NumberParameters : Nat
  ExceptionInformation2 : NTSTATUS
  deriving DecidableEq, Repr

/-- The record of a fault on a `NULL` pointer. -/
def nullDereference : EXCEPTION_RECORD :=
  { ExceptionCode := STATUS_ACCESS_VIOLATION, NumberParameters := 2, ExceptionInformation2 := 0 }

/-- The kernel routine `FsRtlIsNtstatusExpected`, as the comment above `UDFExceptionFilter`
(misc.cpp 197-202) describes it. -/
def FsRtlIsNtstatusExpected (Status : NTSTATUS) : Bool :=
  !(Status == STATUS_DATATYPE_MISALIGNMENT || Status == STATUS_ACCESS_VIOLATION ||
    Status == STATUS_ILLEGAL_INSTRUCTION || Status == STATUS_INSTRUCTION_MISALIGNMENT)

/-- The kernel macro `IoIsErrorUserInduced` (ntifs.h). -/
def IoIsErrorUserInduced (Status : NTSTATUS) : Bool :=
  Status == STATUS_DEVICE_NOT_READY || Status == STATUS_IO_TIMEOUT ||
  Status == STATUS_MEDIA_WRITE_PROTECTED || Status == STATUS_NO_MEDIA_IN_DEVICE ||
  Status == STATUS_VERIFY_REQUIRED || Status == STATUS_UNRECOGNIZED_MEDIA ||
  Status == STATUS_WRONG_VOLUME

/-- The routine `UDFExceptionFilter` (misc.cpp 211-280): the context with `ExceptionCode`
stored, and whether the handler runs (`EXCEPTION_EXECUTE_HANDLER`) or the search continues. -/
def UDFExceptionFilter (IrpContext : Option IRP_CONTEXT) (Record : EXCEPTION_RECORD) :
    Option IRP_CONTEXT × Bool :=
  let ExceptionCode :=
    if Record.ExceptionCode = STATUS_IN_PAGE_ERROR ∧ Record.NumberParameters ≥ 3 then
      Record.ExceptionInformation2
    else Record.ExceptionCode
  match IrpContext with
  | some ctx => (some { ctx with ExceptionCode := ExceptionCode }, true)
  | none => (none, FsRtlIsNtstatusExpected ExceptionCode)

/-- The routine `UDFCleanupIrpContext` (misc.cpp 928-940). -/
def UDFCleanupIrpContext (IrpContext : IRP_CONTEXT) : List Event :=
  if !IrpContext.FlagOnStack then
    [.UDFCleanupIrpContext IrpContext.Tag, .ExFreeToNPagedLookasideList IrpContext.Tag]
  else [.UDFCleanupIrpContext IrpContext.Tag]

/-- The events of a `UDFPostRequest` call. -/
def PostResult.events (r : PostResult) (IrpContext : IRP_CONTEXT) (Irp : Option PIRP) :
    List Event :=
  (match Irp with
   | some a => [Event.IoMarkIrpPending a]
   | none => []) ++
  (match r.WorkItem with
   | some item => [Event.ExQueueWorkItem item.Tag]
   | none => [Event.InsertTailList IrpContext.Tag])

/-! ## `UDFProcessException` (misc.cpp 303-439) -/

/-- What a routine outside the sources did with a request. -/
structure ExternalOutcome where
  Status : NTSTATUS
  IrpContext : IRP_CONTEXT
  Irp : IRP
  Vcb : VCB
  events : List Event
  deriving DecidableEq, Repr

/-- The surroundings `UDFProcessException` consults. -/
structure ExceptionEnv where
  /-- Whether `KeGetCurrentIrql() >= APC_LEVEL`. -/
  IrqlAtLeastApc : Bool
  /-- Whether `IoGetDeviceToVerify(Irp->Tail.Overlay.Thread)` is non-NULL. -/
  DeviceOfIrpThread : Bool
  /-- Whether `IoGetDeviceToVerify(PsGetCurrentThread())` is non-NULL. -/
  DeviceOfCurrentThread : Bool
  /-- The routine `UDFPerformVerify`, which is not part of the sources. -/
  UDFPerformVerify : VCB → IRP_CONTEXT → IRP → ExternalOutcome

/-- Result of `UDFProcessException`. -/
structure ExceptionResult where
  Status : NTSTATUS
  IrpContext : Option IRP_CONTEXT
  Irp : Option IRP
  Vcb : VCB
  events : List Event
  deriving DecidableEq, Repr

/-- The routine `UDFProcessException(IrpContext, Irp)`. -/
def UDFProcessException (env : ExceptionEnv) (thr : Nat) (Vcb : VCB)
    (IrpContext : Option IRP_CONTEXT) (Irp : Option IRP) : ExceptionResult :=
  match Irp with
  | none =>
    -- 316-320
    { Status := STATUS_INSUFFICIENT_RESOURCES, IrpContext := IrpContext, Irp := none,
      Vcb := Vcb, events := [] }
  | some irp =>
    match IrpContext with
    | none =>
      -- 326-335
      let irp1 := { irp with Status := STATUS_INSUFFICIENT_RESOURCES, Information := 0 }
      { Status := STATUS_INSUFFICIENT_RESOURCES, IrpContext := none, Irp := some irp1,
        Vcb := Vcb, events := [.IoCompleteRequest irp1] }
    | some ctx =>
      -- 323, 337-342
      let posted := UDFPostRequest thr Vcb ctx (some irp.Address)
      let repost : Bool := ctx.ExceptionCode == STATUS_VERIFY_REQUIRED && env.IrqlAtLeastApc
      let ExceptionCode := if repost then posted.Status else ctx.ExceptionCode
      let Vcb1 := if repost then posted.Vcb else Vcb
      let ev1 := if repost then posted.events ctx (some irp.Address) else []
      -- 344-349
      if ExceptionCode = STATUS_PENDING ∨ ExceptionCode = STATUS_CANT_WAIT then
        { Status := ExceptionCode, IrpContext := some ctx, Irp := some irp, Vcb := Vcb1,
          events := ev1 }
      else
        -- 351
        let irp1 := { irp with Status := ExceptionCode }
        if IoIsErrorUserInduced ExceptionCode then
          if ExceptionCode = STATUS_VERIFY_REQUIRED then
            -- 356-378
            if !env.DeviceOfIrpThread && !env.DeviceOfCurrentThread then
              let irp2 := { irp1 with Status := STATUS_DRIVER_INTERNAL_ERROR, Information := 0 }
              { Status := STATUS_DRIVER_INTERNAL_ERROR
                IrpContext := some { ctx with IrpCompleted := true }
                Irp := some irp2, Vcb := Vcb1
                events := ev1 ++ [.IoCompleteRequest irp2] }
            else
              let v := env.UDFPerformVerify Vcb1 ctx irp1
              { Status := v.Status, IrpContext := some v.IrpContext, Irp := some v.Irp,
                Vcb := v.Vcb, events := ev1 ++ v.events }
          else if ctx.FlagDisablePopups then
            -- 381-391
            let irp2 := { irp1 with Status := ExceptionCode, Information := 0 }
            if !ctx.IrpCompleted then
              { Status := ExceptionCode, IrpContext := some { ctx with IrpCompleted := true },
                Irp := some irp2, Vcb := Vcb1, events := ev1 ++ [.IoCompleteRequest irp2] }
            else
              { Status := ExceptionCode, IrpContext := some ctx, Irp := some irp2, Vcb := Vcb1,
                events := ev1 }
          else
            -- 394-423
            if !env.DeviceOfIrpThread && !env.DeviceOfCurrentThread then
              let irp2 := { irp1 with Status := ExceptionCode, Information := 0 }
              if !ctx.IrpCompleted then
                { Status := ExceptionCode, IrpContext := some { ctx with IrpCompleted := true },
                  Irp := some irp2, Vcb := Vcb1, events := ev1 ++ [.IoCompleteRequest irp2] }
              else
                { Status := STATUS_PENDING, IrpContext := some ctx, Irp := some irp2, Vcb := Vcb1,
                  events := ev1 ++ [.IoMarkIrpPending irp.Address, .IoRaiseHardError irp.Address] }
            else
              { Status := STATUS_PENDING, IrpContext := some ctx, Irp := some irp1, Vcb := Vcb1,
                events := ev1 ++ [.IoMarkIrpPending irp.Address, .IoRaiseHardError irp.Address] }
        else
          -- 427-438
          let irp2 := { irp1 with Status := ExceptionCode, Information := 0 }
          if !ctx.IrpCompleted then
            { Status := ExceptionCode, IrpContext := some { ctx with IrpCompleted := true },
              Irp := some irp2, Vcb := Vcb1, events := ev1 ++ [.IoCompleteRequest irp2] }
          else
            { Status := ExceptionCode, IrpContext := some ctx, Irp := some irp2, Vcb := Vcb1,
              events := ev1 }

/-- The handler block of the worker loop (misc.cpp 1202-1210): `UDFProcessException`,
`UDFLogEvent`, then the completion check of the dispatcher. In the worker `IrpContext` is
never NULL. -/
def fspExceptionBlock (env : ExceptionEnv) (thr : Nat) (Vcb : VCB) (IrpContext : IRP_CONTEXT)
    (Irp : Option IRP) : ExceptionResult :=
  let r := UDFProcessException env thr Vcb (some IrpContext) Irp
  let ctx := r.IrpContext.getD IrpContext
  let ev := r.events ++ [.UDFLogEvent r.Status]
  match r.Irp with
  | some irp =>
    if !ctx.IrpCompleted then
      { r with IrpContext := some { ctx with IrpCompleted := true }
               events := ev ++ [.IoCompleteRequest irp] }
    else { r with IrpContext := some ctx, events := ev }
  | none => { r with IrpContext := some ctx, events := ev }

/-- Number of `IoCompleteRequest` calls for the IRP at `Address` in a trace. -/
def completions (Address : PIRP) (events : List Event) : Nat :=
  (events.filter (fun e =>
    match e with
    | .IoCompleteRequest irp => irp.Address == Address
    | _ => false)).length

/-! ## The worker loop `UDFFspDispatch` (misc.cpp 1120-1274), one worker running alone -/

def IRP_MJ_CREATE : Nat := 0x00
def IRP_MJ_CLOSE : Nat := 0x02
def IRP_MJ_READ : Nat := 0x03
def IRP_MJ_WRITE : Nat := 0x04
def IRP_MJ_QUERY_INFORMATION : Nat := 0x05
def IRP_MJ_SET_INFORMATION : Nat := 0x06
def IRP_MJ_QUERY_VOLUME_INFORMATION : Nat := 0x0a
def IRP_MJ_SET_VOLUME_INFORMATION : Nat := 0x0b
def IRP_MJ_DIRECTORY_CONTROL : Nat := 0x0c
def IRP_MJ_FILE_SYSTEM_CONTROL : Nat := 0x0d
def IRP_MJ_LOCK_CONTROL : Nat := 0x11
def IRP_MJ_CLEANUP : Nat := 0x12

/-- How a routine ended: with a return value or with a raised exception. -/
inductive Completion where
  | returned (RC : NTSTATUS)
  | raised (Record : EXCEPTION_RECORD)
  deriving DecidableEq, Repr

/-- What one of the `UDFCommon...` routines did with a request. -/
structure CommonOutcome where
  result : Completion
  IrpContext : IRP_CONTEXT
  Irp : Option IRP
  Vcb : VCB
  events : List Event
  deriving DecidableEq, Repr

/-- A `UDFCommon...` routine: from the volume fields, the context and the IRP (NULL for a
posted close) to what it did. -/
abbrev CommonRoutine := VCB → IRP_CONTEXT → Option IRP → CommonOutcome

/-- The surroundings of a worker thread. -/
structure FspEnv where
  exc : ExceptionEnv
  FSP_PER_DEVICE_THRESHOLD : Nat
  /-- The IRP stored at an address. -/
  irpAt : PIRP → IRP
  /-- The routine the switch at lines 1158-1188 selects for a major function. -/
  common : Nat → CommonRoutine

/-- The major functions with a case in the switch at lines 1158-1188. -/
def fspHandled : List Nat :=
  [IRP_MJ_CREATE, IRP_MJ_READ, IRP_MJ_WRITE, IRP_MJ_CLEANUP, IRP_MJ_CLOSE,
   IRP_MJ_DIRECTORY_CONTROL, IRP_MJ_QUERY_INFORMATION, IRP_MJ_SET_INFORMATION,
   IRP_MJ_QUERY_VOLUME_INFORMATION, IRP_MJ_SET_VOLUME_INFORMATION]

/-- Lines 1150-1210: one request is executed inside the try/except of the loop. -/
def fspExecute (env : FspEnv) (Vcb : VCB) (IrpContext : IRP_CONTEXT) :
    VCB × IRP_CONTEXT × List Event :=
  let Irp := IrpContext.Irp.map env.irpAt
  let ctx := { IrpContext with FlagWait := true }
  if ctx.MajorFunction ∈ fspHandled then
    let o := env.common ctx.MajorFunction Vcb ctx Irp
    match o.result with
    | .returned _ => (o.Vcb, o.IrpContext, o.events)
    | .raised Record =>
      let ctx1 := ((UDFExceptionFilter (some o.IrpContext) Record).1).getD o.IrpContext
      let r := fspExceptionBlock env.exc env.FSP_PER_DEVICE_THRESHOLD o.Vcb ctx1 o.Irp
      (r.Vcb, r.IrpContext.getD ctx1, o.events ++ r.events)
  else if !ctx.IrpCompleted then
    -- 1191-1197
    match Irp with
    | some irp =>
      let irp1 := { irp with Status := STATUS_INVALID_DEVICE_REQUEST, Information := 0 }
      let ctx1 := { ctx with IrpCompleted := true }
      (Vcb, ctx1, [.IoCompleteRequest irp1] ++ UDFCleanupIrpContext ctx1)
    | none =>
      -- the store to Irp->IoStatus faults and the handler block runs
      let ctx1 := ((UDFExceptionFilter (some ctx) nullDereference).1).getD ctx
      let r := fspExceptionBlock env.exc env.FSP_PER_DEVICE_THRESHOLD Vcb ctx1 none
      (r.Vcb, r.IrpContext.getD ctx1, r.events)
  else (Vcb, ctx, [])

/-- The loop of `UDFFspDispatch` with its local variables `IrpContext` and `PrevIrpContext`;
the result is the volume fields after line 1270 and the trace. `fuel` bounds the number of
requests executed. -/
def fspLoop (env : FspEnv) : Nat → VCB → IRP_CONTEXT → Option IRP_CONTEXT → List Event →
    Option (VCB × List Event)
  | 0, _, _, _, _ => none
  | fuel + 1, Vcb, IrpContext, PrevIrpContext, trace =>
    match fspExecute env Vcb IrpContext with
    | (Vcb1, ctx1, ev1) =>
      match overflowDequeue Vcb1 with
      | .empty =>
        -- 1224-1226 and 1260-1270
        let final :=
          match PrevIrpContext with
          | some prev => UDFCleanupIrpContext prev
          | none => UDFCleanupIrpContext ctx1
        some (postedDecrement Vcb1, trace ++ ev1 ++ final)
      | .entry Vcb2 next =>
        -- 1229-1257
        let ev2 :=
          match PrevIrpContext with
          | some prev => UDFCleanupIrpContext prev
          | none => []
        fspLoop env fuel Vcb2 { next with IrpCompleted := false } (some ctx1)
          (trace ++ ev1 ++ ev2)
      | .listHead _ => none

/-- The routine `UDFFspDispatch(Context)`. -/
def UDFFspDispatch (env : FspEnv) (fuel : Nat) (Vcb : VCB) (Context : IRP_CONTEXT) :
    Option (VCB × List Event) :=
  fspLoop env fuel Vcb { Context with IrpCompleted := false } none []

/-- Number of `UDFCleanupIrpContext` calls for the context with the tag in a trace. -/
def releases (Tag : Nat) (events : List Event) : Nat :=
  (events.filter (fun e => e == Event.UDFCleanupIrpContext Tag)).length

/-! ## The dispatch entry points -/

/-- What `UDFCreateIrpContext` reads besides the IRP. -/
structure CreateInput where
  /-- Whether the device object is the file-system device object. -/
  DeviceIsFsdo : Bool
  HasFileObject : Bool
  MajorFunction : Nat
  MinorFunction : Nat
  /-- Address `ExAllocateFromNPagedLookasideList` gives for the context, `none` when the
  pool has no memory for it. -/
  Allocation : Option Nat
  /-- Value of `IoIsOperationSynchronous(Irp)`. -/
  OperationSynchronous : Bool
  /-- Whether `IoGetTopLevelIrp() == Irp`. -/
  IsTopLevel : Bool
  deriving DecidableEq, Repr

/-- The exception a pool allocation made with `POOL_RAISE_IF_ALLOCATION_FAILURE` raises when
it fails. -/
def poolExhausted : EXCEPTION_RECORD :=
  { ExceptionCode := STATUS_INSUFFICIENT_RESOURCES, NumberParameters := 0
    ExceptionInformation2 := 0 }

/-- The routine `UDFCreateIrpContext` (misc.cpp 791-910); an exception raised inside it is
the error. `IrpContextLookasideList` is set up with `POOL_RAISE_IF_ALLOCATION_FAILURE`
(misc.cpp 77-83), so a failing allocation at line 823 raises and the `return NULL` of lines
825-827 is not reached; the result keeps the pointer type of the source, which the callers
test. -/
def UDFCreateIrpContext (i : CreateInput) (Irp : IRP) : Except EXCEPTION_RECORD (Option IRP_CONTEXT) :=
  if i.DeviceIsFsdo && i.HasFileObject && i.MajorFunction != IRP_MJ_CREATE &&
      i.MajorFunction != IRP_MJ_CLEANUP && i.MajorFunction != IRP_MJ_CLOSE then
    .error { ExceptionCode := STATUS_INVALID_DEVICE_REQUEST, NumberParameters := 0,
             ExceptionInformation2 := 0 }
  else
    match i.Allocation with
    | none => .error poolExhausted
    | some a =>
      .ok (some
        { Tag := a, Irp := some Irp.Address, MajorFunction := i.MajorFunction,
          MinorFunction := i.MinorFunction
          FlagWait := if !i.HasFileObject then true else i.OperationSynchronous
          FlagDisablePopups := false, FlagOnStack := false
          FlagNotTopLevel := !i.IsTopLevel
          IrpCompleted := false, ExceptionCode := 0 })

/-- Result of a dispatch entry point: the value returned, or the exception that leaves it
because the filter answered `EXCEPTION_CONTINUE_SEARCH`. -/
structure DispatchResult where
  outcome : Completion
  Vcb : VCB
  events : List Event
  deriving DecidableEq, Repr

/-- The `_SEH2_EXCEPT` clause shared by the entry points: filter, then
`UDFProcessException` and `UDFLogEvent`. -/
def fsdExcept (env : ExceptionEnv) (thr : Nat) (Vcb : VCB) (IrpContext : Option IRP_CONTEXT)
    (Irp : IRP) (Record : EXCEPTION_RECORD) (trace : List Event) : DispatchResult :=
  match UDFExceptionFilter IrpContext Record with
  | (ctx, true) =>
    let r := UDFProcessException env thr Vcb ctx (some Irp)
    { outcome := .returned r.Status, Vcb := r.Vcb
      events := trace ++ r.events ++ [.UDFLogEvent r.Status] }
  | (_, false) => { outcome := .raised Record, Vcb := Vcb, events := trace }

/-- The body shared by `UDFRead`, `UDFLockControl`, `UDFFSControl`, `UDFPnp` and
`UDFShutdown`: create the context inside the try, call the common routine if there is one,
else complete the IRP with `STATUS_INSUFFICIENT_RESOURCES`; an exception of
`UDFCreateIrpContext` reaches the except clause with `IrpContext` still NULL. -/
def fsdDispatch (common : CommonRoutine) (env : ExceptionEnv) (thr : Nat) (Vcb : VCB)
    (i : CreateInput) (Irp : IRP) : DispatchResult :=
  match UDFCreateIrpContext i Irp with
  | .error Record => fsdExcept env thr Vcb none Irp Record []
  | .ok (some ctx) =>
    let o := common Vcb ctx (some Irp)
    match o.result with
    | .returned RC => { outcome := .returned RC, Vcb := o.Vcb, events := o.events }
    | .raised Record =>
      fsdExcept env thr o.Vcb (some o.IrpContext) (o.Irp.getD Irp) Record o.events
  | .ok none =>
    let irp1 := { Irp with Status := STATUS_INSUFFICIENT_RESOURCES, Information := 0 }
    { outcome := .returned STATUS_INSUFFICIENT_RESOURCES, Vcb := Vcb
      events := [.IoCompleteRequest irp1] }

/-- The routine `UDFRead` (read.cpp 58-106). -/
def UDFRead (UDFCommonRead : CommonRoutine) (env : ExceptionEnv) (thr : Nat) (Vcb : VCB)
    (i : CreateInput) (Irp : IRP) : DispatchResult :=
  fsdDispatch UDFCommonRead env thr Vcb i Irp

/-- The routine `UDFLockControl` (lockctrl.cpp 36-85). -/
def UDFLockControl (UDFCommonLockControl : CommonRoutine) (env : ExceptionEnv) (thr : Nat)
    (Vcb : VCB) (i : CreateInput) (Irp : IRP) : DispatchResult :=
  fsdDispatch UDFCommonLockControl env thr Vcb i Irp

/-- The routine `UDFFSControl` (fscntrl.cpp 37-86). -/
def UDFFSControl (UDFCommonFSControl : CommonRoutine) (env : ExceptionEnv) (thr : Nat)
    (Vcb : VCB) (i : CreateInput) (Irp : IRP) : DispatchResult :=
  fsdDispatch UDFCommonFSControl env thr Vcb i Irp

/-- The routine `UDFPnp` (pnp.cpp 80-131). -/
def UDFPnp (UDFCommonPnp : CommonRoutine) (env : ExceptionEnv) (thr : Nat) (Vcb : VCB)
    (i : CreateInput) (Irp : IRP) : DispatchResult :=
  fsdDispatch UDFCommonPnp env thr Vcb i Irp

/-- The routine `UDFShutdown` (shutdown.cpp 45-95). -/
def UDFShutdown (UDFCommonShutdown : CommonRoutine) (env : ExceptionEnv) (thr : Nat)
    (Vcb : VCB) (i : CreateInput) (Irp : IRP) : DispatchResult :=
  fsdDispatch UDFCommonShutdown env thr Vcb i Irp

/-- The routine `UDFCommonClose(IrpContext, Irp, CanWait)` as `UDFClose` calls it, with a
non-NULL `Irp`. With a context the work is that of `body`. With a NULL context the routine
faults at its first read through `IrpContext`: when `FileObject->FsContext` is NULL that is
line 383 in the finally block (normal termination, `Irp` present), otherwise line 195; in
both cases nothing has been acquired, posted or completed before the fault. -/
def UDFCommonClose (body : CommonRoutine) (FsContextPresent : Bool) (Vcb : VCB)
    (IrpContext : Option IRP_CONTEXT) (Irp : IRP) : Option CommonOutcome × Completion :=
  match IrpContext with
  | some ctx => let o := body Vcb ctx (some Irp); (some o, o.result)
  | none =>
    if !FsContextPresent then (none, .raised nullDereference)
    else (none, .raised nullDereference)

/-- The routine `UDFClose` (close.cpp 60-115). -/
def UDFClose (body : CommonRoutine) (FsContextPresent : Bool) (env : ExceptionEnv) (thr : Nat)
    (Vcb : VCB) (i : CreateInput) (Irp : IRP) : DispatchResult :=
  if i.DeviceIsFsdo then
    -- 79-88
    let irp1 := { Irp with Status := STATUS_SUCCESS, Information := 0 }
    { outcome := .returned STATUS_SUCCESS, Vcb := Vcb, events := [.IoCompleteRequest irp1] }
  else
    match UDFCreateIrpContext i Irp with
    | .error Record => fsdExcept env thr Vcb none Irp Record []
    | .ok IrpContext =>
      match UDFCommonClose body FsContextPresent Vcb IrpContext Irp with
      | (some o, .returned RC) => { outcome := .returned RC, Vcb := o.Vcb, events := o.events }
      | (some o, .raised Record) =>
        fsdExcept env thr o.Vcb (some o.IrpContext) (o.Irp.getD Irp) Record o.events
      | (none, .returned RC) => { outcome := .returned RC, Vcb := Vcb, events := [] }
      | (none, .raised Record) => fsdExcept env thr Vcb none Irp Record []

/-- Whether a trace posts or queues a request. -/
def postsOrQueues (events : List Event) : Bool :=
  events.any (fun e =>
    match e with
    | .ExQueueWorkItem _ => true
    | .InsertTailList _ => true
    | _ => false)

/-! ## `UDFCleanUpFcbChain` (close.cpp 401-545) -/

/-- The fields of an `FCB` the walk reads or writes. -/
structure FCB where
  ReferenceCount : Nat
  CommonRefCount : Nat
  OpenHandleCount : Nat
  /-- Bit `UDF_FCB_DELETED` of `FCBFlags`. -/
  FlagDeleted : Bool
  /-- Bit `UDF_FCB_DELETE_PARENT` of `FCBFlags`. -/
  FlagDeleteParent : Bool
  /-- Whether `FileLock` is non-NULL. -/
  HasFileLock : Bool
  /-- Whether `Header.Resource` is non-NULL. -/
  HasHeaderResource : Bool
  /-- Whether `FileInfo` is non-NULL. -/
  FileInfoLinked : Bool
  /-- Whether `ParentFcb` is non-NULL. -/
  ParentFcbLinked : Bool
  deriving DecidableEq, Repr

/-- One node of the parent chain: a `UDF_FILE_INFO` with the `FCB` it points to. The chain is
a list, leaf first; the next element is `ParentFile`, and its `FCB` is `ParentFcb`. -/
structure UDF_FILE_INFO where
  Fcb : FCB
  /-- Whether `fi->Fcb` is non-NULL. -/
  FcbLinked : Bool
  /-- Whether `fi->Dloc->CommonFcb` is non-NULL. -/
  CommonFcbLinked : Bool
  /-- Whether the walk has released the node: `UDFCleanUpFCB(ThisFcb)`, `MyFreePool__(fi)`. -/
  Freed : Bool
  deriving DecidableEq, Repr

/-- The resources the walk locks; a node is named by its position in the chain. -/
inductive Resource where
  | VCBResource
  | MainResource (node : Nat)
  | PagingIoResource (node : Nat)
  deriving DecidableEq, Repr

/-- Calls made by the walk, in program order. -/
inductive CloseEvent where
  | AcquireShared (r : Resource)
  | AcquireExclusive (r : Resource)
  | Release (r : Resource)
  | DeleteResource (r : Resource)
  | UDFReferenceFile (node : Nat)
  | UDFFlushFile (node : Nat)
  | UDFUnlinkFile (node : Nat)
  | UDFCloseFile (node : Nat)
  | UDFCleanUpFile (node : Nat)
  | FsRtlFreeFileLock (node : Nat)
  | FsRtlTeardownPerStreamContexts (node : Nat)
  | UDFCleanUpFCB (node : Nat)
  | MyFreePool (node : Nat)
  deriving DecidableEq, Repr

/-- Return value of `UDFCleanUpFile__`, a mask of `UDF_FREE_FILEINFO` and `UDF_FREE_DLOC`. -/
structure CleanUpCode where
  FreeFileInfo : Bool
  FreeDloc : Bool
  deriving DecidableEq, Repr

/-- The mask `UDF_FREE_FILEINFO | UDF_FREE_DLOC`. -/
def CleanUpCode.both : CleanUpCode := { FreeFileInfo := true, FreeDloc := true }

/-- What the walk consults outside itself. -/
structure CloseEnv where
  /-- Bit `VCB_STATE_RAW_DISK` of `Vcb->VCBFlags`. -/
  RawDisk : Bool
  /-- The routine `UDFCleanUpFile__`, which is not part of the sources, applied to the node at a
  position of the chain in the state the walk hands over. -/
  UDFCleanUpFile : Nat → UDF_FILE_INFO → CleanUpCode

/-- One pass of the loop body at lines 421-540: the position of the node, the calls made,
the node afterwards, whether it was released, and the local `TreeLength` after the pass. -/
structure Iteration where
  node : Nat
  events : List CloseEvent
  after : UDF_FILE_INFO
  freed : Bool
  TreeLength : Nat
  deriving DecidableEq, Repr

/-- State after the loop. -/
structure WalkResult where
  chain : List UDF_FILE_INFO
  iterations : List Iteration
  /-- Bit `UDF_CLOSE_NTREQFCB_DELETED` of `ret_val`. -/
  NtReqFcbDeleted : Bool
  /-- Bit `UDF_CLOSE_FCB_DELETED` of `ret_val`. -/
  FcbDeleted : Bool
  deriving DecidableEq, Repr

/-- Lines 429-439: the outer lock (the parent's main resource if there is a parent, else the
volume resource when the caller does not hold it), then the node's main resource. -/
def acquireLocks (VcbAcquired : Bool) (idx : Nat) (hasParent : Bool) : List CloseEvent :=
  (if hasParent then [.AcquireExclusive (.MainResource (idx + 1))]
   else if !VcbAcquired then [.AcquireShared .VCBResource]
   else []) ++ [.AcquireExclusive (.MainResource idx)]

/-- The release of the outer lock at the end of an iteration (lines 502-507, 515-520,
529-534): the parent's main resource if it was acquired, else the volume resource for a
parentless node when the caller does not hold it. -/
def releaseOuter (VcbAcquired : Bool) (idx : Nat) (hasParent : Bool) : List CloseEvent :=
  if hasParent then [.Release (.MainResource (idx + 1))]
  else if !VcbAcquired then [.Release .VCBResource]
  else []

/-- Lines 442-451: the `FCB` after the decrements, which happen only while `TreeLength` is
non-zero. -/
def decrementCounts (ThisFcb : FCB) (TreeLength : Nat) : FCB :=
  if TreeLength ≠ 0 then
    { ThisFcb with ReferenceCount := ulongDec ThisFcb.ReferenceCount
                   CommonRefCount := ulongDec ThisFcb.CommonRefCount }
  else ThisFcb

/-- Lines 454-467: the calls into the on-disk layer for an unreferenced node. -/
def diskWork (env : CloseEnv) (idx : Nat) (Fcb1 : FCB) (Delete : Bool) : List CloseEvent :=
  if env.RawDisk then []
  else if Delete then
    [.UDFReferenceFile idx, .UDFFlushFile idx, .UDFUnlinkFile idx, .UDFCloseFile idx]
  else if !Fcb1.FlagDeleted then [.UDFFlushFile idx]
  else []

/-- Line 463: the `FCB` is marked deleted when the pending delete was carried out. -/
def markDeleted (env : CloseEnv) (Fcb1 : FCB) (Delete : Bool) : FCB :=
  if !env.RawDisk && Delete then { Fcb1 with FlagDeleted := true } else Fcb1

/-- Lines 464-470: the value of `Delete` carried to the parent. -/
def carryDelete (env : CloseEnv) (Fcb1 : FCB) (Delete : Bool) : Bool :=
  if (markDeleted env Fcb1 Delete).FlagDeleteParent then true
  else if !env.RawDisk && Delete then false
  else Delete

/-- Lines 472-475: the node as `UDFCleanUpFile__` receives it, with `fi->Fcb` cleared and
`fi->Dloc->CommonFcb` cleared when `ComRefCount` is zero. -/
def handedNode (env : CloseEnv) (fi : UDF_FILE_INFO) (Fcb1 : FCB) (Delete : Bool) :
    UDF_FILE_INFO :=
  { fi with Fcb := markDeleted env Fcb1 Delete, FcbLinked := false
            CommonFcbLinked := if Fcb1.CommonRefCount = 0 then false else fi.CommonFcbLinked }

/-- What one pass of the loop body did. -/
structure Visit where
  /-- The node afterwards. -/
  node : UDF_FILE_INFO
  events : List CloseEvent
  /-- Whether the node was released (lines 478-508). -/
  freed : Bool
  /-- The local variables after the pass. -/
  TreeLength : Nat
  Delete : Bool
  /-- Whether the loop goes on with `ThisParentFI`; otherwise it left through `break`. -/
  continues : Bool
  deriving DecidableEq, Repr

/-- Lines 478-508: `UDFCleanUpFile__` allowed the release; the node is freed and the loop goes
on with the parent. -/
def visitFreed (env : CloseEnv) (VcbAcquired : Bool) (idx : Nat) (fi : UDF_FILE_INFO)
    (hasParent : Bool) (Fcb1 : FCB) (TreeLength1 : Nat) (Delete : Bool) : Visit :=
  let Fcb2 := markDeleted env Fcb1 Delete
  { node :=
      { handedNode env fi Fcb1 Delete with
        Fcb := { Fcb2 with FileInfoLinked := false, HasHeaderResource := false
                           ParentFcbLinked := false }
        Freed := true }
    events :=
      acquireLocks VcbAcquired idx hasParent ++ diskWork env idx Fcb1 Delete ++
      [.UDFCleanUpFile idx] ++
      (if Fcb2.HasFileLock then [.FsRtlFreeFileLock idx] else []) ++
      [.FsRtlTeardownPerStreamContexts idx, .Release (.MainResource idx)] ++
      (if Fcb2.HasHeaderResource then
        [.DeleteResource (.MainResource idx), .DeleteResource (.PagingIoResource idx)]
       else []) ++
      [.UDFCleanUpFCB idx, .MyFreePool idx] ++ releaseOuter VcbAcquired idx hasParent
    freed := true, TreeLength := TreeLength1, Delete := carryDelete env Fcb1 Delete
    continues := true }

/-- Lines 510-523: the node stays; its pointers are restored and the loop goes on only while
`TreeLength` is non-zero. -/
def visitKept (env : CloseEnv) (VcbAcquired : Bool) (idx : Nat) (fi : UDF_FILE_INFO)
    (hasParent : Bool) (Fcb1 : FCB) (TreeLength1 : Nat) (Delete : Bool) : Visit :=
  { node := { handedNode env fi Fcb1 Delete with FcbLinked := true, CommonFcbLinked := true }
    events :=
      acquireLocks VcbAcquired idx hasParent ++ diskWork env idx Fcb1 Delete ++
      [.UDFCleanUpFile idx, .Release (.MainResource idx)] ++
      releaseOuter VcbAcquired idx hasParent
    freed := false, TreeLength := TreeLength1, Delete := carryDelete env Fcb1 Delete
    continues := TreeLength1 != 0 }

/-- Lines 526-538: the node is still referenced or open. -/
def visitReferenced (VcbAcquired : Bool) (idx : Nat) (fi : UDF_FILE_INFO)
    (hasParent : Bool) (Fcb1 : FCB) (TreeLength1 : Nat) : Visit :=
  { node := { fi with Fcb := Fcb1 }
    events :=
      acquireLocks VcbAcquired idx hasParent ++ [.Release (.MainResource idx)] ++
      releaseOuter VcbAcquired idx hasParent
    freed := false, TreeLength := TreeLength1, Delete := false
    continues := TreeLength1 != 0 }

/-- The loop body at lines 422-539 for the node `fi` at position `idx`; `hasParent` says
whether `fi->ParentFile` is non-NULL. -/
def fcbVisit (env : CloseEnv) (VcbAcquired : Bool) (idx : Nat) (fi : UDF_FILE_INFO)
    (hasParent : Bool) (TreeLength : Nat) (Delete : Bool) : Visit :=
  let Fcb1 := decrementCounts fi.Fcb TreeLength
  let TreeLength1 := if TreeLength ≠ 0 then TreeLength - 1 else TreeLength
  if Fcb1.ReferenceCount = 0 ∧ Fcb1.OpenHandleCount = 0 then
    if env.UDFCleanUpFile idx (handedNode env fi Fcb1 Delete) = CleanUpCode.both then
      visitFreed env VcbAcquired idx fi hasParent Fcb1 TreeLength1 Delete
    else visitKept env VcbAcquired idx fi hasParent Fcb1 TreeLength1 Delete
  else visitReferenced VcbAcquired idx fi hasParent Fcb1 TreeLength1

/-- The loop `while (fi)` at lines 421-540, started at position `idx` of the chain with the
local variables `TreeLength` and `Delete`; `ret_val` collects the two bits set at lines 491
and 499. -/
def fcbWalk (env : CloseEnv) (VcbAcquired : Bool) :
    Nat → List UDF_FILE_INFO → Nat → Bool → WalkResult
  | _, [], _, _ => { chain := [], iterations := [], NtReqFcbDeleted := false, FcbDeleted := false }
  | idx, fi :: parents, TreeLength, Delete =>
    let v := fcbVisit env VcbAcquired idx fi (!parents.isEmpty) TreeLength Delete
    if v.continues then
      let rest := fcbWalk env VcbAcquired (idx + 1) parents v.TreeLength v.Delete
      { chain := v.node :: rest.chain
        iterations :=
          { node := idx, events := v.events, after := v.node, freed := v.freed
            TreeLength := v.TreeLength } :: rest.iterations
        NtReqFcbDeleted := v.freed || rest.NtReqFcbDeleted
        FcbDeleted := v.freed || rest.FcbDeleted }
    else
      { chain := v.node :: parents
        iterations :=
          [{ node := idx, events := v.events, after := v.node, freed := v.freed
             TreeLength := v.TreeLength }]
        NtReqFcbDeleted := v.freed, FcbDeleted := v.freed }

/-- Result of `UDFCleanUpFcbChain`. -/
structure CleanUpResult where
  chain : List UDF_FILE_INFO
  iterations : List Iteration
  /-- All calls of the function, in program order. -/
  trace : List CloseEvent
  NtReqFcbDeleted : Bool
  FcbDeleted : Bool
  deriving DecidableEq, Repr

/-- The routine `UDFCleanUpFcbChain(Vcb, fi, TreeLength, VcbAcquired)`; `chain` is `fi`
followed by its ancestors. -/
def UDFCleanUpFcbChain (env : CloseEnv) (chain : List UDF_FILE_INFO) (TreeLength : Nat)
    (VcbAcquired : Bool) : CleanUpResult :=
  let w := fcbWalk env VcbAcquired 0 chain TreeLength false
  { chain := w.chain, iterations := w.iterations
    trace :=
      (if !VcbAcquired then [CloseEvent.AcquireShared .VCBResource] else []) ++
      (w.iterations.map (fun it => it.events)).flatten ++
      (if !VcbAcquired then [CloseEvent.Release .VCBResource] else [])
    NtReqFcbDeleted := w.NtReqFcbDeleted, FcbDeleted := w.FcbDeleted }

/-- The lock operations of a trace. -/
def lockEvents (events : List CloseEvent) : List CloseEvent :=
  events.filter (fun e =>
    match e with
    | .AcquireShared _ => true
    | .AcquireExclusive _ => true
    | .Release _ => true
    | _ => false)

/-- The locks a thread holds, most recent first, after it performs the lock operations of a
trace; `none` if it releases a resource it does not hold. Resources are recursive, so a
resource may be held more than once. -/
def replayLocks : List Resource → List CloseEvent → Option (List Resource)
  | held, [] => some held
  | held, .AcquireShared r :: rest => replayLocks (r :: held) rest
  | held, .AcquireExclusive r :: rest => replayLocks (r :: held) rest
  | held, .Release r :: rest =>
    if r ∈ held then replayLocks (held.erase r) rest else none
  | held, _ :: rest => replayLocks held rest

/-- A request context used in examples: a read (`IRP_MJ_READ`) for IRP number `n`. -/
def sampleContext (n : Nat) : IRP_CONTEXT :=
  { Tag := n, Irp := some n, MajorFunction := 3, MinorFunction := 0, FlagWait := false,
    FlagDisablePopups := false, FlagOnStack := false, FlagNotTopLevel := false,
    IrpCompleted := false, ExceptionCode := STATUS_SUCCESS }

/-- The contexts `sampleContext 1`, ..., `sampleContext n`. -/
def sampleContexts (n : Nat) : List IRP_CONTEXT :=
  (List.range n).map (fun k => sampleContext (k + 1))

/-- The schedule that posts `sampleContext 1`, ..., `sampleContext n`. -/
def samplePosts (n : Nat) : List Step :=
  (sampleContexts n).map Step.post

/-- The state after the contexts of a list were posted to a fresh volume and no worker has
reached the end of its first request. -/
def afterPosts (thr : Nat) (ctxs : List IRP_CONTEXT) : Dispatcher :=
  { Vcb :=
      { PostedRequestCount := min ctxs.length (thr + 1)
        OverflowQueue := ctxs.drop (thr + 1)
        OverflowQueueCount := (ctxs.length - (thr + 1)) % ULONG_RANGE }
    workers := (ctxs.take (thr + 1)).map (fun c => { IrpContext := c, phase := .executing })
    workItems := ctxs.take (thr + 1)
    inserted := ctxs.drop (thr + 1)
    removed := [] }

/-- The worker count and `PostedRequestCount` agree and stay within the threshold plus one. -/
def CountInv (thr : Nat) (s : Dispatcher) : Prop :=
  s.Vcb.PostedRequestCount = s.workers.length ∧ s.workers.length ≤ thr + 1

/-- The queue history: what was inserted is what was removed followed by what is queued, and
the count is the queue length as a `ULONG`. -/
def QueueInv (s : Dispatcher) : Prop :=
  s.inserted = s.removed ++ s.Vcb.OverflowQueue ∧
  s.Vcb.OverflowQueueCount = s.Vcb.OverflowQueue.length % ULONG_RANGE

/-- A schedule with threshold 2 in which three workers find the queue empty, a fourth request
is then queued, and the three workers leave. -/
def strandingSchedule : List Step :=
  samplePosts 3 ++ [.dequeue 0, .dequeue 1, .dequeue 2, .post (sampleContext 4),
    .finish 0, .finish 0, .finish 0]

/-- A schedule with threshold 2: six posts, two dequeues by different workers, one more
post. -/
def fifoSchedule : List Step :=
  samplePosts 6 ++ [.dequeue 0, .dequeue 2, .post (sampleContext 7)]

/-! ## Concrete inputs -/

/-- Surroundings of a worker at passive level with no device to verify on either thread;
`UDFPerformVerify` completes nothing. -/
def passiveEnv : ExceptionEnv :=
  { IrqlAtLeastApc := false, DeviceOfIrpThread := false, DeviceOfCurrentThread := false
    UDFPerformVerify := fun Vcb ctx irp =>
      { Status := STATUS_PENDING, IrpContext := ctx, Irp := irp, Vcb := Vcb, events := [] } }

/-- A common routine that ends the way `UDFCommonRead` ends a successful read in a worker
(read.cpp 817-831): it completes the IRP under the `IrpCompleted` guard and returns; it does
not release the context. -/
def completingCommon : CommonRoutine := fun Vcb ctx Irp =>
  match Irp with
  | some irp =>
    let irp1 := { irp with Status := STATUS_SUCCESS }
    if !ctx.IrpCompleted then
      { result := .returned STATUS_SUCCESS, IrpContext := { ctx with IrpCompleted := true }
        Irp := some irp1, Vcb := Vcb, events := [.IoCompleteRequest irp1] }
    else
      { result := .returned STATUS_SUCCESS, IrpContext := ctx, Irp := some irp1, Vcb := Vcb
        events := [] }
  | none =>
    { result := .returned STATUS_SUCCESS, IrpContext := ctx, Irp := none, Vcb := Vcb
      events := [] }

/-- A worker with threshold 2 whose handlers all behave like `completingCommon`. -/
def sampleFspEnv : FspEnv :=
  { exc := passiveEnv, FSP_PER_DEVICE_THRESHOLD := 2
    irpAt := fun a => { Address := a, Status := STATUS_PENDING, Information := 0 }
    common := fun _ => completingCommon }

/-- Volume fields with three workers posted and `sampleContext 2` in the overflow queue. -/
def oneQueued : VCB :=
  { PostedRequestCount := 3, OverflowQueue := [sampleContext 2], OverflowQueueCount := 1 }

/-- Volume fields with one worker posted and an empty overflow queue. -/
def noneQueued : VCB :=
  { PostedRequestCount := 1, OverflowQueue := [], OverflowQueueCount := 0 }

/-- A byte-range lock request as `UDFCommonLockControl` posts it (lockctrl.cpp 177). -/
def lockContext : IRP_CONTEXT :=
  { sampleContext 9 with MajorFunction := IRP_MJ_LOCK_CONTROL }

/-- A context whose handler raised `STATUS_VERIFY_REQUIRED` after the IRP was completed. -/
def verifyContext : IRP_CONTEXT :=
  { sampleContext 1 with IrpCompleted := true, ExceptionCode := STATUS_VERIFY_REQUIRED }

/-- The IRP of `sampleContext 1`. -/
def sampleIrp : IRP := { Address := 1, Status := STATUS_PENDING, Information := 0 }

/-- A close request on a volume device object for which the pool has no memory left. -/
def exhaustedClose : CreateInput :=
  { DeviceIsFsdo := false, HasFileObject := true, MajorFunction := IRP_MJ_CLOSE
    MinorFunction := 0, Allocation := none, OperationSynchronous := false, IsTopLevel := true }

/-! ## Statements about the chain walk -/

/-- The two reference counts of a node: `ReferenceCount` and `CommonRefCount`. -/
def refCounts (fi : UDF_FILE_INFO) : Nat × Nat :=
  (fi.Fcb.ReferenceCount, fi.Fcb.CommonRefCount)

/-- The two reference counts of a node after one `InterlockedDecrement` of each. -/
def decrementedCounts (fi : UDF_FILE_INFO) : Nat × Nat :=
  (ulongDec fi.Fcb.ReferenceCount, ulongDec fi.Fcb.CommonRefCount)

/-- The lock operations the hierarchy prescribes for the node at position `node` of a chain
of `n` nodes: the outer lock (the parent's main resource, or the volume resource for a
parentless node when the caller does not hold it), the node's main resource, and the releases
in reverse order. -/
def expectedLocks (VcbAcquired : Bool) (n node : Nat) : List CloseEvent :=
  if node + 1 < n then
    [.AcquireExclusive (.MainResource (node + 1)), .AcquireExclusive (.MainResource node),
     .Release (.MainResource node), .Release (.MainResource (node + 1))]
  else if !VcbAcquired then
    [.AcquireShared .VCBResource, .AcquireExclusive (.MainResource node),
     .Release (.MainResource node), .Release .VCBResource]
  else
    [.AcquireExclusive (.MainResource node), .Release (.MainResource node)]

/-- A node with the given counts and no flags set. -/
def sampleNode (ReferenceCount CommonRefCount OpenHandleCount : Nat) : UDF_FILE_INFO :=
  { Fcb :=
      { ReferenceCount := ReferenceCount, CommonRefCount := CommonRefCount
        OpenHandleCount := OpenHandleCount, FlagDeleted := false, FlagDeleteParent := false
        HasFileLock := false, HasHeaderResource := true, FileInfoLinked := true
        ParentFcbLinked := true }
    FcbLinked := true, CommonFcbLinked := true, Freed := false }

/-- A mounted (not raw) volume on which `UDFCleanUpFile__` always answers
`UDF_FREE_FILEINFO | UDF_FREE_DLOC`. -/
def freeingEnv : CloseEnv :=
  { RawDisk := false, UDFCleanUpFile := fun _ _ => CleanUpCode.both }

/-- A mounted volume on which `UDFCleanUpFile__` answers `UDF_FREE_FILEINFO | UDF_FREE_DLOC`
exactly when `Dloc->CommonFcb` has been cleared. -/
def dlocEnv : CloseEnv :=
  { RawDisk := false
    UDFCleanUpFile := fun _ fi =>
      if fi.CommonFcbLinked then { FreeFileInfo := true, FreeDloc := false }
      else CleanUpCode.both }

/-- A file, its directory and the root directory, each referenced once by the handle being
closed; the directories are referenced by other opens too. -/
def sampleChain : List UDF_FILE_INFO :=
  [sampleNode 1 1 0, sampleNode 2 2 0, sampleNode 5 5 1]

/-- The lock operations of one pass of the loop body, whatever branch it takes. -/
def visitLocks (VcbAcquired : Bool) (idx : Nat) (hasParent : Bool) : List CloseEvent :=
  acquireLocks VcbAcquired idx hasParent ++ [.Release (.MainResource idx)] ++
    releaseOuter VcbAcquired idx hasParent

/-! ## Volume lock and dismount requests (fscntrl.cpp 1500-1832, pnp.cpp) -/

/-- The values of `Vcb->VcbCondition` that the sources and the specification name. -/
inductive VCB_CONDITION where
  | VcbNotMounted
  | VcbMounted
  | VcbInvalid
  | VcbDismountInProgress
  deriving DecidableEq, Repr

/-- The statement `if (Vcb->VcbCondition != VcbDismountInProgress) Vcb->VcbCondition =
VcbInvalid;` of `UDFPnpRemove` (pnp.cpp 459-462), `UDFPnpSurpriseRemove` (pnp.cpp 582-585),
`UDFInvalidateVolumes` (fscntrl.cpp 2335-2338) and `UDFDismountVolume`
(fscntrl.cpp 1803-1805). -/
def invalidateCondition (c : VCB_CONDITION) : VCB_CONDITION :=
  if c ≠ .VcbDismountInProgress then .VcbInvalid else c

/-- The fields of the `VCB`, of its `VPB` and of the real device that the lock, unlock and
dismount requests read or write. `VolumeLockPID` is a `ULONG`; `(ULONG)-1` is `ULONG_MAX`. -/
structure VolumeVcb where
  VcbCondition : VCB_CONDITION
  /-- Bit `VPB_LOCKED` of `Vpb->Flags`. -/
  VpbLocked : Bool
  /-- Bit `VCB_STATE_VOLUME_LOCKED` of `VCBFlags`. -/
  VolumeLocked : Bool
  /-- Bit `VCB_STATE_RAW_DISK` of `VCBFlags`. -/
  RawDisk : Bool
  VolumeLockFileObject : Option Nat
  VolumeLockPID : Nat
  VCBOpenCount : Nat
  /-- The field `Vpb->ReferenceCount`. -/
  VpbReferenceCount : Nat
  /-- Bit `DO_VERIFY_VOLUME` of `Vpb->RealDevice->Flags`. -/
  VerifyVolume : Bool
  WriteSecurity : Bool
  deriving DecidableEq, Repr

/-- The lock state of a volume: `VPB_LOCKED`, `VCB_STATE_VOLUME_LOCKED`,
`VolumeLockFileObject` and `VolumeLockPID`. -/
def VolumeVcb.lockState (Vcb : VolumeVcb) : Bool × Bool × Option Nat × Nat :=
  (Vcb.VpbLocked, Vcb.VolumeLocked, Vcb.VolumeLockFileObject, Vcb.VolumeLockPID)

/-- The `CCB` fields a volume request looks at. -/
structure VolumeCcb where
  /-- Whether `Ccb->Fcb` is the `VCB` itself (`Vcb == (PVCB)Fcb`). -/
  FcbIsVcb : Bool
  /-- Bit `UDF_CCB_VOLUME_OPEN` of `CCBFlags`. -/
  VolumeOpen : Bool
  /-- Bit `UDF_CCB_FLAG_DISMOUNT_ON_CLOSE` of `CCBFlags`. -/
  DismountOnClose : Bool
  deriving DecidableEq, Repr

/-- The file object of a request: its address and its `FsContext2`. -/
structure VolumeHandle where
  FileObject : Nat
  Ccb : Option VolumeCcb
  deriving DecidableEq, Repr

/-- Whether the handle is a user volume open: `Ccb` is present, `Ccb->Fcb` is the `VCB` and
`UDF_CCB_VOLUME_OPEN` is set. -/
def VolumeHandle.isVolumeOpen (h : VolumeHandle) : Bool :=
  match h.Ccb with
  | some ccb => ccb.FcbIsVcb && ccb.VolumeOpen
  | none => false

/-- Calls made by the volume requests, in program order. -/
inductive VolumeEvent where
  | FsRtlNotifyVolumeEvent (Code : String)
  | UDFCloseAllSystemDelayedInDir
  | UDFCloseAllDelayed
  | AcquireVcbExclusive
  | ReleaseVcb
  | UDFVerifyVcb
  | UDFFlushLogicalVolume
  | UDFDoDismountSequence
  | IoAcquireVpbSpinLock
  | IoReleaseVpbSpinLock
  deriving DecidableEq, Repr

/-- The routines outside the sources that the volume requests call. Each may change the
volume; `UDFVerifyVcb` may raise. -/
structure VolumeEnv where
  /-- The constant `UDF_RESIDUAL_REFERENCE`. -/
  UDF_RESIDUAL_REFERENCE : Nat
  /-- The effect of `UDFCloseAllSystemDelayedInDir(Vcb, Vcb->RootDirFCB->FileInfo)`. -/
  UDFCloseAllSystemDelayedInDir : VolumeVcb → VolumeVcb
  /-- The effect of `UDFCloseAllDelayed(Vcb)`. -/
  UDFCloseAllDelayed : VolumeVcb → VolumeVcb
  /-- The status `UDFVerifyVcb` raises, if it raises. -/
  UDFVerifyVcb : VolumeVcb → Option NTSTATUS
  UDFFlushLogicalVolume : VolumeVcb → VolumeVcb
  UDFDoDismountSequence : VolumeVcb → VolumeVcb

/-- The drain of the delayed closes at the start of a lock or dismount request
(fscntrl.cpp 1567-1571, 1761-1765). -/
def drainDelayedCloses (env : VolumeEnv) (Vcb : VolumeVcb) : VolumeVcb × List VolumeEvent :=
  let v1 := if !Vcb.RawDisk then env.UDFCloseAllSystemDelayedInDir Vcb else Vcb
  ((env.UDFCloseAllDelayed v1),
   (if !Vcb.RawDisk then [VolumeEvent.UDFCloseAllSystemDelayedInDir] else []) ++
     [VolumeEvent.UDFCloseAllDelayed])

/-- Result of a volume request: the status returned (or the exception raised), what the IRP
carries, the volume and the handle's `CCB` afterwards, and the calls made. -/
structure VolumeResult where
  outcome : Completion
  IoStatus : Option NTSTATUS
  Vcb : VolumeVcb
  Ccb : Option VolumeCcb
  events : List VolumeEvent
  deriving DecidableEq, Repr

/-- The routine `UDFDismountVolume` (fscntrl.cpp 1731-1832). -/
def UDFDismountVolume (env : VolumeEnv) (Vcb : VolumeVcb) (h : VolumeHandle) : VolumeResult :=
  match h.Ccb with
  | none =>
    { outcome := .returned STATUS_INVALID_PARAMETER, IoStatus := some STATUS_INVALID_PARAMETER
      Vcb := Vcb, Ccb := none, events := [] }
  | some ccb =>
    if !ccb.FcbIsVcb || !ccb.VolumeOpen then
      { outcome := .returned STATUS_INVALID_PARAMETER
        IoStatus := some STATUS_INVALID_PARAMETER, Vcb := Vcb, Ccb := some ccb, events := [] }
    else
      let d := drainDelayedCloses env Vcb
      let v := d.1
      let ev := [VolumeEvent.FsRtlNotifyVolumeEvent "FSRTL_VOLUME_DISMOUNT"] ++ d.2 ++
        [VolumeEvent.AcquireVcbExclusive]
      let failed := [VolumeEvent.ReleaseVcb,
        VolumeEvent.FsRtlNotifyVolumeEvent "FSRTL_VOLUME_DISMOUNT_FAILED"]
      if v.VcbCondition ≠ .VcbMounted then
        { outcome := .returned STATUS_VOLUME_DISMOUNTED
          IoStatus := some STATUS_VOLUME_DISMOUNTED, Vcb := v, Ccb := some ccb
          events := ev ++ failed }
      else if !v.VolumeLocked || decide (v.VCBOpenCount > env.UDF_RESIDUAL_REFERENCE + 1) then
        { outcome := .returned STATUS_NOT_LOCKED, IoStatus := some STATUS_NOT_LOCKED
          Vcb := v, Ccb := some ccb, events := ev ++ failed }
      else if v.VolumeLockFileObject ≠ some h.FileObject then
        { outcome := .returned STATUS_INVALID_PARAMETER
          IoStatus := some STATUS_INVALID_PARAMETER, Vcb := v, Ccb := some ccb
          events := ev ++ failed }
      else
        let v1 := env.UDFDoDismountSequence { v with VerifyVolume := true }
        let v2 := { v1 with VcbCondition := invalidateCondition v1.VcbCondition
                            WriteSecurity := false }
        { outcome := .returned STATUS_SUCCESS, IoStatus := some STATUS_SUCCESS
          Vcb := v2, Ccb := some { ccb with DismountOnClose := true }
          events := ev ++ [VolumeEvent.UDFDoDismountSequence, VolumeEvent.ReleaseVcb] }

/-- The routine `UDFLockVolume(IrpContext, Irp, PID)` (fscntrl.cpp 1534-1657). -/
def UDFLockVolume (env : VolumeEnv) (Vcb : VolumeVcb) (h : VolumeHandle) (PID : Nat) :
    VolumeResult :=
  match h.Ccb with
  | none =>
    { outcome := .returned STATUS_INVALID_PARAMETER, IoStatus := some STATUS_INVALID_PARAMETER
      Vcb := Vcb, Ccb := none, events := [] }
  | some ccb =>
    if !ccb.FcbIsVcb || !ccb.VolumeOpen then
      { outcome := .returned STATUS_INVALID_PARAMETER
        IoStatus := some STATUS_INVALID_PARAMETER, Vcb := Vcb, Ccb := some ccb, events := [] }
    else
      -- 1563-1607
      let d := drainDelayedCloses env Vcb
      let ev := [VolumeEvent.FsRtlNotifyVolumeEvent "FSRTL_VOLUME_LOCK"] ++ d.2 ++
        [VolumeEvent.AcquireVcbExclusive, VolumeEvent.UDFVerifyVcb]
      match env.UDFVerifyVcb d.1 with
      | some code =>
        { outcome := .raised { ExceptionCode := code, NumberParameters := 0
                               ExceptionInformation2 := 0 }
          IoStatus := none, Vcb := d.1, Ccb := some ccb
          events := ev ++ [VolumeEvent.ReleaseVcb] }
      | none =>
        -- 1609-1612
        let v := env.UDFFlushLogicalVolume d.1
        let ev1 := ev ++ [VolumeEvent.ReleaseVcb, VolumeEvent.AcquireVcbExclusive,
          VolumeEvent.UDFFlushLogicalVolume, VolumeEvent.ReleaseVcb,
          VolumeEvent.IoAcquireVpbSpinLock]
        -- 1616-1637
        if !v.VpbLocked && decide (v.VolumeLockPID = ULONG_MAX) &&
            decide (v.VCBOpenCount ≤ env.UDF_RESIDUAL_REFERENCE + 1) &&
            decide (v.VpbReferenceCount = 2) then
          { outcome := .returned STATUS_SUCCESS, IoStatus := some STATUS_SUCCESS
            Vcb := { v with VpbLocked := if PID = ULONG_MAX then true else v.VpbLocked
                            VolumeLocked := true
                            VolumeLockFileObject := some h.FileObject
                            VolumeLockPID := PID }
            Ccb := some ccb
            events := ev1 ++ [VolumeEvent.IoReleaseVpbSpinLock] }
        else
          { outcome := .returned STATUS_ACCESS_DENIED, IoStatus := some STATUS_ACCESS_DENIED
            Vcb := v, Ccb := some ccb
            events := ev1 ++ [VolumeEvent.IoReleaseVpbSpinLock,
              VolumeEvent.FsRtlNotifyVolumeEvent "FSRTL_VOLUME_LOCK_FAILED"] }

/-- The volume as the checks of `UDFDismountVolume` see it: after the delayed closes were
drained. -/
def atDismountCheck (env : VolumeEnv) (Vcb : VolumeVcb) : VolumeVcb :=
  (drainDelayedCloses env Vcb).1

/-- The volume as the checks of `UDFLockVolume` see it: after the delayed closes were drained
and the volume flushed. -/
def atLockCheck (env : VolumeEnv) (Vcb : VolumeVcb) : VolumeVcb :=
  env.UDFFlushLogicalVolume (drainDelayedCloses env Vcb).1

/-- Surroundings in which the external routines leave the volume alone and
`UDF_RESIDUAL_REFERENCE` is 2. -/
def quietVolumeEnv : VolumeEnv :=
  { UDF_RESIDUAL_REFERENCE := 2
    UDFCloseAllSystemDelayedInDir := fun v => v, UDFCloseAllDelayed := fun v => v
    UDFVerifyVcb := fun _ => none, UDFFlushLogicalVolume := fun v => v
    UDFDoDismountSequence := fun v => v }

/-- A mounted volume locked by file object 7 through `FSCTL_LOCK_VOLUME`. -/
def lockedVolume : VolumeVcb :=
  { VcbCondition := .VcbMounted, VpbLocked := true, VolumeLocked := true, RawDisk := false
    VolumeLockFileObject := some 7, VolumeLockPID := ULONG_MAX, VCBOpenCount := 3
    VpbReferenceCount := 2, VerifyVolume := false, WriteSecurity := false }

/-- A mounted volume that nobody has locked. -/
def unlockedVolume : VolumeVcb :=
  { lockedVolume with VpbLocked := false, VolumeLocked := false, VolumeLockFileObject := none }

/-- The user volume open with file object 7. -/
def volumeHandle : VolumeHandle :=
  { FileObject := 7
    Ccb := some { FcbIsVcb := true, VolumeOpen := true, DismountOnClose := false } }

/-- A handle to a file of the volume, with file object 8. -/
def fileHandle : VolumeHandle :=
  { FileObject := 8
    Ccb := some { FcbIsVcb := false, VolumeOpen := false, DismountOnClose := false } }


/-! ## Byte-range lock requests (lockctrl.cpp 103-592) -/

/-- The fields of the target `FCB` that the lock routines read. -/
structure LockFcb where
  /-- Whether `NodeIdentifier.NodeTypeCode` is `UDF_NODE_TYPE_VCB`. -/
  IsVcb : Bool
  /-- Bit `UDF_FCB_DIRECTORY` of `FCBFlags`. -/
  Directory : Bool
  /-- Whether `FileLock` is non-NULL. -/
  HasFileLock : Bool
  deriving DecidableEq, Repr

/-- What the lock routines do to the target and its surroundings, in program order. -/
inductive LockEvent where
  | FsRtlEnterFileSystem
  | FsRtlExitFileSystem
  /-- The call `UDFAcquireResourceExclusive(&Fcb->MainResource, Wait)`. -/
  | AcquireExclusive (Wait : Bool)
  /-- The call `UDFAcquireResourceShared(&Fcb->MainResource, TRUE)`. -/
  | AcquireShared
  /-- The call `UDFReleaseResource(&Fcb->MainResource)`. -/
  | Release
  /-- The test `Fcb->FileLock == NULL`. -/
  | TestFileLock
  | UDFCreateFileLock
  | FsRtlProcessFileLock
  | FsRtlFastLock
  | FsRtlFastUnlockSingle
  | FsRtlFastUnlockAll
  | FsRtlFastUnlockAllByKey
  | UDFIsFastIoPossible
  | UDFPostRequest
  deriving DecidableEq, Repr

/-- Results of the routines the lock code calls outside this file. -/
structure LockEnv where
  /-- Result of `UDFAcquireResourceExclusive(&Fcb->MainResource, Wait)`. -/
  UDFAcquireResourceExclusive : Bool → Bool
  /-- Result of the n-th call of `UDFCreateFileLock(NULL, Fcb, FALSE)`, counted from 0. -/
  UDFCreateFileLock : Nat → Bool
  FsRtlProcessFileLock : NTSTATUS
  /-- Return value of `FsRtlFastLock` and the status it stores. -/
  FsRtlFastLock : Bool × NTSTATUS
  FsRtlFastUnlockSingle : NTSTATUS
  FsRtlFastUnlockAll : NTSTATUS
  FsRtlFastUnlockAllByKey : NTSTATUS

/-- Lines 136-137, 236-237, 346-347, 445-446, 542-543: the test that rejects a target. -/
def LockFcb.rejected (Fcb : LockFcb) : Bool := Fcb.IsVcb || Fcb.Directory

/-- What `UDFCommonLockControl` did. -/
structure LockControlResult where
  RC : NTSTATUS
  events : List LockEvent
  /-- The overflow-queue fields of the volume afterwards. -/
  Vcb : VCB
  /-- The context handed to `ExQueueWorkItem`, if any. -/
  WorkItem : Option IRP_CONTEXT
  deriving DecidableEq, Repr

/-- The routine `UDFCommonLockControl(IrpContext, Irp)` (lines 103-182) for a request whose
file object leads to `Fcb`. -/
def UDFCommonLockControl (env : LockEnv) (FSP_PER_DEVICE_THRESHOLD : Nat) (Vcb : VCB)
    (IrpContext : IRP_CONTEXT) (Irp : PIRP) (Fcb : LockFcb) : LockControlResult :=
  if Fcb.rejected then
    { RC := STATUS_INVALID_PARAMETER, events := [], Vcb := Vcb, WorkItem := none }
  else if !env.UDFAcquireResourceExclusive IrpContext.FlagWait then
    let p := UDFPostRequest FSP_PER_DEVICE_THRESHOLD Vcb IrpContext (some Irp)
    { RC := p.Status
      events := [.AcquireExclusive IrpContext.FlagWait, .UDFPostRequest]
      Vcb := p.Vcb, WorkItem := p.WorkItem }
  else if Fcb.HasFileLock then
    { RC := env.FsRtlProcessFileLock
      events := [.AcquireExclusive IrpContext.FlagWait, .TestFileLock, .FsRtlProcessFileLock,
                 .Release]
      Vcb := Vcb, WorkItem := none }
  else if env.UDFCreateFileLock 0 then
    { RC := env.FsRtlProcessFileLock
      events := [.AcquireExclusive IrpContext.FlagWait, .TestFileLock, .UDFCreateFileLock,
                 .FsRtlProcessFileLock, .Release]
      Vcb := Vcb, WorkItem := none }
  else if env.UDFCreateFileLock 1 then
    { RC := env.FsRtlProcessFileLock
      events := [.AcquireExclusive IrpContext.FlagWait, .TestFileLock, .UDFCreateFileLock,
                 .UDFCreateFileLock, .FsRtlProcessFileLock, .Release]
      Vcb := Vcb, WorkItem := none }
  else
    { RC := STATUS_INSUFFICIENT_RESOURCES
      events := [.AcquireExclusive IrpContext.FlagWait, .TestFileLock, .UDFCreateFileLock,
                 .UDFCreateFileLock, .Release]
      Vcb := Vcb, WorkItem := none }

/-- What a fast-path lock routine did: its return value and what it stored through
`IoStatus` (`none` for a field it did not write). -/
structure FastLockResult where
  Results : Bool
  Status : Option NTSTATUS
  Information : Option Nat
  events : List LockEvent
  deriving DecidableEq, Repr


/-- The routine `UDFFastLock` (lines 205-293). -/
def UDFFastLock (env : LockEnv) (Fcb : LockFcb) : FastLockResult :=
  if Fcb.rejected then
    { Results := true, Status := some STATUS_INVALID_PARAMETER, Information := some 0
      events := [] }
  else if !Fcb.HasFileLock && !env.UDFCreateFileLock 0 then
    { Results := false, Status := none, Information := none
      events := [.FsRtlEnterFileSystem, .TestFileLock, .UDFCreateFileLock,
                 .FsRtlExitFileSystem] }
  else
    { Results := env.FsRtlFastLock.1, Status := some env.FsRtlFastLock.2, Information := none
      events :=
        [.FsRtlEnterFileSystem, .TestFileLock] ++
        (if Fcb.HasFileLock then [] else [.UDFCreateFileLock]) ++ [.FsRtlFastLock] ++
        (if env.FsRtlFastLock.1 then [.UDFIsFastIoPossible] else []) ++
        [.FsRtlExitFileSystem] }

/-- The routine `UDFFastUnlockSingle` (lines 315-399). -/
def UDFFastUnlockSingle (env : LockEnv) (Fcb : LockFcb) : FastLockResult :=
  if Fcb.rejected then
    { Results := true, Status := some STATUS_INVALID_PARAMETER, Information := some 0
      events := [] }
  else if !Fcb.HasFileLock then
    { Results := true, Status := some STATUS_RANGE_NOT_LOCKED, Information := some 0
      events := [.TestFileLock] }
  else
    { Results := true, Status := some env.FsRtlFastUnlockSingle, Information := some 0
      events := [.TestFileLock, .FsRtlEnterFileSystem, .FsRtlFastUnlockSingle,
                 .UDFIsFastIoPossible, .FsRtlExitFileSystem] }

/-- Lines 452-493 and 549-591, which differ only in the `FsRtl` routine called: the part of
`UDFFastUnlockAll` and `UDFFastUnlockAllByKey` after the target has been accepted. -/
def fastUnlockAllBody (env : LockEnv) (Fcb : LockFcb) (call : LockEvent) (Status : NTSTATUS) :
    FastLockResult :=
  if !Fcb.HasFileLock && !env.UDFCreateFileLock 0 then
    { Results := false, Status := none, Information := some 0
      events := [.FsRtlEnterFileSystem, .AcquireShared, .TestFileLock, .UDFCreateFileLock,
                 .Release, .FsRtlExitFileSystem] }
  else
    { Results := true, Status := some Status, Information := some 0
      events :=
        [.FsRtlEnterFileSystem, .AcquireShared, .TestFileLock] ++
        (if Fcb.HasFileLock then [] else [.UDFCreateFileLock]) ++
        [call, .UDFIsFastIoPossible, .Release, .FsRtlExitFileSystem] }

/-- The routine `UDFFastUnlockAll` (lines 417-494). -/
def UDFFastUnlockAll (env : LockEnv) (Fcb : LockFcb) : FastLockResult :=
  if Fcb.rejected then
    { Results := true, Status := some STATUS_INVALID_PARAMETER, Information := some 0
      events := [] }
  else fastUnlockAllBody env Fcb .FsRtlFastUnlockAll env.FsRtlFastUnlockAll

/-- The routine `UDFFastUnlockAllByKey` (lines 513-592). -/
def UDFFastUnlockAllByKey (env : LockEnv) (Fcb : LockFcb) : FastLockResult :=
  if Fcb.rejected then
    { Results := true, Status := some STATUS_INVALID_PARAMETER, Information := some 0
      events := [] }
  else fastUnlockAllBody env Fcb .FsRtlFastUnlockAllByKey env.FsRtlFastUnlockAllByKey

/-- An environment in which every outside call succeeds at once. -/
def grantingLockEnv : LockEnv :=
  { UDFAcquireResourceExclusive := fun _ => true, UDFCreateFileLock := fun _ => true
    FsRtlProcessFileLock := STATUS_SUCCESS, FsRtlFastLock := (true, STATUS_SUCCESS)
    FsRtlFastUnlockSingle := STATUS_SUCCESS, FsRtlFastUnlockAll := STATUS_SUCCESS
    FsRtlFastUnlockAllByKey := STATUS_SUCCESS }

/-- A directory that already carries a file lock structure. -/
def directoryTarget : LockFcb := { IsVcb := false, Directory := true, HasFileLock := true }


/-! ## `UDFInitializeVCB` (misc.cpp 1291-1521) and its caller (fscntrl.cpp 441-477, 685-750) -/

/-- The resources of a `VCB` that `UDFInitializeVCB` initialises. -/
inductive VcbResource where
  | VCBResource
  | BitMapResource1
  | FcbListResource
  | FileIdResource
  | DlocResource
  | DlocResource2
  | FlushResource
  | PreallocResource
  | IoResource
  deriving DecidableEq, Repr

/-- The order of the calls of `UDFInitializeResourceLite` at lines 1324-1367, which is also
the order of the tests in the `finally` block at lines 1499-1516. -/
def vcbResources : List VcbResource :=
  [.VCBResource, .BitMapResource1, .FcbListResource, .FileIdResource, .DlocResource,
   .DlocResource2, .FlushResource, .PreallocResource, .IoResource]

/-- Calls made while a volume object is set up, in program order. -/
inductive InitEvent where
  | UDFInitializeResourceLite (r : VcbResource)
  | UDFDeleteResource (r : VcbResource)
  /-- The call `MyAllocatePool__` for `Vcb->Statistics`. -/
  | AllocateStatistics
  /-- The call `MyFreePool__(Vcb->Statistics)`. -/
  | FreeStatistics
  /-- The call `FsRtlAllocatePoolWithTag` for `Vcb->SwapVpb`. -/
  | AllocateSwapVpb
  /-- The call `InsertTailList(&(UDFGlobalData.VCBQueue), &(Vcb->NextVCB))`. -/
  | InsertTailList
  | IoDeleteDevice (VolDo : Nat)
  /-- The call `MyFreePool__(ioBuf)`. -/
  | FreeIoBuf
  /-- The call `UDFReleaseResource(&(UDFGlobalData.GlobalDataResource))` of the caller. -/
  | ReleaseGlobalData
  | IoCompleteRequest (Status : NTSTATUS)
  /-- The call `IoCallDriver(filterDevExt->lowerFSDeviceObject, Irp)`. -/
  | IoCallDriver
  deriving DecidableEq, Repr

/-- What `UDFInitializeVCB` gets from the routines it calls: the status of each
`UDFInitializeResourceLite`, and whether the pool had memory for each allocation. -/
structure InitEnv where
  UDFInitializeResourceLite : VcbResource → NTSTATUS
  /-- Whether `MyAllocatePool__` returned a buffer for `Vcb->Statistics`; it returns NULL
  when it has none. -/
  Statistics : Bool
  /-- Whether `FsRtlAllocatePoolWithTag` had memory for `Vcb->SwapVpb`; it raises
  `STATUS_INSUFFICIENT_RESOURCES` when it has none and never returns NULL. -/
  SwapVpb : Bool
  /-- Bit `FILE_REMOVABLE_MEDIA` of the real device. -/
  RemovableMedia : Bool

/-- The fields of the new `VCB` the claims speak of; all are zero after `RtlZeroMemory`. -/
structure InitVcb where
  /-- Whether `InitializeListHead(&(Vcb->OverflowQueue))` has run. -/
  OverflowQueueInitialized : Bool
  OverflowQueue : List IRP_CONTEXT
  OverflowQueueCount : Nat
  PostedRequestCount : Nat
  VolumeLockPID : Nat
  VCBOpenCount : Nat
  /-- Whether `Statistics` points to a live buffer. -/
  Statistics : Bool
  /-- Whether `SwapVpb` is non-NULL. -/
  SwapVpb : Bool
  /-- Whether `NextVCB` is linked into `UDFGlobalData.VCBQueue`. -/
  Linked : Bool
  /-- Bit `VCB_STATE_VCB_INITIALIZED` of `VCBFlags`. -/
  FlagInitialized : Bool
  /-- Bit `VCB_STATE_REMOVABLE_MEDIA` of `VCBFlags`. -/
  FlagRemovableMedia : Bool
  deriving DecidableEq, Repr

/-- The `VCB` after `RtlZeroMemory` (line 1317). -/
def InitVcb.zero : InitVcb :=
  { OverflowQueueInitialized := false, OverflowQueue := [], OverflowQueueCount := 0
    PostedRequestCount := 0, VolumeLockPID := 0, VCBOpenCount := 0, Statistics := false
    SwapVpb := false, Linked := false, FlagInitialized := false, FlagRemovableMedia := false }

/-- Lines 1324-1367 over the resources still to be initialised: those whose `...Init` flag
was set, and the resource whose initialisation failed, if any. -/
def initResources (init : VcbResource → NTSTATUS) :
    List VcbResource → List VcbResource × Option VcbResource
  | [] => ([], none)
  | r :: rest =>
    if NT_SUCCESS (init r) then
      (r :: (initResources init rest).1, (initResources init rest).2)
    else ([], some r)

/-- What `UDFInitializeVCB` did. -/
structure InitResult where
  /-- The local `RC` when the routine is left: the value returned, or the value it has when
  an exception leaves the routine. -/
  RC : NTSTATUS
  /-- The exception that leaves the routine, if one does; nothing is returned then. -/
  Raised : Option EXCEPTION_RECORD
  Vcb : InitVcb
  events : List InitEvent
  deriving DecidableEq, Repr

/-- The `finally` block at lines 1492-1518 when `RC` is a failure: the statistics buffer is
freed if there is one, then every resource whose flag is set is deleted. -/
def initUnwind (RC : NTSTATUS) (done : List VcbResource) (attempts : List InitEvent)
    (Statistics : Bool) : InitResult :=
  { RC := RC
    Raised := none
    Vcb := InitVcb.zero
    events :=
      attempts ++ (if Statistics then [InitEvent.FreeStatistics] else []) ++
      (vcbResources.filter (fun r => decide (r ∈ done))).map .UDFDeleteResource }

/-- The routine `UDFInitializeVCB`. The body is a try with a `finally` block and no except
clause. When `FsRtlAllocatePoolWithTag` (line 1386) has no memory it raises, so the test of
the pointer at lines 1388-1390 does not set `RC`: the `finally` block runs with `RC` as the
last `UDFInitializeResourceLite` left it, and the exception leaves the routine. -/
def UDFInitializeVCB (env : InitEnv) : InitResult :=
  let done := (initResources env.UDFInitializeResourceLite vcbResources).1
  match (initResources env.UDFInitializeResourceLite vcbResources).2 with
  | some r =>
    initUnwind (env.UDFInitializeResourceLite r) done
      ((done ++ [r]).map .UDFInitializeResourceLite) false
  | none =>
    if !env.Statistics then
      initUnwind STATUS_INSUFFICIENT_RESOURCES done
        (done.map .UDFInitializeResourceLite ++ [.AllocateStatistics]) false
    else if !env.SwapVpb then
      -- 1386 raises; 1364 was the last assignment to RC; 1494 tests it
      let RC := env.UDFInitializeResourceLite .IoResource
      if !NT_SUCCESS RC then
        { initUnwind RC done
            (done.map .UDFInitializeResourceLite ++ [.AllocateStatistics, .AllocateSwapVpb])
            true with
          Raised := some poolExhausted }
      else
        { RC := RC
          Raised := some poolExhausted
          Vcb := { InitVcb.zero with Statistics := true }
          events :=
            done.map .UDFInitializeResourceLite ++ [.AllocateStatistics, .AllocateSwapVpb] }
    else
      { RC := STATUS_SUCCESS
        Raised := none
        Vcb :=
          { OverflowQueueInitialized := true, OverflowQueue := [], OverflowQueueCount := 0
            PostedRequestCount := 0, VolumeLockPID := ULONG_MAX, VCBOpenCount := 1
            Statistics := true, SwapVpb := true, Linked := true, FlagInitialized := true
            FlagRemovableMedia := env.RemovableMedia }
        events :=
          done.map .UDFInitializeResourceLite ++
          [.AllocateStatistics, .AllocateSwapVpb, .InsertTailList] }


/-- What the part of `UDFMountVolume` around `UDFInitializeVCB` needs from outside. -/
structure MountEnv where
  /-- Status of `IoCreateDevice` (lines 443-449). -/
  CreateRC : NTSTATUS
  init : InitEnv
  /-- Whether `ioBuf` is non-NULL (lines 410-413). -/
  ioBuf : Bool
  /-- The local `CompleteIrp` (lines 343-353). -/
  CompleteIrp : Bool
  /-- Result of `IoCallDriver(filterDevExt->lowerFSDeviceObject, Irp)`. -/
  IoCallDriver : NTSTATUS

/-- State of the mount request after the modelled part of `UDFMountVolume`. -/
structure MountResult where
  /-- The local `RC` when the modelled part is left. -/
  RC : NTSTATUS
  /-- The exception that leaves `UDFMountVolume`, if one does. -/
  Raised : Option EXCEPTION_RECORD
  /-- The field `Vpb->DeviceObject`. -/
  VpbDeviceObject : Option Nat
  /-- The volume object with which the mount goes on, if `UDFInitializeVCB` succeeded. -/
  Vcb : Option InitVcb
  events : List InitEvent
  deriving DecidableEq, Repr

/-- The `finally` block of `UDFMountVolume` (lines 677-748) as it runs when the body is left
before or inside `UDFInitializeVCB`: `Locked` is FALSE, the local `Vpb` is non-NULL, and the
local `Vcb` is NULL unless `RC` is a success status. `VolDo` is the local of that name,
`VpbDeviceObject` the field `Vpb->DeviceObject`, `Raised` the exception that is passing
(`_SEH2_AbnormalTermination()`). -/
def mountFinally (env : MountEnv) (RC : NTSTATUS) (VolDo : Option Nat)
    (VpbDeviceObject : Option Nat) (Raised : Option EXCEPTION_RECORD)
    (trace : List InitEvent) : MountResult :=
  -- 681-683
  let ev1 := trace ++ (if env.ioBuf then [InitEvent.FreeIoBuf] else [])
  -- 685-720
  let RC1 :=
    if !NT_SUCCESS RC then
      if RC = STATUS_CRC_ERROR ∨ RC = STATUS_FILE_CORRUPT_ERROR then STATUS_UNRECOGNIZED_VOLUME
      else RC
    else RC
  let Vpb1 := if !NT_SUCCESS RC then none else VpbDeviceObject
  let ev2 :=
    if !NT_SUCCESS RC then
      match VolDo with
      | some d => ev1 ++ [InitEvent.IoDeleteDevice d]
      | none => ev1
    else ev1
  -- 722-746
  if env.CompleteIrp || NT_SUCCESS RC1 then
    { RC := RC1, Raised := Raised, VpbDeviceObject := Vpb1, Vcb := none
      events :=
        ev2 ++ [.ReleaseGlobalData] ++
        (if Raised.isNone then [InitEvent.IoCompleteRequest RC1] else []) }
  else
    { RC := env.IoCallDriver, Raised := Raised, VpbDeviceObject := Vpb1, Vcb := none
      events := ev2 ++ [.ReleaseGlobalData, .IoCallDriver] }

/-- The routine `UDFMountVolume` from the call of `IoCreateDevice` (line 443), which gives
the device object `VolDo` when it succeeds: `Vpb->DeviceObject` is set, `UDFInitializeVCB` is
called, and when it returns a failure the code leaves through `try_return` into the
`finally` block. When `UDFInitializeVCB` raises, the assignment of line 471 does not take
place: the `finally` block runs with `RC` still the status of `IoCreateDevice` and the
exception leaves `UDFMountVolume`, which has no except clause. After a successful
`UDFInitializeVCB` the mount goes on with code that is not modelled. -/
def UDFMountVolume (env : MountEnv) (VolDo : Nat) : MountResult :=
  if !NT_SUCCESS env.CreateRC then mountFinally env env.CreateRC none none none []
  else
    let r := UDFInitializeVCB env.init
    match r.Raised with
    | some Record => mountFinally env env.CreateRC (some VolDo) (some VolDo) (some Record) r.events
    | none =>
      if !NT_SUCCESS r.RC then mountFinally env r.RC (some VolDo) (some VolDo) none r.events
      else
        { RC := r.RC, Raised := none, VpbDeviceObject := some VolDo, Vcb := some r.Vcb
          events := r.events }

/-- The resources whose `UDFInitializeResourceLite` call in a trace succeeded. -/
def initialisedResources (init : VcbResource → NTSTATUS) (events : List InitEvent) :
    List VcbResource :=
  events.filterMap (fun e =>
    match e with
    | .UDFInitializeResourceLite r => if NT_SUCCESS (init r) then some r else none
    | _ => none)

/-- The resources deleted in a trace. -/
def deletedResources (events : List InitEvent) : List VcbResource :=
  events.filterMap (fun e =>
    match e with
    | .UDFDeleteResource r => some r
    | _ => none)

/-- An environment in which every step of `UDFInitializeVCB` succeeds. -/
def succeedingInit : InitEnv :=
  { UDFInitializeResourceLite := fun _ => STATUS_SUCCESS, Statistics := true, SwapVpb := true
    RemovableMedia := true }

/-- A mount during which the nine resources are initialised and the statistics buffer is
allocated, and then the pool has no memory for the spare `VPB`. -/
def swapVpbRefused : MountEnv :=
  { CreateRC := STATUS_SUCCESS, init := { succeedingInit with SwapVpb := false }
    ioBuf := true, CompleteIrp := true, IoCallDriver := STATUS_SUCCESS }


/-! ## Delayed close (close.cpp 547-681, 795-968, 975-1070) -/

/-- The structure `IRP_CONTEXT_LITE`, the entry of a delayed-close queue; an `FCB` is named
by its address. -/
structure IRP_CONTEXT_LITE where
  Fcb : Nat
  TreeLength : Nat
  RealDevice : Nat
  deriving DecidableEq, Repr

/-- The fields of an `FCB` that the delayed-close code reads or writes. -/
structure DelayFcb where
  /-- The volume the `FCB` belongs to, named by its address. -/
  Vcb : Nat
  /-- Bit `UDF_FCB_DIRECTORY` of `FCBFlags`. -/
  FlagDirectory : Bool
  /-- Bit `UDF_FCB_DELETE_ON_CLOSE` of `FCBFlags`. -/
  FlagDeleteOnClose : Bool
  /-- Bit `UDF_FCB_POSTED_RENAME` of `FCBFlags`. -/
  FlagPostedRename : Bool
  /-- Bit `UDF_FCB_DELAY_CLOSE` of `FCBFlags`. -/
  FlagDelayClose : Bool
  /-- The entry `Fcb->IrpContextLite` points to, `none` for NULL. -/
  IrpContextLite : Option IRP_CONTEXT_LITE
  deriving DecidableEq, Repr

/-- The delayed-close fields of `UDFGlobalData`; each queue is listed from its head. -/
structure UDFData where
  DelayedCloseQueue : List IRP_CONTEXT_LITE
  DirDelayedCloseQueue : List IRP_CONTEXT_LITE
  DelayedCloseCount : Nat
  DirDelayedCloseCount : Nat
  MaxDelayedCloseCount : Nat
  MinDelayedCloseCount : Nat
  MaxDirDelayedCloseCount : Nat
  MinDirDelayedCloseCount : Nat
  ReduceDelayedClose : Bool
  ReduceDirDelayedClose : Bool
  FspCloseActive : Bool
  deriving DecidableEq, Repr

/-- Calls the delayed-close code makes, in program order. -/
inductive DelayEvent where
  /-- The call `ExQueueWorkItem(&UDFGlobalData.CloseItem, CriticalWorkQueue)`. -/
  | ExQueueWorkItem
  /-- The call `MyFreePool__(NextIrpContextLite)`. -/
  | MyFreePool (entry : IRP_CONTEXT_LITE)
  /-- The real close: `UDFCommonClose(&StackIrpContext, NULL, TRUE)` with the stack context
  built from the entry. -/
  | UDFCommonClose (entry : IRP_CONTEXT_LITE)
  | BrutePoint
  deriving DecidableEq, Repr

/-- The memory the delayed-close code works on: the global data, the `FCB` at each address,
and the calls made so far. -/
structure DelayState where
  Data : UDFData
  Fcbs : Nat → DelayFcb
  events : List DelayEvent

/-- Line 1061: `Fcb->FCBFlags &= ~UDF_FCB_DELAY_CLOSE`. -/
def clearDelayClose (s : DelayState) (f : Nat) : DelayState :=
  { s with Fcbs := Function.update s.Fcbs f { s.Fcbs f with FlagDelayClose := false } }

/-- Lines 1015-1023: the new entry goes to the tail of the directory queue for a directory
and of the file queue otherwise, and that queue's count goes up. -/
def insertEntry (g : UDFData) (Directory : Bool) (entry : IRP_CONTEXT_LITE) : UDFData :=
  if Directory then
    { g with DirDelayedCloseQueue := g.DirDelayedCloseQueue ++ [entry]
             DirDelayedCloseCount := ulongInc g.DirDelayedCloseCount }
  else
    { g with DelayedCloseQueue := g.DelayedCloseQueue ++ [entry]
             DelayedCloseCount := ulongInc g.DelayedCloseCount }

/-- Lines 1028-1037: the test of the file count against its high watermark; the second
component is the local `StartWorker`. -/
def raiseReduce (g : UDFData) : UDFData × Bool :=
  if g.DelayedCloseCount > g.MaxDelayedCloseCount then
    if !g.FspCloseActive then
      ({ g with ReduceDelayedClose := true, FspCloseActive := true }, true)
    else ({ g with ReduceDelayedClose := true }, false)
  else (g, false)

/-- Lines 1040-1049: the same test for the directory count, with `StartWorker` as the first
test left it. -/
def raiseDirReduce (g : UDFData) (StartWorker : Bool) : UDFData × Bool :=
  if g.DirDelayedCloseCount > g.MaxDirDelayedCloseCount then
    if !g.FspCloseActive then
      ({ g with ReduceDirDelayedClose := true, FspCloseActive := true }, true)
    else ({ g with ReduceDirDelayedClose := true }, StartWorker)
  else (g, StartWorker)

/-- The routine `UDFQueueDelayedClose(IrpContext, Fcb)` for the `FCB` at address `f`;
`IrpContext` supplies `TreeLength` and `TargetDeviceObject`, and `alloc` says whether the
allocation in `UDFInitializeIrpContextLite` (misc.cpp 2228-2230) returned a buffer. -/
def UDFQueueDelayedClose (alloc : Bool) (s : DelayState) (f TreeLength RealDevice : Nat) :
    NTSTATUS × DelayState :=
  if (s.Fcbs f).FlagDeleteOnClose then (STATUS_DELETE_PENDING, clearDelayClose s f)
  else if (s.Fcbs f).IrpContextLite.isSome || (s.Fcbs f).FlagPostedRename then
    (STATUS_UNSUCCESSFUL, clearDelayClose s f)
  else if !alloc then (STATUS_INSUFFICIENT_RESOURCES, clearDelayClose s f)
  else
    let entry : IRP_CONTEXT_LITE := { Fcb := f, TreeLength := TreeLength, RealDevice := RealDevice }
    let g1 := insertEntry s.Data (s.Fcbs f).FlagDirectory entry
    let r1 := raiseReduce g1
    let r2 := raiseDirReduce r1.1 r1.2
    (STATUS_SUCCESS,
      { Data := r2.1
        Fcbs := Function.update s.Fcbs f { s.Fcbs f with IrpContextLite := some entry }
        events := s.events ++ (if r2.2 then [DelayEvent.ExQueueWorkItem] else []) })

/-- The routine `UDFDoDelayedClose(NextIrpContextLite)` (lines 547-560): the entry is freed,
its `FCB` forgets it and loses `UDF_FCB_DELAY_CLOSE`, and the real close runs. The real close
may release the `FCB`; it does not reach the delayed-close fields, because
`UDF_FCB_DELAY_CLOSE` is clear when `UDFCommonClose` tests it (line 240). -/
def UDFDoDelayedClose (s : DelayState) (entry : IRP_CONTEXT_LITE) : DelayState :=
  { s with
    Fcbs := Function.update s.Fcbs entry.Fcb
      { s.Fcbs entry.Fcb with IrpContextLite := none, FlagDelayClose := false }
    events := s.events ++ [.MyFreePool entry, .UDFCommonClose entry] }


/-- The queues and counts of the global data. -/
def UDFData.queues (g : UDFData) :
    List IRP_CONTEXT_LITE × List IRP_CONTEXT_LITE × Nat × Nat :=
  (g.DelayedCloseQueue, g.DirDelayedCloseQueue, g.DelayedCloseCount, g.DirDelayedCloseCount)

/-- The four watermarks of the global data. -/
def UDFData.watermarks (g : UDFData) : Nat × Nat × Nat × Nat :=
  (g.MaxDelayedCloseCount, g.MinDelayedCloseCount, g.MaxDirDelayedCloseCount,
   g.MinDirDelayedCloseCount)

/-- The watermarks `UDFInitializeZones` sets on a medium system (misc.cpp 46-49), with empty
queues and no drain scheduled. -/
def mediumData : UDFData :=
  { DelayedCloseQueue := [], DirDelayedCloseQueue := [], DelayedCloseCount := 0
    DirDelayedCloseCount := 0, MaxDelayedCloseCount := 24, MinDelayedCloseCount := 6
    MaxDirDelayedCloseCount := 8, MinDirDelayedCloseCount := 2, ReduceDelayedClose := false
    ReduceDirDelayedClose := false, FspCloseActive := false }

/-- A file of volume 1 that asks for a delayed close and has none pending. -/
def plainFcb : DelayFcb :=
  { Vcb := 1, FlagDirectory := false, FlagDeleteOnClose := false, FlagPostedRename := false
    FlagDelayClose := true, IrpContextLite := none }

/-- Memory in which every address holds such a file, except that the odd addresses up to 99
hold directories. -/
def plainState (g : UDFData) : DelayState :=
  { Data := g
    Fcbs := fun f => { plainFcb with FlagDirectory := decide (f % 2 = 1 ∧ f < 100) }
    events := [] }


/-- The first loop of `UDFDelayedClose` (lines 579-596). Each unit of fuel pays for one test
of the loop condition; `none` means the fuel ran out with the loop still going. An empty
queue with the condition still true only reaches `BrutePoint()` and tests again. -/
def reduceQueue : Nat → DelayState → Option DelayState
  | 0, _ => none
  | fuel + 1, s =>
    if s.Data.ReduceDelayedClose &&
        decide (s.Data.DelayedCloseCount > s.Data.MinDelayedCloseCount) then
      match s.Data.DelayedCloseQueue with
      | [] => reduceQueue fuel { s with events := s.events ++ [.BrutePoint] }
      | entry :: rest =>
        reduceQueue fuel
          (UDFDoDelayedClose
            { s with
              Data := { s.Data with
                        DelayedCloseQueue := rest
                        DelayedCloseCount := ulongDec s.Data.DelayedCloseCount } }
            entry)
    else some s

/-- The second loop of `UDFDelayedClose` (lines 598-615), on the directory queue. -/
def reduceDirQueue : Nat → DelayState → Option DelayState
  | 0, _ => none
  | fuel + 1, s =>
    if s.Data.ReduceDirDelayedClose &&
        decide (s.Data.DirDelayedCloseCount > s.Data.MinDirDelayedCloseCount) then
      match s.Data.DirDelayedCloseQueue with
      | [] => reduceDirQueue fuel { s with events := s.events ++ [.BrutePoint] }
      | entry :: rest =>
        reduceDirQueue fuel
          (UDFDoDelayedClose
            { s with
              Data := { s.Data with
                        DirDelayedCloseQueue := rest
                        DirDelayedCloseCount := ulongDec s.Data.DirDelayedCloseCount } }
            entry)
    else some s

/-- Lines 617-619: the three flags are cleared. -/
def clearDrainFlags (s : DelayState) : DelayState :=
  { s with
    Data := { s.Data with
              FspCloseActive := false, ReduceDelayedClose := false
              ReduceDirDelayedClose := false } }

/-- The routine `UDFDelayedClose` (lines 566-625), the work routine of
`UDFGlobalData.CloseItem`. -/
def UDFDelayedClose (fuel : Nat) (s : DelayState) : Option DelayState :=
  match reduceQueue fuel s with
  | none => none
  | some s1 =>
    match reduceDirQueue fuel s1 with
    | none => none
    | some s2 => some (clearDrainFlags s2)

/-- The first loop of `UDFCloseAllDelayed` (lines 647-660) from the entry the local `Entry`
points to: `kept` are the entries before it that were left in the queue, `rest` the entries
from it on. An entry of the given volume leaves the queue and is closed. -/
def closeAllQueue (Vcb : Nat) :
    List IRP_CONTEXT_LITE → List IRP_CONTEXT_LITE → DelayState → DelayState
  | _, [], s => s
  | kept, entry :: rest, s =>
    if (s.Fcbs entry.Fcb).Vcb = Vcb then
      closeAllQueue Vcb kept rest
        (UDFDoDelayedClose
          { s with
            Data := { s.Data with
                      DelayedCloseQueue := kept ++ rest
                      DelayedCloseCount := ulongDec s.Data.DelayedCloseCount } }
          entry)
    else closeAllQueue Vcb (kept ++ [entry]) rest s

/-- The second loop of `UDFCloseAllDelayed` (lines 662-675), on the directory queue. -/
def closeAllDirQueue (Vcb : Nat) :
    List IRP_CONTEXT_LITE → List IRP_CONTEXT_LITE → DelayState → DelayState
  | _, [], s => s
  | kept, entry :: rest, s =>
    if (s.Fcbs entry.Fcb).Vcb = Vcb then
      closeAllDirQueue Vcb kept rest
        (UDFDoDelayedClose
          { s with
            Data := { s.Data with
                      DirDelayedCloseQueue := kept ++ rest
                      DirDelayedCloseCount := ulongDec s.Data.DirDelayedCloseCount } }
          entry)
    else closeAllDirQueue Vcb (kept ++ [entry]) rest s

/-- The routine `UDFCloseAllDelayed(Vcb)` (lines 631-681) run from its first statement to
its last with no other delayed-close routine in between, as it runs when it has acquired
`DelayedCloseResource` at lines 642-645. It does not acquire the resource when the calling
thread holds `GlobalDataResource` exclusively; that call is taken statement by statement in
`walkStep`. -/
def UDFCloseAllDelayed (Vcb : Nat) (s : DelayState) : DelayState :=
  let s1 := closeAllQueue Vcb [] s.Data.DelayedCloseQueue s
  closeAllDirQueue Vcb [] s1.Data.DirDelayedCloseQueue s1

/-- Lines 933-939: `RemoveEntryList` takes the entry out of the queue that holds it, and the
count chosen by `UDF_FCB_DIRECTORY` of the entry's `FCB` goes down. -/
def unlinkEntry (g : UDFData) (entry : IRP_CONTEXT_LITE) (Directory : Bool) : UDFData :=
  if Directory then
    { g with DelayedCloseQueue := g.DelayedCloseQueue.erase entry
             DirDelayedCloseQueue := g.DirDelayedCloseQueue.erase entry
             DirDelayedCloseCount := ulongDec g.DirDelayedCloseCount }
  else
    { g with DelayedCloseQueue := g.DelayedCloseQueue.erase entry
             DirDelayedCloseQueue := g.DirDelayedCloseQueue.erase entry
             DelayedCloseCount := ulongDec g.DelayedCloseCount }

/-- The loop at lines 922-949 over the items still to be visited; an item is the `FCB` its
`ListPtr` leads to, or `none` when `FileInfo` or `FileInfo->Fcb` is NULL by then. -/
def closeFound : List (Option Nat) → DelayState → DelayState
  | [], s => s
  | none :: rest, s => closeFound rest s
  | some f :: rest, s =>
    match (s.Fcbs f).IrpContextLite with
    | none => closeFound rest s
    | some entry =>
      closeFound rest
        (UDFDoDelayedClose
          { s with Data := unlinkEntry s.Data entry (s.Fcbs entry.Fcb).FlagDirectory } entry)

/-- What `UDFCloseAllXXXDelayedInDir` gets from outside in its internal mode
(`System == FALSE`). -/
structure DirCloseEnv where
  /-- Status of `UDFBuildTreeItemsList`. -/
  BuildRC : NTSTATUS
  /-- The items of `FoundList` in order, each as the loop at lines 922-949 finds it. -/
  Found : List (Option Nat)
  /-- Whether the allocation of `ListPtrArray` and of every missing `ListPtr` succeeded. -/
  Allocated : Bool

/-- The routine `UDFCloseAllXXXDelayedInDir(Vcb, FileInfo, FALSE)` (lines 795-968); the loop
runs from the last found item to the first. -/
def UDFCloseAllXXXDelayedInDir (env : DirCloseEnv) (s : DelayState) : NTSTATUS × DelayState :=
  if !NT_SUCCESS env.BuildRC then (env.BuildRC, s)
  else if env.Found.isEmpty then (STATUS_SUCCESS, s)
  else if !env.Allocated then (STATUS_INSUFFICIENT_RESOURCES, s)
  else (STATUS_SUCCESS, closeFound env.Found.reverse s)


/-! ### The delayed-close machinery as a state machine

The calls below are taken with `UDFGlobalData.DelayedCloseResource` held exclusively, so
that they are atomic with respect to each other. `UDFQueueDelayedClose`, `UDFDelayedClose`
and the internal mode of `UDFCloseAllXXXDelayedInDir` always acquire it; `UDFCloseAllDelayed`
acquires it unless the calling thread holds `GlobalDataResource` exclusively. -/

/-- A call into the delayed-close machinery. -/
inductive DelayStep where
  /-- A call `UDFQueueDelayedClose(IrpContext, Fcb)`. -/
  | queue (alloc : Bool) (f TreeLength RealDevice : Nat)
  /-- A work item queued earlier runs its routine `UDFDelayedClose`. -/
  | drain (fuel : Nat)
  /-- A call `UDFCloseAllDelayed(Vcb)`. -/
  | closeAll (Vcb : Nat)
  /-- A call `UDFCloseAllXXXDelayedInDir(Vcb, FileInfo, FALSE)`. -/
  | closeInDir (env : DirCloseEnv)

/-- The number of `ExQueueWorkItem` calls in a trace. -/
def workItems (events : List DelayEvent) : Nat := events.count .ExQueueWorkItem

/-- The memory together with the number of drain tasks outstanding: work items queued by
`ExQueueWorkItem` whose routine has not returned yet. -/
structure DelayMachine where
  state : DelayState
  outstanding : Nat

/-- A call has taken the memory to `s`: every `ExQueueWorkItem` it made is one more
outstanding drain task. -/
def DelayMachine.advance (m : DelayMachine) (s : DelayState) : DelayMachine :=
  { state := s
    outstanding := m.outstanding + (workItems s.events - workItems m.state.events) }

/-- One step of the machine; a drain can run only if a work item is outstanding, and it is
over when `UDFDelayedClose` returns. -/
def delayStep (m : DelayMachine) : DelayStep → Option DelayMachine
  | .queue alloc f t d => some (m.advance (UDFQueueDelayedClose alloc m.state f t d).2)
  | .drain fuel =>
    if m.outstanding = 0 then none
    else
      match UDFDelayedClose fuel m.state with
      | none => none
      | some s =>
        some { state := s
               outstanding :=
                 m.outstanding + (workItems s.events - workItems m.state.events) - 1 }
  | .closeAll Vcb => some (m.advance (UDFCloseAllDelayed Vcb m.state))
  | .closeInDir env => some (m.advance (UDFCloseAllXXXDelayedInDir env m.state).2)

/-- A sequence of steps. -/
def delayRun : DelayMachine → List DelayStep → Option DelayMachine
  | m, [] => some m
  | m, a :: rest =>
    match delayStep m a with
    | none => none
    | some m1 => delayRun m1 rest

/-- What the drain loops and the close-all routines leave alone: the watermarks, the three
flags, the number of work items queued, and the volume and kind of every `FCB`. -/
def DelayFrame (s s1 : DelayState) : Prop :=
  s1.Data.watermarks = s.Data.watermarks ∧
  s1.Data.FspCloseActive = s.Data.FspCloseActive ∧
  s1.Data.ReduceDelayedClose = s.Data.ReduceDelayedClose ∧
  s1.Data.ReduceDirDelayedClose = s.Data.ReduceDirDelayedClose ∧
  workItems s1.events = workItems s.events ∧
  (∀ f, (s1.Fcbs f).Vcb = (s.Fcbs f).Vcb ∧ (s1.Fcbs f).FlagDirectory = (s.Fcbs f).FlagDirectory)

/-- The scheduling invariant: a drain task is outstanding exactly while `FspCloseActive` is
set, and then there is one. -/
def DrainInv (m : DelayMachine) : Prop :=
  m.outstanding = (if m.state.Data.FspCloseActive then 1 else 0)

/-- Small watermarks, so that a short run crosses them: at most 2 files and 1 directory may
wait, and a drain goes down to 1 and 0. -/
def tightData : UDFData :=
  { mediumData with MaxDelayedCloseCount := 2, MinDelayedCloseCount := 1
                    MaxDirDelayedCloseCount := 1, MinDirDelayedCloseCount := 0 }

/-- The machine at start: nothing queued, no drain scheduled. -/
def tightMachine : DelayMachine := { state := plainState tightData, outstanding := 0 }

/-- Closes of the files 0, 2, 4 are queued, which takes the file count above its high
watermark; the drain runs; then the file 6 is closed. -/
def drainSchedule : List DelayStep :=
  [.queue true 0 1 7, .queue true 2 1 7, .queue true 4 1 7, .drain 8, .queue true 6 1 7]


/-- The calls `UDFDoDelayedClose` makes for a list of entries, first entry first. -/
def closes : List IRP_CONTEXT_LITE → List DelayEvent
  | [] => []
  | e :: rest => .MyFreePool e :: .UDFCommonClose e :: closes rest

/-- How many entries the first loop of `UDFDelayedClose` takes: the excess of the count over
the low watermark if the reduce flag is set. -/
def drainExcess (g : UDFData) : Nat :=
  if g.ReduceDelayedClose then g.DelayedCloseCount - g.MinDelayedCloseCount else 0

/-- The same for the directory queue. -/
def drainDirExcess (g : UDFData) : Nat :=
  if g.ReduceDirDelayedClose then g.DirDelayedCloseCount - g.MinDirDelayedCloseCount else 0

/-- Three files queued over watermarks that allow two: the state in which the drain has
just been scheduled. -/
def crowdedState : DelayState :=
  (UDFQueueDelayedClose true
    (UDFQueueDelayedClose true
      (UDFQueueDelayedClose true (plainState tightData) 0 1 7).2 2 1 7).2 4 1 7).2


/-- The delayed-close invariant: each count is the length of its queue; every queued entry
is the one its `FCB` points to, files in the file queue and directories in the directory
queue; the entry an `FCB` points to leads back to that `FCB` and is queued; and no entry is
queued twice. -/
structure DelayInv (s : DelayState) : Prop where
  count_eq : s.Data.DelayedCloseCount = s.Data.DelayedCloseQueue.length
  dir_count_eq : s.Data.DirDelayedCloseCount = s.Data.DirDelayedCloseQueue.length
  entries : ∀ e ∈ s.Data.DelayedCloseQueue,
    (s.Fcbs e.Fcb).IrpContextLite = some e ∧ (s.Fcbs e.Fcb).FlagDirectory = false
  dir_entries : ∀ e ∈ s.Data.DirDelayedCloseQueue,
    (s.Fcbs e.Fcb).IrpContextLite = some e ∧ (s.Fcbs e.Fcb).FlagDirectory = true
  linked : ∀ f e, (s.Fcbs f).IrpContextLite = some e →
    e.Fcb = f ∧ (e ∈ s.Data.DelayedCloseQueue ∨ e ∈ s.Data.DirDelayedCloseQueue)
  nodup : s.Data.DelayedCloseQueue.Nodup
  dir_nodup : s.Data.DirDelayedCloseQueue.Nodup

/-- The number of entries of a queue that belong to the `FCB` at address `f`. -/
def entriesFor (queue : List IRP_CONTEXT_LITE) (f : Nat) : Nat :=
  (queue.filter (fun e => decide (e.Fcb = f))).length


/-! ## `UDFFastIoCheckIfPossible` (fastio.cpp 40-121) -/

/-- What `UDFFastIoCheckIfPossible` reads of the `FCB` reached through
`FileObject->FsContext2` and of its volume. -/
structure FastIoFcb where
  /-- Whether `NodeIdentifier.NodeTypeCode` is `UDF_NODE_TYPE_VCB`. -/
  IsVcb : Bool
  /-- Bit `UDF_FCB_DIRECTORY` of `FCBFlags`. -/
  Directory : Bool
  /-- Whether `Fcb->FileLock` is not NULL. -/
  HasFileLock : Bool
  /-- Bit `VCB_STATE_MEDIA_WRITE_PROTECT` of `Fcb->Vcb->VCBFlags`. -/
  MediaWriteProtect : Bool
  /-- Bit `VCB_STATE_VOLUME_READ_ONLY` of `Fcb->Vcb->VCBFlags`. -/
  VolumeReadOnly : Bool
  deriving DecidableEq, Repr

/-- The answers of the two FsRtl byte-range lock checks for the request at hand. -/
structure FastIoEnv where
  FsRtlFastCheckLockForRead : Bool
  FsRtlFastCheckLockForWrite : Bool
  deriving DecidableEq, Repr

/-- The value `UDFFastIoCheckIfPossible` returns and the status it stores through
`IoStatus`, if it stores one. -/
structure FastIoResult where
  ReturnedStatus : Bool
  IoStatus : Option NTSTATUS
  deriving DecidableEq, Repr

/-- The routine `UDFFastIoCheckIfPossible` (fastio.cpp 40-121). -/
def UDFFastIoCheckIfPossible (env : FastIoEnv) (Fcb : FastIoFcb)
    (CheckForReadOperation : Bool) : FastIoResult :=
  if Fcb.IsVcb || Fcb.Directory then
    -- 66-72
    { ReturnedStatus := false, IoStatus := some STATUS_INVALID_PARAMETER }
  else if CheckForReadOperation then
    -- 88-101
    { ReturnedStatus := !Fcb.HasFileLock || env.FsRtlFastCheckLockForRead, IoStatus := none }
  else
    -- 102-115
    { ReturnedStatus := !Fcb.HasFileLock ||
        (!(Fcb.MediaWriteProtect || Fcb.VolumeReadOnly) && env.FsRtlFastCheckLockForWrite)
      IoStatus := none }

/-- A regular file of a volume with the given write-protect and read-only bits. -/
def regularFile (HasFileLock MediaWriteProtect VolumeReadOnly : Bool) : FastIoFcb :=
  { IsVcb := false, Directory := false, HasFileLock := HasFileLock
    MediaWriteProtect := MediaWriteProtect, VolumeReadOnly := VolumeReadOnly }


/-! ## `UDFGetCfgParameter` (misc.cpp 1753-1888)

Bytes are numbers below 256. The character constants of the source appear by code:
tab 9, line feed 10, carriage return 13, space 32, `#` 35, `,` 44, `0` 48, `9` 57, `;` 59,
`=` 61, `A` 65, `F` 70, `[` 91, `a` 97, `f` 102, `x` 120. The variable `a` is a `CHAR`; for
the comparisons made, a byte above 127 behaves the same read as signed or as unsigned. -/

/-- The volume fields `Cfg` and `CfgLength`. `Cfg` is the memory seen through the pointer,
indexed from the start of the buffer (`none` for a NULL pointer); indexes from `CfgLength`
on are memory behind the buffer. -/
structure CfgVcb where
  Cfg : Option (Nat → Nat)
  CfgLength : Nat

/-- What a call of the parser did: the value returned and the indexes `i` of its reads
`Cfg[i]`, in program order. -/
structure CfgResult where
  value : Nat
  reads : List Nat
  deriving DecidableEq, Repr

/-- The loop `while(i<Length)` at lines 1847-1879 with its variables `i`, `ret_val` and
`wait_val`, and the `return ret_val` behind it. `fuel` bounds the number of iterations;
`none` means it ran out. `ret_val` is a `ULONG`. -/
def cfgDigits (Cfg : Nat → Nat) (Length DefValue radix : Nat) :
    Nat → Nat → Nat → Bool → List Nat → Option CfgResult
  | 0, _, _, _, _ => none
  | fuel + 1, i, ret_val, wait_val, reads =>
    if i < Length then
      let a := Cfg i
      let reads1 := reads ++ [i]
      if a = 10 ∨ a = 13 ∨ a = 32 ∨ a = 9 ∨ a = 44 ∨ a = 59 ∨ a = 35 then
        if wait_val then some { value := DefValue, reads := reads1 }
        else some { value := ret_val, reads := reads1 }
      else if 48 ≤ a ∧ a ≤ 57 then
        cfgDigits Cfg Length DefValue radix fuel (i + 1)
          ((ret_val * radix + (a - 48)) % 4294967296) false reads1
      else if radix ≠ 16 then some { value := DefValue, reads := reads1 }
      else if 97 ≤ a ∧ a ≤ 102 then
        cfgDigits Cfg Length DefValue radix fuel (i + 1)
          ((ret_val * radix + (a - 97 + 10)) % 4294967296) false reads1
      else if 65 ≤ a ∧ a ≤ 70 then
        cfgDigits Cfg Length DefValue radix fuel (i + 1)
          ((ret_val * radix + (a - 65 + 10)) % 4294967296) false reads1
      else some { value := DefValue, reads := reads1 }
    else some { value := ret_val, reads := reads }

/-- The block `if(wait_val)` at lines 1835-1881, entered at index `i` with `a = Cfg[i]`
already read, `ret_val = 0` and `radix = 10`. The test at line 1836 is `i+3 > Length`; under
it `Cfg[i+1]` is read when `a` is `0`. -/
def cfgValue (Cfg : Nat → Nat) (Length DefValue fuel i a : Nat) (reads : List Nat) :
    Option CfgResult :=
  let probe := decide (i + 3 > Length) && decide (a = 48)
  let reads1 := if probe then reads ++ [i + 1] else reads
  let hex := probe && decide (Cfg (i + 1) = 120)
  let i1 := if hex then i + 2 else i
  let radix := if hex then 16 else 10
  if i1 ≥ Length then some { value := DefValue, reads := reads1 }
  else cfgDigits Cfg Length DefValue radix fuel i1 0 true reads1

/-- How one pass through the body of the loop `for(i=0; i<Length; i++)` ends. -/
inductive CfgStep where
  /-- A `return` statement. -/
  | done (r : CfgResult)
  /-- The next pass starts at index `i` (the increment of the loop included) with these
  values of the three flags. -/
  | next (i : Nat) (wait_name wait_val wait_nl : Bool) (reads : List Nat)
  /-- The block `if(wait_val)` is entered with `a = Cfg[i]`. -/
  | value (a : Nat) (reads : List Nat)
  deriving DecidableEq, Repr

/-- The block `if(wait_name)` at lines 1808-1833. `NameA` is the name as bytes, `len` its
length. `RtlCompareMemory(Cfg+i, NameA, len)` is recorded as reading the `len` bytes from
`i`. The index sums are taken without wrap-around, `Length` being far below `2^32`. -/
def cfgName (Cfg : Nat → Nat) (Length : Nat) (NameA : List Nat) (DefValue i : Nat)
    (wait_name wait_val : Bool) (reads1 : List Nat) : CfgStep :=
  let len := NameA.length
  if i + len + 2 > Length then .done { value := DefValue, reads := reads1 }
  else
    let reads2 := reads1 ++ (List.range len).map (fun k => i + k)
    if (List.range len).map (fun k => Cfg (i + k)) = NameA then
      let b := Cfg (i + len)
      let reads3 := reads2 ++ [i + len]
      if b = 10 ∨ b = 13 ∨ b = 44 ∨ b = 59 ∨ b = 35 then
        .done { value := DefValue, reads := reads3 }
      else if b = 61 ∨ b = 32 ∨ b = 9 then .next (i + len + 1) false true false reads3
      else .next (i + len + 1) wait_name false true reads3
    else .next (i + 1) wait_name wait_val true reads2

/-- One pass through the body of the loop at lines 1782-1884, at an index `i < Length`:
the `switch` on `a = Cfg[i]` and the two blocks behind it. -/
def cfgStep (Cfg : Nat → Nat) (Length : Nat) (NameA : List Nat) (DefValue i : Nat)
    (wait_name wait_val wait_nl : Bool) (reads : List Nat) : CfgStep :=
  let a := Cfg i
  let reads1 := reads ++ [i]
  if a = 10 ∨ a = 13 ∨ a = 44 then
    if wait_val then .done { value := DefValue, reads := reads1 }
    else .next (i + 1) wait_name wait_val wait_nl reads1
  else if a = 59 ∨ a = 35 ∨ a = 91 then
    if !wait_name then .done { value := DefValue, reads := reads1 }
    else .next (i + 1) wait_name wait_val true reads1
  else if a = 61 then
    if !wait_val then .done { value := DefValue, reads := reads1 }
    else .next (i + 1) wait_name wait_val wait_nl reads1
  else if a = 32 ∨ a = 9 then .next (i + 1) wait_name wait_val wait_nl reads1
  else if wait_nl then .next (i + 1) wait_name wait_val wait_nl reads1
  else if wait_name then cfgName Cfg Length NameA DefValue i wait_name wait_val reads1
  else if wait_val then .value a reads1
  else .next (i + 1) wait_name wait_val wait_nl reads1

/-- The loop `for(i=0; i<Length; i++)` at lines 1782-1884 with its variables `i`,
`wait_name`, `wait_val` and `wait_nl`, and the `return DefValue` behind it. `fuel` bounds
the number of iterations; `none` means it ran out. -/
def cfgScan (Cfg : Nat → Nat) (Length : Nat) (NameA : List Nat) (DefValue : Nat) :
    Nat → Nat → Bool → Bool → Bool → List Nat → Option CfgResult
  | 0, _, _, _, _, _ => none
  | fuel + 1, i, wait_name, wait_val, wait_nl, reads =>
    if i < Length then
      match cfgStep Cfg Length NameA DefValue i wait_name wait_val wait_nl reads with
      | .done r => some r
      | .next i1 wait_name1 wait_val1 wait_nl1 reads1 =>
        cfgScan Cfg Length NameA DefValue fuel i1 wait_name1 wait_val1 wait_nl1 reads1
      | .value a reads1 => cfgValue Cfg Length DefValue fuel i a reads1
    else some { value := DefValue, reads := reads }

/-- The routine `UDFGetCfgParameter(Vcb, Name, DefValue)`. `NameA` is the narrow copy of
`Name` that `sprintf` writes, so `NameA.length` is `wcslen(Name)`. The loop gets
`CfgLength + 2` units of fuel, which it never uses up (`UDFGetCfgParameter_returns`). -/
def UDFGetCfgParameter (Vcb : CfgVcb) (NameA : List Nat) (DefValue : Nat) :
    Option CfgResult :=
  match Vcb.Cfg with
  | none => some { value := DefValue, reads := [] }
  | some Cfg =>
    if Vcb.CfgLength = 0 then some { value := DefValue, reads := [] }
    else if NameA.length ≥ 128 then some { value := DefValue, reads := [] }
    else cfgScan Cfg Vcb.CfgLength NameA DefValue (Vcb.CfgLength + 2) 0 true false false []

/-- The bytes of a text. -/
def bytes (s : String) : List Nat := s.toList.map Char.toNat

/-- A volume whose configuration buffer holds exactly the given bytes, followed in memory by
zero bytes. -/
def cfgOf (buffer : List Nat) : CfgVcb :=
  { Cfg := some (fun i => buffer.getD i 0), CfgLength := buffer.length }


/-! ## `UDFUnlockVolume` (fscntrl.cpp 1487-1717) -/

/-- The routine `UDFUnlockVolumeInternal(Vcb, FileObject)` (fscntrl.cpp 1499-1524): the
status returned and the volume afterwards. -/
def UDFUnlockVolumeInternal (Vcb : VolumeVcb) (FileObject : Option Nat) :
    NTSTATUS × VolumeVcb :=
  if Vcb.VpbLocked && decide (FileObject = Vcb.VolumeLockFileObject) then
    (STATUS_SUCCESS,
     { Vcb with VpbLocked := false, VolumeLocked := false, VolumeLockFileObject := none })
  else (STATUS_NOT_LOCKED, Vcb)

/-- The routine `UDFUnlockVolume(IrpContext, Irp)` (fscntrl.cpp 1668-1717). -/
def UDFUnlockVolume (Vcb : VolumeVcb) (h : VolumeHandle) : VolumeResult :=
  match h.Ccb with
  | none =>
    { outcome := .returned STATUS_INVALID_PARAMETER, IoStatus := some STATUS_INVALID_PARAMETER
      Vcb := Vcb, Ccb := none, events := [] }
  | some ccb =>
    if !ccb.FcbIsVcb || !ccb.VolumeOpen then
      { outcome := .returned STATUS_INVALID_PARAMETER
        IoStatus := some STATUS_INVALID_PARAMETER, Vcb := Vcb, Ccb := some ccb, events := [] }
    else
      let r := UDFUnlockVolumeInternal Vcb (some h.FileObject)
      { outcome := .returned r.1, IoStatus := some r.1, Vcb := r.2, Ccb := some ccb
        events := [VolumeEvent.AcquireVcbExclusive, VolumeEvent.IoAcquireVpbSpinLock,
          VolumeEvent.IoReleaseVpbSpinLock, VolumeEvent.ReleaseVcb] ++
          (if NT_SUCCESS r.1 then [VolumeEvent.FsRtlNotifyVolumeEvent "FSRTL_VOLUME_UNLOCK"]
           else []) }


/-! ## Device removal and shutdown (pnp.cpp 367-605, shutdown.cpp 115-236) -/

/-- The volume as the removal and shutdown paths see it: the lock and dismount fields and
four more bits of `VCBFlags`. -/
structure RemovalVcb where
  Volume : VolumeVcb
  /-- Bit `VCB_STATE_NO_DELAYED_CLOSE`. -/
  NoDelayedClose : Bool
  /-- Bit `VCB_STATE_SHUTDOWN`. -/
  Shutdown : Bool
  /-- Bit `VCB_STATE_VOLUME_READ_ONLY`. -/
  VolumeReadOnly : Bool
  /-- Bit `VCB_STATE_REMOVABLE_MEDIA`. -/
  RemovableMedia : Bool
  /-- Whether `Vcb->RootDirFCB` and `Vcb->RootDirFCB->FileInfo` are both present. -/
  RootDirPresent : Bool
  deriving DecidableEq, Repr

/-- Calls made by the removal and shutdown paths, in program order. The two drains and the
dismount sequence carry the value the no-delayed-close bit has when they are called. -/
inductive RemovalEvent where
  | AcquireGlobalData
  | ReleaseGlobalData
  | AcquireVcbExclusive
  | ReleaseVcb
  | UDFCloseAllSystemDelayedInDir (NoDelayedClose : Bool)
  | UDFCloseAllDelayed (NoDelayedClose : Bool)
  | IoCallDriver
  | UDFDoDismountSequence (NoDelayedClose : Bool)
  | KeDelayExecutionThread
  | UDFCheckForDismount
  | IoCompleteRequest (Status : NTSTATUS)
  deriving DecidableEq, Repr

/-- The routines the removal and shutdown paths call. Each of the first four may change
the volume; none is taken to raise. -/
structure RemovalEnv where
  UDFCloseAllSystemDelayedInDir : RemovalVcb → RemovalVcb
  UDFCloseAllDelayed : RemovalVcb → RemovalVcb
  UDFDoDismountSequence : RemovalVcb → RemovalVcb
  /-- The value of `UDFCheckForDismount(IrpContext, Vcb, FALSE)`. -/
  UDFCheckForDismount : RemovalVcb → Bool
  /-- The status of the request passed down with `IoCallDriver`, after the wait. -/
  IoCallDriver : NTSTATUS
  /-- Whether `IoBuildSynchronousFsdRequest` returns an IRP. -/
  IoBuildSynchronousFsdRequest : Bool

/-- Result of a PnP removal request. -/
structure RemovalResult where
  RC : NTSTATUS
  Vcb : RemovalVcb
  VcbDeleted : Bool
  events : List RemovalEvent
  deriving DecidableEq, Repr

/-- Lines 390-401 of `UDFPnpRemove` and 532-541 of `UDFPnpSurpriseRemove`: the global
resource is taken, the delayed closes are drained and the volume resource is taken. -/
def removalDrain (env : RemovalEnv) (Vcb : RemovalVcb) : RemovalVcb × List RemovalEvent :=
  let v1 := if !Vcb.Volume.RawDisk then env.UDFCloseAllSystemDelayedInDir Vcb else Vcb
  (env.UDFCloseAllDelayed v1,
   [RemovalEvent.AcquireGlobalData] ++
     (if !Vcb.Volume.RawDisk then
        [RemovalEvent.UDFCloseAllSystemDelayedInDir Vcb.NoDelayedClose] else []) ++
     [RemovalEvent.UDFCloseAllDelayed v1.NoDelayedClose, RemovalEvent.AcquireVcbExclusive])

/-- Lines 440-485 of `UDFPnpRemove` and 571-604 of `UDFPnpSurpriseRemove`: the verify bit,
the dismount sequence, the invalidation and `UDFCheckForDismount`. -/
def removalDismount (env : RemovalEnv) (RC : NTSTATUS) (v : RemovalVcb)
    (trace : List RemovalEvent) : RemovalResult :=
  let v1 := { v with Volume := { v.Volume with VerifyVolume := true } }
  let v2 := env.UDFDoDismountSequence v1
  let v3 := { v2 with Volume := { v2.Volume with
                VcbCondition := invalidateCondition v2.Volume.VcbCondition,
                WriteSecurity := false } }
  { RC := RC, Vcb := v3, VcbDeleted := !env.UDFCheckForDismount v3
    events := trace ++ [RemovalEvent.IoCallDriver,
      RemovalEvent.UDFDoDismountSequence v1.NoDelayedClose, RemovalEvent.ReleaseVcb,
      RemovalEvent.UDFCheckForDismount, RemovalEvent.ReleaseGlobalData,
      RemovalEvent.IoCompleteRequest RC] }

/-- The routine `UDFPnpRemove` (pnp.cpp 367-486). -/
def UDFPnpRemove (env : RemovalEnv) (Vcb : RemovalVcb) : RemovalResult :=
  let d := removalDrain env Vcb
  let v := d.1
  -- 403-411
  let v1 :=
    if v.Volume.VpbLocked || decide (v.Volume.VolumeLockPID ≠ ULONG_MAX) then
      { v with Volume := { v.Volume with VpbLocked := false, VolumeLocked := false,
                                          VolumeLockFileObject := none,
                                          VolumeLockPID := ULONG_MAX } }
    else v
  removalDismount env env.IoCallDriver v1 d.2

/-- The routine `UDFPnpSurpriseRemove` (pnp.cpp 489-607). -/
def UDFPnpSurpriseRemove (env : RemovalEnv) (Vcb : RemovalVcb) : RemovalResult :=
  let d := removalDrain env Vcb
  removalDismount env env.IoCallDriver d.1 d.2

/-- One pass through the loop of `UDFCommonShutdown` (shutdown.cpp 159-236) for a volume
of the queue. -/
def shutdownVolume (env : RemovalEnv) (Vcb : RemovalVcb) : RemovalVcb × List RemovalEvent :=
  if Vcb.Shutdown then (Vcb, [])
  else
    -- 170-175
    let v0 := { Vcb with NoDelayedClose := true }
    let ev0 := [RemovalEvent.AcquireVcbExclusive, RemovalEvent.ReleaseVcb]
    -- 177-181
    let v1 := if v0.RootDirPresent then env.UDFCloseAllSystemDelayedInDir v0 else v0
    let ev1 := ev0 ++ (if v0.RootDirPresent then
      [RemovalEvent.UDFCloseAllSystemDelayedInDir v0.NoDelayedClose] else [])
    -- 183-188
    let v2 := env.UDFCloseAllDelayed v1
    let ev2 := ev1 ++ [RemovalEvent.UDFCloseAllDelayed v1.NoDelayedClose,
      RemovalEvent.AcquireVcbExclusive] ++
      (if env.IoBuildSynchronousFsdRequest then [RemovalEvent.IoCallDriver] else [])
    -- 223-233
    if !v2.Shutdown then
      let v3 := env.UDFDoDismountSequence v2
      ({ v3 with Shutdown := true, VolumeReadOnly := true },
       ev2 ++ [RemovalEvent.UDFDoDismountSequence v2.NoDelayedClose] ++
         (if v3.RemovableMedia then [RemovalEvent.KeDelayExecutionThread] else []) ++
         [RemovalEvent.ReleaseVcb])
    else (v2, ev2 ++ [RemovalEvent.ReleaseVcb])

/-- The walk of `UDFCommonShutdown` over the volumes of `UDFGlobalData.VCBQueue`
(shutdown.cpp 153-240); what follows the release of the global resource is left out. -/
def UDFCommonShutdown (env : RemovalEnv) (VCBQueue : List RemovalVcb) :
    List RemovalVcb × List RemovalEvent :=
  let passes := VCBQueue.map (shutdownVolume env)
  (passes.map Prod.fst,
   [RemovalEvent.AcquireGlobalData] ++ (passes.map Prod.snd).flatten ++
     [RemovalEvent.ReleaseGlobalData])

/-- Surroundings in which the called routines leave the volume alone. -/
def quietRemovalEnv : RemovalEnv :=
  { UDFCloseAllSystemDelayedInDir := fun v => v, UDFCloseAllDelayed := fun v => v
    UDFDoDismountSequence := fun v => v, UDFCheckForDismount := fun _ => true
    IoCallDriver := STATUS_SUCCESS, IoBuildSynchronousFsdRequest := true }

/-- A mounted volume with a root directory on which delayed closes are allowed. -/
def mountedRemovalVcb : RemovalVcb :=
  { Volume := unlockedVolume, NoDelayedClose := false, Shutdown := false
    VolumeReadOnly := false, RemovableMedia := false, RootDirPresent := true }

/-- The values of the no-delayed-close bit at the drains and at the dismount sequence of a
trace, in program order. -/
def flagSnapshots (events : List RemovalEvent) : List Bool :=
  events.filterMap (fun e =>
    match e with
    | .UDFCloseAllSystemDelayedInDir f => some f
    | .UDFCloseAllDelayed f => some f
    | .UDFDoDismountSequence f => some f
    | _ => none)


/-! ## The stack-budget guard of `UDFCommonRead` (read.cpp 124-215, 255-339, 770-833) -/

/-- What `UDFCommonRead` reads of the request before the guard: three bits of
`IrpSp->MinorFunction` and one of `Fcb->FCBFlags`. -/
structure ReadRequest where
  /-- Bit `IRP_MN_COMPLETE`. -/
  MinorComplete : Bool
  /-- Bit `IRP_MN_DPC`. -/
  MinorDpc : Bool
  /-- Bit `IRP_MN_MDL`. -/
  MinorMdl : Bool
  /-- Bit `UDF_FCB_DELETED`. -/
  FcbDeleted : Bool
  deriving DecidableEq, Repr

/-- The surroundings of `UDFCommonRead`. -/
structure ReadEnv where
  FSP_PER_DEVICE_THRESHOLD : Nat
  /-- Whether `MyAllocatePool__` returns an event to `UDFPostStackOverflowRead`. -/
  EventAllocated : Bool
  /-- Lines 341-768, the read behind the guard: the value of `RC` and of `NumberBytesRead`
  at `try_exit`. It is taken to reach `try_exit` without raising. -/
  readProper : IRP_CONTEXT → IRP → NTSTATUS × Nat

/-- The `_SEH2_FINALLY` block of `UDFCommonRead` (read.cpp 772-833) on normal termination,
entered with the given `RC` and `NumberBytesRead`; the stores to the file object and the
`CCB` at lines 807-818 are left out. -/
def readFinally (env : ReadEnv) (req : ReadRequest) (RC : NTSTATUS) (NumberBytesRead : Nat)
    (Vcb : VCB) (ctx : IRP_CONTEXT) (Irp : IRP) (trace : List Event) : CommonOutcome :=
  if RC = STATUS_PENDING then
    -- 793-804
    let r := UDFPostRequest env.FSP_PER_DEVICE_THRESHOLD Vcb ctx (some Irp.Address)
    { result := .returned r.Status, IrpContext := ctx, Irp := some Irp, Vcb := r.Vcb
      events := trace ++
        (if !req.MinorMdl then [Event.external "UDFLockUserBuffer" ctx.Tag] else []) ++
        r.events ctx (some Irp.Address) }
  else
    -- 820-831
    let irp1 := { Irp with Status := RC, Information := NumberBytesRead }
    if !ctx.IrpCompleted then
      { result := .returned RC, IrpContext := { ctx with IrpCompleted := true }
        Irp := some irp1, Vcb := Vcb, events := trace ++ [Event.IoCompleteRequest irp1] }
    else
      { result := .returned RC, IrpContext := ctx, Irp := some irp1, Vcb := Vcb
        events := trace }

/-- The routine `UDFPostStackOverflowRead` (read.cpp 124-168) together with the routine
`UDFStackOverflowRead` (read.cpp 190-215) that `FsRtlPostStackOverflow` runs on another
thread while the caller waits for the event. `worker` is the call
`UDFCommonRead(IrpContext, IrpContext->Irp)` made there. -/
def UDFPostStackOverflowRead (env : ReadEnv) (worker : VCB → IRP_CONTEXT → IRP → CommonOutcome)
    (Vcb : VCB) (ctx : IRP_CONTEXT) (Irp : IRP) :
    NTSTATUS × VCB × IRP_CONTEXT × IRP × List Event :=
  if !env.EventAllocated then (STATUS_INSUFFICIENT_RESOURCES, Vcb, ctx, Irp, [])
  else
    let o := worker Vcb { ctx with FlagWait := true } Irp
    (STATUS_PENDING, o.Vcb, o.IrpContext, o.Irp.getD Irp,
     [Event.external "UDFAcquireResourceShared" ctx.Tag,
      Event.external "FsRtlPostStackOverflow" ctx.Tag] ++ o.events ++
     [Event.external "KeSetEvent" ctx.Tag, Event.external "UDFReleaseResource" ctx.Tag])

/-- The routine `UDFCommonRead(IrpContext, Irp)`: the tests in front of the guard
(read.cpp 302-332), the guard (335-339), the read behind it as `env.readProper`, and the
finally block. The list gives, for this call and the calls nested in it through the guard,
whether `IoGetRemainingStackSize() < OVERFLOW_READ_THRESHHOLD` holds; an empty list means it
does not. -/
def UDFCommonRead (env : ReadEnv) (req : ReadRequest) :
    List Bool → VCB → IRP_CONTEXT → IRP → CommonOutcome
  | stack, Vcb, ctx, Irp =>
    if req.MinorComplete then
      -- 304-309, with `UDFMdlComplete` (read.cpp 992-1029)
      let irp1 := { Irp with Status := STATUS_SUCCESS, Information := 0 }
      readFinally env req STATUS_SUCCESS 0 Vcb { ctx with IrpCompleted := true } irp1
        ([Event.external "CcMdlReadComplete" ctx.Tag] ++
          (if !ctx.IrpCompleted then [Event.IoCompleteRequest irp1] else []))
    else if req.MinorDpc then readFinally env req STATUS_PENDING 0 Vcb ctx Irp []
    else if req.FcbDeleted then readFinally env req STATUS_ACCESS_DENIED 0 Vcb ctx Irp []
    else
      match stack with
      | true :: rest =>
        let p := UDFPostStackOverflowRead env (UDFCommonRead env req rest) Vcb ctx Irp
        readFinally env req p.1 0 p.2.1 p.2.2.1 p.2.2.2.1 p.2.2.2.2
      | _ =>
        let r := env.readProper ctx Irp
        readFinally env req r.1 r.2 Vcb ctx Irp [Event.external "read" ctx.Tag]

/-- Surroundings in which the event is allocated and the read returns 512 bytes; the
threshold is 2. -/
def sampleReadEnv : ReadEnv :=
  { FSP_PER_DEVICE_THRESHOLD := 2, EventAllocated := true
    readProper := fun _ _ => (STATUS_SUCCESS, 512) }

/-- A plain read request of an open file. -/
def plainRead : ReadRequest :=
  { MinorComplete := false, MinorDpc := false, MinorMdl := false, FcbDeleted := false }


/-! ## The body of `UDFCommonClose` (close.cpp 136-394)

The routine is followed statement by statement on the counters it writes, with the delayed
close queue of `UDFQueueDelayedClose` and the dispatcher fields of `UDFPostRequest`. The
counters are 32-bit; `InterlockedIncrement` and `InterlockedDecrement` wrap like `++` and
`--` on a `ULONG`. -/

/-- The fields of the `CCB` at `FileObject->FsContext2` that the close reads. -/
structure CloseCcb where
  /-- The `FCB` at `Ccb->Fcb`, named by its address. -/
  Fcb : Nat
  TreeLength : Nat
  /-- Bit `UDF_CCB_READ_ONLY` of `CCBFlags`. -/
  ReadOnly : Bool
  deriving DecidableEq, Repr

/-- The fields of an `FCB` that the close reads or writes, beside the flags kept in
`DelayFcb`. -/
structure CloseFcb where
  /-- Whether `NodeIdentifier.NodeTypeCode` is `UDF_NODE_TYPE_VCB`. -/
  IsVcb : Bool
  CcbCount : Nat
  OpenHandleCount : Nat
  ReferenceCount : Nat
  CommonRefCount : Nat
  deriving DecidableEq, Repr

/-- The fields of the `VCB` that the close reads or writes. -/
structure CloseVolume where
  VcbCondition : VCB_CONDITION
  /-- Bit `VCB_STATE_NO_DELAYED_CLOSE` of `VCBFlags`. -/
  NoDelayedClose : Bool
  VCBOpenCount : Nat
  VCBOpenCountRO : Nat
  deriving DecidableEq, Repr

/-- The request context of a close: the fields of `IRP_CONTEXT` used by the dispatcher, and
`Fcb`, `TreeLength` and `TargetDeviceObject`. -/
structure CloseContext where
  Context : IRP_CONTEXT
  Fcb : Nat
  TreeLength : Nat
  RealDevice : Nat
  deriving DecidableEq, Repr

/-- The two ways `UDFCommonClose` is called. -/
inductive CloseRequest where
  /-- With the IRP of the I/O manager: whether `FileObject->FsContext` is set, and the `CCB`
  at `FileObject->FsContext2`. -/
  | first (FsContext : Bool) (Ccb : CloseCcb)
  /-- With `Irp == NULL`, from a worker thread or from `UDFDoDelayedClose`; the `FCB` and
  `TreeLength` come from the context. -/
  | queued
  deriving DecidableEq, Repr

/-- The `FCB` a request is about. -/
def CloseRequest.target (req : CloseRequest) (ctx : CloseContext) : Nat :=
  match req with
  | .first _ Ccb => Ccb.Fcb
  | .queued => ctx.Fcb

/-- Calls and marked statements of `UDFCommonClose`, in program order. -/
inductive CloseCall where
  | AcquireVcbShared
  | AcquireVcbExclusive
  | ReleaseVcb
  | AcquireGlobalData
  | ReleaseGlobalData
  | UDFCleanUpCCB (Fcb : Nat)
  /-- The call `UDFQueueDelayedClose(IrpContext, Fcb)` and the status it returned. -/
  | UDFQueueDelayedClose (Fcb : Nat) (RC : NTSTATUS)
  /-- The decrements of `Fcb->CcbCount` and `Vcb->VCBOpenCount` at lines 262-264, with the
  value the local `AcquiredVcb` has there. -/
  | InterlockedDecrement (Fcb : Nat) (AcquiredVcb : Bool)
  | BrutePoint
  | UDFCheckForDismount
  /-- The call `UDFCleanUpFcbChain(Vcb, fi, i, TRUE)` at line 354, with the value the local
  `AcquiredVcb` has there. -/
  | UDFCleanUpFcbChain (Fcb TreeLength : Nat) (AcquiredVcb : Bool)
  | UDFPostRequest (Tag : Nat)
  | IoCompleteRequest
  deriving DecidableEq, Repr

/-- The memory `UDFCommonClose` works on. The counters are as the statements of the routine
itself leave them; what `UDFCleanUpFcbChain` and `UDFCheckForDismount` do is recorded as a
call only. -/
structure CloseState where
  Volume : CloseVolume
  Dispatcher : VCB
  Delay : DelayState
  Fcbs : Nat → CloseFcb
  calls : List CloseCall

/-- Constants and answers from outside. -/
structure CloseBodyEnv where
  FSP_PER_DEVICE_THRESHOLD : Nat
  UDF_RESIDUAL_REFERENCE : Nat
  /-- Whether the allocation in `UDFInitializeIrpContextLite` returns a buffer. -/
  LiteAllocated : Bool
  /-- The value `UDFCheckForDismount(IrpContext, Vcb, TRUE)` returns. -/
  UDFCheckForDismount : Bool

/-- How a call of `UDFCommonClose` ended. -/
inductive CloseDisposition where
  /-- The file object was never opened (line 178). -/
  | unopened
  /-- The close was put on a delayed-close queue (line 247). -/
  | delayed
  /-- The close was posted to a worker (lines 253-259). -/
  | posted
  /-- The real close ran (lines 262-354). -/
  | closed
  deriving DecidableEq, Repr

/-- Result of a call of `UDFCommonClose`; the value returned is always `STATUS_SUCCESS`. -/
structure CloseResult where
  State : CloseState
  Context : CloseContext
  Disposition : CloseDisposition

/-- Lines 380-388: the IRP, if there is one, is completed unless the context says it was. -/
def closeComplete (ctx : CloseContext) (Irp : Bool) : CloseContext × List CloseCall :=
  if Irp && !ctx.Context.IrpCompleted then
    ({ ctx with Context := { ctx.Context with IrpCompleted := true } },
     [CloseCall.IoCompleteRequest])
  else (ctx, [])

/-- The `_SEH2_FINALLY` block (lines 358-390) when `PostRequest` is FALSE. -/
def closeFinally (s : CloseState) (ctx : CloseContext) (Irp AcquiredVcb AcquiredGD : Bool)
    (d : CloseDisposition) : CloseResult :=
  let c := closeComplete ctx Irp
  { State := { s with calls := s.calls ++
      (if AcquiredVcb then [CloseCall.ReleaseVcb] else []) ++
      (if AcquiredGD then [CloseCall.ReleaseGlobalData] else []) ++ c.2 }
    Context := c.1, Disposition := d }

/-- Lines 253-259 and the `_SEH2_FINALLY` block when `PostRequest` is TRUE: the context
gets `Irp = NULL` and the `FCB`, and goes to `UDFPostRequest(IrpContext, NULL)`; then the IRP
is completed. -/
def closePost (env : CloseBodyEnv) (s : CloseState) (ctx : CloseContext) (f : Nat)
    (AcquiredVcb : Bool) : CloseResult :=
  let ctx1 := { ctx with Context := { ctx.Context with Irp := none }, Fcb := f }
  let r := UDFPostRequest env.FSP_PER_DEVICE_THRESHOLD s.Dispatcher ctx1.Context none
  let c := closeComplete ctx1 true
  { State := { s with
      Dispatcher := r.Vcb
      calls := s.calls ++ (if AcquiredVcb then [CloseCall.ReleaseVcb] else []) ++
        [CloseCall.UDFPostRequest ctx1.Context.Tag] ++ c.2 }
    Context := c.1, Disposition := .posted }

/-- Lines 285, 307-309: `Fcb->ReferenceCount` and `Fcb->CommonRefCount` go down. -/
def dropReferences (s : CloseState) (f : Nat) : CloseState :=
  { s with
    Fcbs := Function.update s.Fcbs f
      { s.Fcbs f with ReferenceCount := ulongDec (s.Fcbs f).ReferenceCount,
                      CommonRefCount := ulongDec (s.Fcbs f).CommonRefCount } }

/-- Lines 278-323, the close of the volume itself, entered after the decrements. -/
def closeVolumePath (env : CloseBodyEnv) (s : CloseState) (ctx : CloseContext) (f : Nat)
    (Irp AcquiredVcb : Bool) : CloseResult :=
  if s.Volume.VCBOpenCount > env.UDF_RESIDUAL_REFERENCE then
    -- 283-289
    closeFinally (dropReferences s f) ctx Irp AcquiredVcb false .closed
  else
    -- 291-303
    let s1 := { s with
      Volume := { s.Volume with VCBOpenCount := ulongInc s.Volume.VCBOpenCount }
      calls := s.calls ++
        (if AcquiredVcb then [CloseCall.ReleaseVcb] else [CloseCall.BrutePoint]) ++
        [CloseCall.AcquireGlobalData, CloseCall.AcquireVcbExclusive] }
    -- 305-309
    let s2 := dropReferences
      { s1 with Volume := { s1.Volume with VCBOpenCount := ulongDec s1.Volume.VCBOpenCount } } f
    -- 314-320
    if s2.Volume.VcbCondition = .VcbDismountInProgress ∨ s2.Volume.VcbCondition = .VcbInvalid ∨
        (s2.Volume.VcbCondition = .VcbNotMounted ∧
          s2.Volume.VCBOpenCount ≤ env.UDF_RESIDUAL_REFERENCE) then
      closeFinally { s2 with calls := s2.calls ++ [CloseCall.UDFCheckForDismount] } ctx Irp
        env.UDFCheckForDismount true .closed
    else closeFinally s2 ctx Irp true true .closed

/-- Lines 262-270: the decrements of `Fcb->CcbCount`, of `VCBOpenCount` and, when there is
a `CCB` with `UDF_CCB_READ_ONLY`, of `VCBOpenCountRO`. The `CCB` is read after
`UDFCleanUpCCB`; the bit is taken as it was before. -/
def closeDecrement (s : CloseState) (f : Nat) (Ccb : Option CloseCcb) (AcquiredVcb : Bool) :
    CloseState :=
  { s with
    Fcbs := Function.update s.Fcbs f { s.Fcbs f with CcbCount := ulongDec (s.Fcbs f).CcbCount }
    Volume := { s.Volume with
      VCBOpenCount := ulongDec s.Volume.VCBOpenCount
      VCBOpenCountRO :=
        match Ccb with
        | some c => if c.ReadOnly then ulongDec s.Volume.VCBOpenCountRO
                    else s.Volume.VCBOpenCountRO
        | none => s.Volume.VCBOpenCountRO }
    calls := s.calls ++ [CloseCall.InterlockedDecrement f AcquiredVcb] }

/-- Lines 253-354 behind the delayed-close test: post when there is an IRP and the caller
must not wait, else the decrements and the volume or the file path. `i` is the local
`TreeLength`, `Ccb` the `CCB` of a first call. -/
def closeProceed (env : CloseBodyEnv) (s : CloseState) (ctx : CloseContext) (f i : Nat)
    (Ccb : Option CloseCcb) (CanWait AcquiredVcb : Bool) : CloseResult :=
  if Ccb.isSome && !CanWait then closePost env s ctx f AcquiredVcb
  else
    let s1 := closeDecrement s f Ccb AcquiredVcb
    if i = 0 ∨ (s.Fcbs f).IsVcb = true then
      closeVolumePath env s1 ctx f Ccb.isSome AcquiredVcb
    else
      closeFinally { s1 with calls := s1.calls ++ [CloseCall.UDFCleanUpFcbChain f i AcquiredVcb] }
        ctx Ccb.isSome AcquiredVcb false .closed

/-- The test at lines 240-243. -/
def delayTest (s : CloseState) (f : Nat) : Bool :=
  (s.Delay.Fcbs f).FlagDelayClose && decide (s.Volume.VcbCondition = .VcbMounted) &&
    !s.Volume.NoDelayedClose && decide ((s.Fcbs f).OpenHandleCount = 0)

/-- Lines 237-251 and what follows, entered with the volume resource held shared. -/
def closeEntered (env : CloseBodyEnv) (s : CloseState) (ctx : CloseContext) (f i : Nat)
    (Ccb : Option CloseCcb) (CanWait : Bool) : CloseResult :=
  if delayTest s f then
    let q := UDFQueueDelayedClose env.LiteAllocated s.Delay f ctx.TreeLength ctx.RealDevice
    let s1 := { s with
      Delay := q.2
      calls := s.calls ++ [CloseCall.ReleaseVcb, CloseCall.UDFQueueDelayedClose f q.1] }
    if q.1 = STATUS_SUCCESS then closeFinally s1 ctx Ccb.isSome false false .delayed
    else closeProceed env s1 ctx f i Ccb CanWait false
  else closeProceed env s ctx f i Ccb CanWait true

/-- The body of the routine `UDFCommonClose(IrpContext, Irp, CanWait)` (close.cpp 136-394)
with a context present. -/
def UDFCommonCloseBody (env : CloseBodyEnv) (s : CloseState) (ctx : CloseContext)
    (req : CloseRequest) (CanWait : Bool) : CloseResult :=
  match req with
  | .first false _ =>
    -- 177-179
    closeFinally s ctx true false false .unopened
  | .first true Ccb =>
    -- 213-228
    let s1 := { s with
      Fcbs := Function.update s.Fcbs Ccb.Fcb
        { s.Fcbs Ccb.Fcb with CcbCount := ulongInc (s.Fcbs Ccb.Fcb).CcbCount }
      calls := s.calls ++ [CloseCall.AcquireVcbShared, CloseCall.UDFCleanUpCCB Ccb.Fcb] }
    closeEntered env s1 { ctx with TreeLength := Ccb.TreeLength } Ccb.Fcb Ccb.TreeLength
      (some Ccb) CanWait
  | .queued =>
    -- 185-189, 213-214
    closeEntered env { s with calls := s.calls ++ [CloseCall.AcquireVcbShared] } ctx ctx.Fcb
      ctx.TreeLength none CanWait

/-- The routine `UDFInitializeStackIrpContextFromLite` (misc.cpp 2170-2202); the stack
context has tag 0. -/
def UDFInitializeStackIrpContextFromLite (IrpContextLite : IRP_CONTEXT_LITE) : CloseContext :=
  { Context := { Tag := 0, Irp := none, MajorFunction := IRP_MJ_CLOSE, MinorFunction := 0
                 FlagWait := true, FlagDisablePopups := false, FlagOnStack := true
                 FlagNotTopLevel := false, IrpCompleted := false, ExceptionCode := 0 }
    Fcb := IrpContextLite.Fcb, TreeLength := IrpContextLite.TreeLength
    RealDevice := IrpContextLite.RealDevice }

/-- The routine `UDFDoDelayedClose` (close.cpp 547-560) with the close it ends in carried
out: the entry is freed, the `FCB` forgets it and loses `UDF_FCB_DELAY_CLOSE`, and
`UDFCommonClose(&StackIrpContext, NULL, TRUE)` runs. -/
def closeDelayedEntry (env : CloseBodyEnv) (s : CloseState) (entry : IRP_CONTEXT_LITE) :
    CloseResult :=
  UDFCommonCloseBody env { s with Delay := UDFDoDelayedClose s.Delay entry }
    (UDFInitializeStackIrpContextFromLite entry) .queued true

/-- The case `IRP_MJ_CLOSE` of `UDFFspDispatch` (misc.cpp 1143-1172) for a posted close:
`UDFCommonClose(IrpContext, IrpContext->Irp, TRUE)` with `Irp` NULL. -/
def closePostedEntry (env : CloseBodyEnv) (s : CloseState) (ctx : CloseContext) : CloseResult :=
  UDFCommonCloseBody env s
    { ctx with Context := { ctx.Context with FlagWait := true, IrpCompleted := false } }
    .queued true

/-- The call `UDFCommonClose(IrpContext, Irp, FALSE)` of `UDFClose` (close.cpp 99). -/
def closeFromDispatch (env : CloseBodyEnv) (s : CloseState) (ctx : CloseContext)
    (Ccb : CloseCcb) : CloseResult :=
  UDFCommonCloseBody env s ctx (.first true Ccb) false


/-- Constants and answers for the examples: threshold 2, residual reference 2, allocations
succeed, `UDFCheckForDismount` returns TRUE. -/
def sampleCloseEnv : CloseBodyEnv :=
  { FSP_PER_DEVICE_THRESHOLD := 2, UDF_RESIDUAL_REFERENCE := 2, LiteAllocated := true
    UDFCheckForDismount := true }

/-- A file without open handles. -/
def closedFile : CloseFcb :=
  { IsVcb := false, CcbCount := 0, OpenHandleCount := 0, ReferenceCount := 1
    CommonRefCount := 1 }

/-- A mounted volume with the given open count, one read-only open, idle dispatcher, the
given delayed-close memory and such a file at every address. -/
def sampleCloseState (VCBOpenCount : Nat) (Delay : DelayState) : CloseState :=
  { Volume := { VcbCondition := .VcbMounted, NoDelayedClose := false
                VCBOpenCount := VCBOpenCount, VCBOpenCountRO := 1 }
    Dispatcher := VCB.initial, Delay := Delay, Fcbs := fun _ => closedFile, calls := [] }

/-- Delayed-close memory with empty queues in which every file asks for a delayed close and
is marked delete-on-close. -/
def deletePendingState : DelayState :=
  { Data := mediumData, Fcbs := fun _ => { plainFcb with FlagDeleteOnClose := true }
    events := [] }

/-- Delayed-close memory with empty queues in which no file asks for a delayed close. -/
def noDelayState : DelayState :=
  { Data := mediumData, Fcbs := fun _ => { plainFcb with FlagDelayClose := false }
    events := [] }

/-- The context of a posted close of the `FCB` at address 4 with the given `TreeLength`. -/
def postedCloseContext (TreeLength : Nat) : CloseContext :=
  { Context := { sampleContext 1 with MajorFunction := IRP_MJ_CLOSE, Irp := none }
    Fcb := 4, TreeLength := TreeLength, RealDevice := 9 }

/-- The context `UDFClose` creates for the close IRP number 1. -/
def freshCloseContext : CloseContext :=
  { Context := { sampleContext 1 with MajorFunction := IRP_MJ_CLOSE }
    Fcb := 0, TreeLength := 0, RealDevice := 9 }

/-- A handle of the file at address 4, two levels below the root, opened read-only. -/
def readOnlyCcb : CloseCcb := { Fcb := 4, TreeLength := 2, ReadOnly := true }


/-! ## The list entries of `UDFCloseAllXXXDelayedInDir` (close.cpp 795-973)

The routine is followed here on the reference bookkeeping of its worklist and on the
no-delayed-close bit, in both modes. -/

/-- The structure `FE_LIST_ENTRY`: whether its `FileInfo` pointer is set, and the 32-bit
`EntryRefCount`. -/
structure FE_LIST_ENTRY where
  FileInfo : Bool
  EntryRefCount : Nat
  deriving DecidableEq, Repr

/-- Allocations and releases of list entries and the cache calls of the system mode, in
program order; a list entry is named by the `FileInfo` it was allocated for. -/
inductive WorklistEvent where
  | MyAllocatePool (FileInfo : Nat)
  | MyFreePool (FileInfo : Nat)
  /-- The calls `CcFlushCache`, `MmFlushImageSection` and `CcPurgeCacheSection` for the `FCB`
  of the item, as far as its flags ask for them. -/
  | purge (FileInfo : Nat)
  deriving DecidableEq, Repr

/-- The memory the routine works on: for each `FileInfo`, by address, the entry its
`ListPtr` leads to (`none` for NULL), bit `VCB_STATE_NO_DELAYED_CLOSE` of the volume, and the
delayed-close memory. -/
structure WorklistState where
  ListPtr : Nat → Option FE_LIST_ENTRY
  NoDelayedClose : Bool
  Delay : DelayState
  events : List WorklistEvent

/-- What the routine gets from outside. -/
structure WorklistEnv where
  /-- Status of `UDFBuildTreeItemsList`. -/
  BuildRC : NTSTATUS
  /-- The items of `FoundList`, in order. -/
  FoundList : List Nat
  /-- Whether the allocation of `ListPtrArray` succeeds. -/
  ArrayAllocated : Bool
  /-- Whether the allocation of a missing list entry for the item at this index succeeds. -/
  EntryAllocated : Nat → Bool
  /-- The `FCB` at `CurFileInfo->Fcb` when the second loop visits the item; `none` when
  `CurListPtr->FileInfo` or that `Fcb` is NULL by then. -/
  FcbOf : Nat → Option Nat

/-- The loop at lines 845-866 from index `i` on: a missing list entry is allocated with
count zero, the count goes up, and the entry goes into `ListPtrArray`. The first component
is FALSE when an allocation failed and the loop was left through `try_return`. -/
def buildListPtrArray (EntryAllocated : Nat → Bool) :
    Nat → List Nat → WorklistState → Bool × WorklistState
  | _, [], s => (true, s)
  | i, k :: rest, s =>
    match s.ListPtr k with
    | none =>
      if EntryAllocated i then
        buildListPtrArray EntryAllocated (i + 1) rest
          { s with
            ListPtr := Function.update s.ListPtr k
              (some { FileInfo := true, EntryRefCount := ulongInc 0 })
            events := s.events ++ [WorklistEvent.MyAllocatePool k] }
      else (false, s)
    | some e =>
      buildListPtrArray EntryAllocated (i + 1) rest
        { s with
          ListPtr := Function.update s.ListPtr k
            (some { e with EntryRefCount := ulongInc e.EntryRefCount }) }

/-- Lines 903-908 and 940-945: the count of the item's list entry goes down; at zero the
entry is detached from its `FileInfo` and freed. -/
def releaseListPtr (s : WorklistState) (k : Nat) : WorklistState :=
  match s.ListPtr k with
  | none => s
  | some e =>
    if ulongDec e.EntryRefCount = 0 then
      { s with ListPtr := Function.update s.ListPtr k none
               events := s.events ++ [WorklistEvent.MyFreePool k] }
    else
      { s with ListPtr := Function.update s.ListPtr k
                 (some { e with EntryRefCount := ulongDec e.EntryRefCount }) }

/-- The loop of the system mode (lines 878-913) over the items still to be visited. -/
def drainSystem (FcbOf : Nat → Option Nat) : List Nat → WorklistState → WorklistState
  | [], s => s
  | k :: rest, s =>
    drainSystem FcbOf rest
      (releaseListPtr
        { s with events := s.events ++
            (if (FcbOf k).isSome then [WorklistEvent.purge k] else []) } k)

/-- The loop of the internal mode (lines 918-947) over the items still to be visited; the
close of an item is that of `closeFound`. -/
def drainInternal (FcbOf : Nat → Option Nat) : List Nat → WorklistState → WorklistState
  | [], s => s
  | k :: rest, s =>
    drainInternal FcbOf rest (releaseListPtr { s with Delay := closeFound [FcbOf k] s.Delay } k)

/-- The routine `UDFCloseAllXXXDelayedInDir(Vcb, FileInfo, System)` (close.cpp 795-973) on
the list entries and the no-delayed-close bit. Both loops behind the build loop run from the
last item to the first. -/
def UDFCloseAllXXXDelayedInDirEntries (env : WorklistEnv) (System : Bool) (s : WorklistState) :
    NTSTATUS × WorklistState :=
  if !NT_SUCCESS env.BuildRC then (env.BuildRC, s)
  else if env.FoundList.isEmpty then (STATUS_SUCCESS, s)
  else if !env.ArrayAllocated then (STATUS_INSUFFICIENT_RESOURCES, s)
  else
    let b := buildListPtrArray env.EntryAllocated 0 env.FoundList s
    if !b.1 then (STATUS_INSUFFICIENT_RESOURCES, b.2)
    else if System then
      -- 872-913
      let NoDelayed := b.2.NoDelayedClose
      let d := drainSystem env.FcbOf env.FoundList.reverse { b.2 with NoDelayedClose := true }
      (STATUS_SUCCESS, if !NoDelayed then { d with NoDelayedClose := false } else d)
    else (STATUS_SUCCESS, drainInternal env.FcbOf env.FoundList.reverse b.2)

/-- Memory without list entries, with delayed closes allowed. -/
def emptyWorklist : WorklistState :=
  { ListPtr := fun _ => none, NoDelayedClose := false, Delay := plainState mediumData
    events := [] }

/-- Two matched items, 4 and 6; the array and the list entry of the first item are
allocated, the allocation for the second item fails. -/
def failingWorklistEnv : WorklistEnv :=
  { BuildRC := STATUS_SUCCESS, FoundList := [4, 6], ArrayAllocated := true
    EntryAllocated := fun i => decide (i = 0), FcbOf := fun k => some k }

/-- The same items with every allocation succeeding. -/
def sampleWorklistEnv : WorklistEnv :=
  { failingWorklistEnv with EntryAllocated := fun _ => true }


/-- The list entry of an item after the build loop passed it. -/
def bumpEntry (p : Option FE_LIST_ENTRY) : FE_LIST_ENTRY :=
  match p with
  | none => { FileInfo := true, EntryRefCount := ulongInc 0 }
  | some e => { e with EntryRefCount := ulongInc e.EntryRefCount }

/-- The list entry of an item after one of the later loops passed it. -/
def dropEntry (p : Option FE_LIST_ENTRY) : Option FE_LIST_ENTRY :=
  match p with
  | none => none
  | some e =>
    if ulongDec e.EntryRefCount = 0 then none
    else some { e with EntryRefCount := ulongDec e.EntryRefCount }


/-! ### `UDFCloseAllDelayed` without `DelayedCloseResource`

`UDFPnpQueryRemove` (pnp.cpp 255-261), `UDFPnpRemove` (pnp.cpp 392-397),
`UDFPnpSurpriseRemove` (pnp.cpp 532-537) and `UDFInvalidateVolumes` (fscntrl.cpp 2294-2353)
call `UDFCloseAllDelayed` while they hold `GlobalDataResource` exclusively. The call then
skips `DelayedCloseResource`, and the other delayed-close routines, which take that resource
only, can run between two of its statements. The first loop of the call is taken here one
group of statements at a time. -/

/-- Lines 642-645: the local `GlobalDataAcquired`, which is TRUE when the call has acquired
`DelayedCloseResource`; `GlobalDataExclusive` is the value of
`ExIsResourceAcquiredExclusive(&UDFGlobalData.GlobalDataResource)`. -/
def closeAllAcquires (GlobalDataExclusive : Bool) : Bool := !GlobalDataExclusive

/-- The value of `Entry->Flink` while `Entry` points to a linked entry of the queue: the
entry that follows it, `none` for the list head. -/
def nextEntry (queue : List IRP_CONTEXT_LITE) (entry : IRP_CONTEXT_LITE) :
    Option IRP_CONTEXT_LITE :=
  ((queue.dropWhile (fun x => x != entry)).drop 1).head?

/-- Lines 656-658 for the entry in `NextIrpContextLite`: `RemoveEntryList`, the decrement of
`DelayedCloseCount` and `UDFDoDelayedClose`. `RemoveEntryList` writes the links stored in the
entry into its two neighbours; for an entry that another thread has unlinked in the meantime,
with those neighbours still next to each other, that leaves the queue as it is. -/
def walkRemove (s : DelayState) (entry : IRP_CONTEXT_LITE) : DelayState :=
  UDFDoDelayedClose
    { s with
      Data := { s.Data with
                DelayedCloseQueue := s.Data.DelayedCloseQueue.erase entry
                DelayedCloseCount := ulongDec s.Data.DelayedCloseCount } }
    entry

/-- A call `UDFCloseAllDelayed(Vcb)` inside its first loop (lines 647-660), together with the
memory it shares with the other threads. -/
structure WalkState where
  machine : DelayMachine
  /-- The local `GlobalDataAcquired`: whether the call holds `DelayedCloseResource`. -/
  GlobalDataAcquired : Bool
  Vcb : Nat
  /-- The entry the local `Entry` points to, `none` when it points to the list head. -/
  Entry : Option IRP_CONTEXT_LITE
  /-- The local `NextIrpContextLite` after the test of line 655 has held for it and before
  line 656, `none` otherwise. -/
  NextIrpContextLite : Option IRP_CONTEXT_LITE

/-- Lines 642-647: the call decides on the resource and reads the head of the queue. -/
def walkEnter (GlobalDataExclusive : Bool) (Vcb : Nat) (m : DelayMachine) : WalkState :=
  { machine := m, GlobalDataAcquired := closeAllAcquires GlobalDataExclusive, Vcb := Vcb
    Entry := m.state.Data.DelayedCloseQueue.head?, NextIrpContextLite := none }

/-- What happens next while the call is in its first loop. -/
inductive WalkStep where
  /-- Lines 649-655: the loop test holds, the entry is taken from `Entry`, `Entry` moves on
  and the volume of the entry is tested. -/
  | fetch
  /-- Lines 656-658 for the entry whose test held. -/
  | remove
  /-- Another thread makes a call into the delayed-close machinery, from the acquisition of
  `DelayedCloseResource` to its release. -/
  | other (a : DelayStep)

/-- One step. A call of another thread waits while the walking call holds
`DelayedCloseResource`. -/
def walkStep (w : WalkState) : WalkStep → Option WalkState
  | .fetch =>
    match w.NextIrpContextLite, w.Entry with
    | none, some entry =>
      some { w with
             Entry := nextEntry w.machine.state.Data.DelayedCloseQueue entry
             NextIrpContextLite :=
               if (w.machine.state.Fcbs entry.Fcb).Vcb = w.Vcb then some entry else none }
    | _, _ => none
  | .remove =>
    match w.NextIrpContextLite with
    | some entry =>
      some { w with
             machine := w.machine.advance (walkRemove w.machine.state entry)
             NextIrpContextLite := none }
    | none => none
  | .other a =>
    if w.GlobalDataAcquired then none
    else
      match delayStep w.machine a with
      | some m => some { w with machine := m }
      | none => none

/-- A sequence of steps. -/
def walkRun : WalkState → List WalkStep → Option WalkState
  | w, [] => some w
  | w, a :: rest =>
    match walkStep w a with
    | none => none
    | some w1 => walkRun w1 rest

/-- The watermarks `UDFInitializeZones` sets on a small system (misc.cpp 63-68), with empty
queues and no drain scheduled. -/
def smallData : UDFData :=
  { mediumData with MaxDelayedCloseCount := 8, MinDelayedCloseCount := 2
                    MaxDirDelayedCloseCount := 6, MinDirDelayedCloseCount := 1 }

/-- A small system at start: nothing queued, no drain scheduled. -/
def smallMachine : DelayMachine := { state := plainState smallData, outstanding := 0 }

/-- Closes of the nine files 0, 2, ..., 16 of volume 1 are queued; the ninth takes the file
count above the high watermark 8 and schedules the drain task. -/
def fillSchedule : List DelayStep :=
  (List.range 9).map (fun k => DelayStep.queue true (2 * k) 1 7)

/-- The memory after the first k closes of `fillSchedule`. -/
def fillState : Nat → DelayState
  | 0 => plainState smallData
  | k + 1 => (UDFQueueDelayedClose true (fillState k) (2 * k) 1 7).2

/-- The entry queued for the file at an address by `fillSchedule`. -/
def queuedEntry (f : Nat) : IRP_CONTEXT_LITE := { Fcb := f, TreeLength := 1, RealDevice := 7 }

/-- The walking call closes the entries of the files 0 to 10 and takes the entry of the file
12; the drain task runs before the walking call unlinks that entry. -/
def raceSchedule : List WalkStep :=
  [.fetch, .remove, .fetch, .remove, .fetch, .remove, .fetch, .remove, .fetch, .remove,
   .fetch, .remove, .fetch, .other (.drain 4), .remove]

/-! # Properties -/

/-! ## Arithmetic of the counters -/

theorem ulongInc_of_lt {x : Nat} (h : x + 1 < ULONG_RANGE) : ulongInc x = x + 1 := by
  unfold ULONG_RANGE at h
  unfold ulongInc ULONG_MAX
  rw [if_neg (by omega)]

theorem ulongDec_of_pos {x : Nat} (h0 : 0 < x) : ulongDec x = x - 1 := by
  unfold ulongDec
  rw [if_neg (by omega)]

theorem ulongInc_mod (n : Nat) : ulongInc (n % ULONG_RANGE) = (n + 1) % ULONG_RANGE := by
  unfold ulongInc ULONG_MAX ULONG_RANGE
  split <;> omega

theorem ulongDec_succ_mod (n : Nat) (h : (n + 1) % ULONG_RANGE ≠ 0) :
    ulongDec ((n + 1) % ULONG_RANGE) = n % ULONG_RANGE := by
  unfold ULONG_RANGE at h
  unfold ulongDec ULONG_RANGE
  rw [if_neg h]
  omega

/-! ## Schedules -/

theorem run_append (thr : Nat) (s : Dispatcher) (l1 l2 : List Step) :
    run thr s (l1 ++ l2) = (run thr s l1).bind (fun s1 => run thr s1 l2) := by
  induction l1 generalizing s with
  | nil => simp [run]
  | cons a l ih =>
    simp only [List.cons_append, run]
    cases h : step thr s a with
    | none => simp
    | some s1 => simpa using ih s1

/-- A property that holds initially and is kept by every step holds after every schedule. -/
theorem run_invariant (thr : Nat) (P : Dispatcher → Prop)
    (hstep : ∀ s a s1, P s → step thr s a = some s1 → P s1) :
    ∀ (steps : List Step) (s s1 : Dispatcher), P s → run thr s steps = some s1 → P s1 := by
  intro steps
  induction steps with
  | nil =>
    intro s s1 hP h
    simp only [run, Option.some.injEq] at h
    exact h ▸ hP
  | cons a l ih =>
    intro s s1 hP h
    simp only [run] at h
    cases hs : step thr s a with
    | none => simp [hs] at h
    | some s2 =>
      rw [hs] at h
      exact ih s2 s1 (hstep s a s2 hP hs) h

theorem overflowDequeue_entry {Vcb Vcb1 : VCB} {e : IRP_CONTEXT}
    (h : overflowDequeue Vcb = .entry Vcb1 e) :
    Vcb.OverflowQueue = e :: Vcb1.OverflowQueue ∧
    Vcb1.PostedRequestCount = Vcb.PostedRequestCount ∧
    Vcb1.OverflowQueueCount = ulongDec Vcb.OverflowQueueCount ∧
    Vcb.OverflowQueueCount ≠ 0 := by
  unfold overflowDequeue at h
  split at h
  · cases h
  · rename_i hne
    split at h
    · cases h
    · rename_i e1 rest hq
      injection h with h1 h2
      subst h1 h2
      exact ⟨hq, rfl, rfl, hne⟩

theorem step_CountInv (thr : Nat) (hthr : thr + 1 < ULONG_RANGE) (s : Dispatcher) (a : Step)
    (s1 : Dispatcher) (hP : CountInv thr s) (h : step thr s a = some s1) : CountInv thr s1 := by
  obtain ⟨hc, hl⟩ := hP
  cases a with
  | post c =>
    simp only [step, UDFPostRequest] at h
    by_cases hgt : s.Vcb.PostedRequestCount > thr
    · simp only [hgt, if_true, Option.some.injEq] at h
      subst h
      exact ⟨hc, hl⟩
    · simp only [hgt, if_false, Option.some.injEq] at h
      subst h
      have h1 : s.Vcb.PostedRequestCount + 1 < ULONG_RANGE := by omega
      refine ⟨?_, ?_⟩
      · rw [hc] at h1
        simp [ulongInc_of_lt h1, hc]
      · simp only [List.length_append, List.length_singleton]
        omega
  | dequeue w =>
    simp only [step] at h
    split at h
    · split at h
      · simp only [Option.some.injEq] at h
        subst h
        exact ⟨by simpa using hc, by simpa using hl⟩
      · rename_i Vcb1 next hd
        simp only [Option.some.injEq] at h
        subst h
        obtain ⟨_, hp, _, _⟩ := overflowDequeue_entry hd
        exact ⟨by simpa [hp] using hc, by simpa using hl⟩
      · cases h
    · cases h
  | finish w =>
    simp only [step] at h
    split at h
    · rename_i c hw
      simp only [Option.some.injEq] at h
      subst h
      have hlt : w < s.workers.length := by
        by_contra hcon
        rw [List.get?_eq_none.mpr (by omega)] at hw
        cases hw
      have hlen : (s.workers.eraseIdx w).length = s.workers.length - 1 :=
        List.length_eraseIdx_of_lt hlt
      refine ⟨?_, ?_⟩
      · simp only [postedDecrement, hlen]
        rw [ulongDec_of_pos (by omega), hc]
      · rw [hlen]
        omega
    · cases h

theorem step_QueueInv (thr : Nat) (s : Dispatcher) (a : Step) (s1 : Dispatcher)
    (hP : QueueInv s) (h : step thr s a = some s1) : QueueInv s1 := by
  obtain ⟨hi, hc⟩ := hP
  cases a with
  | post c =>
    simp only [step, UDFPostRequest] at h
    by_cases hgt : s.Vcb.PostedRequestCount > thr
    · simp only [hgt, if_true, Option.some.injEq] at h
      subst h
      refine ⟨?_, ?_⟩
      · simp [hi]
      · simp only [List.length_append, List.length_singleton, hc]
        exact ulongInc_mod _
    · simp only [hgt, if_false, Option.some.injEq] at h
      subst h
      exact ⟨hi, hc⟩
  | dequeue w =>
    simp only [step] at h
    split at h
    · split at h
      · simp only [Option.some.injEq] at h
        subst h
        exact ⟨hi, hc⟩
      · rename_i Vcb1 next hd
        simp only [Option.some.injEq] at h
        subst h
        obtain ⟨hq, _, hcount, hne⟩ := overflowDequeue_entry hd
        refine ⟨?_, ?_⟩
        · simp [hi, hq]
        · rw [hc, hq, List.length_cons] at hne
          simp only [hcount, hc, hq, List.length_cons]
          exact ulongDec_succ_mod _ hne
      · cases h
    · cases h
  | finish w =>
    simp only [step] at h
    split at h
    · simp only [Option.some.injEq] at h
      subst h
      exact ⟨hi, hc⟩
    · cases h

theorem step_post_afterPosts (thr : Nat) (hthr : thr + 1 < ULONG_RANGE)
    (l : List IRP_CONTEXT) (c : IRP_CONTEXT) :
    step thr (afterPosts thr l) (.post c) = some (afterPosts thr (l ++ [c])) := by
  by_cases hle : l.length ≤ thr
  · have hmin : min l.length (thr + 1) = l.length := by omega
    have hmin1 : min (l.length + 1) (thr + 1) = l.length + 1 := by omega
    have hlt : l.length + 1 < ULONG_RANGE := by omega
    have ht : List.take (thr + 1) l = l := List.take_of_length_le (by omega)
    have ht1 : List.take (thr + 1) (l ++ [c]) = l ++ [c] :=
      List.take_of_length_le (by simp; omega)
    have hd : List.drop (thr + 1) l = [] := List.drop_of_length_le (by omega)
    have hd1 : List.drop (thr + 1) (l ++ [c]) = [] :=
      List.drop_of_length_le (by simp; omega)
    have hz : l.length - (thr + 1) = 0 := by omega
    have hz1 : l.length + 1 - (thr + 1) = 0 := by omega
    simp only [step, UDFPostRequest, afterPosts, hmin, hmin1, List.length_append,
      List.length_singleton, ht, ht1, hd, hd1, hz, hz1, ulongInc_of_lt hlt,
      show ¬ l.length > thr from by omega, if_false, List.map_append, List.map_cons,
      List.map_nil, Nat.zero_mod]
  · have hmin : min l.length (thr + 1) = thr + 1 := by omega
    have hmin1 : min (l.length + 1) (thr + 1) = thr + 1 := by omega
    have ht1 : List.take (thr + 1) (l ++ [c]) = List.take (thr + 1) l :=
      List.take_append_of_le_length (by omega)
    have hd1 : List.drop (thr + 1) (l ++ [c]) = List.drop (thr + 1) l ++ [c] :=
      List.drop_append_of_le_length (by omega)
    have hz1 : l.length + 1 - (thr + 1) = l.length - (thr + 1) + 1 := by omega
    simp only [step, UDFPostRequest, afterPosts, hmin, hmin1, List.length_append,
      List.length_singleton, ht1, hd1, hz1, ulongInc_mod,
      show thr + 1 > thr from by omega, if_true]

theorem run_posts (thr : Nat) (hthr : thr + 1 < ULONG_RANGE) (ctxs : List IRP_CONTEXT) :
    run thr Dispatcher.initial (ctxs.map Step.post) = some (afterPosts thr ctxs) := by
  induction ctxs using List.reverseRecOn with
  | nil =>
    simp only [List.map_nil, run, afterPosts, Dispatcher.initial, VCB.initial, List.length_nil,
      List.drop_nil, List.take_nil, Nat.zero_sub, Nat.zero_mod, Nat.zero_min]
  | append_singleton l c ih =>
    rw [List.map_append, run_append, ih]
    simp only [Option.bind, List.map_cons, List.map_nil, run]
    rw [step_post_afterPosts thr hthr]

/-! ## The dispatcher (C1, C2, C3, C5) -/

/-- C1, as stated, fails: with a threshold of 2, three posts to a fresh volume raise
`PostedRequestCount` to 3, and after seven posts three requests (not two) have been handed to
workers and four (not five) are queued. -/
theorem PostedRequestCount_exceeds_threshold :
    (∃ s, run 2 Dispatcher.initial (samplePosts 3) = some s ∧ ¬ s.Vcb.PostedRequestCount ≤ 2) ∧
    (∃ s, run 2 Dispatcher.initial (samplePosts (2 + 5)) = some s ∧
      ¬ (s.workItems.length = 2 ∧ s.Vcb.OverflowQueue.length = 5)) :=
  ⟨⟨_, by with_unfolding_all rfl, by with_unfolding_all decide⟩,
   ⟨_, by with_unfolding_all rfl, by with_unfolding_all decide⟩⟩

/-- C1, amended: on a volume initialised with `PostedRequestCount = 0`, after every sequence
of posts and worker steps `PostedRequestCount` is at most the threshold plus one; and after
threshold+5 posts with no worker finishing, exactly threshold+1 requests have been handed to
workers, in posting order, and the other 4 sit in the overflow queue. -/
theorem PostedRequestCount_bound (thr : Nat) (hthr : thr + 1 < ULONG_RANGE)
    (steps : List Step) (s : Dispatcher) (hrun : run thr Dispatcher.initial steps = some s)
    (ctxs : List IRP_CONTEXT) (hlen : ctxs.length = thr + 5) :
    s.Vcb.PostedRequestCount ≤ thr + 1 ∧
    ∃ s1, run thr Dispatcher.initial (ctxs.map Step.post) = some s1 ∧
      s1.Vcb.PostedRequestCount = thr + 1 ∧
      s1.workItems = ctxs.take (thr + 1) ∧ s1.workItems.length = thr + 1 ∧
      s1.Vcb.OverflowQueue = ctxs.drop (thr + 1) ∧ s1.Vcb.OverflowQueue.length = 4 ∧
      s1.Vcb.OverflowQueueCount = 4 := by
  constructor
  · have hinv : CountInv thr s :=
      run_invariant thr (CountInv thr) (fun s a s1 => step_CountInv thr hthr s a s1) steps
        Dispatcher.initial s ⟨rfl, Nat.zero_le _⟩ hrun
    rw [hinv.1]
    exact hinv.2
  · refine ⟨afterPosts thr ctxs, run_posts thr hthr ctxs, ?_, rfl, ?_, rfl, ?_, ?_⟩
    · simp only [afterPosts, hlen]
      omega
    · simp only [afterPosts, List.length_take, hlen]
      omega
    · simp only [afterPosts, List.length_drop, hlen]
      omega
    · have h4 : thr + 5 - (thr + 1) = 4 := by omega
      simp only [afterPosts, hlen, h4]
      unfold ULONG_RANGE
      rfl

/-- Witness for `PostedRequestCount_bound` at threshold 2. -/
theorem PostedRequestCount_bound_witness :
    ∃ s, run 2 Dispatcher.initial strandingSchedule = some s ∧
      s.Vcb.PostedRequestCount ≤ 2 + 1 ∧
      ∃ s1, run 2 Dispatcher.initial (samplePosts 7) = some s1 ∧
        s1.Vcb.PostedRequestCount = 2 + 1 ∧
        s1.workItems = (sampleContexts 7).take (2 + 1) ∧ s1.workItems.length = 2 + 1 ∧
        s1.Vcb.OverflowQueue = (sampleContexts 7).drop (2 + 1) ∧
        s1.Vcb.OverflowQueue.length = 4 ∧ s1.Vcb.OverflowQueueCount = 4 :=
  have h := PostedRequestCount_bound 2 (by with_unfolding_all decide) strandingSchedule _
    (by with_unfolding_all rfl) (sampleContexts 7) rfl
  ⟨_, by with_unfolding_all rfl, h.1, h.2⟩

/-- C2: `UDFPostRequest` returns `STATUS_PENDING`; when `PostedRequestCount` exceeds the
threshold it appends the context at the tail of `OverflowQueue`, increments
`OverflowQueueCount` by one, leaves `PostedRequestCount` unchanged and queues no work item;
otherwise it increments `PostedRequestCount` by one, leaves the queue and its count unchanged
and hands the context to a worker. An increment is that of a `ULONG`: plus one, except that
`0xFFFFFFFF` becomes zero. -/
theorem UDFPostRequest_spec (thr : Nat) (Vcb : VCB) (IrpContext : IRP_CONTEXT)
    (Irp : Option PIRP) :
    (UDFPostRequest thr Vcb IrpContext Irp).Status = STATUS_PENDING ∧
    if Vcb.PostedRequestCount > thr then
      (UDFPostRequest thr Vcb IrpContext Irp).Vcb.OverflowQueue =
          Vcb.OverflowQueue ++ [IrpContext] ∧
      (UDFPostRequest thr Vcb IrpContext Irp).Vcb.OverflowQueueCount =
          (if Vcb.OverflowQueueCount = 4294967295 then 0 else Vcb.OverflowQueueCount + 1) ∧
      (UDFPostRequest thr Vcb IrpContext Irp).Vcb.PostedRequestCount =
          Vcb.PostedRequestCount ∧
      (UDFPostRequest thr Vcb IrpContext Irp).WorkItem = none
    else
      (UDFPostRequest thr Vcb IrpContext Irp).Vcb.PostedRequestCount =
          (if Vcb.PostedRequestCount = 4294967295 then 0 else Vcb.PostedRequestCount + 1) ∧
      (UDFPostRequest thr Vcb IrpContext Irp).Vcb.OverflowQueue = Vcb.OverflowQueue ∧
      (UDFPostRequest thr Vcb IrpContext Irp).Vcb.OverflowQueueCount =
          Vcb.OverflowQueueCount ∧
      (UDFPostRequest thr Vcb IrpContext Irp).WorkItem = some IrpContext := by
  by_cases hgt : Vcb.PostedRequestCount > thr
  · simp only [UDFPostRequest, hgt, if_true, ulongInc, ULONG_MAX, and_self]
  · simp only [UDFPostRequest, hgt, if_false, ulongInc, ULONG_MAX, and_self]

/-- C3: request contexts leave the overflow queue in the order in which they were appended:
after every interleaving of posts and worker steps, the sequence of contexts dequeued is a
prefix of the sequence enqueued, the rest being the current queue. -/
theorem overflow_queue_fifo (thr : Nat) (steps : List Step) (s : Dispatcher)
    (hrun : run thr Dispatcher.initial steps = some s) :
    s.removed <+: s.inserted ∧ s.inserted = s.removed ++ s.Vcb.OverflowQueue := by
  have hinv : QueueInv s :=
    run_invariant thr QueueInv (step_QueueInv thr) steps Dispatcher.initial s
      ⟨rfl, (Nat.zero_mod _).symm⟩ hrun
  exact ⟨⟨s.Vcb.OverflowQueue, hinv.1.symm⟩, hinv.1⟩

/-- Witness for `overflow_queue_fifo`: two workers dequeue between seven posts. -/
theorem overflow_queue_fifo_witness :
    ∃ s, run 2 Dispatcher.initial fifoSchedule = some s ∧
      s.removed = [sampleContext 4, sampleContext 5] ∧
      s.inserted = [sampleContext 4, sampleContext 5, sampleContext 6, sampleContext 7] ∧
      s.removed <+: s.inserted :=
  ⟨_, by with_unfolding_all rfl, by with_unfolding_all decide, by with_unfolding_all decide,
    (overflow_queue_fifo 2 fifoSchedule _ (by with_unfolding_all rfl)).1⟩

/-- C5 fails on the code: with a threshold of 2, three workers each find the overflow queue
empty and drop the spinlock (line 1224), a fourth request is posted while
`PostedRequestCount` is still 3 and is queued, and the three workers then decrement the count
to 0 and return. The queued request is left with no worker. -/
theorem overflow_request_stranded :
    ∃ s, run 2 Dispatcher.initial strandingSchedule = some s ∧
      s.Vcb.PostedRequestCount = 0 ∧ s.workers = [] ∧
      s.Vcb.OverflowQueue = [sampleContext 4] ∧ s.Vcb.OverflowQueueCount = 1 :=
  ⟨_, by with_unfolding_all rfl, by with_unfolding_all decide, by with_unfolding_all decide,
    by with_unfolding_all decide, by with_unfolding_all decide⟩

/-! ## The worker loop and the entry points (C4, C6, C7) -/

/-- C4 fails on the code. A worker that starts on `sampleContext 1` and then takes
`sampleContext 2` from the overflow queue releases the first context once and the second
never (lines 1261-1265 release `PrevIrpContext` only). A worker that executes one request
whose major function has no case in the switch releases its context twice (line 1196, then
line 1264). -/
theorem fsp_release_counts :
    (∃ Vcb1 trace, UDFFspDispatch sampleFspEnv 2 oneQueued (sampleContext 1) =
        some (Vcb1, trace) ∧
      releases 1 trace = 1 ∧ releases 2 trace = 0) ∧
    (∃ Vcb1 trace, UDFFspDispatch sampleFspEnv 1 noneQueued lockContext = some (Vcb1, trace) ∧
      releases 9 trace = 2) :=
  ⟨⟨_, _, by with_unfolding_all rfl, by with_unfolding_all decide,
      by with_unfolding_all decide⟩,
   ⟨_, _, by with_unfolding_all rfl, by with_unfolding_all decide⟩⟩

/-- C6 fails on the code. When the handler raised `STATUS_VERIFY_REQUIRED` at passive level
and neither thread has a device to verify, `UDFProcessException` calls `IoCompleteRequest`
(line 370) without testing `IrpCompleted`: with `IrpCompleted` already TRUE on entry the IRP
is completed once more. -/
theorem exception_completes_completed_irp :
    verifyContext.IrpCompleted = true ∧
    completions sampleIrp.Address
      (fspExceptionBlock passiveEnv 2 noneQueued verifyContext (some sampleIrp)).events = 1 ∧
    (fspExceptionBlock passiveEnv 2 noneQueued verifyContext (some sampleIrp)).Status =
      STATUS_DRIVER_INTERNAL_ERROR := by
  with_unfolding_all decide

/-- The routine `UDFCreateIrpContext` never returns NULL: it raises or it returns a
context. -/
theorem UDFCreateIrpContext_not_null (i : CreateInput) (Irp : IRP) :
    UDFCreateIrpContext i Irp ≠ .ok none := by
  unfold UDFCreateIrpContext
  cases i.Allocation <;> split <;> simp

/-- When the allocation of the context is reached and fails, `UDFCreateIrpContext` raises
`STATUS_INSUFFICIENT_RESOURCES`. -/
theorem UDFCreateIrpContext_exhausted (i : CreateInput) (Irp : IRP)
    (hreach : (i.DeviceIsFsdo && i.HasFileObject && i.MajorFunction != IRP_MJ_CREATE &&
      i.MajorFunction != IRP_MJ_CLEANUP && i.MajorFunction != IRP_MJ_CLOSE) = false)
    (hfail : i.Allocation = none) :
    UDFCreateIrpContext i Irp = .error poolExhausted := by
  unfold UDFCreateIrpContext
  rw [hreach, hfail]
  rfl

/-- The except clause of an entry point after the context allocation has raised: the filter
lets the handler run, `UDFProcessException(NULL, Irp)` completes the IRP with
`STATUS_INSUFFICIENT_RESOURCES` and that status is logged and returned. -/
theorem fsdExcept_exhausted (env : ExceptionEnv) (thr : Nat) (Vcb : VCB) (Irp : IRP) :
    fsdExcept env thr Vcb none Irp poolExhausted [] =
      { outcome := .returned STATUS_INSUFFICIENT_RESOURCES, Vcb := Vcb
        events := [.IoCompleteRequest
            { Irp with Status := STATUS_INSUFFICIENT_RESOURCES, Information := 0 },
          .UDFLogEvent STATUS_INSUFFICIENT_RESOURCES] } := by
  simp [fsdExcept, UDFExceptionFilter, poolExhausted, UDFProcessException,
    FsRtlIsNtstatusExpected, STATUS_INSUFFICIENT_RESOURCES, STATUS_IN_PAGE_ERROR,
    STATUS_DATATYPE_MISALIGNMENT, STATUS_ACCESS_VIOLATION, STATUS_ILLEGAL_INSTRUCTION,
    STATUS_INSTRUCTION_MISALIGNMENT]

/-- The five entry points that share `fsdDispatch`, when the context allocation fails. -/
theorem fsdDispatch_exhausted (common : CommonRoutine) (env : ExceptionEnv) (thr : Nat)
    (Vcb : VCB) (i : CreateInput) (Irp : IRP)
    (hreach : (i.DeviceIsFsdo && i.HasFileObject && i.MajorFunction != IRP_MJ_CREATE &&
      i.MajorFunction != IRP_MJ_CLEANUP && i.MajorFunction != IRP_MJ_CLOSE) = false)
    (hfail : i.Allocation = none) :
    fsdDispatch common env thr Vcb i Irp =
      { outcome := .returned STATUS_INSUFFICIENT_RESOURCES, Vcb := Vcb
        events := [.IoCompleteRequest
            { Irp with Status := STATUS_INSUFFICIENT_RESOURCES, Information := 0 },
          .UDFLogEvent STATUS_INSUFFICIENT_RESOURCES] } := by
  unfold fsdDispatch
  rw [UDFCreateIrpContext_exhausted i Irp hreach hfail]
  exact fsdExcept_exhausted env thr Vcb Irp

/-- C7: at each of the six dispatch entry points (read, close, lock control, file-system
control, PnP, shutdown), when the allocation of the context in `UDFCreateIrpContext` is
reached and fails, the request is completed with `STATUS_INSUFFICIENT_RESOURCES`, that status
is returned, the volume fields are as before and nothing is posted or queued. The failure
arrives as an exception (the lookaside list raises, `UDFCreateIrpContext` has no NULL result),
which the except clause of the entry point turns into the completion through
`UDFProcessException(NULL, Irp)`; for `UDFClose` the allocation is reached on a device object
other than the file-system device object. -/
theorem dispatch_context_exhausted (common : CommonRoutine) (FsContextPresent : Bool)
    (env : ExceptionEnv) (thr : Nat) (Vcb : VCB) (i : CreateInput) (Irp : IRP)
    (hreach : (i.DeviceIsFsdo && i.HasFileObject && i.MajorFunction != IRP_MJ_CREATE &&
      i.MajorFunction != IRP_MJ_CLEANUP && i.MajorFunction != IRP_MJ_CLOSE) = false)
    (hfail : i.Allocation = none) :
    let done : DispatchResult :=
      { outcome := .returned STATUS_INSUFFICIENT_RESOURCES, Vcb := Vcb
        events := [.IoCompleteRequest
            { Irp with Status := STATUS_INSUFFICIENT_RESOURCES, Information := 0 },
          .UDFLogEvent STATUS_INSUFFICIENT_RESOURCES] }
    (∀ j Irp1, UDFCreateIrpContext j Irp1 ≠ .ok none) ∧
    UDFRead common env thr Vcb i Irp = done ∧
    (i.DeviceIsFsdo = false → UDFClose common FsContextPresent env thr Vcb i Irp = done) ∧
    UDFLockControl common env thr Vcb i Irp = done ∧
    UDFFSControl common env thr Vcb i Irp = done ∧
    UDFPnp common env thr Vcb i Irp = done ∧
    UDFShutdown common env thr Vcb i Irp = done ∧
    postsOrQueues done.events = false := by
  intro done
  have h := fsdDispatch_exhausted common env thr Vcb i Irp hreach hfail
  refine ⟨UDFCreateIrpContext_not_null, h, ?_, h, h, h, h, rfl⟩
  intro hdev
  unfold UDFClose
  rw [hdev, UDFCreateIrpContext_exhausted i Irp hreach hfail]
  exact fsdExcept_exhausted env thr Vcb Irp

/-- The statement of `dispatch_context_exhausted` at a close request on a volume device
object with the pool exhausted. -/
theorem dispatch_context_exhausted_witness :
    (exhaustedClose.DeviceIsFsdo && exhaustedClose.HasFileObject &&
      exhaustedClose.MajorFunction != IRP_MJ_CREATE &&
      exhaustedClose.MajorFunction != IRP_MJ_CLEANUP &&
      exhaustedClose.MajorFunction != IRP_MJ_CLOSE) = false ∧
    exhaustedClose.Allocation = none ∧
    exhaustedClose.DeviceIsFsdo = false ∧
    UDFClose completingCommon true passiveEnv 2 noneQueued exhaustedClose sampleIrp =
      { outcome := .returned STATUS_INSUFFICIENT_RESOURCES, Vcb := noneQueued
        events := [.IoCompleteRequest
            { sampleIrp with Status := STATUS_INSUFFICIENT_RESOURCES, Information := 0 },
          .UDFLogEvent STATUS_INSUFFICIENT_RESOURCES] } ∧
    UDFRead completingCommon passiveEnv 2 noneQueued exhaustedClose sampleIrp =
      { outcome := .returned STATUS_INSUFFICIENT_RESOURCES, Vcb := noneQueued
        events := [.IoCompleteRequest
            { sampleIrp with Status := STATUS_INSUFFICIENT_RESOURCES, Information := 0 },
          .UDFLogEvent STATUS_INSUFFICIENT_RESOURCES] } :=
  have h := dispatch_context_exhausted completingCommon true passiveEnv 2 noneQueued
    exhaustedClose sampleIrp (by decide) rfl
  ⟨by decide, rfl, rfl, h.2.2.1 rfl, h.2.1⟩

/-! ## The chain walk (C8, C9, C10) -/

theorem decrementCounts_counts (ThisFcb : FCB) (t : Nat) :
    (decrementCounts ThisFcb t).ReferenceCount =
      (if t ≠ 0 then ulongDec ThisFcb.ReferenceCount else ThisFcb.ReferenceCount) ∧
    (decrementCounts ThisFcb t).CommonRefCount =
      (if t ≠ 0 then ulongDec ThisFcb.CommonRefCount else ThisFcb.CommonRefCount) ∧
    (decrementCounts ThisFcb t).OpenHandleCount = ThisFcb.OpenHandleCount := by
  unfold decrementCounts
  split_ifs <;> exact ⟨rfl, rfl, rfl⟩

theorem markDeleted_counts (env : CloseEnv) (Fcb1 : FCB) (d : Bool) :
    (markDeleted env Fcb1 d).ReferenceCount = Fcb1.ReferenceCount ∧
    (markDeleted env Fcb1 d).CommonRefCount = Fcb1.CommonRefCount ∧
    (markDeleted env Fcb1 d).OpenHandleCount = Fcb1.OpenHandleCount := by
  unfold markDeleted
  split_ifs <;> exact ⟨rfl, rfl, rfl⟩

/-- The loop body takes one of its three branches, with `TreeLength` lowered by one unless
it was zero. -/
theorem fcbVisit_eq (env : CloseEnv) (VcbAcquired : Bool) (idx : Nat)
    (fi : UDF_FILE_INFO) (hasParent : Bool) (t : Nat) (d : Bool) :
    ((decrementCounts fi.Fcb t).ReferenceCount = 0 ∧
      (decrementCounts fi.Fcb t).OpenHandleCount = 0 ∧
      env.UDFCleanUpFile idx (handedNode env fi (decrementCounts fi.Fcb t) d) =
        CleanUpCode.both ∧
      fcbVisit env VcbAcquired idx fi hasParent t d =
        visitFreed env VcbAcquired idx fi hasParent (decrementCounts fi.Fcb t) (t - 1) d) ∨
    ((decrementCounts fi.Fcb t).ReferenceCount = 0 ∧
      (decrementCounts fi.Fcb t).OpenHandleCount = 0 ∧
      env.UDFCleanUpFile idx (handedNode env fi (decrementCounts fi.Fcb t) d) ≠
        CleanUpCode.both ∧
      fcbVisit env VcbAcquired idx fi hasParent t d =
        visitKept env VcbAcquired idx fi hasParent (decrementCounts fi.Fcb t) (t - 1) d) ∨
    (¬ ((decrementCounts fi.Fcb t).ReferenceCount = 0 ∧
        (decrementCounts fi.Fcb t).OpenHandleCount = 0) ∧
      fcbVisit env VcbAcquired idx fi hasParent t d =
        visitReferenced VcbAcquired idx fi hasParent (decrementCounts fi.Fcb t) (t - 1)) := by
  have ht : (if t ≠ 0 then t - 1 else t) = t - 1 := by split_ifs <;> omega
  by_cases h1 : (decrementCounts fi.Fcb t).ReferenceCount = 0 ∧
      (decrementCounts fi.Fcb t).OpenHandleCount = 0
  · by_cases h2 : env.UDFCleanUpFile idx (handedNode env fi (decrementCounts fi.Fcb t) d) =
        CleanUpCode.both
    · left
      refine ⟨h1.1, h1.2, h2, ?_⟩
      simp only [fcbVisit, ht, h1, h2, and_self, if_true]
    · right; left
      refine ⟨h1.1, h1.2, h2, ?_⟩
      simp only [fcbVisit, ht, h1, h2, and_self, if_true, if_false]
  · right; right
    refine ⟨h1, ?_⟩
    simp only [fcbVisit, ht, h1, if_false]

/-- The counts of the node after a pass are those of the decremented `FCB`, in all three
branches. -/
theorem fcbVisit_node_counts (env : CloseEnv) (VcbAcquired : Bool) (idx : Nat)
    (fi : UDF_FILE_INFO) (hasParent : Bool) (t : Nat) (d : Bool) :
    (fcbVisit env VcbAcquired idx fi hasParent t d).node.Fcb.ReferenceCount =
      (decrementCounts fi.Fcb t).ReferenceCount ∧
    (fcbVisit env VcbAcquired idx fi hasParent t d).node.Fcb.CommonRefCount =
      (decrementCounts fi.Fcb t).CommonRefCount ∧
    (fcbVisit env VcbAcquired idx fi hasParent t d).node.Fcb.OpenHandleCount =
      (decrementCounts fi.Fcb t).OpenHandleCount := by
  obtain ⟨m1, m2, m3⟩ := markDeleted_counts env (decrementCounts fi.Fcb t) d
  rcases fcbVisit_eq env VcbAcquired idx fi hasParent t d with
    ⟨_, _, _, h⟩ | ⟨_, _, _, h⟩ | ⟨_, h⟩
  · rw [h]; exact ⟨m1, m2, m3⟩
  · rw [h]; exact ⟨m1, m2, m3⟩
  · rw [h]; exact ⟨rfl, rfl, rfl⟩

theorem fcbVisit_TreeLength (env : CloseEnv) (VcbAcquired : Bool) (idx : Nat)
    (fi : UDF_FILE_INFO) (hasParent : Bool) (t : Nat) (d : Bool) :
    (fcbVisit env VcbAcquired idx fi hasParent t d).TreeLength = t - 1 := by
  rcases fcbVisit_eq env VcbAcquired idx fi hasParent t d with
    ⟨_, _, _, h⟩ | ⟨_, _, _, h⟩ | ⟨_, h⟩ <;> rw [h] <;> rfl

theorem fcbVisit_refCounts (env : CloseEnv) (VcbAcquired : Bool) (idx : Nat)
    (fi : UDF_FILE_INFO) (hasParent : Bool) (t : Nat) (d : Bool) :
    refCounts (fcbVisit env VcbAcquired idx fi hasParent t d).node =
      (if t ≠ 0 then decrementedCounts fi else refCounts fi) ∧
    (fcbVisit env VcbAcquired idx fi hasParent t d).TreeLength = t - 1 := by
  obtain ⟨h1, h2, _⟩ := fcbVisit_node_counts env VcbAcquired idx fi hasParent t d
  obtain ⟨d1, d2, _⟩ := decrementCounts_counts fi.Fcb t
  refine ⟨?_, fcbVisit_TreeLength env VcbAcquired idx fi hasParent t d⟩
  unfold refCounts decrementedCounts
  rw [h1, h2, d1, d2]
  split_ifs <;> rfl

theorem fcbVisit_break (env : CloseEnv) (VcbAcquired : Bool) (idx : Nat)
    (fi : UDF_FILE_INFO) (hasParent : Bool) (t : Nat) (d : Bool)
    (h : (fcbVisit env VcbAcquired idx fi hasParent t d).continues = false) : t - 1 = 0 := by
  rcases fcbVisit_eq env VcbAcquired idx fi hasParent t d with
    ⟨_, _, _, e⟩ | ⟨_, _, _, e⟩ | ⟨_, e⟩ <;> rw [e] at h
  · simp [visitFreed] at h
  · simpa [visitKept] using h
  · simpa [visitReferenced] using h

theorem fcbWalk_refCounts (env : CloseEnv) (VcbAcquired : Bool) (chain : List UDF_FILE_INFO) :
    ∀ (idx TreeLength : Nat) (Delete : Bool),
      (fcbWalk env VcbAcquired idx chain TreeLength Delete).chain.map refCounts =
        (chain.take TreeLength).map decrementedCounts ++
          (chain.drop TreeLength).map refCounts := by
  induction chain with
  | nil => intro idx t d; simp [fcbWalk]
  | cons fi parents ih =>
    intro idx t d
    obtain ⟨hc, ht⟩ := fcbVisit_refCounts env VcbAcquired idx fi (!parents.isEmpty) t d
    have hb := fcbVisit_break env VcbAcquired idx fi (!parents.isEmpty) t d
    simp only [fcbWalk]
    split_ifs with hcont
    · simp only [List.map_cons, hc, ih, ht]
      cases t with
      | zero => simp
      | succ t1 => simp
    · simp only [List.map_cons, hc]
      have h0 := hb (by simpa using hcont)
      cases t with
      | zero => simp
      | succ t1 =>
        have : t1 = 0 := by omega
        subst this
        simp

/-- A relation between a node before and after the walk that holds for untouched nodes and
across every pass of the loop body holds along the whole chain; positions count from `idx`. -/
theorem fcbWalk_pointwise (env : CloseEnv) (VcbAcquired : Bool)
    (P : Nat → UDF_FILE_INFO → UDF_FILE_INFO → Prop) (hsame : ∀ i x, P i x x)
    (hvisit : ∀ i fi hp t d, P i fi (fcbVisit env VcbAcquired i fi hp t d).node)
    (chain : List UDF_FILE_INFO) :
    ∀ (idx t : Nat) (d : Bool),
      List.Forall₂ (fun (p : Nat × UDF_FILE_INFO) new => P p.1 p.2 new)
        (chain.enumFrom idx) (fcbWalk env VcbAcquired idx chain t d).chain := by
  have hrefl : ∀ (l : List UDF_FILE_INFO) (idx : Nat),
      List.Forall₂ (fun (p : Nat × UDF_FILE_INFO) new => P p.1 p.2 new) (l.enumFrom idx) l := by
    intro l
    induction l with
    | nil => intro idx; exact List.Forall₂.nil
    | cons x l ih => intro idx; exact List.Forall₂.cons (hsame idx x) (ih (idx + 1))
  induction chain with
  | nil => intro idx t d; exact List.Forall₂.nil
  | cons fi parents ih =>
    intro idx t d
    simp only [fcbWalk, List.enumFrom_cons]
    split_ifs
    · exact List.Forall₂.cons (hvisit idx fi _ t d) (ih (idx + 1) _ _)
    · exact List.Forall₂.cons (hvisit idx fi _ t d) (hrefl parents (idx + 1))

theorem forall₂_of_enumFrom {Q : UDF_FILE_INFO → UDF_FILE_INFO → Prop}
    (l : List UDF_FILE_INFO) :
    ∀ (n : Nat) (r : List UDF_FILE_INFO),
      List.Forall₂ (fun (p : Nat × UDF_FILE_INFO) new => Q p.2 new) (l.enumFrom n) r →
      List.Forall₂ Q l r := by
  induction l with
  | nil =>
    intro n r h
    cases h
    exact List.Forall₂.nil
  | cons x l ih =>
    intro n r h
    rw [List.enumFrom_cons] at h
    cases h with
    | cons h1 h2 => exact List.Forall₂.cons h1 (ih (n + 1) _ h2)

/-- C8: for a chain of n nodes and a traversal count t, `UDFCleanUpFcbChain` decrements
`ReferenceCount` and `CommonRefCount` once on each of the first min(t, n) nodes, leaf first,
and leaves the counts of every other node as they were; the chain keeps its length. Where both
counts were non-zero (the assertions at lines 443-444) a decrement is by exactly one, and
`CommonRefCount - ReferenceCount` is the same before and after on every node. -/
theorem UDFCleanUpFcbChain_decrements (env : CloseEnv) (chain : List UDF_FILE_INFO)
    (TreeLength : Nat) (VcbAcquired : Bool) :
    (UDFCleanUpFcbChain env chain TreeLength VcbAcquired).chain.map refCounts =
      (chain.take TreeLength).map decrementedCounts ++
        (chain.drop TreeLength).map refCounts ∧
    (UDFCleanUpFcbChain env chain TreeLength VcbAcquired).chain.length = chain.length ∧
    (∀ fi ∈ chain.take TreeLength,
      0 < fi.Fcb.ReferenceCount → 0 < fi.Fcb.CommonRefCount →
        decrementedCounts fi = (fi.Fcb.ReferenceCount - 1, fi.Fcb.CommonRefCount - 1)) ∧
    List.Forall₂
      (fun old new =>
        0 < old.Fcb.ReferenceCount → 0 < old.Fcb.CommonRefCount →
          (new.Fcb.CommonRefCount : Int) - new.Fcb.ReferenceCount =
            (old.Fcb.CommonRefCount : Int) - old.Fcb.ReferenceCount)
      chain (UDFCleanUpFcbChain env chain TreeLength VcbAcquired).chain := by
  have hmap := fcbWalk_refCounts env VcbAcquired chain 0 TreeLength false
  refine ⟨hmap, ?_, ?_, ?_⟩
  · have hlen := congrArg List.length hmap
    simp only [List.length_map, List.length_append, List.length_take, List.length_drop] at hlen
    show (fcbWalk env VcbAcquired 0 chain TreeLength false).chain.length = chain.length
    omega
  · intro fi _ h1 h2
    unfold decrementedCounts
    rw [ulongDec_of_pos h1, ulongDec_of_pos h2]
  · apply forall₂_of_enumFrom chain 0
    apply fcbWalk_pointwise env VcbAcquired
      (fun _ old new =>
        0 < old.Fcb.ReferenceCount → 0 < old.Fcb.CommonRefCount →
          (new.Fcb.CommonRefCount : Int) - new.Fcb.ReferenceCount =
            (old.Fcb.CommonRefCount : Int) - old.Fcb.ReferenceCount)
    · intro _ x _ _
      rfl
    · intro i fi hp t d h1 h2
      obtain ⟨e1, e2, _⟩ := fcbVisit_node_counts env VcbAcquired i fi hp t d
      obtain ⟨d1, d2, _⟩ := decrementCounts_counts fi.Fcb t
      rw [e1, e2, d1, d2]
      by_cases ht : t = 0
      · simp only [ht, ne_eq, not_true_eq_false, if_false]
      · simp only [ne_eq, ht, not_false_eq_true, if_true, ulongDec_of_pos h1,
          ulongDec_of_pos h2]
        omega

/-- C9, as stated, fails: a node whose `ReferenceCount` drops to zero with no open handle
while `CommonRefCount` is still 1 is freed when `UDFCleanUpFile__` returns
`UDF_FREE_FILEINFO | UDF_FREE_DLOC`. -/
theorem freed_with_common_references :
    (UDFCleanUpFcbChain freeingEnv [sampleNode 1 2 0] 1 true).chain.map
      (fun fi => (fi.Freed, fi.Fcb.ReferenceCount, fi.Fcb.CommonRefCount)) = [(true, 0, 1)] := by
  decide

/-- C9, amended: `UDFCleanUpFcbChain` frees a node only if, after the walk's decrement, the
node's `ReferenceCount` and `OpenHandleCount` are both zero and `UDFCleanUpFile__`, called on
the node with `fi->Fcb` cleared, returned `UDF_FREE_FILEINFO | UDF_FREE_DLOC`;
`CommonRefCount` is not tested before the free, a zero `CommonRefCount` only has
`Dloc->CommonFcb` cleared before that call. -/
theorem UDFCleanUpFcbChain_frees_only (env : CloseEnv) (chain : List UDF_FILE_INFO)
    (TreeLength : Nat) (VcbAcquired : Bool) :
    List.Forall₂
      (fun (p : Nat × UDF_FILE_INFO) new =>
        p.2.Freed = false → new.Freed = true →
          new.Fcb.ReferenceCount = 0 ∧ new.Fcb.OpenHandleCount = 0 ∧
          ∃ handed, env.UDFCleanUpFile p.1 handed = CleanUpCode.both ∧
            handed.FcbLinked = false ∧
            handed.Fcb.ReferenceCount = 0 ∧ handed.Fcb.OpenHandleCount = 0 ∧
            handed.Fcb.CommonRefCount = new.Fcb.CommonRefCount ∧
            (new.Fcb.CommonRefCount = 0 → handed.CommonFcbLinked = false))
      (chain.enumFrom 0) (UDFCleanUpFcbChain env chain TreeLength VcbAcquired).chain := by
  apply fcbWalk_pointwise env VcbAcquired
    (fun i old new =>
      old.Freed = false → new.Freed = true →
        new.Fcb.ReferenceCount = 0 ∧ new.Fcb.OpenHandleCount = 0 ∧
        ∃ handed, env.UDFCleanUpFile i handed = CleanUpCode.both ∧
          handed.FcbLinked = false ∧
          handed.Fcb.ReferenceCount = 0 ∧ handed.Fcb.OpenHandleCount = 0 ∧
          handed.Fcb.CommonRefCount = new.Fcb.CommonRefCount ∧
          (new.Fcb.CommonRefCount = 0 → handed.CommonFcbLinked = false))
  · intro _ x h1 h2
    rw [h1] at h2
    cases h2
  · intro i fi hp t d hold hnew
    obtain ⟨m1, m2, m3⟩ := markDeleted_counts env (decrementCounts fi.Fcb t) d
    obtain ⟨c1, c2, c3⟩ := fcbVisit_node_counts env VcbAcquired i fi hp t d
    rcases fcbVisit_eq env VcbAcquired i fi hp t d with
      ⟨r0, o0, hfree, e⟩ | ⟨_, _, _, e⟩ | ⟨_, e⟩
    · refine ⟨by rw [c1]; exact r0, by rw [c3]; exact o0,
        handedNode env fi (decrementCounts fi.Fcb t) d, hfree, rfl, ?_, ?_, ?_, ?_⟩
      · exact m1.trans r0
      · exact m3.trans o0
      · exact m2.trans c2.symm
      · intro hz
        rw [c2] at hz
        simp only [handedNode, hz, if_true]
    · rw [e] at hnew
      simp only [visitKept, handedNode] at hnew
      rw [hold] at hnew
      cases hnew
    · rw [e] at hnew
      simp only [visitReferenced] at hnew
      rw [hold] at hnew
      cases hnew

theorem lockEvents_append (a b : List CloseEvent) :
    lockEvents (a ++ b) = lockEvents a ++ lockEvents b := by
  simp [lockEvents]

theorem lockEvents_diskWork (env : CloseEnv) (idx : Nat) (Fcb1 : FCB) (d : Bool) :
    lockEvents (diskWork env idx Fcb1 d) = [] := by
  unfold diskWork
  split_ifs <;> rfl

theorem lockEvents_acquireLocks (va : Bool) (idx : Nat) (hp : Bool) :
    lockEvents (acquireLocks va idx hp) = acquireLocks va idx hp := by
  cases va <;> cases hp <;> rfl

theorem lockEvents_releaseOuter (va : Bool) (idx : Nat) (hp : Bool) :
    lockEvents (releaseOuter va idx hp) = releaseOuter va idx hp := by
  cases va <;> cases hp <;> rfl

/-- Every branch of the loop body performs the same lock operations. -/
theorem fcbVisit_lockEvents (env : CloseEnv) (va : Bool) (idx : Nat) (fi : UDF_FILE_INFO)
    (hp : Bool) (t : Nat) (d : Bool) :
    lockEvents (fcbVisit env va idx fi hp t d).events = visitLocks va idx hp := by
  have hfl : ∀ b : Bool,
      lockEvents (if b = true then [CloseEvent.FsRtlFreeFileLock idx] else []) = [] := by
    intro b; cases b <;> rfl
  have hdr : ∀ b : Bool,
      lockEvents (if b = true then
        [CloseEvent.DeleteResource (.MainResource idx),
         CloseEvent.DeleteResource (.PagingIoResource idx)] else []) = [] := by
    intro b; cases b <;> rfl
  have h1 : lockEvents [CloseEvent.UDFCleanUpFile idx] = [] := rfl
  have h2 : lockEvents [CloseEvent.FsRtlTeardownPerStreamContexts idx,
      CloseEvent.Release (.MainResource idx)] = [CloseEvent.Release (.MainResource idx)] := rfl
  have h3 : lockEvents [CloseEvent.UDFCleanUpFCB idx, CloseEvent.MyFreePool idx] = [] := rfl
  have h4 : lockEvents [CloseEvent.UDFCleanUpFile idx,
      CloseEvent.Release (.MainResource idx)] = [CloseEvent.Release (.MainResource idx)] := rfl
  have h5 : lockEvents [CloseEvent.Release (.MainResource idx)] =
      [CloseEvent.Release (.MainResource idx)] := rfl
  rcases fcbVisit_eq env va idx fi hp t d with ⟨_, _, _, e⟩ | ⟨_, _, _, e⟩ | ⟨_, e⟩
  · rw [e]
    simp only [visitFreed, visitLocks, lockEvents_append, lockEvents_diskWork,
      lockEvents_acquireLocks, lockEvents_releaseOuter, hfl, hdr, h1, h2, h3,
      List.append_nil]
  · rw [e]
    simp only [visitKept, visitLocks, lockEvents_append, lockEvents_diskWork,
      lockEvents_acquireLocks, lockEvents_releaseOuter, h4, List.append_nil]
  · rw [e]
    simp only [visitReferenced, visitLocks, lockEvents_append,
      lockEvents_acquireLocks, lockEvents_releaseOuter, h5]

theorem visitLocks_expected (va : Bool) (idx : Nat) (parents : List UDF_FILE_INFO) :
    visitLocks va idx (!parents.isEmpty) = expectedLocks va (idx + (parents.length + 1)) idx := by
  cases parents with
  | nil => cases va <;> simp [visitLocks, expectedLocks, acquireLocks, releaseOuter]
  | cons x l => simp [visitLocks, expectedLocks, acquireLocks, releaseOuter]

theorem fcbWalk_iteration_locks (env : CloseEnv) (va : Bool) (chain : List UDF_FILE_INFO) :
    ∀ (idx t : Nat) (d : Bool),
      ∀ it ∈ (fcbWalk env va idx chain t d).iterations,
        lockEvents it.events = expectedLocks va (idx + chain.length) it.node := by
  induction chain with
  | nil => intro idx t d it hit; simp [fcbWalk] at hit
  | cons fi parents ih =>
    intro idx t d it hit
    have hv := fcbVisit_lockEvents env va idx fi (!parents.isEmpty) t d
    rw [visitLocks_expected] at hv
    simp only [fcbWalk] at hit
    split_ifs at hit
    · simp only [List.mem_cons] at hit
      rcases hit with h | h
      · subst h
        exact hv
      · have := ih (idx + 1) _ _ it h
        rw [this]
        congr 1
        simp only [List.length_cons]
        omega
    · simp only [List.mem_singleton] at hit
      subst hit
      exact hv

theorem replayLocks_release (held : List Resource) (r : Resource) (rest : List CloseEvent) :
    replayLocks held (.Release r :: rest) =
      if r ∈ held then replayLocks (held.erase r) rest else none := rfl

theorem replayLocks_append (a b : List CloseEvent) :
    ∀ held, replayLocks held (a ++ b) = (replayLocks held a).bind (fun h => replayLocks h b) := by
  induction a with
  | nil => intro held; rfl
  | cons e rest ih =>
    intro held
    cases e with
    | Release r =>
      rw [List.cons_append, replayLocks_release, replayLocks_release]
      by_cases h : r ∈ held
      · rw [if_pos h, if_pos h]
        exact ih _
      · rw [if_neg h, if_neg h]
        rfl
    | _ => exact ih _

theorem replayLocks_lockEvents (evs : List CloseEvent) :
    ∀ held, replayLocks held (lockEvents evs) = replayLocks held evs := by
  induction evs with
  | nil => intro held; rfl
  | cons e rest ih =>
    intro held
    have ih1 : ∀ held, replayLocks held (List.filter (fun e =>
        match e with
        | .AcquireShared _ => true
        | .AcquireExclusive _ => true
        | .Release _ => true
        | _ => false) rest) = replayLocks held rest := ih
    cases e <;> simp only [lockEvents, List.filter_cons, if_true, replayLocks, ih1,
      Bool.false_eq_true, if_false]

theorem replayLocks_visitLocks (va : Bool) (idx : Nat) (hp : Bool) (held : List Resource) :
    replayLocks held (visitLocks va idx hp) = some held := by
  cases va <;> cases hp <;>
    simp [visitLocks, acquireLocks, releaseOuter, replayLocks]

theorem fcbWalk_replay (env : CloseEnv) (va : Bool) (chain : List UDF_FILE_INFO) :
    ∀ (idx t : Nat) (d : Bool) (held : List Resource),
      replayLocks held
        ((fcbWalk env va idx chain t d).iterations.map (fun it => it.events)).flatten =
          some held := by
  induction chain with
  | nil => intro idx t d held; simp [fcbWalk, replayLocks]
  | cons fi parents ih =>
    intro idx t d held
    have hv : replayLocks held (fcbVisit env va idx fi (!parents.isEmpty) t d).events =
        some held := by
      rw [← replayLocks_lockEvents, fcbVisit_lockEvents, replayLocks_visitLocks]
    simp only [fcbWalk]
    split_ifs
    · simp only [List.map_cons, List.flatten_cons, replayLocks_append, hv, Option.some_bind, ih]
    · simp only [List.map_cons, List.map_nil, List.flatten_cons, List.flatten_nil,
        List.append_nil, hv]

/-- C10: in every iteration of `UDFCleanUpFcbChain`, on each of the three exit branches, the
outer lock (the parent's `MainResource`, or the volume resource for a parentless node when the
caller does not hold it) is acquired before the node's own `MainResource` and released after
it; and when the function returns the thread holds exactly the locks it held on entry, for
both values of `VcbAcquired`. -/
theorem UDFCleanUpFcbChain_locks (env : CloseEnv) (chain : List UDF_FILE_INFO)
    (TreeLength : Nat) (VcbAcquired : Bool) :
    (∀ it ∈ (UDFCleanUpFcbChain env chain TreeLength VcbAcquired).iterations,
      lockEvents it.events = expectedLocks VcbAcquired chain.length it.node) ∧
    (∀ held : List Resource,
      replayLocks held (UDFCleanUpFcbChain env chain TreeLength VcbAcquired).trace =
        some held) := by
  constructor
  · intro it hit
    have := fcbWalk_iteration_locks env VcbAcquired chain 0 TreeLength false it hit
    simpa using this
  · intro held
    have hw := fcbWalk_replay env VcbAcquired chain 0 TreeLength false
    cases VcbAcquired with
    | true =>
      simp only [UDFCleanUpFcbChain, Bool.not_true, Bool.false_eq_true, if_false,
        List.nil_append, List.append_nil, hw]
    | false =>
      have hrel : replayLocks (Resource.VCBResource :: held)
          [CloseEvent.Release Resource.VCBResource] = some held := by
        rw [replayLocks_release, if_pos (List.mem_cons_self _ _), List.erase_cons_head]
        rfl
      have hacq : ∀ rest, replayLocks held (CloseEvent.AcquireShared .VCBResource :: rest) =
          replayLocks (Resource.VCBResource :: held) rest := fun _ => rfl
      have hnil : replayLocks (Resource.VCBResource :: held) [] =
          some (Resource.VCBResource :: held) := rfl
      show replayLocks held
        ([CloseEvent.AcquireShared .VCBResource] ++
          ((fcbWalk env false 0 chain TreeLength false).iterations.map
            (fun it => it.events)).flatten ++ [CloseEvent.Release .VCBResource]) = some held
      rw [replayLocks_append, replayLocks_append, hacq, hnil, Option.some_bind, hw,
        Option.some_bind, hrel]

/-! ## Volume lock and dismount (C15, C16, C17) -/

/-- C16: the invalidation step of PnP remove, PnP surprise remove, `UDFInvalidateVolumes` and
`UDFDismountVolume` leaves `VcbDismountInProgress` as it is and sets every other condition to
`VcbInvalid`; applying it twice gives what applying it once gives; its result is never
`VcbMounted` or `VcbNotMounted`. -/
theorem invalidateCondition_spec (c : VCB_CONDITION) :
    invalidateCondition c =
      (if c = .VcbDismountInProgress then .VcbDismountInProgress else .VcbInvalid) ∧
    invalidateCondition (invalidateCondition c) = invalidateCondition c ∧
    invalidateCondition c ≠ .VcbMounted ∧ invalidateCondition c ≠ .VcbNotMounted := by
  cases c <;> simp [invalidateCondition]

/-- C15: on a volume-open handle `UDFDismountVolume` returns `STATUS_SUCCESS` exactly when,
at its checks (after the delayed closes were drained), the condition is `VcbMounted`, the
volume is locked, `VCBOpenCount <= UDF_RESIDUAL_REFERENCE + 1` and the locking file object is
the requester's; then the condition afterwards is `VcbDismountInProgress` or `VcbInvalid`.
Otherwise it returns `STATUS_VOLUME_DISMOUNTED` (not mounted), `STATUS_NOT_LOCKED` (not
locked or too many opens) or `STATUS_INVALID_PARAMETER` (locked by another handle) and leaves
the volume as it was at the checks. -/
theorem UDFDismountVolume_spec (env : VolumeEnv) (Vcb : VolumeVcb) (h : VolumeHandle)
    (hvol : h.isVolumeOpen = true) :
    ((UDFDismountVolume env Vcb h).outcome = .returned STATUS_SUCCESS ↔
      ((atDismountCheck env Vcb).VcbCondition = .VcbMounted ∧
       (atDismountCheck env Vcb).VolumeLocked = true ∧
       (atDismountCheck env Vcb).VCBOpenCount ≤ env.UDF_RESIDUAL_REFERENCE + 1 ∧
       (atDismountCheck env Vcb).VolumeLockFileObject = some h.FileObject)) ∧
    ((UDFDismountVolume env Vcb h).outcome = .returned STATUS_SUCCESS →
      ((UDFDismountVolume env Vcb h).Vcb.VcbCondition = .VcbDismountInProgress ∨
       (UDFDismountVolume env Vcb h).Vcb.VcbCondition = .VcbInvalid) ∧
      (UDFDismountVolume env Vcb h).Vcb.VcbCondition ≠ .VcbMounted) ∧
    ((UDFDismountVolume env Vcb h).outcome ≠ .returned STATUS_SUCCESS →
      (UDFDismountVolume env Vcb h).Vcb = atDismountCheck env Vcb ∧
      (UDFDismountVolume env Vcb h).outcome =
        (if (atDismountCheck env Vcb).VcbCondition ≠ .VcbMounted then
          .returned STATUS_VOLUME_DISMOUNTED
         else if (atDismountCheck env Vcb).VolumeLocked = false ∨
             (atDismountCheck env Vcb).VCBOpenCount > env.UDF_RESIDUAL_REFERENCE + 1 then
          .returned STATUS_NOT_LOCKED
         else .returned STATUS_INVALID_PARAMETER)) := by
  obtain ⟨fo, ccb⟩ := h
  cases ccb with
  | none => simp [VolumeHandle.isVolumeOpen] at hvol
  | some ccb =>
    simp only [VolumeHandle.isVolumeOpen, Bool.and_eq_true] at hvol
    have hs : ∀ c : VCB_CONDITION, invalidateCondition c = .VcbDismountInProgress ∨
        invalidateCondition c = .VcbInvalid := by
      intro c; cases c <;> simp [invalidateCondition]
    have hm : ∀ c : VCB_CONDITION, invalidateCondition c ≠ .VcbMounted := by
      intro c; cases c <;> simp [invalidateCondition]
    have e1 : STATUS_VOLUME_DISMOUNTED ≠ STATUS_SUCCESS := by decide
    have e2 : STATUS_NOT_LOCKED ≠ STATUS_SUCCESS := by decide
    have e3 : STATUS_INVALID_PARAMETER ≠ STATUS_SUCCESS := by decide
    simp only [UDFDismountVolume, atDismountCheck, hvol.1, hvol.2, Bool.not_true,
      Bool.or_self, Bool.false_eq_true, if_false]
    by_cases c1 : (drainDelayedCloses env Vcb).1.VcbCondition = .VcbMounted
    · by_cases c2 : (drainDelayedCloses env Vcb).1.VolumeLocked = true
      · by_cases c3 : (drainDelayedCloses env Vcb).1.VCBOpenCount >
            env.UDF_RESIDUAL_REFERENCE + 1
        · simp [c1, c2, c3, e2, Nat.not_le.mpr c3]
        · by_cases c4 : (drainDelayedCloses env Vcb).1.VolumeLockFileObject = some fo
          · simp [c1, c2, c3, c4, Nat.not_lt.mp c3, hs, hm]
          · simp [c1, c2, c3, c4, e3]
      · simp [c1, c2, e2]
    · simp [c1, e1]

/-- Witness for `UDFDismountVolume_spec`: the handle that locked the volume dismounts it. -/
theorem UDFDismountVolume_spec_witness :
    volumeHandle.isVolumeOpen = true ∧
    (UDFDismountVolume quietVolumeEnv lockedVolume volumeHandle).outcome =
      .returned STATUS_SUCCESS ∧
    (UDFDismountVolume quietVolumeEnv lockedVolume volumeHandle).Vcb.VcbCondition =
      .VcbInvalid :=
  ⟨rfl, ((UDFDismountVolume_spec quietVolumeEnv lockedVolume volumeHandle rfl).1).mpr
      (by decide), by decide⟩

/-- C17, as stated, fails: a lock request on an already locked volume made through a handle
that is not a volume open returns `STATUS_INVALID_PARAMETER`, not `STATUS_ACCESS_DENIED`. -/
theorem lock_request_through_file_handle :
    lockedVolume.VpbLocked = true ∧ lockedVolume.VolumeLocked = true ∧
    (UDFLockVolume quietVolumeEnv lockedVolume fileHandle ULONG_MAX).outcome =
      .returned STATUS_INVALID_PARAMETER ∧
    (UDFLockVolume quietVolumeEnv lockedVolume fileHandle ULONG_MAX).outcome ≠
      .returned STATUS_ACCESS_DENIED := by
  decide

/-- C17, amended: on a volume-open handle, when `UDFVerifyVcb` does not raise,
`UDFLockVolume` returns `STATUS_ACCESS_DENIED` and leaves the volume, so also its lock state,
as it was at the checks whenever `VCBOpenCount` exceeds `UDF_RESIDUAL_REFERENCE + 1` or the
volume is already locked (`VPB_LOCKED` set or `VolumeLockPID` not -1); when it returns
`STATUS_SUCCESS` it has set `VCB_STATE_VOLUME_LOCKED`, recorded the requesting file object and
the PID, and every later lock request on a volume with that lock state is denied. On a handle
that is not a volume open it returns `STATUS_INVALID_PARAMETER` and leaves the volume
untouched. -/
theorem UDFLockVolume_spec (env : VolumeEnv) (Vcb : VolumeVcb) (h : VolumeHandle) (PID : Nat)
    (hverify : env.UDFVerifyVcb (drainDelayedCloses env Vcb).1 = none) :
    (h.isVolumeOpen = false →
      (UDFLockVolume env Vcb h PID).outcome = .returned STATUS_INVALID_PARAMETER ∧
      (UDFLockVolume env Vcb h PID).Vcb = Vcb) ∧
    (h.isVolumeOpen = true →
      ((atLockCheck env Vcb).VCBOpenCount > env.UDF_RESIDUAL_REFERENCE + 1 ∨
        (atLockCheck env Vcb).VpbLocked = true ∨
        (atLockCheck env Vcb).VolumeLockPID ≠ ULONG_MAX →
          (UDFLockVolume env Vcb h PID).outcome = .returned STATUS_ACCESS_DENIED ∧
          (UDFLockVolume env Vcb h PID).Vcb = atLockCheck env Vcb ∧
          (UDFLockVolume env Vcb h PID).Vcb.lockState = (atLockCheck env Vcb).lockState) ∧
      ((UDFLockVolume env Vcb h PID).outcome = .returned STATUS_SUCCESS →
        (UDFLockVolume env Vcb h PID).Vcb.VolumeLocked = true ∧
        (UDFLockVolume env Vcb h PID).Vcb.VolumeLockFileObject = some h.FileObject ∧
        (UDFLockVolume env Vcb h PID).Vcb.VolumeLockPID = PID ∧
        ∀ (env2 : VolumeEnv) (Vcb2 : VolumeVcb) (h2 : VolumeHandle) (PID2 : Nat),
          h2.isVolumeOpen = true →
          env2.UDFVerifyVcb (drainDelayedCloses env2 Vcb2).1 = none →
          (atLockCheck env2 Vcb2).lockState = (UDFLockVolume env Vcb h PID).Vcb.lockState →
            (UDFLockVolume env2 Vcb2 h2 PID2).outcome = .returned STATUS_ACCESS_DENIED)) := by
  have denied : ∀ (env : VolumeEnv) (Vcb : VolumeVcb) (h : VolumeHandle) (PID : Nat),
      env.UDFVerifyVcb (drainDelayedCloses env Vcb).1 = none → h.isVolumeOpen = true →
      ((atLockCheck env Vcb).VCBOpenCount > env.UDF_RESIDUAL_REFERENCE + 1 ∨
        (atLockCheck env Vcb).VpbLocked = true ∨
        (atLockCheck env Vcb).VolumeLockPID ≠ ULONG_MAX) →
      (UDFLockVolume env Vcb h PID).outcome = .returned STATUS_ACCESS_DENIED ∧
      (UDFLockVolume env Vcb h PID).Vcb = atLockCheck env Vcb := by
    intro env Vcb h PID hverify hvol hc
    obtain ⟨fo, ccb⟩ := h
    cases ccb with
    | none => simp [VolumeHandle.isVolumeOpen] at hvol
    | some ccb =>
      simp only [VolumeHandle.isVolumeOpen, Bool.and_eq_true] at hvol
      simp only [atLockCheck] at hc
      simp only [UDFLockVolume, atLockCheck, hvol.1, hvol.2, Bool.not_true,
        Bool.or_self, Bool.false_eq_true, if_false, hverify]
      rcases hc with hc | hc | hc
      · simp [Nat.not_le.mpr hc]
      · simp [hc]
      · simp [hc]
  constructor
  · intro hvol
    obtain ⟨fo, ccb⟩ := h
    cases ccb with
    | none => simp [UDFLockVolume]
    | some ccb =>
      simp only [VolumeHandle.isVolumeOpen, Bool.and_eq_false_iff] at hvol
      rcases hvol with hv | hv <;> simp [UDFLockVolume, hv]
  · intro hvol
    constructor
    · intro hc
      obtain ⟨h1, h2⟩ := denied env Vcb h PID hverify hvol hc
      exact ⟨h1, h2, by rw [h2]⟩
    · intro hok
      have hstate : (UDFLockVolume env Vcb h PID).Vcb.VolumeLocked = true ∧
          (UDFLockVolume env Vcb h PID).Vcb.VolumeLockFileObject = some h.FileObject ∧
          (UDFLockVolume env Vcb h PID).Vcb.VolumeLockPID = PID ∧
          ((UDFLockVolume env Vcb h PID).Vcb.VpbLocked = true ∨
            (UDFLockVolume env Vcb h PID).Vcb.VolumeLockPID ≠ ULONG_MAX) := by
        obtain ⟨fo, ccb⟩ := h
        cases ccb with
        | none => simp [VolumeHandle.isVolumeOpen] at hvol
        | some ccb =>
          simp only [VolumeHandle.isVolumeOpen, Bool.and_eq_true] at hvol
          have e : STATUS_ACCESS_DENIED ≠ STATUS_SUCCESS := by decide
          simp only [UDFLockVolume, hvol.1, hvol.2, Bool.not_true,
            Bool.or_self, Bool.false_eq_true, if_false, hverify] at hok ⊢
          by_cases hcond :
              (!(env.UDFFlushLogicalVolume (drainDelayedCloses env Vcb).1).VpbLocked &&
                decide ((env.UDFFlushLogicalVolume
                  (drainDelayedCloses env Vcb).1).VolumeLockPID = ULONG_MAX) &&
                decide ((env.UDFFlushLogicalVolume
                  (drainDelayedCloses env Vcb).1).VCBOpenCount ≤
                    env.UDF_RESIDUAL_REFERENCE + 1) &&
                decide ((env.UDFFlushLogicalVolume
                  (drainDelayedCloses env Vcb).1).VpbReferenceCount = 2)) = true
          · simp only [hcond, if_true]
            by_cases hp : PID = ULONG_MAX <;> simp [hp]
          · simp only [hcond, if_false] at hok
            simp [e] at hok
      refine ⟨hstate.1, hstate.2.1, hstate.2.2.1, ?_⟩
      intro env2 Vcb2 h2 PID2 hvol2 hverify2 hsame
      have hl : (atLockCheck env2 Vcb2).VpbLocked = true ∨
          (atLockCheck env2 Vcb2).VolumeLockPID ≠ ULONG_MAX := by
        simp only [VolumeVcb.lockState, Prod.mk.injEq] at hsame
        rw [hsame.1, hsame.2.2.2]
        exact hstate.2.2.2
      exact (denied env2 Vcb2 h2 PID2 hverify2 hvol2 (Or.inr hl)).1

/-- Witness for `UDFLockVolume_spec`: the volume handle locks an unlocked volume, and a second
request is denied. -/
theorem UDFLockVolume_spec_witness :
    quietVolumeEnv.UDFVerifyVcb (drainDelayedCloses quietVolumeEnv unlockedVolume).1 = none ∧
    (UDFLockVolume quietVolumeEnv unlockedVolume volumeHandle ULONG_MAX).outcome =
      .returned STATUS_SUCCESS ∧
    (UDFLockVolume quietVolumeEnv
      (UDFLockVolume quietVolumeEnv unlockedVolume volumeHandle ULONG_MAX).Vcb
      volumeHandle ULONG_MAX).outcome = .returned STATUS_ACCESS_DENIED :=
  ⟨rfl, by decide,
    ((UDFLockVolume_spec quietVolumeEnv unlockedVolume volumeHandle ULONG_MAX rfl).2 rfl).2
      (by decide) |>.2.2.2 quietVolumeEnv _ volumeHandle ULONG_MAX rfl rfl rfl⟩


/-! ## How far the chain walk goes (C20) -/

/-- The loop goes on after a pass exactly when the node was released or `TreeLength` is still
non-zero after the pass. -/
theorem fcbVisit_continues (env : CloseEnv) (va : Bool) (idx : Nat) (fi : UDF_FILE_INFO)
    (hp : Bool) (t : Nat) (d : Bool) :
    (fcbVisit env va idx fi hp t d).continues = true ↔
      ((fcbVisit env va idx fi hp t d).freed = true ∨ t - 1 ≠ 0) := by
  rcases fcbVisit_eq env va idx fi hp t d with ⟨_, _, _, e⟩ | ⟨_, _, _, e⟩ | ⟨_, e⟩ <;> rw [e]
  · simp [visitFreed]
  · simp [visitKept]
  · simp [visitReferenced]

/-- A node that is unreferenced and closed after a pass but was not released has both
pointers to its `FCB` restored (lines 511-512). -/
theorem fcbVisit_restored (env : CloseEnv) (va : Bool) (idx : Nat) (fi : UDF_FILE_INFO)
    (hp : Bool) (t : Nat) (d : Bool)
    (hf : (fcbVisit env va idx fi hp t d).freed = false)
    (hr : (fcbVisit env va idx fi hp t d).node.Fcb.ReferenceCount = 0)
    (ho : (fcbVisit env va idx fi hp t d).node.Fcb.OpenHandleCount = 0) :
    (fcbVisit env va idx fi hp t d).node.FcbLinked = true ∧
    (fcbVisit env va idx fi hp t d).node.CommonFcbLinked = true := by
  obtain ⟨c1, _, c3⟩ := fcbVisit_node_counts env va idx fi hp t d
  rcases fcbVisit_eq env va idx fi hp t d with ⟨_, _, _, e⟩ | ⟨_, _, _, e⟩ | ⟨hn, e⟩
  · rw [e] at hf
    simp [visitFreed] at hf
  · rw [e]
    exact ⟨rfl, rfl⟩
  · exact absurd ⟨c1.symm.trans hr, c3.symm.trans ho⟩ hn

theorem fcbWalk_iterations_ne_nil (env : CloseEnv) (va : Bool) (fi : UDF_FILE_INFO)
    (parents : List UDF_FILE_INFO) (idx t : Nat) (d : Bool) :
    (fcbWalk env va idx (fi :: parents) t d).iterations ≠ [] := by
  simp only [fcbWalk]
  split_ifs <;> simp


/-- The passes of the loop started at position `idx` with budget `t`: where each pass stands,
what budget it leaves, and when the loop goes on to the parent. -/
theorem fcbWalk_passes (env : CloseEnv) (va : Bool) (chain : List UDF_FILE_INFO) :
    ∀ (idx t : Nat) (d : Bool),
      (∀ it ∈ (fcbWalk env va idx chain t d).iterations,
        idx ≤ it.node ∧ it.TreeLength = t - (it.node + 1 - idx) ∧
        (fcbWalk env va idx chain t d).chain[it.node - idx]? = some it.after ∧
        (it.freed = false → it.after.Fcb.ReferenceCount = 0 →
          it.after.Fcb.OpenHandleCount = 0 →
          it.after.FcbLinked = true ∧ it.after.CommonFcbLinked = true) ∧
        ((it.freed = true ∨ it.TreeLength ≠ 0) → it.node + 1 < idx + chain.length →
          ∃ next ∈ (fcbWalk env va idx chain t d).iterations, next.node = it.node + 1)) ∧
      (∀ it ∈ (fcbWalk env va idx chain t d).iterations.head?, it.node = idx) ∧
      List.Chain'
        (fun it next => next.node = it.node + 1 ∧ (it.freed = true ∨ it.TreeLength ≠ 0))
        (fcbWalk env va idx chain t d).iterations ∧
      (fcbWalk env va idx chain t d).iterations.length ≤
        max t 1 +
          ((fcbWalk env va idx chain t d).iterations.filter (fun it => it.freed)).length := by
  induction chain with
  | nil =>
    intro idx t d
    simp [fcbWalk]
  | cons fi parents ih =>
    intro idx t d
    have hvt := fcbVisit_TreeLength env va idx fi (!parents.isEmpty) t d
    have hvc := fcbVisit_continues env va idx fi (!parents.isEmpty) t d
    have hvr := fcbVisit_restored env va idx fi (!parents.isEmpty) t d
    simp only [fcbWalk]
    split_ifs with hcont
    · obtain ⟨i1, i2, i3, i5⟩ := ih (idx + 1)
        (fcbVisit env va idx fi (!parents.isEmpty) t d).TreeLength
        (fcbVisit env va idx fi (!parents.isEmpty) t d).Delete
      refine ⟨?_, ?_, ?_, ?_⟩
      · intro it hit
        rcases List.mem_cons.1 hit with rfl | hit
        · refine ⟨le_rfl, ?_, ?_, hvr, ?_⟩
          · simp [hvt]
          · simp
          · intro _ hlen
            cases parents with
            | nil => simp at hlen
            | cons p ps =>
              have hne := fcbWalk_iterations_ne_nil env va p ps (idx + 1)
                (fcbVisit env va idx fi (!(p :: ps).isEmpty) t d).TreeLength
                (fcbVisit env va idx fi (!(p :: ps).isEmpty) t d).Delete
              obtain ⟨x, xs, hx⟩ := List.exists_cons_of_ne_nil hne
              refine ⟨x, ?_, ?_⟩
              · rw [hx]; simp
              · exact i2 x (by rw [hx]; simp)
        · obtain ⟨a, b, c, e, f⟩ := i1 it hit
          refine ⟨by omega, ?_, ?_, e, ?_⟩
          · rw [b, hvt]; omega
          · have hsub : it.node - idx = (it.node - (idx + 1)) + 1 := by omega
            rw [hsub, List.getElem?_cons_succ]
            exact c
          · intro h1 h2
            obtain ⟨next, hn1, hn2⟩ := f h1 (by simp at h2; omega)
            exact ⟨next, List.mem_cons_of_mem _ hn1, hn2⟩
      · intro it hit
        simp at hit
        rw [← hit]
      · rw [List.chain'_cons']
        refine ⟨?_, i3⟩
        intro y hy
        refine ⟨i2 y hy, ?_⟩
        rw [hvt]
        exact hvc.1 hcont
      · simp only [List.length_cons, List.filter_cons]
        rcases hvc.1 hcont with hf | hne
        · simp only [hf, if_true, List.length_cons]
          omega
        · split_ifs
          · simp only [List.length_cons]; omega
          · omega
    · have hstop : ¬ ((fcbVisit env va idx fi (!parents.isEmpty) t d).freed = true ∨
          t - 1 ≠ 0) := fun h => hcont (hvc.2 h)
      refine ⟨?_, ?_, ?_, ?_⟩
      · intro it hit
        rw [List.mem_singleton] at hit
        subst hit
        refine ⟨le_rfl, ?_, ?_, hvr, ?_⟩
        · simp [hvt]
        · simp
        · intro h
          rw [hvt] at h
          exact absurd h hstop
      · intro it hit
        simp at hit
        rw [← hit]
      · exact List.chain'_singleton _
      · simp only [List.length_singleton]
        omega


/-- C20, as stated, fails on both counts. With `TreeLength = 1` the walk visits two nodes of
`sampleChain`: the leaf is released and the loop goes on to its parent with no budget left.
And a node that reached zero references and zero handles but is kept (its `CommonRefCount` is
still 1, so `UDFCleanUpFile__` refuses) has its pointers restored while the walk goes on to its
parent, because `TreeLength` is still non-zero. -/
theorem walk_passes_beyond_TreeLength :
    (UDFCleanUpFcbChain freeingEnv sampleChain 1 true).iterations.map
        (fun it => (it.node, it.freed)) = [(0, true), (1, false)] ∧
    (UDFCleanUpFcbChain dlocEnv [sampleNode 1 2 0, sampleNode 2 2 0] 2 true).iterations.map
        (fun it => (it.node, it.freed, it.after.Fcb.ReferenceCount,
          it.after.Fcb.OpenHandleCount, it.after.FcbLinked)) =
      [(0, false, 0, 0, true), (1, false, 1, 0, true)] := by
  constructor <;> with_unfolding_all decide

/-- C20, amended: `UDFCleanUpFcbChain` visits the chain leaf first, one node per pass, and
moves from a node to its parent exactly when a parent exists and either the node was released
or `TreeLength` is still non-zero after the pass, where the pass at position k leaves
`TreeLength - (k + 1)`; so the number of passes is at most `TreeLength` (at least one) plus
the number of released nodes. A node that has reached zero references and zero open handles
but is not released has `fi->Fcb` and `Dloc->CommonFcb` restored, and the walk stops at it
only when `TreeLength` is exhausted. -/
theorem UDFCleanUpFcbChain_walk (env : CloseEnv) (chain : List UDF_FILE_INFO)
    (TreeLength : Nat) (VcbAcquired : Bool) :
    List.Chain'
      (fun it next => next.node = it.node + 1 ∧ (it.freed = true ∨ it.TreeLength ≠ 0))
      (UDFCleanUpFcbChain env chain TreeLength VcbAcquired).iterations ∧
    (∀ it ∈ (UDFCleanUpFcbChain env chain TreeLength VcbAcquired).iterations.head?,
      it.node = 0) ∧
    (∀ it ∈ (UDFCleanUpFcbChain env chain TreeLength VcbAcquired).iterations,
      it.TreeLength = TreeLength - (it.node + 1) ∧
      (UDFCleanUpFcbChain env chain TreeLength VcbAcquired).chain[it.node]? = some it.after ∧
      ((it.freed = true ∨ it.TreeLength ≠ 0) → it.node + 1 < chain.length →
        ∃ next ∈ (UDFCleanUpFcbChain env chain TreeLength VcbAcquired).iterations,
          next.node = it.node + 1) ∧
      (it.freed = false → it.after.Fcb.ReferenceCount = 0 →
        it.after.Fcb.OpenHandleCount = 0 →
        it.after.FcbLinked = true ∧ it.after.CommonFcbLinked = true)) ∧
    (UDFCleanUpFcbChain env chain TreeLength VcbAcquired).iterations.length ≤
      max TreeLength 1 +
        ((UDFCleanUpFcbChain env chain TreeLength VcbAcquired).iterations.filter
          (fun it => it.freed)).length := by
  obtain ⟨h1, h2, h3, h4⟩ := fcbWalk_passes env VcbAcquired chain 0 TreeLength false
  refine ⟨h3, h2, ?_, h4⟩
  intro it hit
  obtain ⟨_, b, c, e, f⟩ := h1 it hit
  refine ⟨by simpa using b, by simpa using c, ?_, e⟩
  intro p q
  exact f p (by simpa using q)


/-! ## Byte-range locks on a volume or a directory (C19) -/

/-- C19: when the target of a byte-range lock operation is the volume object or a directory,
`UDFCommonLockControl` returns STATUS_INVALID_PARAMETER and each of `UDFFastLock`,
`UDFFastUnlockSingle`, `UDFFastUnlockAll` and `UDFFastUnlockAllByKey` stores
STATUS_INVALID_PARAMETER in the status block and returns TRUE; none of them makes any call
before that (no acquire of `MainResource`, no test, creation or use of `FileLock`), and
`UDFCommonLockControl` neither posts the request nor changes the overflow queue. -/
theorem lock_on_volume_or_directory (env : LockEnv) (thr : Nat) (Vcb : VCB)
    (IrpContext : IRP_CONTEXT) (Irp : PIRP) (Fcb : LockFcb)
    (htarget : Fcb.IsVcb = true ∨ Fcb.Directory = true) :
    UDFCommonLockControl env thr Vcb IrpContext Irp Fcb =
      { RC := STATUS_INVALID_PARAMETER, events := [], Vcb := Vcb, WorkItem := none } ∧
    (∀ r ∈ [UDFFastLock env Fcb, UDFFastUnlockSingle env Fcb, UDFFastUnlockAll env Fcb,
        UDFFastUnlockAllByKey env Fcb],
      r.Results = true ∧ r.Status = some STATUS_INVALID_PARAMETER ∧ r.events = []) := by
  have hrej : Fcb.rejected = true := by
    unfold LockFcb.rejected
    rcases htarget with h | h <;> simp [h]
  refine ⟨?_, ?_⟩
  · simp only [UDFCommonLockControl, hrej, if_true]
  · intro r hr
    simp only [List.mem_cons, List.mem_singleton, List.not_mem_nil, or_false] at hr
    rcases hr with rfl | rfl | rfl | rfl
    · simp only [UDFFastLock, hrej, if_true, and_self]
    · simp only [UDFFastUnlockSingle, hrej, if_true, and_self]
    · simp only [UDFFastUnlockAll, hrej, if_true, and_self]
    · simp only [UDFFastUnlockAllByKey, hrej, if_true, and_self]

/-- Witness for `lock_on_volume_or_directory`: a directory that already has a file lock. -/
theorem lock_on_volume_or_directory_witness :
    directoryTarget.Directory = true ∧
    UDFCommonLockControl grantingLockEnv 16 VCB.initial lockContext 1 directoryTarget =
      { RC := STATUS_INVALID_PARAMETER, events := [], Vcb := VCB.initial, WorkItem := none } ∧
    (∀ r ∈ [UDFFastLock grantingLockEnv directoryTarget,
        UDFFastUnlockSingle grantingLockEnv directoryTarget,
        UDFFastUnlockAll grantingLockEnv directoryTarget,
        UDFFastUnlockAllByKey grantingLockEnv directoryTarget],
      r.Results = true ∧ r.Status = some STATUS_INVALID_PARAMETER ∧ r.events = []) :=
  ⟨rfl, lock_on_volume_or_directory grantingLockEnv 16 VCB.initial lockContext 1
    directoryTarget (Or.inr rfl)⟩


/-! ## Failure of `UDFInitializeVCB` (C18) -/

theorem initResources_done (init : VcbResource → NTSTATUS) (l : List VcbResource) :
    ∀ r ∈ (initResources init l).1, NT_SUCCESS (init r) = true := by
  induction l with
  | nil => simp [initResources]
  | cons x l ih =>
    intro r hr
    simp only [initResources] at hr
    split_ifs at hr with hx
    · rcases List.mem_cons.1 hr with rfl | h
      · exact hx
      · exact ih r h
    · simp at hr

theorem initResources_take (init : VcbResource → NTSTATUS) (l : List VcbResource) :
    (initResources init l).1 = l.take (initResources init l).1.length := by
  induction l with
  | nil => simp [initResources]
  | cons x l ih =>
    simp only [initResources]
    split_ifs with hx
    · simp only [List.length_cons, List.take_succ_cons]
      rw [← ih]
    · simp

theorem initResources_failed (init : VcbResource → NTSTATUS) (l : List VcbResource)
    (r : VcbResource) (h : (initResources init l).2 = some r) :
    NT_SUCCESS (init r) = false ∧ r ∈ l := by
  induction l with
  | nil => simp [initResources] at h
  | cons x l ih =>
    simp only [initResources] at h
    split_ifs at h with hx
    · exact ⟨(ih h).1, List.mem_cons_of_mem _ (ih h).2⟩
    · simp only [Option.some.injEq] at h
      subst h
      exact ⟨by simpa using hx, List.mem_cons_self _ _⟩

theorem initResources_none (init : VcbResource → NTSTATUS) (l : List VcbResource)
    (h : (initResources init l).2 = none) : (initResources init l).1 = l := by
  induction l with
  | nil => simp [initResources]
  | cons x l ih =>
    simp only [initResources] at h ⊢
    split_ifs at h ⊢ with hx
    rw [ih h]

theorem vcbResources_filter_take (k : Nat) :
    vcbResources.filter (fun r => decide (r ∈ vcbResources.take k)) = vcbResources.take k := by
  by_cases h : k < 10
  · interval_cases k <;> decide
  · have hk : vcbResources.length ≤ k := by
      have : vcbResources.length = 9 := rfl
      omega
    rw [List.take_of_length_le hk]
    decide

theorem deletedResources_append (a b : List InitEvent) :
    deletedResources (a ++ b) = deletedResources a ++ deletedResources b := by
  simp [deletedResources]

theorem deletedResources_inits (l : List VcbResource) :
    deletedResources (l.map .UDFInitializeResourceLite) = [] := by
  induction l with
  | nil => rfl
  | cons x l ih => simp [deletedResources]

theorem deletedResources_deletes (l : List VcbResource) :
    deletedResources (l.map .UDFDeleteResource) = l := by
  induction l with
  | nil => rfl
  | cons x l ih => simpa [deletedResources] using ih

theorem initialisedResources_append (init : VcbResource → NTSTATUS) (a b : List InitEvent) :
    initialisedResources init (a ++ b) =
      initialisedResources init a ++ initialisedResources init b := by
  simp [initialisedResources]

theorem initialisedResources_inits (init : VcbResource → NTSTATUS) (l : List VcbResource)
    (h : ∀ r ∈ l, NT_SUCCESS (init r) = true) :
    initialisedResources init (l.map .UDFInitializeResourceLite) = l := by
  induction l with
  | nil => rfl
  | cons x l ih =>
    have hx := h x (List.mem_cons_self _ _)
    have hl := ih (fun r hr => h r (List.mem_cons_of_mem _ hr))
    simp only [initialisedResources, List.map_cons, List.filterMap_cons, hx, if_true]
    exact congrArg (List.cons x) hl

theorem initialisedResources_deletes (init : VcbResource → NTSTATUS) (l : List VcbResource) :
    initialisedResources init (l.map .UDFDeleteResource) = [] := by
  induction l with
  | nil => rfl
  | cons x l ih => simp [initialisedResources]


/-- The four ways through `UDFInitializeVCB`: a resource fails after the first k succeeded,
the statistics buffer is refused, the allocation of the spare `VPB` raises, or every step
succeeds. -/
theorem UDFInitializeVCB_eq (env : InitEnv) :
    (∃ r k, NT_SUCCESS (env.UDFInitializeResourceLite r) = false ∧ r ∈ vcbResources ∧
      (∀ x ∈ vcbResources.take k, NT_SUCCESS (env.UDFInitializeResourceLite x) = true) ∧
      UDFInitializeVCB env =
        initUnwind (env.UDFInitializeResourceLite r) (vcbResources.take k)
          ((vcbResources.take k ++ [r]).map .UDFInitializeResourceLite) false) ∨
    ((∀ x ∈ vcbResources, NT_SUCCESS (env.UDFInitializeResourceLite x) = true) ∧
      env.Statistics = false ∧
      UDFInitializeVCB env =
        initUnwind STATUS_INSUFFICIENT_RESOURCES vcbResources
          (vcbResources.map .UDFInitializeResourceLite ++ [.AllocateStatistics]) false) ∨
    ((∀ x ∈ vcbResources, NT_SUCCESS (env.UDFInitializeResourceLite x) = true) ∧
      env.Statistics = true ∧ env.SwapVpb = false ∧
      UDFInitializeVCB env =
        { RC := env.UDFInitializeResourceLite .IoResource
          Raised := some poolExhausted
          Vcb := { InitVcb.zero with Statistics := true }
          events :=
            vcbResources.map .UDFInitializeResourceLite ++
            [.AllocateStatistics, .AllocateSwapVpb] }) ∨
    ((∀ x ∈ vcbResources, NT_SUCCESS (env.UDFInitializeResourceLite x) = true) ∧
      env.Statistics = true ∧ env.SwapVpb = true ∧
      UDFInitializeVCB env =
        { RC := STATUS_SUCCESS
          Raised := none
          Vcb :=
            { OverflowQueueInitialized := true, OverflowQueue := [], OverflowQueueCount := 0
              PostedRequestCount := 0, VolumeLockPID := ULONG_MAX, VCBOpenCount := 1
              Statistics := true, SwapVpb := true, Linked := true, FlagInitialized := true
              FlagRemovableMedia := env.RemovableMedia }
          events :=
            vcbResources.map .UDFInitializeResourceLite ++
            [.AllocateStatistics, .AllocateSwapVpb, .InsertTailList] }) := by
  have hdone := initResources_done env.UDFInitializeResourceLite vcbResources
  have htake := initResources_take env.UDFInitializeResourceLite vcbResources
  cases h2 : (initResources env.UDFInitializeResourceLite vcbResources).2 with
  | some r =>
    left
    obtain ⟨hr, hmem⟩ := initResources_failed _ _ r h2
    refine ⟨r, (initResources env.UDFInitializeResourceLite vcbResources).1.length, hr, hmem,
      ?_, ?_⟩
    · rw [← htake]; exact hdone
    · rw [← htake]
      simp only [UDFInitializeVCB, h2]
  | none =>
    right
    have hall := initResources_none _ _ h2
    rw [hall] at hdone
    cases hs : env.Statistics with
    | false =>
      left
      refine ⟨hdone, rfl, ?_⟩
      simp only [UDFInitializeVCB, h2, hall, hs, Bool.not_false, if_true]
    | true =>
      right
      cases hv : env.SwapVpb with
      | false =>
        left
        have hio : NT_SUCCESS (env.UDFInitializeResourceLite .IoResource) = true :=
          hdone _ (by decide)
        refine ⟨hdone, rfl, rfl, ?_⟩
        simp [UDFInitializeVCB, h2, hall, hs, hv, hio]
      | true =>
        right
        refine ⟨hdone, rfl, rfl, ?_⟩
        simp [UDFInitializeVCB, h2, hall, hs, hv]


/-- What the unwinding at lines 1492-1518 leaves behind, given that the resources whose flag
is set are the first k, all initialised with success, and no other call in the trace so far
initialised or deleted a resource or touched the global queue. -/
theorem initUnwind_spec (init : VcbResource → NTSTATUS) (RC : NTSTATUS) (k : Nat)
    (attempts : List InitEvent) (Statistics : Bool)
    (hinit : initialisedResources init attempts = vcbResources.take k)
    (hdel : deletedResources attempts = [])
    (hfree : InitEvent.FreeStatistics ∉ attempts)
    (hlink : InitEvent.InsertTailList ∉ attempts) :
    deletedResources (initUnwind RC (vcbResources.take k) attempts Statistics).events =
      initialisedResources init
        (initUnwind RC (vcbResources.take k) attempts Statistics).events ∧
    (InitEvent.FreeStatistics ∈
        (initUnwind RC (vcbResources.take k) attempts Statistics).events ↔
      Statistics = true) ∧
    InitEvent.InsertTailList ∉
      (initUnwind RC (vcbResources.take k) attempts Statistics).events ∧
    (initUnwind RC (vcbResources.take k) attempts Statistics).RC = RC ∧
    (initUnwind RC (vcbResources.take k) attempts Statistics).Vcb = InitVcb.zero := by
  have hfd : deletedResources (if Statistics then [InitEvent.FreeStatistics] else []) = [] := by
    cases Statistics <;> rfl
  have hfi : initialisedResources init
      (if Statistics then [InitEvent.FreeStatistics] else []) = [] := by
    cases Statistics <;> rfl
  refine ⟨?_, ?_, ?_, rfl, rfl⟩
  · simp only [initUnwind, deletedResources_append, initialisedResources_append, hinit, hdel,
      hfd, hfi, deletedResources_deletes, initialisedResources_deletes,
      vcbResources_filter_take, List.nil_append, List.append_nil]
  · simp only [initUnwind, List.mem_append, List.mem_map, hfree, false_or, reduceCtorEq,
      and_false, exists_false, or_false]
    cases Statistics <;> simp
  · simp only [initUnwind, List.mem_append, List.mem_map, hlink, false_or, reduceCtorEq,
      and_false, exists_false, or_false]
    cases Statistics <;> simp


theorem initUnwind_allocate (RC : NTSTATUS) (done : List VcbResource)
    (attempts : List InitEvent) (Statistics : Bool) :
    InitEvent.AllocateStatistics ∈ (initUnwind RC done attempts Statistics).events ↔
      InitEvent.AllocateStatistics ∈ attempts := by
  simp only [initUnwind, List.mem_append, List.mem_map, reduceCtorEq, and_false, exists_false,
    or_false]
  cases Statistics <;> simp

theorem inits_only (l : List VcbResource) :
    InitEvent.FreeStatistics ∉ l.map InitEvent.UDFInitializeResourceLite ∧
    InitEvent.InsertTailList ∉ l.map InitEvent.UDFInitializeResourceLite ∧
    InitEvent.AllocateStatistics ∉ l.map InitEvent.UDFInitializeResourceLite := by
  simp only [List.mem_map, reduceCtorEq, and_false, exists_false, not_false_eq_true, and_self]

/-- The caller after `UDFInitializeVCB` has returned a failure (fscntrl.cpp 470-473,
685-722). -/
theorem UDFMountVolume_failure (env : MountEnv) (VolDo : Nat)
    (hcreate : NT_SUCCESS env.CreateRC = true)
    (hr : (UDFInitializeVCB env.init).Raised = none)
    (h : NT_SUCCESS (UDFInitializeVCB env.init).RC = false) :
    (UDFMountVolume env VolDo).VpbDeviceObject = none ∧
    (UDFMountVolume env VolDo).Vcb = none ∧
    InitEvent.IoDeleteDevice VolDo ∈ (UDFMountVolume env VolDo).events := by
  unfold UDFMountVolume
  simp only [hcreate, hr, h, Bool.not_true, Bool.not_false, Bool.false_eq_true, if_false,
    if_true]
  unfold mountFinally
  simp only [h, Bool.not_false, if_true]
  split_ifs <;> simp

/-- The returns of `UDFInitializeVCB`. It returns, rather than raises, exactly when one of
the nine `UDFInitializeResourceLite` calls gives a failure status, the statistics buffer is
refused or the spare `VPB` is allocated; it then fails exactly in the first two cases. When
it returns a failure, the resources it deletes are exactly those it had initialised, the
statistics buffer is not allocated, the `VCB` is not linked into `UDFGlobalData.VCBQueue` and
`VCB_STATE_VCB_INITIALIZED` is not set; `UDFMountVolume` then clears `Vpb->DeviceObject` and
calls `IoDeleteDevice` on the volume device object. When it succeeds, it returns
STATUS_SUCCESS with an initialised, empty overflow queue, `OverflowQueueCount = 0`,
`PostedRequestCount = 0`, `VCBOpenCount = 1` and `VolumeLockPID = 0xFFFFFFFF` (the ULONG -1),
linked and marked initialised, and nothing is deleted. -/
theorem UDFInitializeVCB_returns (env : MountEnv) (VolDo : Nat)
    (hcreate : NT_SUCCESS env.CreateRC = true) :
    ((UDFInitializeVCB env.init).Raised = none ↔
      ((∃ r ∈ vcbResources, NT_SUCCESS (env.init.UDFInitializeResourceLite r) = false) ∨
        env.init.Statistics = false ∨ env.init.SwapVpb = true)) ∧
    ((UDFInitializeVCB env.init).Raised = none →
      (NT_SUCCESS (UDFInitializeVCB env.init).RC = false ↔
        ((∃ r ∈ vcbResources, NT_SUCCESS (env.init.UDFInitializeResourceLite r) = false) ∨
          env.init.Statistics = false))) ∧
    ((UDFInitializeVCB env.init).Raised = none →
      NT_SUCCESS (UDFInitializeVCB env.init).RC = false →
      deletedResources (UDFInitializeVCB env.init).events =
        initialisedResources env.init.UDFInitializeResourceLite
          (UDFInitializeVCB env.init).events ∧
      InitEvent.FreeStatistics ∉ (UDFInitializeVCB env.init).events ∧
      (UDFInitializeVCB env.init).Vcb.Statistics = false ∧
      InitEvent.InsertTailList ∉ (UDFInitializeVCB env.init).events ∧
      (UDFInitializeVCB env.init).Vcb.Linked = false ∧
      (UDFInitializeVCB env.init).Vcb.FlagInitialized = false ∧
      (UDFMountVolume env VolDo).VpbDeviceObject = none ∧
      (UDFMountVolume env VolDo).Vcb = none ∧
      InitEvent.IoDeleteDevice VolDo ∈ (UDFMountVolume env VolDo).events) ∧
    ((UDFInitializeVCB env.init).Raised = none →
      NT_SUCCESS (UDFInitializeVCB env.init).RC = true →
      (UDFInitializeVCB env.init).RC = STATUS_SUCCESS ∧
      (UDFInitializeVCB env.init).Vcb.OverflowQueueInitialized = true ∧
      (UDFInitializeVCB env.init).Vcb.OverflowQueue = [] ∧
      (UDFInitializeVCB env.init).Vcb.OverflowQueueCount = 0 ∧
      (UDFInitializeVCB env.init).Vcb.PostedRequestCount = 0 ∧
      (UDFInitializeVCB env.init).Vcb.VCBOpenCount = 1 ∧
      (UDFInitializeVCB env.init).Vcb.VolumeLockPID = ULONG_MAX ∧
      (UDFInitializeVCB env.init).Vcb.Linked = true ∧
      (UDFInitializeVCB env.init).Vcb.FlagInitialized = true ∧
      deletedResources (UDFInitializeVCB env.init).events = [] ∧
      initialisedResources env.init.UDFInitializeResourceLite
        (UDFInitializeVCB env.init).events = vcbResources ∧
      (UDFMountVolume env VolDo).VpbDeviceObject = some VolDo) := by
  have hmount := UDFMountVolume_failure env VolDo hcreate
  have hfull : vcbResources = vcbResources.take 9 := rfl
  have hbad : NT_SUCCESS STATUS_INSUFFICIENT_RESOURCES = false := by decide
  have hgood : NT_SUCCESS STATUS_SUCCESS = true := by decide
  rcases UDFInitializeVCB_eq env.init with
    ⟨r, k, hr, hmem, hk, e⟩ | ⟨hall, hs, e⟩ | ⟨hall, hs, hv, e⟩ | ⟨hall, hs, hv, e⟩
  · have hinit : initialisedResources env.init.UDFInitializeResourceLite
        ((vcbResources.take k ++ [r]).map .UDFInitializeResourceLite) =
          vcbResources.take k := by
      rw [List.map_append, initialisedResources_append, initialisedResources_inits _ _ hk]
      simp [initialisedResources, hr]
    obtain ⟨u1, u2, u3, u4, u5⟩ := initUnwind_spec env.init.UDFInitializeResourceLite
      (env.init.UDFInitializeResourceLite r) k
      ((vcbResources.take k ++ [r]).map .UDFInitializeResourceLite) false hinit
      (deletedResources_inits _) (inits_only _).1 (inits_only _).2.1
    have hnone : (UDFInitializeVCB env.init).Raised = none := by rw [e]; rfl
    rw [← e] at u1 u2 u3 u4 u5
    have hfail : NT_SUCCESS (UDFInitializeVCB env.init).RC = false := by rw [u4]; exact hr
    refine ⟨⟨fun _ => Or.inl ⟨r, hmem, hr⟩, fun _ => hnone⟩,
      fun _ => ⟨fun _ => Or.inl ⟨r, hmem, hr⟩, fun _ => hfail⟩, fun _ _ => ?_, fun _ h => ?_⟩
    · refine ⟨u1, ?_, by rw [u5]; rfl, u3, by rw [u5]; rfl, by rw [u5]; rfl,
        hmount hnone hfail⟩
      rw [u2]
      simp
    · rw [hfail] at h
      cases h
  · have hinit : initialisedResources env.init.UDFInitializeResourceLite
        (vcbResources.map .UDFInitializeResourceLite ++ [.AllocateStatistics]) =
          vcbResources.take 9 := by
      rw [initialisedResources_append, initialisedResources_inits _ _ hall]
      rfl
    rw [hfull] at e
    obtain ⟨u1, u2, u3, u4, u5⟩ := initUnwind_spec env.init.UDFInitializeResourceLite
      STATUS_INSUFFICIENT_RESOURCES 9
      (vcbResources.map .UDFInitializeResourceLite ++ [.AllocateStatistics]) false hinit
      (by rw [deletedResources_append, deletedResources_inits]; rfl) (by simp) (by simp)
    have hnone : (UDFInitializeVCB env.init).Raised = none := by rw [e]; rfl
    rw [← hfull] at e u1 u2 u3 u4 u5
    rw [← e] at u1 u2 u3 u4 u5
    have hfail : NT_SUCCESS (UDFInitializeVCB env.init).RC = false := by rw [u4]; exact hbad
    refine ⟨⟨fun _ => Or.inr (Or.inl hs), fun _ => hnone⟩,
      fun _ => ⟨fun _ => Or.inr hs, fun _ => hfail⟩, fun _ _ => ?_, fun _ h => ?_⟩
    · refine ⟨u1, ?_, by rw [u5]; rfl, u3, by rw [u5]; rfl, by rw [u5]; rfl,
        hmount hnone hfail⟩
      rw [u2]
      simp
    · rw [hfail] at h
      cases h
  · have hsome : (UDFInitializeVCB env.init).Raised = some poolExhausted := by rw [e]
    have hne : (UDFInitializeVCB env.init).Raised ≠ none := by rw [hsome]; simp
    refine ⟨⟨fun h => absurd h hne, fun h => ?_⟩, fun h => absurd h hne,
      fun h => absurd h hne, fun h => absurd h hne⟩
    rcases h with ⟨r, hr, hf⟩ | h | h
    · rw [hall r hr] at hf
      cases hf
    · rw [hs] at h
      cases h
    · rw [hv] at h
      cases h
  · have hok : NT_SUCCESS (UDFInitializeVCB env.init).RC = true := by rw [e]; exact hgood
    have hnone : (UDFInitializeVCB env.init).Raised = none := by rw [e]
    refine ⟨⟨fun _ => Or.inr (Or.inr hv), fun _ => hnone⟩,
      fun _ => ⟨fun h => ?_, fun h => ?_⟩, fun _ h => ?_, fun _ _ => ?_⟩
    · rw [hok] at h
      cases h
    · rcases h with ⟨r, hr, hf⟩ | h
      · rw [hall r hr] at hf
        cases hf
      · rw [hs] at h
        cases h
    · rw [hok] at h
      cases h
    · have hd : deletedResources (UDFInitializeVCB env.init).events = [] := by
        rw [e]
        show deletedResources (vcbResources.map .UDFInitializeResourceLite ++ _) = []
        rw [deletedResources_append, deletedResources_inits]
        rfl
      have hi : initialisedResources env.init.UDFInitializeResourceLite
          (UDFInitializeVCB env.init).events = vcbResources := by
        rw [e]
        show initialisedResources _ (vcbResources.map .UDFInitializeResourceLite ++ _) = _
        rw [initialisedResources_append, initialisedResources_inits _ _ hall]
        rfl
      have hm : (UDFMountVolume env VolDo).VpbDeviceObject = some VolDo := by
        simp [UDFMountVolume, hok, hnone, hcreate]
      refine ⟨?_, ?_, ?_, ?_, ?_, ?_, ?_, ?_, ?_, hd, hi, hm⟩ <;> rw [e]

/-- The path of `UDFInitializeVCB` on which the allocation of the spare `VPB` raises. -/
theorem UDFInitializeVCB_raise (env : InitEnv)
    (hall : ∀ r ∈ vcbResources, NT_SUCCESS (env.UDFInitializeResourceLite r) = true)
    (hs : env.Statistics = true) (hv : env.SwapVpb = false) :
    UDFInitializeVCB env =
      { RC := env.UDFInitializeResourceLite .IoResource
        Raised := some poolExhausted
        Vcb := { InitVcb.zero with Statistics := true }
        events :=
          vcbResources.map .UDFInitializeResourceLite ++
          [.AllocateStatistics, .AllocateSwapVpb] } := by
  rcases UDFInitializeVCB_eq env with
    ⟨r, k, hr, hmem, _, _⟩ | ⟨_, hs1, _⟩ | ⟨_, _, _, e⟩ | ⟨_, _, hv1, _⟩
  · rw [hall r hmem] at hr
    cases hr
  · rw [hs] at hs1
    cases hs1
  · exact e
  · rw [hv] at hv1
    cases hv1

/-- C18 fails on the code when the failing step is the allocation of the spare `VPB`.
`FsRtlAllocatePoolWithTag` raises when the pool has no memory, so `RC` is not set to a failure:
the `finally` block of `UDFInitializeVCB` sees the success status of the last
`UDFInitializeResourceLite` and unwinds nothing, and the `finally` block of `UDFMountVolume`
sees the success status of `IoCreateDevice`. The nine resources stay initialised and none is
deleted, the statistics buffer stays allocated, the volume device object is not deleted and
`Vpb->DeviceObject` still points to it; the exception leaves `UDFMountVolume` with the IRP
not completed there. -/
theorem swap_vpb_failure_unwinds_nothing (env : MountEnv) (VolDo : Nat)
    (hcreate : NT_SUCCESS env.CreateRC = true)
    (hall : ∀ r ∈ vcbResources, NT_SUCCESS (env.init.UDFInitializeResourceLite r) = true)
    (hs : env.init.Statistics = true) (hv : env.init.SwapVpb = false) :
    (UDFInitializeVCB env.init).Raised = some poolExhausted ∧
    initialisedResources env.init.UDFInitializeResourceLite
      (UDFInitializeVCB env.init).events = vcbResources ∧
    deletedResources (UDFInitializeVCB env.init).events = [] ∧
    InitEvent.AllocateStatistics ∈ (UDFInitializeVCB env.init).events ∧
    InitEvent.FreeStatistics ∉ (UDFInitializeVCB env.init).events ∧
    (UDFInitializeVCB env.init).Vcb.Statistics = true ∧
    (UDFMountVolume env VolDo).Raised = some poolExhausted ∧
    (UDFMountVolume env VolDo).VpbDeviceObject = some VolDo ∧
    InitEvent.IoDeleteDevice VolDo ∉ (UDFMountVolume env VolDo).events ∧
    deletedResources (UDFMountVolume env VolDo).events = [] ∧
    InitEvent.FreeStatistics ∉ (UDFMountVolume env VolDo).events ∧
    (∀ Status, InitEvent.IoCompleteRequest Status ∉ (UDFMountVolume env VolDo).events) := by
  have e := UDFInitializeVCB_raise env.init hall hs hv
  have hd : deletedResources (UDFInitializeVCB env.init).events = [] := by
    rw [e]
    show deletedResources (vcbResources.map .UDFInitializeResourceLite ++ _) = []
    rw [deletedResources_append, deletedResources_inits]
    rfl
  have hi : initialisedResources env.init.UDFInitializeResourceLite
      (UDFInitializeVCB env.init).events = vcbResources := by
    rw [e]
    show initialisedResources _ (vcbResources.map .UDFInitializeResourceLite ++ _) = _
    rw [initialisedResources_append, initialisedResources_inits _ _ hall]
    rfl
  have hm : UDFMountVolume env VolDo =
      { RC := env.CreateRC, Raised := some poolExhausted, VpbDeviceObject := some VolDo
        Vcb := none
        events :=
          (UDFInitializeVCB env.init).events ++
          (if env.ioBuf then [InitEvent.FreeIoBuf] else []) ++ [.ReleaseGlobalData] } := by
    unfold UDFMountVolume
    simp only [hcreate, Bool.not_true, Bool.false_eq_true, if_false]
    rw [e]
    simp [mountFinally, hcreate]
  have hio : deletedResources (if env.ioBuf then [InitEvent.FreeIoBuf] else []) = [] := by
    cases env.ioBuf <;> rfl
  refine ⟨by rw [e], hi, hd, by rw [e]; simp, by rw [e]; simp, by rw [e], by rw [hm],
    by rw [hm], ?_, ?_, ?_, ?_⟩
  · rw [hm, e]
    cases env.ioBuf <;> simp
  · rw [hm]
    show deletedResources (_ ++ _ ++ _) = []
    rw [deletedResources_append, deletedResources_append, hd, hio]
    rfl
  · rw [hm, e]
    cases env.ioBuf <;> simp
  · intro Status
    rw [hm, e]
    cases env.ioBuf <;> simp

/-- The statement of `swap_vpb_failure_unwinds_nothing` at a mount where only the spare
`VPB` cannot be allocated. -/
theorem swap_vpb_failure_unwinds_nothing_witness :
    NT_SUCCESS swapVpbRefused.CreateRC = true ∧
    swapVpbRefused.init.Statistics = true ∧ swapVpbRefused.init.SwapVpb = false ∧
    (UDFInitializeVCB swapVpbRefused.init).Raised = some poolExhausted ∧
    deletedResources (UDFInitializeVCB swapVpbRefused.init).events = [] ∧
    initialisedResources swapVpbRefused.init.UDFInitializeResourceLite
      (UDFInitializeVCB swapVpbRefused.init).events = vcbResources ∧
    (UDFMountVolume swapVpbRefused 5).VpbDeviceObject = some 5 ∧
    InitEvent.IoDeleteDevice 5 ∉ (UDFMountVolume swapVpbRefused 5).events :=
  have h := swap_vpb_failure_unwinds_nothing swapVpbRefused 5 (by decide)
    (fun _ _ => rfl) rfl rfl
  ⟨by decide, rfl, rfl, h.1, h.2.2.1, h.2.1, h.2.2.2.2.2.2.2.1, h.2.2.2.2.2.2.2.2.1⟩

/-! ## Queueing a delayed close (C11, C12) -/

theorem raiseReduce_fields (g : UDFData) :
    (raiseReduce g).1.queues = g.queues ∧ (raiseReduce g).1.watermarks = g.watermarks ∧
    (raiseReduce g).1.ReduceDirDelayedClose = g.ReduceDirDelayedClose := by
  unfold raiseReduce
  split_ifs <;> exact ⟨rfl, rfl, rfl⟩

theorem raiseDirReduce_fields (g : UDFData) (w : Bool) :
    (raiseDirReduce g w).1.queues = g.queues ∧
    (raiseDirReduce g w).1.watermarks = g.watermarks ∧
    (raiseDirReduce g w).1.ReduceDelayedClose = g.ReduceDelayedClose := by
  unfold raiseDirReduce
  split_ifs <;> exact ⟨rfl, rfl, rfl⟩

theorem insertEntry_fields (g : UDFData) (d : Bool) (e : IRP_CONTEXT_LITE) :
    (insertEntry g d e).watermarks = g.watermarks ∧
    (insertEntry g d e).ReduceDelayedClose = g.ReduceDelayedClose ∧
    (insertEntry g d e).ReduceDirDelayedClose = g.ReduceDirDelayedClose ∧
    (insertEntry g d e).FspCloseActive = g.FspCloseActive := by
  unfold insertEntry
  split_ifs <;> exact ⟨rfl, rfl, rfl, rfl⟩

/-- The two ways through `UDFQueueDelayedClose`: one of the three failures, which only clears
`UDF_FCB_DELAY_CLOSE`, or the insertion. -/
theorem UDFQueueDelayedClose_eq (alloc : Bool) (s : DelayState) (f t d : Nat) :
    (NT_SUCCESS (UDFQueueDelayedClose alloc s f t d).1 = false ∧
      ((s.Fcbs f).FlagDeleteOnClose = true ∨ (s.Fcbs f).IrpContextLite.isSome = true ∨
        (s.Fcbs f).FlagPostedRename = true ∨ alloc = false) ∧
      (UDFQueueDelayedClose alloc s f t d).1 =
        (if (s.Fcbs f).FlagDeleteOnClose then STATUS_DELETE_PENDING
         else if (s.Fcbs f).IrpContextLite.isSome || (s.Fcbs f).FlagPostedRename then
           STATUS_UNSUCCESSFUL
         else STATUS_INSUFFICIENT_RESOURCES) ∧
      (UDFQueueDelayedClose alloc s f t d).2 = clearDelayClose s f) ∨
    ((UDFQueueDelayedClose alloc s f t d).1 = STATUS_SUCCESS ∧
      (s.Fcbs f).FlagDeleteOnClose = false ∧ (s.Fcbs f).IrpContextLite = none ∧
      (s.Fcbs f).FlagPostedRename = false ∧ alloc = true ∧
      (UDFQueueDelayedClose alloc s f t d).2 =
        { Data :=
            (raiseDirReduce
              (raiseReduce (insertEntry s.Data (s.Fcbs f).FlagDirectory ⟨f, t, d⟩)).1
              (raiseReduce (insertEntry s.Data (s.Fcbs f).FlagDirectory ⟨f, t, d⟩)).2).1
          Fcbs := Function.update s.Fcbs f { s.Fcbs f with IrpContextLite := some ⟨f, t, d⟩ }
          events := s.events ++
            (if (raiseDirReduce
                (raiseReduce (insertEntry s.Data (s.Fcbs f).FlagDirectory ⟨f, t, d⟩)).1
                (raiseReduce (insertEntry s.Data (s.Fcbs f).FlagDirectory ⟨f, t, d⟩)).2).2
             then [DelayEvent.ExQueueWorkItem] else []) }) := by
  have h1 : NT_SUCCESS STATUS_DELETE_PENDING = false := by decide
  have h2 : NT_SUCCESS STATUS_UNSUCCESSFUL = false := by decide
  have h3 : NT_SUCCESS STATUS_INSUFFICIENT_RESOURCES = false := by decide
  unfold UDFQueueDelayedClose
  by_cases hd : (s.Fcbs f).FlagDeleteOnClose = true
  · left
    simp only [hd, if_true]
    exact ⟨h1, Or.inl trivial, trivial, trivial⟩
  · have hd0 : (s.Fcbs f).FlagDeleteOnClose = false := by simpa using hd
    by_cases hq : ((s.Fcbs f).IrpContextLite.isSome || (s.Fcbs f).FlagPostedRename) = true
    · left
      simp only [hd0, hq, if_true, Bool.false_eq_true, if_false]
      refine ⟨h2, ?_, trivial, trivial⟩
      rcases Bool.or_eq_true_iff.1 hq with h | h
      · exact Or.inr (Or.inl h)
      · exact Or.inr (Or.inr (Or.inl h))
    · have hq0 : ((s.Fcbs f).IrpContextLite.isSome || (s.Fcbs f).FlagPostedRename) =
          false := by simpa using hq
      obtain ⟨hl, hp⟩ := Bool.or_eq_false_iff.1 hq0
      cases alloc with
      | false =>
        left
        simp only [hd0, hq0, Bool.false_eq_true, if_false, Bool.not_false, if_true]
        exact ⟨h3, Or.inr (Or.inr (Or.inr trivial)), trivial, trivial⟩
      | true =>
        right
        simp only [hd0, hq0, Bool.false_eq_true, if_false, Bool.not_true]
        refine ⟨trivial, trivial, ?_, hp, trivial, trivial⟩
        cases hc : (s.Fcbs f).IrpContextLite with
        | none => rfl
        | some e => rw [hc] at hl; cases hl


theorem clearDelayClose_fields (s : DelayState) (f : Nat) :
    (clearDelayClose s f).Data = s.Data ∧ (clearDelayClose s f).events = s.events ∧
    ((clearDelayClose s f).Fcbs f).FlagDelayClose = false ∧
    (∀ f1, ((clearDelayClose s f).Fcbs f1).IrpContextLite = (s.Fcbs f1).IrpContextLite) ∧
    (∀ f1, ((clearDelayClose s f).Fcbs f1).FlagDirectory = (s.Fcbs f1).FlagDirectory) := by
  refine ⟨rfl, rfl, ?_, ?_, ?_⟩
  · simp [clearDelayClose]
  · intro f1
    by_cases h : f1 = f
    · subst h; simp [clearDelayClose]
    · simp [clearDelayClose, Function.update, h]
  · intro f1
    by_cases h : f1 = f
    · subst h; simp [clearDelayClose]
    · simp [clearDelayClose, Function.update, h]

theorem insertEntry_queues (g : UDFData) (dir : Bool) (e : IRP_CONTEXT_LITE) :
    (insertEntry g dir e).queues =
      (if dir then
        (g.DelayedCloseQueue, g.DirDelayedCloseQueue ++ [e], g.DelayedCloseCount,
          ulongInc g.DirDelayedCloseCount)
       else
        (g.DelayedCloseQueue ++ [e], g.DirDelayedCloseQueue, ulongInc g.DelayedCloseCount,
          g.DirDelayedCloseCount)) := by
  cases dir <;> rfl

/-- C11: `UDFQueueDelayedClose` returns STATUS_DELETE_PENDING when the `FCB` is marked
delete-on-close, and otherwise STATUS_UNSUCCESSFUL when `Fcb->IrpContextLite` is already set.
Whenever it fails, the queues, counts and all other global fields are as before, no call is
made, no `FCB` gains or loses an entry, and `UDF_FCB_DELAY_CLOSE` of the `FCB` is clear. When
it succeeds, it returns STATUS_SUCCESS, the entry for the `FCB` is the new tail of the
directory queue if the `FCB` is a directory and of the file queue otherwise, that queue's
count has gone through one ULONG increment (plus one below 0xFFFFFFFF) and the other queue
and count are as before. -/
theorem UDFQueueDelayedClose_spec (alloc : Bool) (s : DelayState) (f t d : Nat) :
    ((s.Fcbs f).FlagDeleteOnClose = true →
      (UDFQueueDelayedClose alloc s f t d).1 = STATUS_DELETE_PENDING) ∧
    ((s.Fcbs f).FlagDeleteOnClose = false → (s.Fcbs f).IrpContextLite.isSome = true →
      (UDFQueueDelayedClose alloc s f t d).1 = STATUS_UNSUCCESSFUL) ∧
    (NT_SUCCESS (UDFQueueDelayedClose alloc s f t d).1 = false →
      (UDFQueueDelayedClose alloc s f t d).2.Data = s.Data ∧
      (UDFQueueDelayedClose alloc s f t d).2.events = s.events ∧
      ((UDFQueueDelayedClose alloc s f t d).2.Fcbs f).FlagDelayClose = false ∧
      (∀ f1, ((UDFQueueDelayedClose alloc s f t d).2.Fcbs f1).IrpContextLite =
        (s.Fcbs f1).IrpContextLite)) ∧
    (NT_SUCCESS (UDFQueueDelayedClose alloc s f t d).1 = true →
      (UDFQueueDelayedClose alloc s f t d).1 = STATUS_SUCCESS ∧
      (UDFQueueDelayedClose alloc s f t d).2.Data.queues =
        (if (s.Fcbs f).FlagDirectory then
          (s.Data.DelayedCloseQueue, s.Data.DirDelayedCloseQueue ++ [⟨f, t, d⟩],
            s.Data.DelayedCloseCount, ulongInc s.Data.DirDelayedCloseCount)
         else
          (s.Data.DelayedCloseQueue ++ [⟨f, t, d⟩], s.Data.DirDelayedCloseQueue,
            ulongInc s.Data.DelayedCloseCount, s.Data.DirDelayedCloseCount)) ∧
      ((UDFQueueDelayedClose alloc s f t d).2.Fcbs f).IrpContextLite = some ⟨f, t, d⟩) ∧
    (∀ n, n < ULONG_MAX → ulongInc n = n + 1) := by
  have hgood : NT_SUCCESS STATUS_SUCCESS = true := by decide
  refine ⟨?_, ?_, ?_, ?_, ?_⟩
  · intro hd
    rcases UDFQueueDelayedClose_eq alloc s f t d with ⟨_, _, hrc, _⟩ | ⟨_, h1, _⟩
    · rw [hrc, if_pos hd]
    · rw [h1] at hd; cases hd
  · intro hd hq
    rcases UDFQueueDelayedClose_eq alloc s f t d with ⟨_, _, hrc, _⟩ | ⟨_, _, h2, _⟩
    · rw [hrc]
      simp [hd, hq]
    · rw [h2] at hq; cases hq
  · intro hfail
    rcases UDFQueueDelayedClose_eq alloc s f t d with ⟨_, _, _, hs⟩ | ⟨hrc, _⟩
    · obtain ⟨c1, c2, c3, c4, _⟩ := clearDelayClose_fields s f
      rw [hs]
      exact ⟨c1, c2, c3, c4⟩
    · rw [hrc, hgood] at hfail; cases hfail
  · intro hok
    rcases UDFQueueDelayedClose_eq alloc s f t d with ⟨hf, _⟩ | ⟨hrc, _, _, _, _, hs⟩
    · rw [hf] at hok; cases hok
    · refine ⟨hrc, ?_, ?_⟩
      · rw [hs]
        show (raiseDirReduce _ _).1.queues = _
        rw [(raiseDirReduce_fields _ _).1, (raiseReduce_fields _).1, insertEntry_queues]
      · rw [hs]
        simp
  · intro n hn
    unfold ulongInc
    rw [if_neg (Nat.ne_of_lt hn)]


theorem DelayFrame.refl (s : DelayState) : DelayFrame s s :=
  ⟨rfl, rfl, rfl, rfl, rfl, fun _ => ⟨rfl, rfl⟩⟩

theorem DelayFrame.trans {s s1 s2 : DelayState} (h1 : DelayFrame s s1)
    (h2 : DelayFrame s1 s2) : DelayFrame s s2 :=
  ⟨h2.1.trans h1.1, h2.2.1.trans h1.2.1, h2.2.2.1.trans h1.2.2.1,
    h2.2.2.2.1.trans h1.2.2.2.1, h2.2.2.2.2.1.trans h1.2.2.2.2.1,
    fun f => ⟨(h2.2.2.2.2.2 f).1.trans (h1.2.2.2.2.2 f).1,
      (h2.2.2.2.2.2 f).2.trans (h1.2.2.2.2.2 f).2⟩⟩

theorem workItems_append (a b : List DelayEvent) :
    workItems (a ++ b) = workItems a + workItems b := by
  simp [workItems]

/-- Taking an entry out of a queue and closing it leaves the frame alone. -/
theorem DelayFrame.close (s : DelayState) (g : UDFData) (e : IRP_CONTEXT_LITE)
    (hw : g.watermarks = s.Data.watermarks) (hf : g.FspCloseActive = s.Data.FspCloseActive)
    (hr : g.ReduceDelayedClose = s.Data.ReduceDelayedClose)
    (hd : g.ReduceDirDelayedClose = s.Data.ReduceDirDelayedClose) :
    DelayFrame s (UDFDoDelayedClose { s with Data := g } e) := by
  refine ⟨hw, hf, hr, hd, ?_, ?_⟩
  · show workItems (s.events ++ [.MyFreePool e, .UDFCommonClose e]) = workItems s.events
    rw [workItems_append]
    rfl
  · intro f
    by_cases h : f = e.Fcb
    · subst h
      simp [UDFDoDelayedClose]
    · simp [UDFDoDelayedClose, Function.update, h]

theorem reduceQueue_done (fuel : Nat) (s : DelayState)
    (hc : (s.Data.ReduceDelayedClose &&
      decide (s.Data.DelayedCloseCount > s.Data.MinDelayedCloseCount)) = false) :
    reduceQueue (fuel + 1) s = some s := by
  simp only [reduceQueue, hc, Bool.false_eq_true, if_false]

theorem reduceQueue_nil (fuel : Nat) (s : DelayState)
    (hc : (s.Data.ReduceDelayedClose &&
      decide (s.Data.DelayedCloseCount > s.Data.MinDelayedCloseCount)) = true)
    (hq : s.Data.DelayedCloseQueue = []) :
    reduceQueue (fuel + 1) s =
      reduceQueue fuel { s with events := s.events ++ [.BrutePoint] } := by
  simp only [reduceQueue, hc, hq, if_true]

theorem reduceQueue_cons (fuel : Nat) (s : DelayState) (e : IRP_CONTEXT_LITE)
    (rest : List IRP_CONTEXT_LITE)
    (hc : (s.Data.ReduceDelayedClose &&
      decide (s.Data.DelayedCloseCount > s.Data.MinDelayedCloseCount)) = true)
    (hq : s.Data.DelayedCloseQueue = e :: rest) :
    reduceQueue (fuel + 1) s =
      reduceQueue fuel
        (UDFDoDelayedClose
          { s with
            Data := { s.Data with
                      DelayedCloseQueue := rest
                      DelayedCloseCount := ulongDec s.Data.DelayedCloseCount } } e) := by
  simp only [reduceQueue, hc, hq, if_true]

theorem reduceDirQueue_done (fuel : Nat) (s : DelayState)
    (hc : (s.Data.ReduceDirDelayedClose &&
      decide (s.Data.DirDelayedCloseCount > s.Data.MinDirDelayedCloseCount)) = false) :
    reduceDirQueue (fuel + 1) s = some s := by
  simp only [reduceDirQueue, hc, Bool.false_eq_true, if_false]

theorem reduceDirQueue_nil (fuel : Nat) (s : DelayState)
    (hc : (s.Data.ReduceDirDelayedClose &&
      decide (s.Data.DirDelayedCloseCount > s.Data.MinDirDelayedCloseCount)) = true)
    (hq : s.Data.DirDelayedCloseQueue = []) :
    reduceDirQueue (fuel + 1) s =
      reduceDirQueue fuel { s with events := s.events ++ [.BrutePoint] } := by
  simp only [reduceDirQueue, hc, hq, if_true]

theorem reduceDirQueue_cons (fuel : Nat) (s : DelayState) (e : IRP_CONTEXT_LITE)
    (rest : List IRP_CONTEXT_LITE)
    (hc : (s.Data.ReduceDirDelayedClose &&
      decide (s.Data.DirDelayedCloseCount > s.Data.MinDirDelayedCloseCount)) = true)
    (hq : s.Data.DirDelayedCloseQueue = e :: rest) :
    reduceDirQueue (fuel + 1) s =
      reduceDirQueue fuel
        (UDFDoDelayedClose
          { s with
            Data := { s.Data with
                      DirDelayedCloseQueue := rest
                      DirDelayedCloseCount := ulongDec s.Data.DirDelayedCloseCount } } e) := by
  simp only [reduceDirQueue, hc, hq, if_true]

theorem DelayFrame.brute (s : DelayState) :
    DelayFrame s { s with events := s.events ++ [.BrutePoint] } := by
  refine ⟨rfl, rfl, rfl, rfl, ?_, fun _ => ⟨rfl, rfl⟩⟩
  show workItems (s.events ++ [.BrutePoint]) = workItems s.events
  rw [workItems_append]
  rfl

theorem reduceQueue_frame : ∀ (fuel : Nat) (s s1 : DelayState),
    reduceQueue fuel s = some s1 → DelayFrame s s1 := by
  intro fuel
  induction fuel with
  | zero => intro s s1 h; simp [reduceQueue] at h
  | succ n ih =>
    intro s s1 h
    cases hc : (s.Data.ReduceDelayedClose &&
      decide (s.Data.DelayedCloseCount > s.Data.MinDelayedCloseCount)) with
    | false =>
      rw [reduceQueue_done n s hc] at h
      simp only [Option.some.injEq] at h
      subst h
      exact DelayFrame.refl s
    | true =>
      cases hq : s.Data.DelayedCloseQueue with
      | nil =>
        rw [reduceQueue_nil n s hc hq] at h
        exact DelayFrame.trans (DelayFrame.brute s) (ih _ _ h)
      | cons e rest =>
        rw [reduceQueue_cons n s e rest hc hq] at h
        refine DelayFrame.trans ?_ (ih _ _ h)
        exact DelayFrame.close s _ e rfl rfl rfl rfl

theorem reduceDirQueue_frame : ∀ (fuel : Nat) (s s1 : DelayState),
    reduceDirQueue fuel s = some s1 → DelayFrame s s1 := by
  intro fuel
  induction fuel with
  | zero => intro s s1 h; simp [reduceDirQueue] at h
  | succ n ih =>
    intro s s1 h
    cases hc : (s.Data.ReduceDirDelayedClose &&
      decide (s.Data.DirDelayedCloseCount > s.Data.MinDirDelayedCloseCount)) with
    | false =>
      rw [reduceDirQueue_done n s hc] at h
      simp only [Option.some.injEq] at h
      subst h
      exact DelayFrame.refl s
    | true =>
      cases hq : s.Data.DirDelayedCloseQueue with
      | nil =>
        rw [reduceDirQueue_nil n s hc hq] at h
        exact DelayFrame.trans (DelayFrame.brute s) (ih _ _ h)
      | cons e rest =>
        rw [reduceDirQueue_cons n s e rest hc hq] at h
        refine DelayFrame.trans ?_ (ih _ _ h)
        exact DelayFrame.close s _ e rfl rfl rfl rfl

theorem closeAllQueue_frame (Vcb : Nat) : ∀ (rest kept : List IRP_CONTEXT_LITE)
    (s : DelayState), DelayFrame s (closeAllQueue Vcb kept rest s) := by
  intro rest
  induction rest with
  | nil => intro kept s; exact DelayFrame.refl s
  | cons e rest ih =>
    intro kept s
    simp only [closeAllQueue]
    split_ifs
    · refine DelayFrame.trans ?_ (ih _ _)
      exact DelayFrame.close s _ e rfl rfl rfl rfl
    · exact ih _ _

theorem closeAllDirQueue_frame (Vcb : Nat) : ∀ (rest kept : List IRP_CONTEXT_LITE)
    (s : DelayState), DelayFrame s (closeAllDirQueue Vcb kept rest s) := by
  intro rest
  induction rest with
  | nil => intro kept s; exact DelayFrame.refl s
  | cons e rest ih =>
    intro kept s
    simp only [closeAllDirQueue]
    split_ifs
    · refine DelayFrame.trans ?_ (ih _ _)
      exact DelayFrame.close s _ e rfl rfl rfl rfl
    · exact ih _ _

theorem unlinkEntry_fields (g : UDFData) (e : IRP_CONTEXT_LITE) (dir : Bool) :
    (unlinkEntry g e dir).watermarks = g.watermarks ∧
    (unlinkEntry g e dir).FspCloseActive = g.FspCloseActive ∧
    (unlinkEntry g e dir).ReduceDelayedClose = g.ReduceDelayedClose ∧
    (unlinkEntry g e dir).ReduceDirDelayedClose = g.ReduceDirDelayedClose := by
  cases dir <;> exact ⟨rfl, rfl, rfl, rfl⟩

theorem closeFound_frame : ∀ (found : List (Option Nat)) (s : DelayState),
    DelayFrame s (closeFound found s) := by
  intro found
  induction found with
  | nil => intro s; exact DelayFrame.refl s
  | cons a rest ih =>
    intro s
    cases a with
    | none => exact ih s
    | some f =>
      simp only [closeFound]
      cases hl : (s.Fcbs f).IrpContextLite with
      | none => exact ih s
      | some e =>
        obtain ⟨u1, u2, u3, u4⟩ := unlinkEntry_fields s.Data e (s.Fcbs e.Fcb).FlagDirectory
        refine DelayFrame.trans ?_ (ih _)
        exact DelayFrame.close s _ e u1 u2 u3 u4

theorem UDFCloseAllDelayed_frame (Vcb : Nat) (s : DelayState) :
    DelayFrame s (UDFCloseAllDelayed Vcb s) :=
  DelayFrame.trans (closeAllQueue_frame Vcb _ _ s) (closeAllDirQueue_frame Vcb _ _ _)

theorem UDFCloseAllXXXDelayedInDir_frame (env : DirCloseEnv) (s : DelayState) :
    DelayFrame s (UDFCloseAllXXXDelayedInDir env s).2 := by
  unfold UDFCloseAllXXXDelayedInDir
  split_ifs
  · exact DelayFrame.refl s
  · exact DelayFrame.refl s
  · exact DelayFrame.refl s
  · exact closeFound_frame _ s


/-- Lines 1028-1049 as a whole: each reduce flag is set when its count is over the high
watermark, and `StartWorker` ends up set exactly when some count is over and
`FspCloseActive` was clear, which is also when `FspCloseActive` becomes set. -/
theorem raise_spec (g : UDFData) :
    (raiseDirReduce (raiseReduce g).1 (raiseReduce g).2).1.queues = g.queues ∧
    (raiseDirReduce (raiseReduce g).1 (raiseReduce g).2).1.watermarks = g.watermarks ∧
    (raiseDirReduce (raiseReduce g).1 (raiseReduce g).2).1.ReduceDelayedClose =
      (g.ReduceDelayedClose || decide (g.DelayedCloseCount > g.MaxDelayedCloseCount)) ∧
    (raiseDirReduce (raiseReduce g).1 (raiseReduce g).2).1.ReduceDirDelayedClose =
      (g.ReduceDirDelayedClose ||
        decide (g.DirDelayedCloseCount > g.MaxDirDelayedCloseCount)) ∧
    (raiseDirReduce (raiseReduce g).1 (raiseReduce g).2).1.FspCloseActive =
      (g.FspCloseActive || (raiseDirReduce (raiseReduce g).1 (raiseReduce g).2).2) ∧
    (raiseDirReduce (raiseReduce g).1 (raiseReduce g).2).2 =
      ((decide (g.DelayedCloseCount > g.MaxDelayedCloseCount) ||
        decide (g.DirDelayedCloseCount > g.MaxDirDelayedCloseCount)) &&
        !g.FspCloseActive) := by
  by_cases h1 : g.DelayedCloseCount > g.MaxDelayedCloseCount <;>
  by_cases h2 : g.DirDelayedCloseCount > g.MaxDirDelayedCloseCount <;>
  cases h3 : g.FspCloseActive <;>
  simp [raiseReduce, raiseDirReduce, h1, h2, h3, UDFData.queues, UDFData.watermarks]

theorem UDFDelayedClose_frame (fuel : Nat) (s s1 : DelayState)
    (h : UDFDelayedClose fuel s = some s1) :
    s1.Data.FspCloseActive = false ∧ s1.Data.ReduceDelayedClose = false ∧
    s1.Data.ReduceDirDelayedClose = false ∧ s1.Data.watermarks = s.Data.watermarks ∧
    workItems s1.events = workItems s.events := by
  unfold UDFDelayedClose at h
  cases h1 : reduceQueue fuel s with
  | none => simp [h1] at h
  | some a =>
    cases h2 : reduceDirQueue fuel a with
    | none => simp [h1, h2] at h
    | some b =>
      simp only [h1, h2, Option.some.injEq] at h
      subst h
      obtain ⟨a1, _, _, _, a5, _⟩ := reduceQueue_frame fuel s a h1
      obtain ⟨b1, _, _, _, b5, _⟩ := reduceDirQueue_frame fuel a b h2
      exact ⟨rfl, rfl, rfl, b1.trans a1, b5.trans a5⟩

/-- What a call of `UDFQueueDelayedClose` does to the scheduling of the drain. -/
theorem UDFQueueDelayedClose_workItems (alloc : Bool) (s : DelayState) (f t d : Nat) :
    (UDFQueueDelayedClose alloc s f t d).2.events =
      s.events ++
        (if (UDFQueueDelayedClose alloc s f t d).2.Data.FspCloseActive &&
            !s.Data.FspCloseActive then [DelayEvent.ExQueueWorkItem] else []) ∧
    (s.Data.FspCloseActive = true →
      (UDFQueueDelayedClose alloc s f t d).2.Data.FspCloseActive = true) := by
  rcases UDFQueueDelayedClose_eq alloc s f t d with ⟨_, _, _, hs⟩ | ⟨_, _, _, _, _, hs⟩
  · rw [hs]
    refine ⟨?_, fun h => h⟩
    show s.events = s.events ++ (if s.Data.FspCloseActive && !s.Data.FspCloseActive then _
      else _)
    cases s.Data.FspCloseActive <;> simp
  · obtain ⟨_, _, _, _, r5, r6⟩ :=
      raise_spec (insertEntry s.Data (s.Fcbs f).FlagDirectory ⟨f, t, d⟩)
    have hi := (insertEntry_fields s.Data (s.Fcbs f).FlagDirectory ⟨f, t, d⟩).2.2.2
    rw [hs]
    simp only
    rw [r5, hi]
    constructor
    · congr 1
      rw [r6, hi]
      cases s.Data.FspCloseActive <;> simp
    · intro h
      rw [h]
      rfl

theorem workItems_queue (alloc : Bool) (s : DelayState) (f t d : Nat) :
    workItems (UDFQueueDelayedClose alloc s f t d).2.events - workItems s.events =
      (if (UDFQueueDelayedClose alloc s f t d).2.Data.FspCloseActive &&
          !s.Data.FspCloseActive then 1 else 0) := by
  rw [(UDFQueueDelayedClose_workItems alloc s f t d).1, workItems_append]
  split_ifs
  · show workItems s.events + 1 - workItems s.events = 1
    omega
  · show workItems s.events + 0 - workItems s.events = 0
    omega

/-- Every step of the machine keeps the scheduling invariant. -/
theorem delayStep_DrainInv (m m1 : DelayMachine) (a : DelayStep) (hm : DrainInv m)
    (h : delayStep m a = some m1) : DrainInv m1 := by
  unfold DrainInv at hm ⊢
  cases a with
  | queue alloc f t d =>
    simp only [delayStep, Option.some.injEq] at h
    subst h
    have hw := workItems_queue alloc m.state f t d
    have hk := (UDFQueueDelayedClose_workItems alloc m.state f t d).2
    simp only [DelayMachine.advance, hw, hm]
    cases h0 : m.state.Data.FspCloseActive with
    | true => simp [hk h0]
    | false => cases (UDFQueueDelayedClose alloc m.state f t d).2.Data.FspCloseActive <;> simp
  | drain fuel =>
    simp only [delayStep] at h
    split_ifs at h with h0
    cases hd : UDFDelayedClose fuel m.state with
    | none => simp [hd] at h
    | some s =>
      simp only [hd, Option.some.injEq] at h
      subst h
      obtain ⟨f1, _, _, _, f5⟩ := UDFDelayedClose_frame fuel m.state s hd
      simp only [f1, f5, Bool.false_eq_true, if_false]
      split_ifs at hm <;> omega
  | closeAll Vcb =>
    simp only [delayStep, Option.some.injEq] at h
    subst h
    obtain ⟨_, f2, _, _, f5, _⟩ := UDFCloseAllDelayed_frame Vcb m.state
    simp only [DelayMachine.advance, f2, f5, hm]
    omega
  | closeInDir env =>
    simp only [delayStep, Option.some.injEq] at h
    subst h
    obtain ⟨_, f2, _, _, f5, _⟩ := UDFCloseAllXXXDelayedInDir_frame env m.state
    simp only [DelayMachine.advance, f2, f5, hm]
    omega

theorem delayRun_DrainInv (steps : List DelayStep) :
    ∀ (m m1 : DelayMachine), DrainInv m → delayRun m steps = some m1 → DrainInv m1 := by
  induction steps with
  | nil =>
    intro m m1 hm h
    simp only [delayRun, Option.some.injEq] at h
    subst h
    exact hm
  | cons a rest ih =>
    intro m m1 hm h
    simp only [delayRun] at h
    cases hs : delayStep m a with
    | none => simp [hs] at h
    | some m2 =>
      simp only [hs] at h
      exact ih m2 m1 (delayStep_DrainInv m m2 a hm hs) h


/-- C12: after a successful insertion by `UDFQueueDelayedClose`, the reduce flag of a queue
class is set if that class's count now exceeds its high watermark (and is as before
otherwise); `ExQueueWorkItem` is called once if some count exceeds its watermark and
`FspCloseActive` was clear, and then `FspCloseActive` is set, and it is not called at all
otherwise, nor on a failure. Hence, in every run of the delayed-close machinery that starts
with a drain task outstanding exactly when `FspCloseActive` is set, at most one drain task
is outstanding at any time. -/
theorem UDFQueueDelayedClose_schedules (alloc : Bool) (s : DelayState) (f t d : Nat)
    (m : DelayMachine) (steps : List DelayStep) (hstart : DrainInv m) :
    (NT_SUCCESS (UDFQueueDelayedClose alloc s f t d).1 = true →
      (UDFQueueDelayedClose alloc s f t d).2.Data.ReduceDelayedClose =
        (s.Data.ReduceDelayedClose ||
          decide ((UDFQueueDelayedClose alloc s f t d).2.Data.DelayedCloseCount >
            (UDFQueueDelayedClose alloc s f t d).2.Data.MaxDelayedCloseCount)) ∧
      (UDFQueueDelayedClose alloc s f t d).2.Data.ReduceDirDelayedClose =
        (s.Data.ReduceDirDelayedClose ||
          decide ((UDFQueueDelayedClose alloc s f t d).2.Data.DirDelayedCloseCount >
            (UDFQueueDelayedClose alloc s f t d).2.Data.MaxDirDelayedCloseCount)) ∧
      (UDFQueueDelayedClose alloc s f t d).2.events =
        s.events ++
          (if (decide ((UDFQueueDelayedClose alloc s f t d).2.Data.DelayedCloseCount >
                (UDFQueueDelayedClose alloc s f t d).2.Data.MaxDelayedCloseCount) ||
              decide ((UDFQueueDelayedClose alloc s f t d).2.Data.DirDelayedCloseCount >
                (UDFQueueDelayedClose alloc s f t d).2.Data.MaxDirDelayedCloseCount)) &&
              !s.Data.FspCloseActive
           then [DelayEvent.ExQueueWorkItem] else []) ∧
      (UDFQueueDelayedClose alloc s f t d).2.Data.FspCloseActive =
        (s.Data.FspCloseActive ||
          decide ((UDFQueueDelayedClose alloc s f t d).2.Data.DelayedCloseCount >
            (UDFQueueDelayedClose alloc s f t d).2.Data.MaxDelayedCloseCount) ||
          decide ((UDFQueueDelayedClose alloc s f t d).2.Data.DirDelayedCloseCount >
            (UDFQueueDelayedClose alloc s f t d).2.Data.MaxDirDelayedCloseCount))) ∧
    (NT_SUCCESS (UDFQueueDelayedClose alloc s f t d).1 = false →
      (UDFQueueDelayedClose alloc s f t d).2.events = s.events ∧
      (UDFQueueDelayedClose alloc s f t d).2.Data = s.Data) ∧
    (∀ m1, delayRun m steps = some m1 →
      m1.outstanding ≤ 1 ∧ (m1.outstanding = 1 ↔ m1.state.Data.FspCloseActive = true)) := by
  have hgood : NT_SUCCESS STATUS_SUCCESS = true := by decide
  refine ⟨?_, ?_, ?_⟩
  · intro hok
    rcases UDFQueueDelayedClose_eq alloc s f t d with ⟨hf, _⟩ | ⟨_, _, _, _, _, hs⟩
    · rw [hf] at hok; cases hok
    · obtain ⟨r1, r2, r3, r4, r5, r6⟩ :=
        raise_spec (insertEntry s.Data (s.Fcbs f).FlagDirectory ⟨f, t, d⟩)
      obtain ⟨i1, i2, i3, i4⟩ :=
        insertEntry_fields s.Data (s.Fcbs f).FlagDirectory ⟨f, t, d⟩
      have q1 := congrArg (fun q => q.2.2.1) r1
      have q2 := congrArg (fun q => q.2.2.2) r1
      have w1 := congrArg (fun q => q.1) r2
      have w3 := congrArg (fun q => q.2.2.1) r2
      simp only [UDFData.queues, UDFData.watermarks] at q1 q2 w1 w3
      rw [hs]
      simp only
      rw [q1, q2, w1, w3, r3, r4, r5, r6, i2, i3, i4]
      refine ⟨rfl, rfl, rfl, ?_⟩
      cases s.Data.FspCloseActive <;> simp
  · intro hfail
    rcases UDFQueueDelayedClose_eq alloc s f t d with ⟨_, _, _, hs⟩ | ⟨hrc, _⟩
    · rw [hs]
      exact ⟨rfl, rfl⟩
    · rw [hrc, hgood] at hfail; cases hfail
  · intro m1 hk
    have hinv := delayRun_DrainInv steps m m1 hstart hk
    unfold DrainInv at hinv
    cases hF : m1.state.Data.FspCloseActive <;> simp [hinv, hF]

/-- Witness for `UDFQueueDelayedClose_schedules`: the third close takes the file count over
its watermark and schedules the drain, the drain brings the count back to the low watermark,
and the run ends with no drain outstanding. -/
theorem UDFQueueDelayedClose_schedules_witness :
    DrainInv tightMachine ∧ (delayRun tightMachine drainSchedule).isSome = true ∧
    (delayRun tightMachine (drainSchedule.take 3)).map
        (fun m1 => (m1.outstanding, m1.state.Data.DelayedCloseCount)) = some (1, 3) ∧
    (delayRun tightMachine drainSchedule).map
        (fun m1 => (m1.outstanding, m1.state.Data.DelayedCloseCount)) = some (0, 2) ∧
    (∀ k m1, delayRun tightMachine (drainSchedule.take k) = some m1 → m1.outstanding ≤ 1) :=
  ⟨rfl, rfl, rfl, rfl, fun k m1 h =>
    ((UDFQueueDelayedClose_schedules true (plainState tightData) 0 1 7 tightMachine
      (drainSchedule.take k) rfl).2.2 m1 h).1⟩


/-! ## The drain task (C13) -/

theorem reduceQueue_spec : ∀ (fuel : Nat) (s : DelayState),
    (s.Data.ReduceDelayedClose = true →
      s.Data.DelayedCloseCount = s.Data.DelayedCloseQueue.length) →
    s.Data.DelayedCloseQueue.length < fuel →
    ∃ s1, reduceQueue fuel s = some s1 ∧
      s1.Data.DelayedCloseQueue = s.Data.DelayedCloseQueue.drop (drainExcess s.Data) ∧
      s1.Data.DelayedCloseCount = s.Data.DelayedCloseCount - drainExcess s.Data ∧
      s1.Data.DirDelayedCloseQueue = s.Data.DirDelayedCloseQueue ∧
      s1.Data.DirDelayedCloseCount = s.Data.DirDelayedCloseCount ∧
      s1.events = s.events ++ closes (s.Data.DelayedCloseQueue.take (drainExcess s.Data)) := by
  intro fuel
  induction fuel with
  | zero => intro s _ h; omega
  | succ n ih =>
    intro s hcons hfuel
    cases hc : (s.Data.ReduceDelayedClose &&
      decide (s.Data.DelayedCloseCount > s.Data.MinDelayedCloseCount)) with
    | false =>
      have hk : drainExcess s.Data = 0 := by
        unfold drainExcess
        cases hr : s.Data.ReduceDelayedClose with
        | false => simp
        | true =>
          rw [hr] at hc
          simp only [Bool.true_and, decide_eq_false_iff_not, not_lt] at hc
          simp only [if_true]
          omega
      refine ⟨s, reduceQueue_done n s hc, ?_, ?_, rfl, rfl, ?_⟩
      · rw [hk]; rfl
      · rw [hk]; rfl
      · rw [hk]; simp [closes]
    | true =>
      obtain ⟨hr, hgt⟩ := Bool.and_eq_true_iff.1 hc
      have hgt1 : s.Data.DelayedCloseCount > s.Data.MinDelayedCloseCount := by
        simpa using hgt
      have hlen := hcons hr
      cases hq : s.Data.DelayedCloseQueue with
      | nil =>
        rw [hq] at hlen
        simp only [List.length_nil] at hlen
        omega
      | cons e rest =>
        rw [hq] at hlen hfuel
        simp only [List.length_cons] at hlen hfuel
        have hdec : ulongDec s.Data.DelayedCloseCount = rest.length := by
          rw [ulongDec_of_pos (by omega)]
          omega
        obtain ⟨s1, h1, h2, h3, h4, h5, h6⟩ := ih
          (UDFDoDelayedClose
            { s with
              Data := { s.Data with
                        DelayedCloseQueue := rest
                        DelayedCloseCount := ulongDec s.Data.DelayedCloseCount } } e)
          (fun _ => hdec) (by show rest.length < n; omega)
        have hk : drainExcess s.Data =
            drainExcess
              (UDFDoDelayedClose
                { s with
                  Data := { s.Data with
                            DelayedCloseQueue := rest
                            DelayedCloseCount := ulongDec s.Data.DelayedCloseCount } }
                e).Data + 1 := by
          show drainExcess s.Data =
            drainExcess { s.Data with
                            DelayedCloseQueue := rest
                            DelayedCloseCount := ulongDec s.Data.DelayedCloseCount } + 1
          simp only [drainExcess, hr, if_true, hdec]
          omega
        refine ⟨s1, ?_, ?_, ?_, h4, h5, ?_⟩
        · rw [reduceQueue_cons n s e rest hc hq]
          exact h1
        · rw [h2, hk]
          rfl
        · rw [h3, hk]
          show ulongDec s.Data.DelayedCloseCount - _ = _
          rw [hdec]
          omega
        · rw [h6, hk]
          show (s.events ++ [.MyFreePool e, .UDFCommonClose e]) ++ closes (rest.take _) = _
          simp [closes]

theorem reduceDirQueue_spec : ∀ (fuel : Nat) (s : DelayState),
    (s.Data.ReduceDirDelayedClose = true →
      s.Data.DirDelayedCloseCount = s.Data.DirDelayedCloseQueue.length) →
    s.Data.DirDelayedCloseQueue.length < fuel →
    ∃ s1, reduceDirQueue fuel s = some s1 ∧
      s1.Data.DirDelayedCloseQueue = s.Data.DirDelayedCloseQueue.drop (drainDirExcess s.Data) ∧
      s1.Data.DirDelayedCloseCount = s.Data.DirDelayedCloseCount - drainDirExcess s.Data ∧
      s1.Data.DelayedCloseQueue = s.Data.DelayedCloseQueue ∧
      s1.Data.DelayedCloseCount = s.Data.DelayedCloseCount ∧
      s1.events = s.events ++ closes (s.Data.DirDelayedCloseQueue.take (drainDirExcess s.Data)) := by
  intro fuel
  induction fuel with
  | zero => intro s _ h; omega
  | succ n ih =>
    intro s hcons hfuel
    cases hc : (s.Data.ReduceDirDelayedClose &&
      decide (s.Data.DirDelayedCloseCount > s.Data.MinDirDelayedCloseCount)) with
    | false =>
      have hk : drainDirExcess s.Data = 0 := by
        unfold drainDirExcess
        cases hr : s.Data.ReduceDirDelayedClose with
        | false => simp
        | true =>
          rw [hr] at hc
          simp only [Bool.true_and, decide_eq_false_iff_not, not_lt] at hc
          simp only [if_true]
          omega
      refine ⟨s, reduceDirQueue_done n s hc, ?_, ?_, rfl, rfl, ?_⟩
      · rw [hk]; rfl
      · rw [hk]; rfl
      · rw [hk]; simp [closes]
    | true =>
      obtain ⟨hr, hgt⟩ := Bool.and_eq_true_iff.1 hc
      have hgt1 : s.Data.DirDelayedCloseCount > s.Data.MinDirDelayedCloseCount := by
        simpa using hgt
      have hlen := hcons hr
      cases hq : s.Data.DirDelayedCloseQueue with
      | nil =>
        rw [hq] at hlen
        simp only [List.length_nil] at hlen
        omega
      | cons e rest =>
        rw [hq] at hlen hfuel
        simp only [List.length_cons] at hlen hfuel
        have hdec : ulongDec s.Data.DirDelayedCloseCount = rest.length := by
          rw [ulongDec_of_pos (by omega)]
          omega
        obtain ⟨s1, h1, h2, h3, h4, h5, h6⟩ := ih
          (UDFDoDelayedClose
            { s with
              Data := { s.Data with
                        DirDelayedCloseQueue := rest
                        DirDelayedCloseCount := ulongDec s.Data.DirDelayedCloseCount } } e)
          (fun _ => hdec) (by show rest.length < n; omega)
        have hk : drainDirExcess s.Data =
            drainDirExcess
              (UDFDoDelayedClose
                { s with
                  Data := { s.Data with
                            DirDelayedCloseQueue := rest
                            DirDelayedCloseCount := ulongDec s.Data.DirDelayedCloseCount } }
                e).Data + 1 := by
          show drainDirExcess s.Data =
            drainDirExcess { s.Data with
                            DirDelayedCloseQueue := rest
                            DirDelayedCloseCount := ulongDec s.Data.DirDelayedCloseCount } + 1
          simp only [drainDirExcess, hr, if_true, hdec]
          omega
        refine ⟨s1, ?_, ?_, ?_, h4, h5, ?_⟩
        · rw [reduceDirQueue_cons n s e rest hc hq]
          exact h1
        · rw [h2, hk]
          rfl
        · rw [h3, hk]
          show ulongDec s.Data.DirDelayedCloseCount - _ = _
          rw [hdec]
          omega
        · rw [h6, hk]
          show (s.events ++ [.MyFreePool e, .UDFCommonClose e]) ++ closes (rest.take _) = _
          simp [closes]


/-- C13: when `UDFDelayedClose` runs in a state where each queue class whose reduce flag is
set has its count equal to the length of its queue, it returns (any fuel above both queue
lengths is enough). For each class with the reduce flag set it has taken the entries in
excess of the low watermark from the head of the queue, in order, calling
`UDFDoDelayedClose` (free the entry, then the real close) on each, and the class's count is
at or below the low watermark and still the length of the queue; a class without the flag
is untouched. On return `FspCloseActive` and both reduce flags are clear. -/
theorem UDFDelayedClose_spec (fuel : Nat) (s : DelayState)
    (hfile : s.Data.ReduceDelayedClose = true →
      s.Data.DelayedCloseCount = s.Data.DelayedCloseQueue.length)
    (hdir : s.Data.ReduceDirDelayedClose = true →
      s.Data.DirDelayedCloseCount = s.Data.DirDelayedCloseQueue.length)
    (hfuel : s.Data.DelayedCloseQueue.length < fuel)
    (hfuelDir : s.Data.DirDelayedCloseQueue.length < fuel) :
    ∃ s1, UDFDelayedClose fuel s = some s1 ∧
      s1.Data.DelayedCloseQueue = s.Data.DelayedCloseQueue.drop (drainExcess s.Data) ∧
      s1.Data.DelayedCloseCount = s.Data.DelayedCloseCount - drainExcess s.Data ∧
      s1.Data.DirDelayedCloseQueue =
        s.Data.DirDelayedCloseQueue.drop (drainDirExcess s.Data) ∧
      s1.Data.DirDelayedCloseCount = s.Data.DirDelayedCloseCount - drainDirExcess s.Data ∧
      s1.events =
        s.events ++ closes (s.Data.DelayedCloseQueue.take (drainExcess s.Data)) ++
          closes (s.Data.DirDelayedCloseQueue.take (drainDirExcess s.Data)) ∧
      (s.Data.ReduceDelayedClose = true →
        s1.Data.DelayedCloseCount ≤ s1.Data.MinDelayedCloseCount ∧
        s1.Data.DelayedCloseCount = s1.Data.DelayedCloseQueue.length) ∧
      (s.Data.ReduceDirDelayedClose = true →
        s1.Data.DirDelayedCloseCount ≤ s1.Data.MinDirDelayedCloseCount ∧
        s1.Data.DirDelayedCloseCount = s1.Data.DirDelayedCloseQueue.length) ∧
      s1.Data.FspCloseActive = false ∧ s1.Data.ReduceDelayedClose = false ∧
      s1.Data.ReduceDirDelayedClose = false ∧ s1.Data.watermarks = s.Data.watermarks := by
  obtain ⟨a, a1, a2, a3, a4, a5, a6⟩ := reduceQueue_spec fuel s hfile hfuel
  obtain ⟨fw, _, _, fd, _, _⟩ := reduceQueue_frame fuel s a a1
  have hmin : a.Data.MinDirDelayedCloseCount = s.Data.MinDirDelayedCloseCount :=
    congrArg (fun q => q.2.2.2) fw
  have hminf : a.Data.MinDelayedCloseCount = s.Data.MinDelayedCloseCount :=
    congrArg (fun q => q.2.1) fw
  have hk : drainDirExcess a.Data = drainDirExcess s.Data := by
    unfold drainDirExcess
    rw [fd, a5, hmin]
  obtain ⟨b, b1, b2, b3, b4, b5, b6⟩ := reduceDirQueue_spec fuel a
    (by rw [fd, a5, a4]; exact hdir) (by rw [a4]; exact hfuelDir)
  obtain ⟨gw, _, _, _, _, _⟩ := reduceDirQueue_frame fuel a b b1
  have hbmin : b.Data.MinDelayedCloseCount = s.Data.MinDelayedCloseCount :=
    (congrArg (fun q => q.2.1) gw).trans hminf
  have hbmind : b.Data.MinDirDelayedCloseCount = s.Data.MinDirDelayedCloseCount :=
    (congrArg (fun q => q.2.2.2) gw).trans hmin
  refine ⟨clearDrainFlags b, ?_, ?_, ?_, ?_, ?_, ?_, ?_, ?_, rfl, rfl, rfl, gw.trans fw⟩
  · simp only [UDFDelayedClose, a1, b1]
  · show b.Data.DelayedCloseQueue = _
    rw [b4, a2]
  · show b.Data.DelayedCloseCount = _
    rw [b5, a3]
  · show b.Data.DirDelayedCloseQueue = _
    rw [b2, hk, a4]
  · show b.Data.DirDelayedCloseCount = _
    rw [b3, hk, a5]
  · show b.events = _
    rw [b6, a6, hk, a4]
  · intro hr
    have hlen := hfile hr
    show b.Data.DelayedCloseCount ≤ b.Data.MinDelayedCloseCount ∧
      b.Data.DelayedCloseCount = b.Data.DelayedCloseQueue.length
    rw [b5, a3, b4, a2, hbmin, List.length_drop]
    simp only [drainExcess, hr, if_true]
    omega
  · intro hr
    have hlen := hdir hr
    show b.Data.DirDelayedCloseCount ≤ b.Data.MinDirDelayedCloseCount ∧
      b.Data.DirDelayedCloseCount = b.Data.DirDelayedCloseQueue.length
    rw [b3, b2, hk, a4, a5, hbmind, List.length_drop]
    simp only [drainDirExcess, hr, if_true]
    omega

/-- Witness for `UDFDelayedClose_spec`: with three files queued over a low watermark of one,
the drain closes the files 0 and 2, in that order, and leaves the file 4 queued. -/
theorem UDFDelayedClose_spec_witness :
    crowdedState.Data.ReduceDelayedClose = true ∧
    crowdedState.Data.DelayedCloseCount = crowdedState.Data.DelayedCloseQueue.length ∧
    crowdedState.Data.ReduceDirDelayedClose = false ∧
    ∃ s1, UDFDelayedClose 4 crowdedState = some s1 ∧
      s1.Data.DelayedCloseQueue = [⟨4, 1, 7⟩] ∧ s1.Data.DelayedCloseCount = 1 ∧
      s1.events =
        [.ExQueueWorkItem, .MyFreePool ⟨0, 1, 7⟩, .UDFCommonClose ⟨0, 1, 7⟩,
         .MyFreePool ⟨2, 1, 7⟩, .UDFCommonClose ⟨2, 1, 7⟩] ∧
      s1.Data.FspCloseActive = false ∧ s1.Data.ReduceDelayedClose = false :=
  have h := UDFDelayedClose_spec 4 crowdedState (fun _ => rfl)
    (fun h => absurd h (by decide)) (by decide) (by decide)
  ⟨rfl, rfl, rfl, h.choose, h.choose_spec.1, h.choose_spec.2.1, h.choose_spec.2.2.1,
    h.choose_spec.2.2.2.2.2.1, h.choose_spec.2.2.2.2.2.2.2.2.1,
    h.choose_spec.2.2.2.2.2.2.2.2.2.1⟩


/-! ## The delayed-close invariant between calls that do not overlap -/

theorem DelayInv.congr {s s1 : DelayState} (h : DelayInv s)
    (hq : s1.Data.queues = s.Data.queues) (hf : s1.Fcbs = s.Fcbs) : DelayInv s1 := by
  have q1 : s1.Data.DelayedCloseQueue = s.Data.DelayedCloseQueue := congrArg (fun q => q.1) hq
  have q2 : s1.Data.DirDelayedCloseQueue = s.Data.DirDelayedCloseQueue :=
    congrArg (fun q => q.2.1) hq
  have q3 : s1.Data.DelayedCloseCount = s.Data.DelayedCloseCount :=
    congrArg (fun q => q.2.2.1) hq
  have q4 : s1.Data.DirDelayedCloseCount = s.Data.DirDelayedCloseCount :=
    congrArg (fun q => q.2.2.2) hq
  constructor
  · rw [q1, q3]; exact h.count_eq
  · rw [q2, q4]; exact h.dir_count_eq
  · rw [q1, hf]; exact h.entries
  · rw [q2, hf]; exact h.dir_entries
  · rw [q1, q2, hf]; exact h.linked
  · rw [q1]; exact h.nodup
  · rw [q2]; exact h.dir_nodup

theorem DelayInv.clear {s : DelayState} (h : DelayInv s) (f : Nat) :
    DelayInv (clearDelayClose s f) := by
  obtain ⟨_, _, _, c4, c5⟩ := clearDelayClose_fields s f
  constructor
  · exact h.count_eq
  · exact h.dir_count_eq
  · intro e he
    rw [c4, c5]
    exact h.entries e he
  · intro e he
    rw [c4, c5]
    exact h.dir_entries e he
  · intro f1 e he
    rw [c4] at he
    exact h.linked f1 e he
  · exact h.nodup
  · exact h.dir_nodup

/-- A queued entry belongs to an `FCB` that points to an entry. -/
theorem DelayInv.queued {s : DelayState} (h : DelayInv s) (e : IRP_CONTEXT_LITE)
    (he : e ∈ s.Data.DelayedCloseQueue ∨ e ∈ s.Data.DirDelayedCloseQueue) :
    (s.Fcbs e.Fcb).IrpContextLite = some e := by
  rcases he with he | he
  · exact (h.entries e he).1
  · exact (h.dir_entries e he).1

/-- An entry is not in both queues. -/
theorem DelayInv.not_both {s : DelayState} (h : DelayInv s) (e : IRP_CONTEXT_LITE)
    (h1 : e ∈ s.Data.DelayedCloseQueue) (h2 : e ∈ s.Data.DirDelayedCloseQueue) : False := by
  have a := (h.entries e h1).2
  have b := (h.dir_entries e h2).2
  rw [a] at b
  cases b


/-- The insertion at lines 1015-1024 keeps the invariant, as long as the count does not wrap
around. -/
theorem DelayInv.insertFile {s : DelayState} (h : DelayInv s) (f t d : Nat)
    (ev : List DelayEvent) (hnone : (s.Fcbs f).IrpContextLite = none)
    (hflag : (s.Fcbs f).FlagDirectory = false)
    (hroom : s.Data.DelayedCloseCount < ULONG_MAX) :
    DelayInv
      { Data := { s.Data with
                  DelayedCloseQueue := s.Data.DelayedCloseQueue ++ [⟨f, t, d⟩]
                  DelayedCloseCount := ulongInc s.Data.DelayedCloseCount }
        Fcbs := Function.update s.Fcbs f { s.Fcbs f with IrpContextLite := some ⟨f, t, d⟩ }
        events := ev } := by
  have hne : ∀ e, (e ∈ s.Data.DelayedCloseQueue ∨ e ∈ s.Data.DirDelayedCloseQueue) →
      e.Fcb ≠ f := by
    intro e he hf
    have := h.queued e he
    rw [hf, hnone] at this
    cases this
  have hother : ∀ f1, f1 ≠ f →
      Function.update s.Fcbs f { s.Fcbs f with IrpContextLite := some ⟨f, t, d⟩ } f1 =
        s.Fcbs f1 := fun f1 h1 => Function.update_noteq h1 _ _
  have hsame :
      Function.update s.Fcbs f { s.Fcbs f with IrpContextLite := some ⟨f, t, d⟩ } f =
        { s.Fcbs f with IrpContextLite := some ⟨f, t, d⟩ } := Function.update_same _ _ _
  have hinc : ulongInc s.Data.DelayedCloseCount = s.Data.DelayedCloseCount + 1 := by
    unfold ulongInc
    rw [if_neg (Nat.ne_of_lt hroom)]
  refine { count_eq := ?own_count, dir_count_eq := h.dir_count_eq, entries := ?own_entries,
           dir_entries := ?oth_entries, linked := ?linked, nodup := ?own_nodup,
           dir_nodup := h.dir_nodup }
  case own_count =>
    show ulongInc s.Data.DelayedCloseCount = (s.Data.DelayedCloseQueue ++ [_]).length
    rw [hinc, h.count_eq]
    simp
  case own_entries =>
    intro e he
    show (Function.update s.Fcbs f _ e.Fcb).IrpContextLite = some e ∧
      (Function.update s.Fcbs f _ e.Fcb).FlagDirectory = false
    rcases List.mem_append.1 he with he | he
    · rw [hother _ (hne e (id (Or.inl he)))]
      exact h.entries e he
    · rw [List.mem_singleton] at he
      subst he
      rw [hsame]
      exact ⟨rfl, hflag⟩
  case oth_entries =>
    intro e he
    show (Function.update s.Fcbs f _ e.Fcb).IrpContextLite = some e ∧
      (Function.update s.Fcbs f _ e.Fcb).FlagDirectory = true
    rw [hother _ (hne e (id (Or.inr he)))]
    exact h.dir_entries e he
  case linked =>
    intro f1 e he
    by_cases hf : f1 = f
    · subst hf
      have he1 : (Function.update s.Fcbs f1
          { s.Fcbs f1 with IrpContextLite := some ⟨f1, t, d⟩ } f1).IrpContextLite = some e := he
      rw [hsame] at he1
      simp only [Option.some.injEq] at he1
      subst he1
      exact ⟨rfl, id (Or.inl (List.mem_append_right _ (List.mem_singleton_self _)))⟩
    · have he1 : (Function.update s.Fcbs f
          { s.Fcbs f with IrpContextLite := some ⟨f, t, d⟩ } f1).IrpContextLite = some e := he
      rw [hother f1 hf] at he1
      obtain ⟨a, b⟩ := h.linked f1 e he1
      refine ⟨a, ?_⟩
      rcases (id b : e ∈ s.Data.DelayedCloseQueue ∨ e ∈ s.Data.DirDelayedCloseQueue) with
        b | b
      · exact id (Or.inl (List.mem_append_left _ b))
      · exact id (Or.inr b)
  case own_nodup =>
    show (s.Data.DelayedCloseQueue ++ [_]).Nodup
    rw [List.nodup_append]
    refine ⟨h.nodup, List.nodup_singleton _, ?_⟩
    intro a ha hb
    rw [List.mem_singleton] at hb
    subst hb
    exact hne _ (id (Or.inl ha)) rfl

/-- The insertion at lines 1015-1024 keeps the invariant, as long as the count does not wrap
around. -/
theorem DelayInv.insertDir {s : DelayState} (h : DelayInv s) (f t d : Nat)
    (ev : List DelayEvent) (hnone : (s.Fcbs f).IrpContextLite = none)
    (hflag : (s.Fcbs f).FlagDirectory = true)
    (hroom : s.Data.DirDelayedCloseCount < ULONG_MAX) :
    DelayInv
      { Data := { s.Data with
                  DirDelayedCloseQueue := s.Data.DirDelayedCloseQueue ++ [⟨f, t, d⟩]
                  DirDelayedCloseCount := ulongInc s.Data.DirDelayedCloseCount }
        Fcbs := Function.update s.Fcbs f { s.Fcbs f with IrpContextLite := some ⟨f, t, d⟩ }
        events := ev } := by
  have hne : ∀ e, (e ∈ s.Data.DelayedCloseQueue ∨ e ∈ s.Data.DirDelayedCloseQueue) →
      e.Fcb ≠ f := by
    intro e he hf
    have := h.queued e he
    rw [hf, hnone] at this
    cases this
  have hother : ∀ f1, f1 ≠ f →
      Function.update s.Fcbs f { s.Fcbs f with IrpContextLite := some ⟨f, t, d⟩ } f1 =
        s.Fcbs f1 := fun f1 h1 => Function.update_noteq h1 _ _
  have hsame :
      Function.update s.Fcbs f { s.Fcbs f with IrpContextLite := some ⟨f, t, d⟩ } f =
        { s.Fcbs f with IrpContextLite := some ⟨f, t, d⟩ } := Function.update_same _ _ _
  have hinc : ulongInc s.Data.DirDelayedCloseCount = s.Data.DirDelayedCloseCount + 1 := by
    unfold ulongInc
    rw [if_neg (Nat.ne_of_lt hroom)]
  refine { dir_count_eq := ?own_count, count_eq := h.count_eq, dir_entries := ?own_entries,
           entries := ?oth_entries, linked := ?linked, dir_nodup := ?own_nodup,
           nodup := h.nodup }
  case own_count =>
    show ulongInc s.Data.DirDelayedCloseCount = (s.Data.DirDelayedCloseQueue ++ [_]).length
    rw [hinc, h.dir_count_eq]
    simp
  case own_entries =>
    intro e he
    show (Function.update s.Fcbs f _ e.Fcb).IrpContextLite = some e ∧
      (Function.update s.Fcbs f _ e.Fcb).FlagDirectory = true
    rcases List.mem_append.1 he with he | he
    · rw [hother _ (hne e (Or.symm (Or.inl he)))]
      exact h.dir_entries e he
    · rw [List.mem_singleton] at he
      subst he
      rw [hsame]
      exact ⟨rfl, hflag⟩
  case oth_entries =>
    intro e he
    show (Function.update s.Fcbs f _ e.Fcb).IrpContextLite = some e ∧
      (Function.update s.Fcbs f _ e.Fcb).FlagDirectory = false
    rw [hother _ (hne e (Or.symm (Or.inr he)))]
    exact h.entries e he
  case linked =>
    intro f1 e he
    by_cases hf : f1 = f
    · subst hf
      have he1 : (Function.update s.Fcbs f1
          { s.Fcbs f1 with IrpContextLite := some ⟨f1, t, d⟩ } f1).IrpContextLite = some e := he
      rw [hsame] at he1
      simp only [Option.some.injEq] at he1
      subst he1
      exact ⟨rfl, Or.symm (Or.inl (List.mem_append_right _ (List.mem_singleton_self _)))⟩
    · have he1 : (Function.update s.Fcbs f
          { s.Fcbs f with IrpContextLite := some ⟨f, t, d⟩ } f1).IrpContextLite = some e := he
      rw [hother f1 hf] at he1
      obtain ⟨a, b⟩ := h.linked f1 e he1
      refine ⟨a, ?_⟩
      rcases (Or.symm b : e ∈ s.Data.DirDelayedCloseQueue ∨ e ∈ s.Data.DelayedCloseQueue) with
        b | b
      · exact Or.symm (Or.inl (List.mem_append_left _ b))
      · exact Or.symm (Or.inr b)
  case own_nodup =>
    show (s.Data.DirDelayedCloseQueue ++ [_]).Nodup
    rw [List.nodup_append]
    refine ⟨h.dir_nodup, List.nodup_singleton _, ?_⟩
    intro a ha hb
    rw [List.mem_singleton] at hb
    subst hb
    exact hne _ (Or.symm (Or.inl ha)) rfl


/-- Taking an entry out of its queue (`RemoveEntryList`, then the count goes down) and
calling `UDFDoDelayedClose` on it keeps the invariant. -/
theorem DelayInv.removeFile {s : DelayState} (h : DelayInv s) (l1 l2 : List IRP_CONTEXT_LITE)
    (e : IRP_CONTEXT_LITE) (hq : s.Data.DelayedCloseQueue = l1 ++ e :: l2) :
    DelayInv
      (UDFDoDelayedClose
        { s with
          Data := { s.Data with
                    DelayedCloseQueue := l1 ++ l2
                    DelayedCloseCount := ulongDec s.Data.DelayedCloseCount } } e) := by
  have hmem : e ∈ s.Data.DelayedCloseQueue := by rw [hq]; simp
  have hnd : (e :: (l1 ++ l2)).Nodup := by
    have := h.nodup
    rw [hq] at this
    exact List.nodup_middle.1 this
  obtain ⟨hnot, hnd2⟩ := List.nodup_cons.1 hnd
  have hsub : ∀ x, x ∈ l1 ++ l2 → x ∈ s.Data.DelayedCloseQueue := by
    intro x hx
    rw [hq]
    rcases List.mem_append.1 hx with hx | hx
    · exact List.mem_append_left _ hx
    · exact List.mem_append_right _ (List.mem_cons_of_mem _ hx)
  have he1 := (h.entries e hmem).1
  have hne : ∀ x, (x ∈ l1 ++ l2 ∨ x ∈ s.Data.DirDelayedCloseQueue) → x.Fcb ≠ e.Fcb := by
    intro x hx hf
    have hx1 : (s.Fcbs x.Fcb).IrpContextLite = some x := by
      rcases hx with hx | hx
      · exact (h.entries x (hsub x hx)).1
      · exact (h.dir_entries x hx).1
    rw [hf, he1] at hx1
    simp only [Option.some.injEq] at hx1
    subst hx1
    rcases hx with hx | hx
    · exact hnot hx
    · exact h.not_both e hmem hx
  have hother : ∀ f1, f1 ≠ e.Fcb →
      Function.update s.Fcbs e.Fcb
        { s.Fcbs e.Fcb with IrpContextLite := none, FlagDelayClose := false } f1 =
        s.Fcbs f1 := fun f1 h1 => Function.update_noteq h1 _ _
  have hsame :
      Function.update s.Fcbs e.Fcb
        { s.Fcbs e.Fcb with IrpContextLite := none, FlagDelayClose := false } e.Fcb =
        { s.Fcbs e.Fcb with IrpContextLite := none, FlagDelayClose := false } :=
    Function.update_same _ _ _
  have hlen : s.Data.DelayedCloseCount = (l1 ++ l2).length + 1 := by
    rw [h.count_eq, hq]
    simp only [List.length_append, List.length_cons]
    omega
  refine { count_eq := ?own_count, dir_count_eq := h.dir_count_eq, entries := ?own_entries,
           dir_entries := ?oth_entries, linked := ?linked, nodup := hnd2,
           dir_nodup := h.dir_nodup }
  case own_count =>
    show ulongDec s.Data.DelayedCloseCount = (l1 ++ l2).length
    rw [ulongDec_of_pos (by omega), hlen]
    omega
  case own_entries =>
    intro x hx
    show (Function.update s.Fcbs e.Fcb _ x.Fcb).IrpContextLite = some x ∧
      (Function.update s.Fcbs e.Fcb _ x.Fcb).FlagDirectory = false
    rw [hother _ (hne x (Or.inl hx))]
    exact h.entries x (hsub x hx)
  case oth_entries =>
    intro x hx
    show (Function.update s.Fcbs e.Fcb _ x.Fcb).IrpContextLite = some x ∧
      (Function.update s.Fcbs e.Fcb _ x.Fcb).FlagDirectory = true
    rw [hother _ (hne x (Or.inr hx))]
    exact h.dir_entries x hx
  case linked =>
    intro f1 x hx
    have hx1 : (Function.update s.Fcbs e.Fcb
        { s.Fcbs e.Fcb with IrpContextLite := none, FlagDelayClose := false }
        f1).IrpContextLite = some x := hx
    by_cases hf : f1 = e.Fcb
    · subst hf
      rw [hsame] at hx1
      cases hx1
    · rw [hother f1 hf] at hx1
      obtain ⟨a, b⟩ := h.linked f1 x hx1
      refine ⟨a, ?_⟩
      rcases (id b : x ∈ s.Data.DelayedCloseQueue ∨ x ∈ s.Data.DirDelayedCloseQueue) with
        b | b
      · rw [hq] at b
        rcases List.mem_append.1 b with b | b
        · exact id (Or.inl (List.mem_append_left _ b))
        · rcases List.mem_cons.1 b with b | b
          · subst b
            exact absurd a.symm hf
          · exact id (Or.inl (List.mem_append_right _ b))
      · exact id (Or.inr b)

/-- Taking an entry out of its queue (`RemoveEntryList`, then the count goes down) and
calling `UDFDoDelayedClose` on it keeps the invariant. -/
theorem DelayInv.removeDir {s : DelayState} (h : DelayInv s) (l1 l2 : List IRP_CONTEXT_LITE)
    (e : IRP_CONTEXT_LITE) (hq : s.Data.DirDelayedCloseQueue = l1 ++ e :: l2) :
    DelayInv
      (UDFDoDelayedClose
        { s with
          Data := { s.Data with
                    DirDelayedCloseQueue := l1 ++ l2
                    DirDelayedCloseCount := ulongDec s.Data.DirDelayedCloseCount } } e) := by
  have hmem : e ∈ s.Data.DirDelayedCloseQueue := by rw [hq]; simp
  have hnd : (e :: (l1 ++ l2)).Nodup := by
    have := h.dir_nodup
    rw [hq] at this
    exact List.nodup_middle.1 this
  obtain ⟨hnot, hnd2⟩ := List.nodup_cons.1 hnd
  have hsub : ∀ x, x ∈ l1 ++ l2 → x ∈ s.Data.DirDelayedCloseQueue := by
    intro x hx
    rw [hq]
    rcases List.mem_append.1 hx with hx | hx
    · exact List.mem_append_left _ hx
    · exact List.mem_append_right _ (List.mem_cons_of_mem _ hx)
  have he1 := (h.dir_entries e hmem).1
  have hne : ∀ x, (x ∈ l1 ++ l2 ∨ x ∈ s.Data.DelayedCloseQueue) → x.Fcb ≠ e.Fcb := by
    intro x hx hf
    have hx1 : (s.Fcbs x.Fcb).IrpContextLite = some x := by
      rcases hx with hx | hx
      · exact (h.dir_entries x (hsub x hx)).1
      · exact (h.entries x hx).1
    rw [hf, he1] at hx1
    simp only [Option.some.injEq] at hx1
    subst hx1
    rcases hx with hx | hx
    · exact hnot hx
    · exact h.not_both e hx hmem
  have hother : ∀ f1, f1 ≠ e.Fcb →
      Function.update s.Fcbs e.Fcb
        { s.Fcbs e.Fcb with IrpContextLite := none, FlagDelayClose := false } f1 =
        s.Fcbs f1 := fun f1 h1 => Function.update_noteq h1 _ _
  have hsame :
      Function.update s.Fcbs e.Fcb
        { s.Fcbs e.Fcb with IrpContextLite := none, FlagDelayClose := false } e.Fcb =
        { s.Fcbs e.Fcb with IrpContextLite := none, FlagDelayClose := false } :=
    Function.update_same _ _ _
  have hlen : s.Data.DirDelayedCloseCount = (l1 ++ l2).length + 1 := by
    rw [h.dir_count_eq, hq]
    simp only [List.length_append, List.length_cons]
    omega
  refine { dir_count_eq := ?own_count, count_eq := h.count_eq, dir_entries := ?own_entries,
           entries := ?oth_entries, linked := ?linked, dir_nodup := hnd2,
           nodup := h.nodup }
  case own_count =>
    show ulongDec s.Data.DirDelayedCloseCount = (l1 ++ l2).length
    rw [ulongDec_of_pos (by omega), hlen]
    omega
  case own_entries =>
    intro x hx
    show (Function.update s.Fcbs e.Fcb _ x.Fcb).IrpContextLite = some x ∧
      (Function.update s.Fcbs e.Fcb _ x.Fcb).FlagDirectory = true
    rw [hother _ (hne x (Or.inl hx))]
    exact h.dir_entries x (hsub x hx)
  case oth_entries =>
    intro x hx
    show (Function.update s.Fcbs e.Fcb _ x.Fcb).IrpContextLite = some x ∧
      (Function.update s.Fcbs e.Fcb _ x.Fcb).FlagDirectory = false
    rw [hother _ (hne x (Or.inr hx))]
    exact h.entries x hx
  case linked =>
    intro f1 x hx
    have hx1 : (Function.update s.Fcbs e.Fcb
        { s.Fcbs e.Fcb with IrpContextLite := none, FlagDelayClose := false }
        f1).IrpContextLite = some x := hx
    by_cases hf : f1 = e.Fcb
    · subst hf
      rw [hsame] at hx1
      cases hx1
    · rw [hother f1 hf] at hx1
      obtain ⟨a, b⟩ := h.linked f1 x hx1
      refine ⟨a, ?_⟩
      rcases (Or.symm b : x ∈ s.Data.DirDelayedCloseQueue ∨ x ∈ s.Data.DelayedCloseQueue) with
        b | b
      · rw [hq] at b
        rcases List.mem_append.1 b with b | b
        · exact Or.symm (Or.inl (List.mem_append_left _ b))
        · rcases List.mem_cons.1 b with b | b
          · subst b
            exact absurd a.symm hf
          · exact Or.symm (Or.inl (List.mem_append_right _ b))
      · exact Or.symm (Or.inr b)


theorem UDFQueueDelayedClose_inv {s : DelayState} (h : DelayInv s)
    (hroom : s.Data.DelayedCloseCount < ULONG_MAX)
    (hroomDir : s.Data.DirDelayedCloseCount < ULONG_MAX) (alloc : Bool) (f t d : Nat) :
    DelayInv (UDFQueueDelayedClose alloc s f t d).2 := by
  rcases UDFQueueDelayedClose_eq alloc s f t d with ⟨_, _, _, hs⟩ | ⟨_, _, hnone, _, _, hs⟩
  · rw [hs]
    exact h.clear f
  · rw [hs]
    have hbase : DelayInv
        { Data := insertEntry s.Data (s.Fcbs f).FlagDirectory ⟨f, t, d⟩
          Fcbs := Function.update s.Fcbs f { s.Fcbs f with IrpContextLite := some ⟨f, t, d⟩ }
          events := [] } := by
      cases hd : (s.Fcbs f).FlagDirectory with
      | false => exact h.insertFile f t d [] hnone hd hroom
      | true => exact h.insertDir f t d [] hnone hd hroomDir
    refine hbase.congr ?_ rfl
    show (raiseDirReduce _ _).1.queues = _
    rw [(raiseDirReduce_fields _ _).1, (raiseReduce_fields _).1]

theorem DelayInv.spin {s : DelayState} (h : DelayInv s) :
    DelayInv { s with events := s.events ++ [.BrutePoint] } :=
  h.congr rfl rfl

theorem reduceQueue_inv : ∀ (fuel : Nat) (s s1 : DelayState),
    DelayInv s → reduceQueue fuel s = some s1 → DelayInv s1 := by
  intro fuel
  induction fuel with
  | zero => intro s s1 _ h; simp [reduceQueue] at h
  | succ n ih =>
    intro s s1 hinv h
    cases hc : (s.Data.ReduceDelayedClose &&
      decide (s.Data.DelayedCloseCount > s.Data.MinDelayedCloseCount)) with
    | false =>
      rw [reduceQueue_done n s hc] at h
      simp only [Option.some.injEq] at h
      subst h
      exact hinv
    | true =>
      cases hq : s.Data.DelayedCloseQueue with
      | nil =>
        rw [reduceQueue_nil n s hc hq] at h
        exact ih _ _ hinv.spin h
      | cons e rest =>
        rw [reduceQueue_cons n s e rest hc hq] at h
        exact ih _ _ (hinv.removeFile [] rest e hq) h

theorem closeAllQueue_inv (Vcb : Nat) : ∀ (rest kept : List IRP_CONTEXT_LITE)
    (s : DelayState), DelayInv s → s.Data.DelayedCloseQueue = kept ++ rest →
    DelayInv (closeAllQueue Vcb kept rest s) := by
  intro rest
  induction rest with
  | nil => intro kept s h _; exact h
  | cons e rest ih =>
    intro kept s h hq
    simp only [closeAllQueue]
    split_ifs
    · exact ih kept _ (h.removeFile kept rest e hq) rfl
    · exact ih (kept ++ [e]) s h (by rw [hq, List.append_assoc]; rfl)

theorem reduceDirQueue_inv : ∀ (fuel : Nat) (s s1 : DelayState),
    DelayInv s → reduceDirQueue fuel s = some s1 → DelayInv s1 := by
  intro fuel
  induction fuel with
  | zero => intro s s1 _ h; simp [reduceDirQueue] at h
  | succ n ih =>
    intro s s1 hinv h
    cases hc : (s.Data.ReduceDirDelayedClose &&
      decide (s.Data.DirDelayedCloseCount > s.Data.MinDirDelayedCloseCount)) with
    | false =>
      rw [reduceDirQueue_done n s hc] at h
      simp only [Option.some.injEq] at h
      subst h
      exact hinv
    | true =>
      cases hq : s.Data.DirDelayedCloseQueue with
      | nil =>
        rw [reduceDirQueue_nil n s hc hq] at h
        exact ih _ _ hinv.spin h
      | cons e rest =>
        rw [reduceDirQueue_cons n s e rest hc hq] at h
        exact ih _ _ (hinv.removeDir [] rest e hq) h

theorem closeAllDirQueue_inv (Vcb : Nat) : ∀ (rest kept : List IRP_CONTEXT_LITE)
    (s : DelayState), DelayInv s → s.Data.DirDelayedCloseQueue = kept ++ rest →
    DelayInv (closeAllDirQueue Vcb kept rest s) := by
  intro rest
  induction rest with
  | nil => intro kept s h _; exact h
  | cons e rest ih =>
    intro kept s h hq
    simp only [closeAllDirQueue]
    split_ifs
    · exact ih kept _ (h.removeDir kept rest e hq) rfl
    · exact ih (kept ++ [e]) s h (by rw [hq, List.append_assoc]; rfl)


theorem erase_middle (l1 l2 : List IRP_CONTEXT_LITE) (e : IRP_CONTEXT_LITE)
    (h : (l1 ++ e :: l2).Nodup) : (l1 ++ e :: l2).erase e = l1 ++ l2 := by
  have hnot : e ∉ l1 := by
    have h1 := (List.nodup_cons.1 (List.nodup_middle.1 h)).1
    exact fun hm => h1 (List.mem_append_left _ hm)
  rw [List.erase_append_right _ hnot, List.erase_cons_head]

theorem closeFound_inv : ∀ (found : List (Option Nat)) (s : DelayState),
    DelayInv s → DelayInv (closeFound found s) := by
  intro found
  induction found with
  | nil => intro s h; exact h
  | cons a rest ih =>
    intro s h
    cases a with
    | none => exact ih s h
    | some f =>
      cases hl : (s.Fcbs f).IrpContextLite with
      | none =>
        have : closeFound (some f :: rest) s = closeFound rest s := by
          simp only [closeFound, hl]
        rw [this]
        exact ih s h
      | some e =>
        have : closeFound (some f :: rest) s =
            closeFound rest
              (UDFDoDelayedClose
                { s with Data := unlinkEntry s.Data e (s.Fcbs e.Fcb).FlagDirectory } e) := by
          simp only [closeFound, hl]
        rw [this]
        apply ih
        obtain ⟨_, hm⟩ := h.linked f e hl
        rcases hm with hm | hm
        · have hflag := (h.entries e hm).2
          obtain ⟨l1, l2, hq⟩ := List.append_of_mem hm
          have hnd := h.nodup
          rw [hq] at hnd
          have hQ : s.Data.DelayedCloseQueue.erase e = l1 ++ l2 := by
            rw [hq]
            exact erase_middle l1 l2 e hnd
          have hD : s.Data.DirDelayedCloseQueue.erase e = s.Data.DirDelayedCloseQueue :=
            List.erase_of_not_mem (fun hd => h.not_both e hm hd)
          have hdata : unlinkEntry s.Data e (s.Fcbs e.Fcb).FlagDirectory =
              { s.Data with
                DelayedCloseQueue := l1 ++ l2
                DelayedCloseCount := ulongDec s.Data.DelayedCloseCount } := by
            rw [hflag]
            simp only [unlinkEntry, hQ, hD, Bool.false_eq_true, if_false]
          rw [hdata]
          exact h.removeFile l1 l2 e hq
        · have hflag := (h.dir_entries e hm).2
          obtain ⟨l1, l2, hq⟩ := List.append_of_mem hm
          have hnd := h.dir_nodup
          rw [hq] at hnd
          have hD : s.Data.DirDelayedCloseQueue.erase e = l1 ++ l2 := by
            rw [hq]
            exact erase_middle l1 l2 e hnd
          have hQ : s.Data.DelayedCloseQueue.erase e = s.Data.DelayedCloseQueue :=
            List.erase_of_not_mem (fun hd => h.not_both e hd hm)
          have hdata : unlinkEntry s.Data e (s.Fcbs e.Fcb).FlagDirectory =
              { s.Data with
                DirDelayedCloseQueue := l1 ++ l2
                DirDelayedCloseCount := ulongDec s.Data.DirDelayedCloseCount } := by
            rw [hflag]
            simp only [unlinkEntry, hQ, hD, if_true]
          rw [hdata]
          exact h.removeDir l1 l2 e hq

theorem UDFDelayedClose_inv (fuel : Nat) (s s1 : DelayState) (h : DelayInv s)
    (hd : UDFDelayedClose fuel s = some s1) : DelayInv s1 := by
  unfold UDFDelayedClose at hd
  cases h1 : reduceQueue fuel s with
  | none => simp [h1] at hd
  | some a =>
    cases h2 : reduceDirQueue fuel a with
    | none => simp [h1, h2] at hd
    | some b =>
      simp only [h1, h2, Option.some.injEq] at hd
      subst hd
      exact (reduceDirQueue_inv fuel a b (reduceQueue_inv fuel s a h h1) h2).congr rfl rfl

theorem UDFCloseAllDelayed_inv (Vcb : Nat) (s : DelayState) (h : DelayInv s) :
    DelayInv (UDFCloseAllDelayed Vcb s) := by
  unfold UDFCloseAllDelayed
  exact closeAllDirQueue_inv Vcb _ _ _
    (closeAllQueue_inv Vcb _ _ s h (List.nil_append _).symm) (List.nil_append _).symm

theorem UDFCloseAllXXXDelayedInDir_inv (env : DirCloseEnv) (s : DelayState)
    (h : DelayInv s) : DelayInv (UDFCloseAllXXXDelayedInDir env s).2 := by
  unfold UDFCloseAllXXXDelayedInDir
  split_ifs
  · exact h
  · exact h
  · exact h
  · exact closeFound_inv _ s h


theorem entriesFor_le_one (l : List IRP_CONTEXT_LITE) (hnd : l.Nodup) (f : Nat)
    (e : IRP_CONTEXT_LITE) (hall : ∀ x ∈ l, x.Fcb = f → x = e) : entriesFor l f ≤ 1 := by
  unfold entriesFor
  have hnd1 : (l.filter (fun x => decide (x.Fcb = f))).Nodup := hnd.filter _
  have hall1 : ∀ x ∈ l.filter (fun x => decide (x.Fcb = f)), x = e := by
    intro x hx
    obtain ⟨h1, h2⟩ := List.mem_filter.1 hx
    exact hall x h1 (by simpa using h2)
  cases hl : l.filter (fun x => decide (x.Fcb = f)) with
  | nil => simp
  | cons a t =>
    cases t with
    | nil => simp
    | cons b u =>
      rw [hl] at hnd1 hall1
      have ha := hall1 a (by simp)
      have hb := hall1 b (by simp)
      rw [ha, hb] at hnd1
      simp at hnd1

theorem entriesFor_pos (l : List IRP_CONTEXT_LITE) (f : Nat) (e : IRP_CONTEXT_LITE)
    (he : e ∈ l) (hf : e.Fcb = f) : 1 ≤ entriesFor l f := by
  unfold entriesFor
  exact List.length_pos_of_mem (List.mem_filter.2 ⟨he, by simpa using hf⟩)

theorem entriesFor_zero (l : List IRP_CONTEXT_LITE) (f : Nat)
    (h : ∀ x ∈ l, x.Fcb ≠ f) : entriesFor l f = 0 := by
  unfold entriesFor
  rw [List.length_eq_zero, List.filter_eq_nil_iff]
  intro x hx
  simpa using h x hx

/-- In a state that satisfies the invariant an `FCB` has one entry, in the queue of its
kind, if `Fcb->IrpContextLite` is set, and no entry otherwise. -/
theorem DelayInv.one_entry {s : DelayState} (h : DelayInv s) (f : Nat) :
    entriesFor s.Data.DelayedCloseQueue f + entriesFor s.Data.DirDelayedCloseQueue f =
      (if (s.Fcbs f).IrpContextLite.isSome then 1 else 0) ∧
    ((s.Fcbs f).FlagDirectory = true → entriesFor s.Data.DelayedCloseQueue f = 0) ∧
    ((s.Fcbs f).FlagDirectory = false → entriesFor s.Data.DirDelayedCloseQueue f = 0) := by
  have hfile0 : (s.Fcbs f).FlagDirectory = true →
      entriesFor s.Data.DelayedCloseQueue f = 0 := by
    intro hd
    apply entriesFor_zero
    intro x hx hf
    have := (h.entries x hx).2
    rw [hf, hd] at this
    cases this
  have hdir0 : (s.Fcbs f).FlagDirectory = false →
      entriesFor s.Data.DirDelayedCloseQueue f = 0 := by
    intro hd
    apply entriesFor_zero
    intro x hx hf
    have := (h.dir_entries x hx).2
    rw [hf, hd] at this
    cases this
  refine ⟨?_, hfile0, hdir0⟩
  cases hl : (s.Fcbs f).IrpContextLite with
  | none =>
    have z1 : entriesFor s.Data.DelayedCloseQueue f = 0 := by
      apply entriesFor_zero
      intro x hx hf
      have := (h.entries x hx).1
      rw [hf, hl] at this
      cases this
    have z2 : entriesFor s.Data.DirDelayedCloseQueue f = 0 := by
      apply entriesFor_zero
      intro x hx hf
      have := (h.dir_entries x hx).1
      rw [hf, hl] at this
      cases this
    rw [z1, z2]
    rfl
  | some e =>
    obtain ⟨hef, hm⟩ := h.linked f e hl
    have hall1 : ∀ x ∈ s.Data.DelayedCloseQueue, x.Fcb = f → x = e := by
      intro x hx hf
      have := (h.entries x hx).1
      rw [hf, hl] at this
      exact (Option.some.inj this).symm
    have hall2 : ∀ x ∈ s.Data.DirDelayedCloseQueue, x.Fcb = f → x = e := by
      intro x hx hf
      have := (h.dir_entries x hx).1
      rw [hf, hl] at this
      exact (Option.some.inj this).symm
    have u1 := entriesFor_le_one _ h.nodup f e hall1
    have u2 := entriesFor_le_one _ h.dir_nodup f e hall2
    show _ = 1
    rcases hm with hm | hm
    · have p := entriesFor_pos _ f e hm hef
      have hd : (s.Fcbs f).FlagDirectory = false := by
        have := (h.entries e hm).2
        rwa [hef] at this
      have := hdir0 hd
      omega
    · have p := entriesFor_pos _ f e hm hef
      have hd : (s.Fcbs f).FlagDirectory = true := by
        have := (h.dir_entries e hm).2
        rwa [hef] at this
      have := hfile0 hd
      omega

theorem plainState_inv (g : UDFData) (h1 : g.DelayedCloseQueue = [])
    (h2 : g.DirDelayedCloseQueue = []) (h3 : g.DelayedCloseCount = 0)
    (h4 : g.DirDelayedCloseCount = 0) : DelayInv (plainState g) := by
  refine { count_eq := ?_, dir_count_eq := ?_, entries := ?_, dir_entries := ?_,
           linked := ?_, nodup := ?_, dir_nodup := ?_ }
  · show g.DelayedCloseCount = g.DelayedCloseQueue.length
    rw [h1, h3]; rfl
  · show g.DirDelayedCloseCount = g.DirDelayedCloseQueue.length
    rw [h2, h4]; rfl
  · intro e he
    have : e ∈ g.DelayedCloseQueue := he
    rw [h1] at this
    cases this
  · intro e he
    have : e ∈ g.DirDelayedCloseQueue := he
    rw [h2] at this
    cases this
  · intro f e he
    cases he
  · show g.DelayedCloseQueue.Nodup
    rw [h1]; exact List.nodup_nil
  · show g.DirDelayedCloseQueue.Nodup
    rw [h2]; exact List.nodup_nil

theorem crowdedState_inv : DelayInv crowdedState := by
  have h0 : DelayInv (plainState tightData) := plainState_inv tightData rfl rfl rfl rfl
  have h1 := UDFQueueDelayedClose_inv h0 (by decide) (by decide) true 0 1 7
  have h2 := UDFQueueDelayedClose_inv h1 (by decide) (by decide) true 2 1 7
  exact UDFQueueDelayedClose_inv h2 (by decide) (by decide) true 4 1 7


/-- Calls that do not overlap keep the queues consistent. Call a state consistent when
`DelayedCloseCount` and `DirDelayedCloseCount` are the lengths of their queues and
`Fcb->IrpContextLite` is set exactly for the `FCB`s that have an entry queued, which is then
that one entry, in the directory queue for a directory and in the file queue otherwise
(`DelayInv`). In a consistent state an `FCB` has one queued entry if `Fcb->IrpContextLite` is
set and none otherwise, so two closes of one object are never pending together. Consistency
is kept by `UDFQueueDelayedClose` (while the counts are below 0xFFFFFFFF), by
`UDFDelayedClose` whenever it returns, by `UDFCloseAllDelayed` run from start to end with no
other call in between, by the internal mode of `UDFCloseAllXXXDelayedInDir`, and by
`UDFDoDelayedClose` run, as at each of its call sites, on an entry that has just been
unlinked with its count decremented. -/
theorem delayed_close_invariant (s : DelayState) (h : DelayInv s) :
    (s.Data.DelayedCloseCount = s.Data.DelayedCloseQueue.length ∧
      s.Data.DirDelayedCloseCount = s.Data.DirDelayedCloseQueue.length ∧
      ∀ f,
        entriesFor s.Data.DelayedCloseQueue f + entriesFor s.Data.DirDelayedCloseQueue f =
          (if (s.Fcbs f).IrpContextLite.isSome then 1 else 0) ∧
        ((s.Fcbs f).FlagDirectory = true → entriesFor s.Data.DelayedCloseQueue f = 0) ∧
        ((s.Fcbs f).FlagDirectory = false →
          entriesFor s.Data.DirDelayedCloseQueue f = 0)) ∧
    (∀ alloc f t d, s.Data.DelayedCloseCount < ULONG_MAX →
      s.Data.DirDelayedCloseCount < ULONG_MAX →
      DelayInv (UDFQueueDelayedClose alloc s f t d).2) ∧
    (∀ fuel s1, UDFDelayedClose fuel s = some s1 → DelayInv s1) ∧
    (∀ Vcb, DelayInv (UDFCloseAllDelayed Vcb s)) ∧
    (∀ env, DelayInv (UDFCloseAllXXXDelayedInDir env s).2) ∧
    (∀ l1 e l2, s.Data.DelayedCloseQueue = l1 ++ e :: l2 →
      DelayInv
        (UDFDoDelayedClose
          { s with
            Data := { s.Data with
                      DelayedCloseQueue := l1 ++ l2
                      DelayedCloseCount := ulongDec s.Data.DelayedCloseCount } } e)) ∧
    (∀ l1 e l2, s.Data.DirDelayedCloseQueue = l1 ++ e :: l2 →
      DelayInv
        (UDFDoDelayedClose
          { s with
            Data := { s.Data with
                      DirDelayedCloseQueue := l1 ++ l2
                      DirDelayedCloseCount := ulongDec s.Data.DirDelayedCloseCount } } e)) :=
  ⟨⟨h.count_eq, h.dir_count_eq, fun f => h.one_entry f⟩,
    fun alloc f t d h1 h2 => UDFQueueDelayedClose_inv h h1 h2 alloc f t d,
    fun fuel s1 hd => UDFDelayedClose_inv fuel s s1 h hd,
    fun Vcb => UDFCloseAllDelayed_inv Vcb s h,
    fun env => UDFCloseAllXXXDelayedInDir_inv env s h,
    fun l1 e l2 hq => h.removeFile l1 l2 e hq,
    fun l1 e l2 hq => h.removeDir l1 l2 e hq⟩

/-- Witness for `delayed_close_invariant`: with the files 0, 2 and 4 queued, the file 2 has
one entry and the file 6 none, a second close of the file 2 is refused and changes nothing,
and closing everything of volume 1 empties the queue and clears the pointer of the file 2. -/
theorem delayed_close_invariant_witness :
    DelayInv crowdedState ∧
    entriesFor crowdedState.Data.DelayedCloseQueue 2 = 1 ∧
    entriesFor crowdedState.Data.DelayedCloseQueue 6 = 0 ∧
    (UDFQueueDelayedClose true crowdedState 2 1 7).1 = STATUS_UNSUCCESSFUL ∧
    (UDFQueueDelayedClose true crowdedState 2 1 7).2.Data = crowdedState.Data ∧
    (UDFCloseAllDelayed 1 crowdedState).Data.DelayedCloseQueue = [] ∧
    ((UDFCloseAllDelayed 1 crowdedState).Fcbs 2).IrpContextLite = none ∧
    DelayInv (UDFQueueDelayedClose true crowdedState 2 1 7).2 ∧
    DelayInv (UDFCloseAllDelayed 1 crowdedState) :=
  have h := delayed_close_invariant crowdedState crowdedState_inv
  ⟨crowdedState_inv, rfl, rfl, rfl, rfl, rfl, rfl,
    h.2.1 true 2 1 7 (by decide) (by decide), h.2.2.2.1 1⟩


/-! ## Fast I/O check -/

/-- With a byte-range lock structure, a write check on a write-protected or read-only
volume is refused. -/
theorem fast_write_check_with_lock_structure (env : FastIoEnv) (wp ro : Bool)
    (h : wp = true ∨ ro = true) :
    (UDFFastIoCheckIfPossible env (regularFile true wp ro) false).ReturnedStatus = false := by
  rcases h with h | h <;> subst h <;> simp [UDFFastIoCheckIfPossible, regularFile]

/-- A read check does not look at the volume bits. -/
theorem fast_read_check (env : FastIoEnv) (lock wp ro : Bool) :
    (UDFFastIoCheckIfPossible env (regularFile lock wp ro) true).ReturnedStatus =
      (!lock || env.FsRtlFastCheckLockForRead) := by
  simp [UDFFastIoCheckIfPossible, regularFile]

/-- C26, evaluated on the code: for a regular file whose `FileLock` is NULL, the write check
of `UDFFastIoCheckIfPossible` returns TRUE whatever the volume bits are, in particular on a
write-protected and on a read-only volume; the test of the two bits is reached only when
the file has a lock structure. -/
theorem fast_write_check_without_lock_structure (env : FastIoEnv) (wp ro : Bool) :
    UDFFastIoCheckIfPossible env (regularFile false wp ro) false =
      { ReturnedStatus := true, IoStatus := none } := by
  simp [UDFFastIoCheckIfPossible, regularFile]


/-! ## The configuration parser -/

/-- The digit loop returns once its fuel exceeds the distance to the end of the buffer. -/
theorem cfgDigits_returns (Cfg : Nat → Nat) (Length DefValue radix : Nat) :
    ∀ (fuel i ret_val : Nat) (wait_val : Bool) (reads : List Nat), i ≤ Length →
      Length < fuel + i →
      (cfgDigits Cfg Length DefValue radix fuel i ret_val wait_val reads).isSome = true := by
  intro fuel
  induction fuel with
  | zero =>
    intro i ret_val wait_val reads h1 h
    omega
  | succ n ih =>
    intro i ret_val wait_val reads h1 h
    unfold cfgDigits
    dsimp only
    split_ifs <;> first
      | rfl
      | (apply ih <;> omega)

/-- The value block returns under the same bound. -/
theorem cfgValue_returns (Cfg : Nat → Nat) (Length DefValue fuel i a : Nat)
    (reads : List Nat) (h : Length < fuel + i) :
    (cfgValue Cfg Length DefValue fuel i a reads).isSome = true := by
  unfold cfgValue
  dsimp only
  split_ifs <;> first
    | rfl
    | (apply cfgDigits_returns <;> omega)

/-- A pass that continues does so at a later index inside the buffer or at its end. -/
theorem cfgName_next (Cfg : Nat → Nat) (Length : Nat) (NameA : List Nat) (DefValue i : Nat)
    (wait_name wait_val : Bool) (reads1 : List Nat) (hi : i < Length)
    (i1 : Nat) (n1 v1 l1 : Bool) (r1 : List Nat)
    (h : cfgName Cfg Length NameA DefValue i wait_name wait_val reads1 = .next i1 n1 v1 l1 r1) :
    i < i1 ∧ i1 ≤ Length := by
  unfold cfgName at h
  dsimp only at h
  split_ifs at h <;> first
    | (have e := (CfgStep.next.inj h).1; omega)

/-- A pass that continues does so at a later index inside the buffer or at its end. -/
theorem cfgStep_next (Cfg : Nat → Nat) (Length : Nat) (NameA : List Nat) (DefValue i : Nat)
    (wait_name wait_val wait_nl : Bool) (reads : List Nat) (hi : i < Length)
    (i1 : Nat) (n1 v1 l1 : Bool) (r1 : List Nat)
    (h : cfgStep Cfg Length NameA DefValue i wait_name wait_val wait_nl reads =
      .next i1 n1 v1 l1 r1) :
    i < i1 ∧ i1 ≤ Length := by
  unfold cfgStep at h
  dsimp only at h
  split_ifs at h <;> first
    | (have e := (CfgStep.next.inj h).1; omega)
    | (exact cfgName_next _ _ _ _ _ _ _ _ hi _ _ _ _ _ h)

/-- The scanning loop returns once its fuel exceeds the distance to the end of the buffer
by two (one unit for the last test of the digit loop). -/
theorem cfgScan_returns (Cfg : Nat → Nat) (Length : Nat) (NameA : List Nat) (DefValue : Nat) :
    ∀ (fuel i : Nat) (wait_name wait_val wait_nl : Bool) (reads : List Nat), i ≤ Length →
      Length + 1 < fuel + i →
      (cfgScan Cfg Length NameA DefValue fuel i wait_name wait_val wait_nl reads).isSome =
        true := by
  intro fuel
  induction fuel with
  | zero =>
    intro i wait_name wait_val wait_nl reads h1 h
    omega
  | succ n ih =>
    intro i wait_name wait_val wait_nl reads h1 h
    unfold cfgScan
    by_cases hi : i < Length
    · rw [if_pos hi]
      cases hs : cfgStep Cfg Length NameA DefValue i wait_name wait_val wait_nl reads with
      | done r => rfl
      | next i1 n1 v1 l1 r1 =>
        have hb := cfgStep_next _ _ _ _ _ _ _ _ _ hi _ _ _ _ _ hs
        exact ih _ _ _ _ _ hb.2 (by omega)
      | value a r1 => exact cfgValue_returns _ _ _ _ _ _ _ (by omega)
    · rw [if_neg hi]
      rfl

/-- The parser is total: the fuel it is given is never used up. -/
theorem UDFGetCfgParameter_returns (Vcb : CfgVcb) (NameA : List Nat) (DefValue : Nat) :
    (UDFGetCfgParameter Vcb NameA DefValue).isSome = true := by
  unfold UDFGetCfgParameter
  split
  · rfl
  · split_ifs <;> first
      | rfl
      | (apply cfgScan_returns <;> omega)

/-- A pass made while the parser waits for a line end (`wait_nl` set, still looking for the
name) either returns `DefValue` or goes on to the next byte in the same condition: no byte,
a line end included, clears `wait_nl`. -/
theorem cfgStep_waiting (Cfg : Nat → Nat) (Length : Nat) (NameA : List Nat) (DefValue i : Nat)
    (reads : List Nat) :
    cfgStep Cfg Length NameA DefValue i true false true reads =
        .done { value := DefValue, reads := reads ++ [i] } ∨
    cfgStep Cfg Length NameA DefValue i true false true reads =
        .next (i + 1) true false true (reads ++ [i]) := by
  unfold cfgStep
  dsimp only
  split_ifs <;> first
    | contradiction
    | simp

/-- Once a line that does not start with the name, or a comment, has set `wait_nl`, the
parser returns `DefValue` whatever the rest of the buffer holds. -/
theorem cfgScan_waiting (Cfg : Nat → Nat) (Length : Nat) (NameA : List Nat) (DefValue : Nat) :
    ∀ (fuel i : Nat) (reads : List Nat), i ≤ Length → Length + 1 < fuel + i →
      (cfgScan Cfg Length NameA DefValue fuel i true false true reads).map CfgResult.value =
        some DefValue := by
  intro fuel
  induction fuel with
  | zero =>
    intro i reads h1 h
    omega
  | succ n ih =>
    intro i reads h1 h
    unfold cfgScan
    by_cases hi : i < Length
    · rw [if_pos hi]
      rcases cfgStep_waiting Cfg Length NameA DefValue i reads with e | e
      · rw [e]
        rfl
      · rw [e]
        exact ih _ _ (by omega) (by omega)
    · rw [if_neg hi]
      rfl

/-- On its first line a parameter is found. -/
theorem UDFGetCfgParameter_first_line :
    (UDFGetCfgParameter (cfgOf (bytes "b=2\na=1")) (bytes "b") 7).map CfgResult.value =
      some 2 := by
  decide

/-- C30, evaluated on the code. (1) With the buffer `a=1`, line feed, `b=2` and the name
`b`, the parser returns `DefValue` (here 7), not 2: the mismatch on the first line sets
`wait_nl`, which no line end clears, and the next `=` ends the call. (2) The same happens
behind a comment line. (3) With the three-byte buffer `a=0` and the name `a` the parser
reads `Cfg[3]`, one byte behind the buffer. -/
theorem UDFGetCfgParameter_later_line :
    UDFGetCfgParameter (cfgOf (bytes "a=1\nb=2")) (bytes "b") 7 =
      some { value := 7, reads := [0, 0, 1] } ∧
    (UDFGetCfgParameter (cfgOf (bytes "# c\nb=2")) (bytes "b") 7).map CfgResult.value =
      some 7 ∧
    (cfgOf (bytes "a=0")).CfgLength = 3 ∧
    UDFGetCfgParameter (cfgOf (bytes "a=0")) (bytes "a") 7 =
      some { value := 0, reads := [0, 0, 1, 2, 3, 2] } := by
  decide


/-! ## Unlocking a volume -/

/-- A successful `UDFLockVolume` is one whose four tests at lines 1616-1619 passed on the
drained and flushed volume, and it leaves that volume with the lock fields set. -/
theorem UDFLockVolume_success (env : VolumeEnv) (Vcb : VolumeVcb) (h : VolumeHandle)
    (PID : Nat) (hl : (UDFLockVolume env Vcb h PID).outcome = .returned STATUS_SUCCESS) :
    h.isVolumeOpen = true ∧
    (atLockCheck env Vcb).VpbLocked = false ∧
    (atLockCheck env Vcb).VolumeLockPID = ULONG_MAX ∧
    (atLockCheck env Vcb).VCBOpenCount ≤ env.UDF_RESIDUAL_REFERENCE + 1 ∧
    (atLockCheck env Vcb).VpbReferenceCount = 2 ∧
    (UDFLockVolume env Vcb h PID).Vcb =
      { atLockCheck env Vcb with
        VpbLocked := decide (PID = ULONG_MAX), VolumeLocked := true
        VolumeLockFileObject := some h.FileObject, VolumeLockPID := PID } := by
  obtain ⟨fo, ccb⟩ := h
  have e1 : STATUS_INVALID_PARAMETER ≠ STATUS_SUCCESS := by decide
  have e2 : STATUS_ACCESS_DENIED ≠ STATUS_SUCCESS := by decide
  cases ccb with
  | none => simp [UDFLockVolume, e1] at hl
  | some ccb =>
    by_cases c1 : (!ccb.FcbIsVcb || !ccb.VolumeOpen) = true
    · simp [UDFLockVolume, c1, e1] at hl
    · have c1b : ccb.FcbIsVcb = true ∧ ccb.VolumeOpen = true := by
        revert c1; cases ccb.FcbIsVcb <;> cases ccb.VolumeOpen <;> simp
      simp only [UDFLockVolume, c1, if_false] at hl ⊢
      cases hv : env.UDFVerifyVcb (drainDelayedCloses env Vcb).1 with
      | some code => simp [hv] at hl
      | none =>
        simp only [hv] at hl ⊢
        by_cases c2 :
            (!(env.UDFFlushLogicalVolume (drainDelayedCloses env Vcb).1).VpbLocked &&
              decide ((env.UDFFlushLogicalVolume
                (drainDelayedCloses env Vcb).1).VolumeLockPID = ULONG_MAX) &&
              decide ((env.UDFFlushLogicalVolume
                (drainDelayedCloses env Vcb).1).VCBOpenCount ≤
                  env.UDF_RESIDUAL_REFERENCE + 1) &&
              decide ((env.UDFFlushLogicalVolume
                (drainDelayedCloses env Vcb).1).VpbReferenceCount = 2)) = true
        · simp only [c2, if_true]
          simp only [Bool.and_eq_true, decide_eq_true_eq, Bool.not_eq_true'] at c2
          refine ⟨by simp [VolumeHandle.isVolumeOpen, c1b.1, c1b.2], c2.1.1.1, c2.1.1.2,
            c2.1.2, c2.2, ?_⟩
          unfold atLockCheck
          by_cases hp : PID = ULONG_MAX
          · simp [hp]
          · simp [hp, c2.1.1.1]
        · simp only [c2, if_false] at hl
          simp [e2] at hl

/-- The routine `UDFUnlockVolume` on a volume-open handle succeeds exactly when `VPB_LOCKED`
is set and the handle's file object is the recorded one. -/
theorem UDFUnlockVolume_success (Vcb : VolumeVcb) (h : VolumeHandle)
    (hvol : h.isVolumeOpen = true) :
    ((UDFUnlockVolume Vcb h).outcome = .returned STATUS_SUCCESS ↔
      Vcb.VpbLocked = true ∧ Vcb.VolumeLockFileObject = some h.FileObject) ∧
    ((UDFUnlockVolume Vcb h).outcome ≠ .returned STATUS_SUCCESS →
      (UDFUnlockVolume Vcb h).outcome = .returned STATUS_NOT_LOCKED ∧
      (UDFUnlockVolume Vcb h).Vcb = Vcb) := by
  obtain ⟨fo, ccb⟩ := h
  have e2 : STATUS_NOT_LOCKED ≠ STATUS_SUCCESS := by decide
  cases ccb with
  | none => simp [VolumeHandle.isVolumeOpen] at hvol
  | some ccb =>
    simp only [VolumeHandle.isVolumeOpen, Bool.and_eq_true] at hvol
    simp only [UDFUnlockVolume, UDFUnlockVolumeInternal, hvol.1, hvol.2, Bool.not_true,
      Bool.or_self, Bool.false_eq_true, if_false]
    by_cases c : (Vcb.VpbLocked && decide (some fo = Vcb.VolumeLockFileObject)) = true
    · simp only [c, if_true]
      simp only [Bool.and_eq_true, decide_eq_true_eq] at c
      simp [c.1, c.2.symm]
    · simp only [c, if_false]
      simp only [Bool.and_eq_true, decide_eq_true_eq, not_and] at c
      refine ⟨⟨fun hh => absurd hh (by simp [e2]), fun hh => absurd hh.2.symm (c hh.1)⟩,
        fun _ => ⟨rfl, rfl⟩⟩

/-- For a lock taken with the default PID (`(ULONG)-1`) the unlock through the same handle
succeeds: it clears `VPB_LOCKED`, `VCB_STATE_VOLUME_LOCKED` and `VolumeLockFileObject` and
leaves every test of a later `UDFLockVolume` as it stood when the lock was granted. -/
theorem UDFUnlockVolume_after_default_lock (env : VolumeEnv) (Vcb : VolumeVcb)
    (h : VolumeHandle)
    (hl : (UDFLockVolume env Vcb h ULONG_MAX).outcome = .returned STATUS_SUCCESS) :
    (UDFUnlockVolume (UDFLockVolume env Vcb h ULONG_MAX).Vcb h).outcome =
      .returned STATUS_SUCCESS ∧
    (UDFUnlockVolume (UDFLockVolume env Vcb h ULONG_MAX).Vcb h).Vcb =
      { atLockCheck env Vcb with
        VpbLocked := false, VolumeLocked := false, VolumeLockFileObject := none } ∧
    (UDFUnlockVolume (UDFLockVolume env Vcb h ULONG_MAX).Vcb h).Vcb.VolumeLockPID =
      ULONG_MAX := by
  obtain ⟨hvol, h1, h2, -, -, h5⟩ := UDFLockVolume_success env Vcb h ULONG_MAX hl
  rw [h5]
  obtain ⟨fo, ccb⟩ := h
  cases ccb with
  | none => simp [VolumeHandle.isVolumeOpen] at hvol
  | some ccb =>
    simp only [VolumeHandle.isVolumeOpen, Bool.and_eq_true] at hvol
    simp [UDFUnlockVolume, UDFUnlockVolumeInternal, hvol.1, hvol.2, h2]

/-- C25, evaluated on the code: `UDFLockVolume` with PID 5 through file object 7 succeeds and
sets `VCB_STATE_VOLUME_LOCKED` and `VolumeLockFileObject`, but not `VPB_LOCKED`. The
following `UDFUnlockVolume` through the same file object returns `STATUS_NOT_LOCKED` and
leaves the volume locked, and a new `UDFLockVolume` is then denied. -/
theorem unlock_after_lock_with_PID :
    (UDFLockVolume quietVolumeEnv unlockedVolume volumeHandle 5).outcome =
      .returned STATUS_SUCCESS ∧
    (UDFLockVolume quietVolumeEnv unlockedVolume volumeHandle 5).Vcb.lockState =
      (false, true, some 7, 5) ∧
    (UDFUnlockVolume (UDFLockVolume quietVolumeEnv unlockedVolume volumeHandle 5).Vcb
      volumeHandle).outcome = .returned STATUS_NOT_LOCKED ∧
    (UDFUnlockVolume (UDFLockVolume quietVolumeEnv unlockedVolume volumeHandle 5).Vcb
      volumeHandle).Vcb.lockState = (false, true, some 7, 5) ∧
    (UDFLockVolume quietVolumeEnv
      (UDFUnlockVolume (UDFLockVolume quietVolumeEnv unlockedVolume volumeHandle 5).Vcb
        volumeHandle).Vcb volumeHandle ULONG_MAX).outcome =
      .returned STATUS_ACCESS_DENIED := by
  decide


/-! ## The no-delayed-close bit on removal and shutdown -/

/-- The shutdown path sets the bit before its first drain: on a volume not yet shut down,
the first drain it calls sees the bit set, whatever the bit was on entry. -/
theorem shutdownVolume_sets_flag (env : RemovalEnv) (Vcb : RemovalVcb)
    (h : Vcb.Shutdown = false) :
    (flagSnapshots (shutdownVolume env Vcb).2).head? = some true := by
  unfold shutdownVolume
  simp only [h, Bool.false_eq_true, if_false]
  by_cases hr : Vcb.RootDirPresent = true
  · simp only [hr, if_true]
    split_ifs <;> rfl
  · simp only [hr, if_false]
    split_ifs <;> rfl

/-- Neither removal path writes the bit before its drains: the first drain sees the value
the bit had on entry. -/
theorem removalDrain_entry_flag (env : RemovalEnv) (Vcb : RemovalVcb) :
    (flagSnapshots (removalDrain env Vcb).2).head? = some Vcb.NoDelayedClose := by
  unfold removalDrain
  by_cases hr : Vcb.Volume.RawDisk = true <;> simp [hr, flagSnapshots]

/-- C22, evaluated on the code: on a mounted volume with the no-delayed-close bit clear,
`UDFPnpRemove` and `UDFPnpSurpriseRemove` call both drains and the dismount sequence with
the bit still clear, and leave it clear; `UDFCommonShutdown` on the same volume sets it
before the first drain. -/
theorem removal_drains_with_flag_clear :
    mountedRemovalVcb.NoDelayedClose = false ∧
    flagSnapshots (UDFPnpRemove quietRemovalEnv mountedRemovalVcb).events =
      [false, false, false] ∧
    (UDFPnpRemove quietRemovalEnv mountedRemovalVcb).Vcb.NoDelayedClose = false ∧
    flagSnapshots (UDFPnpSurpriseRemove quietRemovalEnv mountedRemovalVcb).events =
      [false, false, false] ∧
    (UDFPnpSurpriseRemove quietRemovalEnv mountedRemovalVcb).Vcb.NoDelayedClose = false ∧
    flagSnapshots (UDFCommonShutdown quietRemovalEnv [mountedRemovalVcb]).2 =
      [true, true, true] := by
  decide


/-! ## The stack-budget guard -/

/-- A call of `UDFPostRequest` changes the volume fields. -/
theorem UDFPostRequest_changes (thr : Nat) (Vcb : VCB) (ctx : IRP_CONTEXT)
    (Irp : Option PIRP) : (UDFPostRequest thr Vcb ctx Irp).Vcb ≠ Vcb := by
  unfold UDFPostRequest
  intro h
  split_ifs at h
  · have := congrArg (fun v => v.OverflowQueue.length) h
    simp at this
  · have := congrArg VCB.PostedRequestCount h
    simp only [ulongInc, ULONG_MAX] at this
    split_ifs at this <;> omega

/-- The finally block of `UDFCommonRead` entered with `STATUS_PENDING` posts the context. -/
theorem readFinally_pending (env : ReadEnv) (req : ReadRequest) (n : Nat) (Vcb : VCB)
    (ctx : IRP_CONTEXT) (Irp : IRP) (trace : List Event) :
    (readFinally env req STATUS_PENDING n Vcb ctx Irp trace).Vcb =
      (UDFPostRequest env.FSP_PER_DEVICE_THRESHOLD Vcb ctx (some Irp.Address)).Vcb ∧
    postsOrQueues (readFinally env req STATUS_PENDING n Vcb ctx Irp trace).events = true := by
  unfold readFinally
  simp only [if_true, true_and]
  unfold postsOrQueues PostResult.events UDFPostRequest
  split_ifs <;> simp

/-- Whenever a read goes through the guard and the event is allocated, the finally block of
the submitting call posts the context after the worker has run: the volume fields are those
`UDFPostRequest` leaves, starting from the fields the worker left. -/
theorem UDFCommonRead_guard (env : ReadEnv) (req : ReadRequest) (rest : List Bool)
    (Vcb : VCB) (ctx : IRP_CONTEXT) (Irp : IRP)
    (h1 : req.MinorComplete = false) (h2 : req.MinorDpc = false) (h3 : req.FcbDeleted = false)
    (h4 : env.EventAllocated = true) :
    (UDFCommonRead env req (true :: rest) Vcb ctx Irp).Vcb =
      (UDFPostRequest env.FSP_PER_DEVICE_THRESHOLD
        (UDFCommonRead env req rest Vcb { ctx with FlagWait := true } Irp).Vcb
        (UDFCommonRead env req rest Vcb { ctx with FlagWait := true } Irp).IrpContext
        (some ((UDFCommonRead env req rest Vcb { ctx with FlagWait := true } Irp).Irp.getD
          Irp).Address)).Vcb ∧
    (UDFCommonRead env req (true :: rest) Vcb ctx Irp).Vcb ≠
      (UDFCommonRead env req rest Vcb { ctx with FlagWait := true } Irp).Vcb ∧
    postsOrQueues (UDFCommonRead env req (true :: rest) Vcb ctx Irp).events = true := by
  have e : UDFCommonRead env req (true :: rest) Vcb ctx Irp =
      readFinally env req STATUS_PENDING 0
        (UDFCommonRead env req rest Vcb { ctx with FlagWait := true } Irp).Vcb
        (UDFCommonRead env req rest Vcb { ctx with FlagWait := true } Irp).IrpContext
        ((UDFCommonRead env req rest Vcb { ctx with FlagWait := true } Irp).Irp.getD Irp)
        ([Event.external "UDFAcquireResourceShared" ctx.Tag,
          Event.external "FsRtlPostStackOverflow" ctx.Tag] ++
          (UDFCommonRead env req rest Vcb { ctx with FlagWait := true } Irp).events ++
          [Event.external "KeSetEvent" ctx.Tag,
           Event.external "UDFReleaseResource" ctx.Tag]) := by
    rw [UDFCommonRead]
    simp [h1, h2, h3, h4, UDFPostStackOverflowRead]
  rw [e]
  have hp := readFinally_pending env req 0
    (UDFCommonRead env req rest Vcb { ctx with FlagWait := true } Irp).Vcb
    (UDFCommonRead env req rest Vcb { ctx with FlagWait := true } Irp).IrpContext
    ((UDFCommonRead env req rest Vcb { ctx with FlagWait := true } Irp).Irp.getD Irp)
    ([Event.external "UDFAcquireResourceShared" ctx.Tag,
      Event.external "FsRtlPostStackOverflow" ctx.Tag] ++
      (UDFCommonRead env req rest Vcb { ctx with FlagWait := true } Irp).events ++
      [Event.external "KeSetEvent" ctx.Tag, Event.external "UDFReleaseResource" ctx.Tag])
  refine ⟨hp.1, ?_, hp.2⟩
  rw [hp.1]
  exact UDFPostRequest_changes _ _ _ _

/-- C21, evaluated on the code: a plain read that meets the guard on the submitting thread
is executed by the stack-overflow worker, which completes the IRP; after the hand-off has
returned, `UDFCommonRead` locks the user buffer, marks the IRP pending and hands the same
context to `ExQueueWorkItem`, and `PostedRequestCount` goes from 0 to 1. -/
theorem stack_overflow_read_posted_again :
    (UDFCommonRead sampleReadEnv plainRead [true] VCB.initial (sampleContext 1)
        sampleIrp).events =
      [Event.external "UDFAcquireResourceShared" 1, Event.external "FsRtlPostStackOverflow" 1,
       Event.external "read" 1,
       Event.IoCompleteRequest { Address := 1, Status := STATUS_SUCCESS, Information := 512 },
       Event.external "KeSetEvent" 1, Event.external "UDFReleaseResource" 1,
       Event.external "UDFLockUserBuffer" 1, Event.IoMarkIrpPending 1,
       Event.ExQueueWorkItem 1] ∧
    VCB.initial.PostedRequestCount = 0 ∧
    (UDFCommonRead sampleReadEnv plainRead [true] VCB.initial (sampleContext 1)
        sampleIrp).Vcb.PostedRequestCount = 1 ∧
    (UDFCommonRead sampleReadEnv plainRead [true] VCB.initial (sampleContext 1)
        sampleIrp).result = .returned STATUS_PENDING := by
  decide


/-! ## The body of `UDFCommonClose` -/

theorem ulongDec_ulongInc (x : Nat) : ulongDec (ulongInc x) = x := by
  by_cases h : x = ULONG_MAX
  · simp [ulongDec, ulongInc, h]
  · simp [ulongDec, ulongInc, h]

/-- The finally block leaves the counters alone. -/
theorem closeFinally_state (s : CloseState) (ctx : CloseContext) (Irp a g : Bool)
    (d : CloseDisposition) :
    (closeFinally s ctx Irp a g d).State.Volume = s.Volume ∧
    (closeFinally s ctx Irp a g d).State.Dispatcher = s.Dispatcher ∧
    (closeFinally s ctx Irp a g d).State.Delay = s.Delay ∧
    (closeFinally s ctx Irp a g d).State.Fcbs = s.Fcbs ∧
    (closeFinally s ctx Irp a g d).Disposition = d :=
  ⟨rfl, rfl, rfl, rfl, rfl⟩

/-- Posting changes the dispatcher fields only. -/
theorem closePost_state (env : CloseBodyEnv) (s : CloseState) (ctx : CloseContext) (f : Nat)
    (a : Bool) :
    (closePost env s ctx f a).State.Volume = s.Volume ∧
    (closePost env s ctx f a).State.Delay = s.Delay ∧
    (closePost env s ctx f a).State.Fcbs = s.Fcbs ∧
    (closePost env s ctx f a).Disposition = .posted ∧
    (closePost env s ctx f a).Context.Fcb = f ∧
    (closePost env s ctx f a).Context.TreeLength = ctx.TreeLength ∧
    (closePost env s ctx f a).Context.Context.Irp = none := by
  refine ⟨rfl, rfl, rfl, rfl, ?_, ?_, ?_⟩ <;>
    (unfold closePost closeComplete; dsimp only; split_ifs <;> rfl)

/-- On the volume path the increment and the decrement of `VCBOpenCount` cancel, and
`CcbCount` is not written. -/
theorem closeVolumePath_state (env : CloseBodyEnv) (s : CloseState) (ctx : CloseContext)
    (f : Nat) (Irp a : Bool) :
    (closeVolumePath env s ctx f Irp a).State.Volume = s.Volume ∧
    (closeVolumePath env s ctx f Irp a).State.Dispatcher = s.Dispatcher ∧
    (closeVolumePath env s ctx f Irp a).State.Delay = s.Delay ∧
    ((closeVolumePath env s ctx f Irp a).State.Fcbs f).CcbCount = (s.Fcbs f).CcbCount ∧
    (∀ g, g ≠ f → (closeVolumePath env s ctx f Irp a).State.Fcbs g = s.Fcbs g) ∧
    (closeVolumePath env s ctx f Irp a).Disposition = .closed := by
  have hv : ({ s.Volume with
      VCBOpenCount := ulongDec (ulongInc s.Volume.VCBOpenCount) } : CloseVolume) =
      s.Volume := by
    rw [ulongDec_ulongInc]
  unfold closeVolumePath
  by_cases c1 : s.Volume.VCBOpenCount > env.UDF_RESIDUAL_REFERENCE
  · rw [if_pos c1]
    refine ⟨rfl, rfl, rfl, ?_, ?_, rfl⟩
    · simp [closeFinally, dropReferences]
    · intro g hg
      simp [closeFinally, dropReferences, Function.update_noteq hg]
  · rw [if_neg c1]
    dsimp only
    split_ifs
    all_goals
      refine ⟨hv, rfl, rfl, ?_, ?_, rfl⟩
      · simp [closeFinally, dropReferences]
      · intro g hg
        simp [closeFinally, dropReferences, Function.update_noteq hg]

/-- The volume path keeps the calls made before it. -/
theorem closeVolumePath_calls (env : CloseBodyEnv) (s : CloseState) (ctx : CloseContext)
    (f : Nat) (Irp a : Bool) (c : CloseCall) (hc : c ∈ s.calls) :
    c ∈ (closeVolumePath env s ctx f Irp a).State.calls := by
  unfold closeVolumePath
  by_cases c1 : s.Volume.VCBOpenCount > env.UDF_RESIDUAL_REFERENCE
  · rw [if_pos c1]
    simp [closeFinally, dropReferences, hc]
  · rw [if_neg c1]
    dsimp only
    split_ifs
    all_goals simp [closeFinally, dropReferences, hc]

/-- What `closeProceed` does: it posts when there is an IRP and the caller must not wait,
and else runs the real close with the decrements of lines 262-270. -/
theorem closeProceed_state (env : CloseBodyEnv) (s : CloseState) (ctx : CloseContext)
    (f i : Nat) (Ccb : Option CloseCcb) (CanWait a : Bool) :
    (closeProceed env s ctx f i Ccb CanWait a).State.Delay = s.Delay ∧
    ((Ccb.isSome && !CanWait) = true →
      (closeProceed env s ctx f i Ccb CanWait a).Disposition = .posted ∧
      (closeProceed env s ctx f i Ccb CanWait a).State.Volume = s.Volume ∧
      (closeProceed env s ctx f i Ccb CanWait a).State.Fcbs = s.Fcbs ∧
      (closeProceed env s ctx f i Ccb CanWait a).Context.Fcb = f ∧
      (closeProceed env s ctx f i Ccb CanWait a).Context.TreeLength = ctx.TreeLength) ∧
    ((Ccb.isSome && !CanWait) = false →
      (closeProceed env s ctx f i Ccb CanWait a).Disposition = .closed ∧
      (closeProceed env s ctx f i Ccb CanWait a).State.Volume =
        (closeDecrement s f Ccb a).Volume ∧
      (closeProceed env s ctx f i Ccb CanWait a).State.Dispatcher = s.Dispatcher ∧
      ((closeProceed env s ctx f i Ccb CanWait a).State.Fcbs f).CcbCount =
        ulongDec (s.Fcbs f).CcbCount ∧
      (∀ g, g ≠ f → (closeProceed env s ctx f i Ccb CanWait a).State.Fcbs g = s.Fcbs g) ∧
      CloseCall.InterlockedDecrement f a ∈
        (closeProceed env s ctx f i Ccb CanWait a).State.calls) := by
  unfold closeProceed
  by_cases c : (Ccb.isSome && !CanWait) = true
  · rw [if_pos c]
    obtain ⟨h1, h2, h3, h4, h5, h6, -⟩ := closePost_state env s ctx f a
    exact ⟨h2, fun _ => ⟨h4, h1, h3, h5, h6⟩, fun h => absurd c (by simp [h])⟩
  · rw [if_neg c]
    dsimp only
    by_cases c2 : i = 0 ∨ (s.Fcbs f).IsVcb = true
    · rw [if_pos c2]
      obtain ⟨h1, h2, h3, h4, h5, h6⟩ :=
        closeVolumePath_state env (closeDecrement s f Ccb a) ctx f Ccb.isSome a
      refine ⟨h3, fun h => absurd h c, fun _ => ⟨h6, h1, h2, ?_, ?_, ?_⟩⟩
      · rw [h4]
        simp [closeDecrement]
      · intro g hg
        rw [h5 g hg]
        simp [closeDecrement, Function.update_noteq hg]
      · exact closeVolumePath_calls env (closeDecrement s f Ccb a) ctx f Ccb.isSome a _
          (by simp [closeDecrement])
    · rw [if_neg c2]
      refine ⟨rfl, fun h => absurd h c, fun _ => ⟨rfl, rfl, rfl, ?_, ?_, ?_⟩⟩
      · simp [closeFinally, closeDecrement]
      · intro g hg
        simp [closeFinally, closeDecrement, Function.update_noteq hg]
      · simp [closeFinally, closeDecrement]


/-- The three ways through the delayed-close test of lines 240-250. -/
theorem closeEntered_cases (env : CloseBodyEnv) (s : CloseState) (ctx : CloseContext)
    (f i : Nat) (Ccb : Option CloseCcb) (CanWait : Bool) :
    (delayTest s f = false ∧
      closeEntered env s ctx f i Ccb CanWait = closeProceed env s ctx f i Ccb CanWait true) ∨
    (delayTest s f = true ∧
      (UDFQueueDelayedClose env.LiteAllocated s.Delay f ctx.TreeLength ctx.RealDevice).1 =
        STATUS_SUCCESS ∧
      closeEntered env s ctx f i Ccb CanWait =
        closeFinally
          { s with
            Delay := (UDFQueueDelayedClose env.LiteAllocated s.Delay f ctx.TreeLength
              ctx.RealDevice).2
            calls := s.calls ++ [CloseCall.ReleaseVcb, CloseCall.UDFQueueDelayedClose f
              (UDFQueueDelayedClose env.LiteAllocated s.Delay f ctx.TreeLength
                ctx.RealDevice).1] }
          ctx Ccb.isSome false false .delayed) ∨
    (delayTest s f = true ∧
      (UDFQueueDelayedClose env.LiteAllocated s.Delay f ctx.TreeLength ctx.RealDevice).1 ≠
        STATUS_SUCCESS ∧
      (UDFQueueDelayedClose env.LiteAllocated s.Delay f ctx.TreeLength ctx.RealDevice).2 =
        clearDelayClose s.Delay f ∧
      closeEntered env s ctx f i Ccb CanWait =
        closeProceed env
          { s with
            Delay := (UDFQueueDelayedClose env.LiteAllocated s.Delay f ctx.TreeLength
              ctx.RealDevice).2
            calls := s.calls ++ [CloseCall.ReleaseVcb, CloseCall.UDFQueueDelayedClose f
              (UDFQueueDelayedClose env.LiteAllocated s.Delay f ctx.TreeLength
                ctx.RealDevice).1] }
          ctx f i Ccb CanWait false) := by
  unfold closeEntered
  by_cases ht : delayTest s f = true
  · rw [if_pos ht]
    dsimp only
    by_cases hq : (UDFQueueDelayedClose env.LiteAllocated s.Delay f ctx.TreeLength
        ctx.RealDevice).1 = STATUS_SUCCESS
    · rw [if_pos hq]
      exact Or.inr (Or.inl ⟨ht, hq, rfl⟩)
    · rw [if_neg hq]
      refine Or.inr (Or.inr ⟨ht, hq, ?_, rfl⟩)
      rcases UDFQueueDelayedClose_eq env.LiteAllocated s.Delay f ctx.TreeLength
        ctx.RealDevice with h | h
      · exact h.2.2.2
      · exact absurd h.1 hq
  · rw [if_neg ht]
    exact Or.inl ⟨by simpa using ht, rfl⟩

/-- The delayed-close fields after the part of `UDFCommonClose` behind line 228. -/
theorem closeEntered_delay (env : CloseBodyEnv) (s : CloseState) (ctx : CloseContext)
    (f i : Nat) (Ccb : Option CloseCcb) (CanWait : Bool) :
    (delayTest s f = false →
      (closeEntered env s ctx f i Ccb CanWait).State.Delay = s.Delay ∧
      (closeEntered env s ctx f i Ccb CanWait).Disposition ≠ .delayed) ∧
    ((closeEntered env s ctx f i Ccb CanWait).Disposition = .delayed →
      delayTest s f = true ∧
      (UDFQueueDelayedClose env.LiteAllocated s.Delay f ctx.TreeLength ctx.RealDevice).1 =
        STATUS_SUCCESS ∧
      (closeEntered env s ctx f i Ccb CanWait).State.Delay =
        (UDFQueueDelayedClose env.LiteAllocated s.Delay f ctx.TreeLength ctx.RealDevice).2) ∧
    ((closeEntered env s ctx f i Ccb CanWait).Disposition ≠ .delayed →
      (closeEntered env s ctx f i Ccb CanWait).State.Delay.Data = s.Delay.Data) := by
  have hp : ∀ (s1 : CloseState) (a : Bool),
      (closeProceed env s1 ctx f i Ccb CanWait a).Disposition ≠ .delayed := by
    intro s1 a
    obtain ⟨-, h2, h3⟩ := closeProceed_state env s1 ctx f i Ccb CanWait a
    cases hc : (Ccb.isSome && !CanWait)
    · rw [(h3 hc).1]; decide
    · rw [(h2 hc).1]; decide
  rcases closeEntered_cases env s ctx f i Ccb CanWait with ⟨ht, e⟩ | ⟨ht, hq, e⟩ | ⟨ht, hq, hc, e⟩
  · rw [e]
    refine ⟨fun _ => ⟨(closeProceed_state env s ctx f i Ccb CanWait true).1, hp _ _⟩,
      fun h => absurd h (hp _ _),
      fun _ => by rw [(closeProceed_state env s ctx f i Ccb CanWait true).1]⟩
  · rw [e]
    refine ⟨fun h => absurd ht (by simp [h]), fun _ => ⟨ht, hq, rfl⟩,
      fun h => absurd rfl h⟩
  · rw [e]
    refine ⟨fun h => absurd ht (by simp [h]), fun h => absurd h (hp _ _), fun _ => ?_⟩
    rw [(closeProceed_state env _ ctx f i Ccb CanWait false).1]
    show (UDFQueueDelayedClose env.LiteAllocated s.Delay f ctx.TreeLength
      ctx.RealDevice).2.Data = s.Delay.Data
    rw [hc]
    rfl

/-- A successful `UDFQueueDelayedClose` appends one entry for the `FCB` to one of the two
queues. -/
theorem UDFQueueDelayedClose_appends (alloc : Bool) (s : DelayState) (f t d : Nat)
    (h : (UDFQueueDelayedClose alloc s f t d).1 = STATUS_SUCCESS) :
    ((UDFQueueDelayedClose alloc s f t d).2.Data.DelayedCloseQueue =
        s.Data.DelayedCloseQueue ++ [⟨f, t, d⟩] ∧
      (UDFQueueDelayedClose alloc s f t d).2.Data.DirDelayedCloseQueue =
        s.Data.DirDelayedCloseQueue) ∨
    ((UDFQueueDelayedClose alloc s f t d).2.Data.DirDelayedCloseQueue =
        s.Data.DirDelayedCloseQueue ++ [⟨f, t, d⟩] ∧
      (UDFQueueDelayedClose alloc s f t d).2.Data.DelayedCloseQueue =
        s.Data.DelayedCloseQueue) := by
  have e0 : NT_SUCCESS STATUS_SUCCESS = true := by decide
  rcases UDFQueueDelayedClose_eq alloc s f t d with h1 | h1
  · rw [h] at h1
    exact absurd h1.1 (by simp [e0])
  · rw [h1.2.2.2.2.2]
    have hr := (raise_spec (insertEntry s.Data (s.Fcbs f).FlagDirectory ⟨f, t, d⟩)).1
    simp only [UDFData.queues, Prod.mk.injEq] at hr
    show ((raiseDirReduce _ _).1.DelayedCloseQueue = _ ∧
      (raiseDirReduce _ _).1.DirDelayedCloseQueue = _) ∨
      ((raiseDirReduce _ _).1.DirDelayedCloseQueue = _ ∧
      (raiseDirReduce _ _).1.DelayedCloseQueue = _)
    rw [hr.1, hr.2.1]
    cases hd : (s.Fcbs f).FlagDirectory
    · left; simp [insertEntry]
    · right; simp [insertEntry]

/-- The test of lines 240-243 does not read `CcbCount` or the trace. -/
theorem delayTest_first (s : CloseState) (Ccb : CloseCcb) (calls : List CloseCall) :
    delayTest
      { s with
        Fcbs := Function.update s.Fcbs Ccb.Fcb
          { s.Fcbs Ccb.Fcb with CcbCount := ulongInc (s.Fcbs Ccb.Fcb).CcbCount }
        calls := calls } Ccb.Fcb = delayTest s Ccb.Fcb := by
  simp [delayTest]

/-- The test of lines 240-243 fails exactly when one of its four conditions does. -/
theorem delayTest_false (s : CloseState) (f : Nat) :
    delayTest s f = false ↔
      ((s.Delay.Fcbs f).FlagDelayClose = false ∨ s.Volume.VcbCondition ≠ .VcbMounted ∨
        s.Volume.NoDelayedClose = true ∨ (s.Fcbs f).OpenHandleCount ≠ 0) := by
  unfold delayTest
  cases (s.Delay.Fcbs f).FlagDelayClose <;> cases s.Volume.NoDelayedClose <;>
    by_cases h1 : s.Volume.VcbCondition = .VcbMounted <;>
    by_cases h2 : (s.Fcbs f).OpenHandleCount = 0 <;> simp [h1, h2]

/-- The delayed-close fields after a call of `UDFCommonClose`, in terms of the test of lines
240-243 on the state before the call. -/
theorem UDFCommonCloseBody_delay (env : CloseBodyEnv) (s : CloseState) (ctx : CloseContext)
    (req : CloseRequest) (CanWait : Bool) :
    (delayTest s (req.target ctx) = false →
      (UDFCommonCloseBody env s ctx req CanWait).Disposition ≠ .delayed) ∧
    ((UDFCommonCloseBody env s ctx req CanWait).Disposition ≠ .delayed →
      (UDFCommonCloseBody env s ctx req CanWait).State.Delay.Data = s.Delay.Data) ∧
    ((UDFCommonCloseBody env s ctx req CanWait).Disposition = .delayed →
      delayTest s (req.target ctx) = true ∧
      ∃ entry : IRP_CONTEXT_LITE, entry.Fcb = req.target ctx ∧
        (((UDFCommonCloseBody env s ctx req CanWait).State.Delay.Data.DelayedCloseQueue =
            s.Delay.Data.DelayedCloseQueue ++ [entry] ∧
          (UDFCommonCloseBody env s ctx req CanWait).State.Delay.Data.DirDelayedCloseQueue =
            s.Delay.Data.DirDelayedCloseQueue) ∨
         ((UDFCommonCloseBody env s ctx req CanWait).State.Delay.Data.DirDelayedCloseQueue =
            s.Delay.Data.DirDelayedCloseQueue ++ [entry] ∧
          (UDFCommonCloseBody env s ctx req CanWait).State.Delay.Data.DelayedCloseQueue =
            s.Delay.Data.DelayedCloseQueue))) := by
  have key : ∀ (s1 : CloseState) (ctx1 : CloseContext) (f i : Nat) (Ccb : Option CloseCcb),
      s1.Delay = s.Delay → delayTest s1 f = delayTest s f →
      (delayTest s f = false →
        (closeEntered env s1 ctx1 f i Ccb CanWait).Disposition ≠ .delayed) ∧
      ((closeEntered env s1 ctx1 f i Ccb CanWait).Disposition ≠ .delayed →
        (closeEntered env s1 ctx1 f i Ccb CanWait).State.Delay.Data = s.Delay.Data) ∧
      ((closeEntered env s1 ctx1 f i Ccb CanWait).Disposition = .delayed →
        delayTest s f = true ∧
        ∃ entry : IRP_CONTEXT_LITE, entry.Fcb = f ∧
          (((closeEntered env s1 ctx1 f i Ccb CanWait).State.Delay.Data.DelayedCloseQueue =
              s.Delay.Data.DelayedCloseQueue ++ [entry] ∧
            (closeEntered env s1 ctx1 f i Ccb CanWait).State.Delay.Data.DirDelayedCloseQueue =
              s.Delay.Data.DirDelayedCloseQueue) ∨
           ((closeEntered env s1 ctx1 f i Ccb CanWait).State.Delay.Data.DirDelayedCloseQueue =
              s.Delay.Data.DirDelayedCloseQueue ++ [entry] ∧
            (closeEntered env s1 ctx1 f i Ccb CanWait).State.Delay.Data.DelayedCloseQueue =
              s.Delay.Data.DelayedCloseQueue))) := by
    intro s1 ctx1 f i Ccb hd ht
    obtain ⟨h1, h2, h3⟩ := closeEntered_delay env s1 ctx1 f i Ccb CanWait
    rw [ht] at h1 h2
    rw [hd] at h2 h3
    refine ⟨fun h => (h1 h).2, h3, fun h => ?_⟩
    obtain ⟨t1, t2, t3⟩ := h2 h
    refine ⟨t1, ⟨f, ctx1.TreeLength, ctx1.RealDevice⟩, rfl, ?_⟩
    rw [t3]
    exact UDFQueueDelayedClose_appends _ _ _ _ _ t2
  cases req with
  | first FsContext Ccb =>
    cases FsContext with
    | false =>
      refine ⟨fun _ => by simp [UDFCommonCloseBody, closeFinally], fun _ => rfl, fun h => ?_⟩
      simp [UDFCommonCloseBody, closeFinally] at h
    | true =>
      exact key _ _ Ccb.Fcb Ccb.TreeLength (some Ccb) rfl (delayTest_first s Ccb _)
  | queued =>
    exact key _ _ ctx.Fcb ctx.TreeLength none rfl rfl

/-- C23: `UDFCommonClose` puts a close on a delayed-close queue only when the `FCB` has
`UDF_FCB_DELAY_CLOSE`, the volume condition is `VcbMounted`, `VCB_STATE_NO_DELAYED_CLOSE` is
clear and `OpenHandleCount` is 0. When one of the four fails (so with delayed closes
suppressed, and on a volume that is `VcbInvalid` or `VcbDismountInProgress`) the global
delayed-close data, both queues included, are as before the call and the call does not end
as a delayed close. When the call ends as a delayed close, the four hold and one entry for
the `FCB` was appended to one queue. -/
theorem UDFCommonClose_delays_only (env : CloseBodyEnv) (s : CloseState) (ctx : CloseContext)
    (req : CloseRequest) (CanWait : Bool) :
    (((s.Delay.Fcbs (req.target ctx)).FlagDelayClose = false ∨
        s.Volume.VcbCondition ≠ .VcbMounted ∨ s.Volume.NoDelayedClose = true ∨
        (s.Fcbs (req.target ctx)).OpenHandleCount ≠ 0) →
      (UDFCommonCloseBody env s ctx req CanWait).State.Delay.Data = s.Delay.Data ∧
      (UDFCommonCloseBody env s ctx req CanWait).Disposition ≠ .delayed) ∧
    ((s.Volume.NoDelayedClose = true ∨ s.Volume.VcbCondition = .VcbInvalid ∨
        s.Volume.VcbCondition = .VcbDismountInProgress) →
      (UDFCommonCloseBody env s ctx req CanWait).State.Delay.Data.queues =
        s.Delay.Data.queues) ∧
    ((UDFCommonCloseBody env s ctx req CanWait).State.Delay.Data.queues ≠
        s.Delay.Data.queues →
      (s.Delay.Fcbs (req.target ctx)).FlagDelayClose = true ∧
      s.Volume.VcbCondition = .VcbMounted ∧ s.Volume.NoDelayedClose = false ∧
      (s.Fcbs (req.target ctx)).OpenHandleCount = 0) ∧
    ((UDFCommonCloseBody env s ctx req CanWait).Disposition = .delayed →
      ((s.Delay.Fcbs (req.target ctx)).FlagDelayClose = true ∧
        s.Volume.VcbCondition = .VcbMounted ∧ s.Volume.NoDelayedClose = false ∧
        (s.Fcbs (req.target ctx)).OpenHandleCount = 0) ∧
      ∃ entry : IRP_CONTEXT_LITE, entry.Fcb = req.target ctx ∧
        (((UDFCommonCloseBody env s ctx req CanWait).State.Delay.Data.DelayedCloseQueue =
            s.Delay.Data.DelayedCloseQueue ++ [entry] ∧
          (UDFCommonCloseBody env s ctx req CanWait).State.Delay.Data.DirDelayedCloseQueue =
            s.Delay.Data.DirDelayedCloseQueue) ∨
         ((UDFCommonCloseBody env s ctx req CanWait).State.Delay.Data.DirDelayedCloseQueue =
            s.Delay.Data.DirDelayedCloseQueue ++ [entry] ∧
          (UDFCommonCloseBody env s ctx req CanWait).State.Delay.Data.DelayedCloseQueue =
            s.Delay.Data.DelayedCloseQueue))) := by
  obtain ⟨h1, h2, h3⟩ := UDFCommonCloseBody_delay env s ctx req CanWait
  have hf := delayTest_false s (req.target ctx)
  have ht : delayTest s (req.target ctx) = true →
      (s.Delay.Fcbs (req.target ctx)).FlagDelayClose = true ∧
      s.Volume.VcbCondition = .VcbMounted ∧ s.Volume.NoDelayedClose = false ∧
      (s.Fcbs (req.target ctx)).OpenHandleCount = 0 := by
    intro h
    simpa [delayTest, Bool.and_eq_true, and_assoc] using h
  have hno : ((s.Delay.Fcbs (req.target ctx)).FlagDelayClose = false ∨
        s.Volume.VcbCondition ≠ .VcbMounted ∨ s.Volume.NoDelayedClose = true ∨
        (s.Fcbs (req.target ctx)).OpenHandleCount ≠ 0) →
      (UDFCommonCloseBody env s ctx req CanWait).State.Delay.Data = s.Delay.Data ∧
      (UDFCommonCloseBody env s ctx req CanWait).Disposition ≠ .delayed := by
    intro hc
    have hd := h1 (hf.2 hc)
    exact ⟨h2 hd, hd⟩
  refine ⟨hno, ?_, ?_, fun h => ⟨ht (h3 h).1, (h3 h).2⟩⟩
  · intro hc
    have : s.Volume.VcbCondition ≠ .VcbMounted ∨ s.Volume.NoDelayedClose = true := by
      rcases hc with hc | hc | hc
      · exact Or.inr hc
      · exact Or.inl (by rw [hc]; decide)
      · exact Or.inl (by rw [hc]; decide)
    rw [(hno (Or.inr (this.elim Or.inl (fun h => Or.inr (Or.inl h))))).1]
  · intro hq
    by_contra hn
    apply hq
    have hd : (UDFCommonCloseBody env s ctx req CanWait).Disposition ≠ .delayed := by
      intro hdel
      exact hn (ht (h3 hdel).1)
    rw [h2 hd]


/-- The volume fields after the decrements depend on the volume fields before only. -/
theorem closeDecrement_volume (s1 s : CloseState) (f : Nat) (Ccb : Option CloseCcb)
    (a : Bool) (h : s1.Volume = s.Volume) :
    (closeDecrement s1 f Ccb a).Volume = (closeDecrement s f Ccb true).Volume := by
  simp [closeDecrement, h]

/-- The counters after the part of `UDFCommonClose` behind line 228, by the way it ended. -/
theorem closeEntered_counts (env : CloseBodyEnv) (s : CloseState) (ctx : CloseContext)
    (f i : Nat) (Ccb : Option CloseCcb) (CanWait : Bool) :
    ((closeEntered env s ctx f i Ccb CanWait).Disposition = .delayed ∨
      (closeEntered env s ctx f i Ccb CanWait).Disposition = .posted ∨
      (closeEntered env s ctx f i Ccb CanWait).Disposition = .closed) ∧
    ((closeEntered env s ctx f i Ccb CanWait).Disposition = .posted →
      (Ccb.isSome && !CanWait) = true ∧
      (closeEntered env s ctx f i Ccb CanWait).Context.Fcb = f ∧
      (closeEntered env s ctx f i Ccb CanWait).Context.TreeLength = ctx.TreeLength) ∧
    ((closeEntered env s ctx f i Ccb CanWait).Disposition ≠ .closed →
      (closeEntered env s ctx f i Ccb CanWait).State.Volume = s.Volume ∧
      (closeEntered env s ctx f i Ccb CanWait).State.Fcbs = s.Fcbs) ∧
    ((closeEntered env s ctx f i Ccb CanWait).Disposition = .closed →
      (Ccb.isSome && !CanWait) = false ∧
      (closeEntered env s ctx f i Ccb CanWait).State.Volume =
        (closeDecrement s f Ccb true).Volume ∧
      ((closeEntered env s ctx f i Ccb CanWait).State.Fcbs f).CcbCount =
        ulongDec (s.Fcbs f).CcbCount ∧
      (∀ g, g ≠ f → (closeEntered env s ctx f i Ccb CanWait).State.Fcbs g = s.Fcbs g)) := by
  have hp : ∀ (s1 : CloseState) (a : Bool), s1.Volume = s.Volume → s1.Fcbs = s.Fcbs →
      ((closeProceed env s1 ctx f i Ccb CanWait a).Disposition = .delayed ∨
        (closeProceed env s1 ctx f i Ccb CanWait a).Disposition = .posted ∨
        (closeProceed env s1 ctx f i Ccb CanWait a).Disposition = .closed) ∧
      ((closeProceed env s1 ctx f i Ccb CanWait a).Disposition = .posted →
        (Ccb.isSome && !CanWait) = true ∧
        (closeProceed env s1 ctx f i Ccb CanWait a).Context.Fcb = f ∧
        (closeProceed env s1 ctx f i Ccb CanWait a).Context.TreeLength = ctx.TreeLength) ∧
      ((closeProceed env s1 ctx f i Ccb CanWait a).Disposition ≠ .closed →
        (closeProceed env s1 ctx f i Ccb CanWait a).State.Volume = s.Volume ∧
        (closeProceed env s1 ctx f i Ccb CanWait a).State.Fcbs = s.Fcbs) ∧
      ((closeProceed env s1 ctx f i Ccb CanWait a).Disposition = .closed →
        (Ccb.isSome && !CanWait) = false ∧
        (closeProceed env s1 ctx f i Ccb CanWait a).State.Volume =
          (closeDecrement s f Ccb true).Volume ∧
        ((closeProceed env s1 ctx f i Ccb CanWait a).State.Fcbs f).CcbCount =
          ulongDec (s.Fcbs f).CcbCount ∧
        (∀ g, g ≠ f → (closeProceed env s1 ctx f i Ccb CanWait a).State.Fcbs g =
          s.Fcbs g)) := by
    intro s1 a hv hf
    obtain ⟨-, h2, h3⟩ := closeProceed_state env s1 ctx f i Ccb CanWait a
    cases hc : (Ccb.isSome && !CanWait)
    · obtain ⟨k1, k2, -, k4, k5, -⟩ := h3 hc
      refine ⟨Or.inr (Or.inr k1), fun h => ?_, fun h => absurd k1 h, fun _ => ⟨rfl, ?_, ?_, ?_⟩⟩
      · rw [k1] at h; exact absurd h (by decide)
      · rw [k2]; exact closeDecrement_volume s1 s f Ccb a hv
      · rw [k4, hf]
      · intro g hg; rw [k5 g hg, hf]
    · obtain ⟨k1, k2, k3, k4, k5⟩ := h2 hc
      refine ⟨Or.inr (Or.inl k1), fun _ => ⟨rfl, k4, k5⟩, fun _ => ⟨by rw [k2, hv], by rw [k3, hf]⟩,
        fun h => ?_⟩
      rw [k1] at h; exact absurd h (by decide)
  rcases closeEntered_cases env s ctx f i Ccb CanWait with ⟨-, e⟩ | ⟨-, -, e⟩ | ⟨-, -, -, e⟩
  · rw [e]; exact hp s true rfl rfl
  · rw [e]
    refine ⟨Or.inl rfl, fun h => ?_, fun _ => ⟨rfl, rfl⟩, fun h => ?_⟩
    · exact absurd h (by simp [closeFinally])
    · exact absurd h (by simp [closeFinally])
  · rw [e]; exact hp _ false rfl rfl


/-- A first call of `UDFCommonClose` for an opened file object: the counters by the way the
call ended. -/
theorem UDFCommonCloseBody_first (env : CloseBodyEnv) (s : CloseState) (ctx : CloseContext)
    (Ccb : CloseCcb) (CanWait : Bool) :
    ((UDFCommonCloseBody env s ctx (.first true Ccb) CanWait).Disposition ≠ .closed →
      (UDFCommonCloseBody env s ctx (.first true Ccb) CanWait).State.Volume = s.Volume ∧
      ((UDFCommonCloseBody env s ctx (.first true Ccb) CanWait).State.Fcbs Ccb.Fcb).CcbCount =
        ulongInc (s.Fcbs Ccb.Fcb).CcbCount) ∧
    ((UDFCommonCloseBody env s ctx (.first true Ccb) CanWait).Disposition = .posted →
      CanWait = false ∧
      (UDFCommonCloseBody env s ctx (.first true Ccb) CanWait).Context.Fcb = Ccb.Fcb ∧
      (UDFCommonCloseBody env s ctx (.first true Ccb) CanWait).Context.TreeLength =
        Ccb.TreeLength) ∧
    ((UDFCommonCloseBody env s ctx (.first true Ccb) CanWait).Disposition = .closed →
      CanWait = true ∧
      (UDFCommonCloseBody env s ctx (.first true Ccb) CanWait).State.Volume =
        { s.Volume with
          VCBOpenCount := ulongDec s.Volume.VCBOpenCount
          VCBOpenCountRO := if Ccb.ReadOnly then ulongDec s.Volume.VCBOpenCountRO
                            else s.Volume.VCBOpenCountRO } ∧
      ((UDFCommonCloseBody env s ctx (.first true Ccb) CanWait).State.Fcbs Ccb.Fcb).CcbCount =
        (s.Fcbs Ccb.Fcb).CcbCount) := by
  obtain ⟨-, h2, h3, h4⟩ := closeEntered_counts env
    { s with
      Fcbs := Function.update s.Fcbs Ccb.Fcb
        { s.Fcbs Ccb.Fcb with CcbCount := ulongInc (s.Fcbs Ccb.Fcb).CcbCount }
      calls := s.calls ++ [CloseCall.AcquireVcbShared, CloseCall.UDFCleanUpCCB Ccb.Fcb] }
    { ctx with TreeLength := Ccb.TreeLength } Ccb.Fcb Ccb.TreeLength (some Ccb) CanWait
  refine ⟨fun h => ?_, fun h => ?_, fun h => ?_⟩
  · obtain ⟨k1, k2⟩ := h3 h
    refine ⟨k1, ?_⟩
    show ((closeEntered _ _ _ _ _ _ _).State.Fcbs Ccb.Fcb).CcbCount = _
    rw [k2]
    simp
  · obtain ⟨k1, k2, k3⟩ := h2 h
    exact ⟨by simpa using k1, k2, k3⟩
  · obtain ⟨k1, k2, k3, -⟩ := h4 h
    refine ⟨by simpa using k1, k2, ?_⟩
    show ((closeEntered _ _ _ _ _ _ _).State.Fcbs Ccb.Fcb).CcbCount = _
    rw [k3]
    simp [ulongDec_ulongInc]

/-- A call of `UDFCommonClose` without an IRP: it is never posted, and the counters are as
follows by the way the call ended. -/
theorem UDFCommonCloseBody_queued (env : CloseBodyEnv) (s : CloseState) (ctx : CloseContext)
    (CanWait : Bool) :
    ((UDFCommonCloseBody env s ctx .queued CanWait).Disposition = .delayed ∨
      (UDFCommonCloseBody env s ctx .queued CanWait).Disposition = .closed) ∧
    ((UDFCommonCloseBody env s ctx .queued CanWait).Disposition ≠ .closed →
      (UDFCommonCloseBody env s ctx .queued CanWait).State.Volume = s.Volume ∧
      (UDFCommonCloseBody env s ctx .queued CanWait).State.Fcbs = s.Fcbs) ∧
    ((UDFCommonCloseBody env s ctx .queued CanWait).Disposition = .closed →
      (UDFCommonCloseBody env s ctx .queued CanWait).State.Volume =
        { s.Volume with VCBOpenCount := ulongDec s.Volume.VCBOpenCount } ∧
      ((UDFCommonCloseBody env s ctx .queued CanWait).State.Fcbs ctx.Fcb).CcbCount =
        ulongDec (s.Fcbs ctx.Fcb).CcbCount ∧
      (∀ g, g ≠ ctx.Fcb →
        (UDFCommonCloseBody env s ctx .queued CanWait).State.Fcbs g = s.Fcbs g)) := by
  obtain ⟨h1, h2, h3, h4⟩ := closeEntered_counts env
    { s with calls := s.calls ++ [CloseCall.AcquireVcbShared] } ctx ctx.Fcb ctx.TreeLength
    none CanWait
  refine ⟨?_, h3, fun h => ?_⟩
  · rcases h1 with h | h | h
    · exact Or.inl h
    · exact absurd (h2 h).1 (by simp)
    · exact Or.inr h
  · obtain ⟨-, k2, k3, k4⟩ := h4 h
    exact ⟨k2, k3, k4⟩

/-- The close that `UDFDoDelayedClose` ends in is always the real close. -/
theorem closeDelayedEntry_counts (env : CloseBodyEnv) (s : CloseState)
    (entry : IRP_CONTEXT_LITE) :
    (closeDelayedEntry env s entry).Disposition = .closed ∧
    (closeDelayedEntry env s entry).State.Volume =
      { s.Volume with VCBOpenCount := ulongDec s.Volume.VCBOpenCount } ∧
    ((closeDelayedEntry env s entry).State.Fcbs entry.Fcb).CcbCount =
      ulongDec (s.Fcbs entry.Fcb).CcbCount := by
  have ht : delayTest { s with Delay := UDFDoDelayedClose s.Delay entry }
      (CloseRequest.queued.target (UDFInitializeStackIrpContextFromLite entry)) = false := by
    simp [delayTest, UDFDoDelayedClose, CloseRequest.target,
      UDFInitializeStackIrpContextFromLite]
  have hd := (UDFCommonCloseBody_delay env { s with Delay := UDFDoDelayedClose s.Delay entry }
    (UDFInitializeStackIrpContextFromLite entry) .queued true).1 ht
  obtain ⟨h1, -, h3⟩ := UDFCommonCloseBody_queued env
    { s with Delay := UDFDoDelayedClose s.Delay entry }
    (UDFInitializeStackIrpContextFromLite entry) true
  have hc : (closeDelayedEntry env s entry).Disposition = .closed := by
    rcases h1 with h | h
    · exact absurd h hd
    · exact h
  obtain ⟨k1, k2, -⟩ := h3 hc
  exact ⟨hc, k1, k2⟩


/-- When the test of lines 240-243 fails, the decrements of lines 262-264 run with the
volume resource held; when it passes and the queueing is refused, they run without it,
unless the request is posted first. -/
theorem closeEntered_decrement (env : CloseBodyEnv) (s : CloseState) (ctx : CloseContext)
    (f i : Nat) (Ccb : Option CloseCcb) (CanWait : Bool)
    (hp : (Ccb.isSome && !CanWait) = false) :
    (delayTest s f = false →
      CloseCall.InterlockedDecrement f true ∈
        (closeEntered env s ctx f i Ccb CanWait).State.calls) ∧
    (delayTest s f = true →
      (UDFQueueDelayedClose env.LiteAllocated s.Delay f ctx.TreeLength ctx.RealDevice).1 ≠
        STATUS_SUCCESS →
      CloseCall.InterlockedDecrement f false ∈
        (closeEntered env s ctx f i Ccb CanWait).State.calls) := by
  rcases closeEntered_cases env s ctx f i Ccb CanWait with ⟨ht, e⟩ | ⟨ht, hq, -⟩ | ⟨ht, -, -, e⟩
  · rw [e]
    exact ⟨fun _ => ((closeProceed_state env s ctx f i Ccb CanWait true).2.2 hp).2.2.2.2.2,
      fun h => absurd h (by simp [ht])⟩
  · exact ⟨fun h => absurd ht (by simp [h]), fun _ h => absurd hq h⟩
  · rw [e]
    exact ⟨fun h => absurd ht (by simp [h]),
      fun _ _ => ((closeProceed_state env _ ctx f i Ccb CanWait false).2.2 hp).2.2.2.2.2⟩

/-- C24, evaluated on the code: a posted close re-enters `UDFCommonClose` for a file that has
`UDF_FCB_DELAY_CLOSE` and no open handle on a mounted volume. The volume resource is
released for `UDFQueueDelayedClose`, which refuses (`STATUS_DELETE_PENDING` for a
delete-on-close file, `STATUS_INSUFFICIENT_RESOURCES` when the entry cannot be allocated),
and the decrements of lines 262-264 and `UDFCleanUpFcbChain(Vcb, fi, i, TRUE)` run with
`AcquiredVcb` FALSE; on the volume path the routine reaches its own `BrutePoint()`. -/
theorem close_decrements_without_volume_resource :
    (closePostedEntry sampleCloseEnv (sampleCloseState 5 deletePendingState)
        (postedCloseContext 2)).State.calls =
      [CloseCall.AcquireVcbShared, CloseCall.ReleaseVcb,
       CloseCall.UDFQueueDelayedClose 4 STATUS_DELETE_PENDING,
       CloseCall.InterlockedDecrement 4 false, CloseCall.UDFCleanUpFcbChain 4 2 false] ∧
    (closePostedEntry { sampleCloseEnv with LiteAllocated := false }
        (sampleCloseState 5 (plainState mediumData)) (postedCloseContext 2)).State.calls =
      [CloseCall.AcquireVcbShared, CloseCall.ReleaseVcb,
       CloseCall.UDFQueueDelayedClose 4 STATUS_INSUFFICIENT_RESOURCES,
       CloseCall.InterlockedDecrement 4 false, CloseCall.UDFCleanUpFcbChain 4 2 false] ∧
    (closePostedEntry sampleCloseEnv (sampleCloseState 3 deletePendingState)
        (postedCloseContext 0)).State.calls =
      [CloseCall.AcquireVcbShared, CloseCall.ReleaseVcb,
       CloseCall.UDFQueueDelayedClose 4 STATUS_DELETE_PENDING,
       CloseCall.InterlockedDecrement 4 false, CloseCall.BrutePoint,
       CloseCall.AcquireGlobalData, CloseCall.AcquireVcbExclusive, CloseCall.ReleaseVcb,
       CloseCall.ReleaseGlobalData] ∧
    (closePostedEntry sampleCloseEnv (sampleCloseState 5 noDelayState)
        (postedCloseContext 2)).State.calls =
      [CloseCall.AcquireVcbShared, CloseCall.InterlockedDecrement 4 true,
       CloseCall.UDFCleanUpFcbChain 4 2 true, CloseCall.ReleaseVcb] := by
  decide

/-- C28: each handle close lowers `VCBOpenCount` once, when the real close runs. A first
call of `UDFCommonClose` that ends delayed or posted leaves `VCBOpenCount` as it was and
raises `Fcb->CcbCount` by one; one that runs the real close at once lowers `VCBOpenCount` by
one and leaves `CcbCount` as it was. A call without an IRP is never posted; when it runs the
real close it lowers `VCBOpenCount` and `CcbCount` by one, on the file path and on the volume
path, and when it ends delayed it changes neither. The close `UDFDoDelayedClose` ends in
always runs the real close. So a close that was delayed, or posted and then run by the
worker, or posted, put on the delayed-close queue by the worker and then run, has lowered
`VCBOpenCount` by one in all and left `CcbCount` as before the first call. Raising and lowering are those of a 32-bit counter; they are plus and minus one
unless the counter is at its largest value or at zero. -/
theorem UDFCommonClose_open_count (env : CloseBodyEnv) (s : CloseState) (ctx : CloseContext)
    (Ccb : CloseCcb) (CanWait : Bool) (entry : IRP_CONTEXT_LITE) :
    (((UDFCommonCloseBody env s ctx (.first true Ccb) CanWait).Disposition = .delayed ∨ (UDFCommonCloseBody env s ctx (.first true Ccb) CanWait).Disposition = .posted) →
      (UDFCommonCloseBody env s ctx (.first true Ccb) CanWait).State.Volume.VCBOpenCount = s.Volume.VCBOpenCount ∧
      ((UDFCommonCloseBody env s ctx (.first true Ccb) CanWait).State.Fcbs Ccb.Fcb).CcbCount = ulongInc (s.Fcbs Ccb.Fcb).CcbCount) ∧
    ((UDFCommonCloseBody env s ctx (.first true Ccb) CanWait).Disposition = .closed →
      (UDFCommonCloseBody env s ctx (.first true Ccb) CanWait).State.Volume.VCBOpenCount = ulongDec s.Volume.VCBOpenCount ∧
      ((UDFCommonCloseBody env s ctx (.first true Ccb) CanWait).State.Fcbs Ccb.Fcb).CcbCount = (s.Fcbs Ccb.Fcb).CcbCount) ∧
    ((UDFCommonCloseBody env s ctx .queued CanWait).Disposition ≠ .posted) ∧
    ((UDFCommonCloseBody env s ctx .queued CanWait).Disposition = .closed →
      (UDFCommonCloseBody env s ctx .queued CanWait).State.Volume.VCBOpenCount = ulongDec s.Volume.VCBOpenCount ∧
      ((UDFCommonCloseBody env s ctx .queued CanWait).State.Fcbs ctx.Fcb).CcbCount = ulongDec (s.Fcbs ctx.Fcb).CcbCount) ∧
    ((UDFCommonCloseBody env s ctx .queued CanWait).Disposition = .delayed →
      (UDFCommonCloseBody env s ctx .queued CanWait).State.Volume.VCBOpenCount = s.Volume.VCBOpenCount ∧
      ((UDFCommonCloseBody env s ctx .queued CanWait).State.Fcbs ctx.Fcb).CcbCount = (s.Fcbs ctx.Fcb).CcbCount) ∧
    ((closeDelayedEntry env s entry).Disposition = .closed ∧
      (closeDelayedEntry env s entry).State.Volume.VCBOpenCount =
        ulongDec s.Volume.VCBOpenCount ∧
      ((closeDelayedEntry env s entry).State.Fcbs entry.Fcb).CcbCount =
        ulongDec (s.Fcbs entry.Fcb).CcbCount) ∧
    ((UDFCommonCloseBody env s ctx (.first true Ccb) CanWait).Disposition = .delayed → entry.Fcb = Ccb.Fcb →
      (closeDelayedEntry env (UDFCommonCloseBody env s ctx (.first true Ccb) CanWait).State entry).State.Volume.VCBOpenCount =
        ulongDec s.Volume.VCBOpenCount ∧
      ((closeDelayedEntry env (UDFCommonCloseBody env s ctx (.first true Ccb) CanWait).State entry).State.Fcbs Ccb.Fcb).CcbCount =
        (s.Fcbs Ccb.Fcb).CcbCount) ∧
    ((UDFCommonCloseBody env s ctx (.first true Ccb) CanWait).Disposition = .posted →
      (closePostedEntry env (UDFCommonCloseBody env s ctx (.first true Ccb) CanWait).State (UDFCommonCloseBody env s ctx (.first true Ccb) CanWait).Context).Disposition = .closed →
      (closePostedEntry env (UDFCommonCloseBody env s ctx (.first true Ccb) CanWait).State (UDFCommonCloseBody env s ctx (.first true Ccb) CanWait).Context).State.Volume.VCBOpenCount =
        ulongDec s.Volume.VCBOpenCount ∧
      ((closePostedEntry env (UDFCommonCloseBody env s ctx (.first true Ccb) CanWait).State (UDFCommonCloseBody env s ctx (.first true Ccb) CanWait).Context).State.Fcbs Ccb.Fcb).CcbCount =
        (s.Fcbs Ccb.Fcb).CcbCount) ∧
    ((UDFCommonCloseBody env s ctx (.first true Ccb) CanWait).Disposition = .posted →
      (closePostedEntry env (UDFCommonCloseBody env s ctx (.first true Ccb) CanWait).State (UDFCommonCloseBody env s ctx (.first true Ccb) CanWait).Context).Disposition = .delayed →
      entry.Fcb = Ccb.Fcb →
      (closeDelayedEntry env (closePostedEntry env (UDFCommonCloseBody env s ctx (.first true Ccb) CanWait).State (UDFCommonCloseBody env s ctx (.first true Ccb) CanWait).Context).State
        entry).State.Volume.VCBOpenCount = ulongDec s.Volume.VCBOpenCount ∧
      ((closeDelayedEntry env (closePostedEntry env (UDFCommonCloseBody env s ctx (.first true Ccb) CanWait).State (UDFCommonCloseBody env s ctx (.first true Ccb) CanWait).Context).State
        entry).State.Fcbs Ccb.Fcb).CcbCount = (s.Fcbs Ccb.Fcb).CcbCount) ∧
    (0 < s.Volume.VCBOpenCount → ulongDec s.Volume.VCBOpenCount + 1 = s.Volume.VCBOpenCount) ∧
    ((s.Fcbs Ccb.Fcb).CcbCount < ULONG_MAX →
      ulongInc (s.Fcbs Ccb.Fcb).CcbCount = (s.Fcbs Ccb.Fcb).CcbCount + 1) := by
  obtain ⟨f1, f2, f3⟩ := UDFCommonCloseBody_first env s ctx Ccb CanWait
  obtain ⟨q1, q2, q3⟩ := UDFCommonCloseBody_queued env s ctx CanWait
  refine ⟨?_, ?_, ?_, ?_, ?_, ?_, ?_, ?_, ?_, ?_, ?_⟩
  · intro h
    have hn : (UDFCommonCloseBody env s ctx (.first true Ccb) CanWait).Disposition ≠ .closed := by
      rcases h with h | h <;> rw [h] <;> decide
    obtain ⟨k1, k2⟩ := f1 hn
    exact ⟨by rw [k1], k2⟩
  · intro h
    obtain ⟨-, k2, k3⟩ := f3 h
    exact ⟨by rw [k2], k3⟩
  · rcases q1 with h | h <;> rw [h] <;> decide
  · intro h
    obtain ⟨k1, k2, -⟩ := q3 h
    exact ⟨by rw [k1], k2⟩
  · intro h
    have hn : (UDFCommonCloseBody env s ctx .queued CanWait).Disposition ≠ .closed := by rw [h]; decide
    obtain ⟨k1, k2⟩ := q2 hn
    exact ⟨by rw [k1], by rw [k2]⟩
  · obtain ⟨k1, k2, k3⟩ := closeDelayedEntry_counts env s entry
    exact ⟨k1, by rw [k2], k3⟩
  · intro h he
    have hn : (UDFCommonCloseBody env s ctx (.first true Ccb) CanWait).Disposition ≠ .closed := by rw [h]; decide
    obtain ⟨k1, k2⟩ := f1 hn
    obtain ⟨-, d2, d3⟩ := closeDelayedEntry_counts env (UDFCommonCloseBody env s ctx (.first true Ccb) CanWait).State entry
    rw [he] at d3
    refine ⟨by rw [d2, k1], ?_⟩
    rw [d3, k2, ulongDec_ulongInc]
  · intro h hc
    have hn : (UDFCommonCloseBody env s ctx (.first true Ccb) CanWait).Disposition ≠ .closed := by rw [h]; decide
    obtain ⟨k1, k2⟩ := f1 hn
    obtain ⟨-, p2, -⟩ := f2 h
    obtain ⟨-, -, w3⟩ := UDFCommonCloseBody_queued env (UDFCommonCloseBody env s ctx (.first true Ccb) CanWait).State
      { (UDFCommonCloseBody env s ctx (.first true Ccb) CanWait).Context with
        Context := { (UDFCommonCloseBody env s ctx (.first true Ccb) CanWait).Context.Context with FlagWait := true, IrpCompleted := false } } true
    obtain ⟨z1, z2, -⟩ := w3 hc
    refine ⟨?_, ?_⟩
    · show (closePostedEntry env _ _).State.Volume.VCBOpenCount = _
      unfold closePostedEntry
      rw [z1, k1]
    · have z2b : ((closePostedEntry env (UDFCommonCloseBody env s ctx (.first true Ccb) CanWait).State (UDFCommonCloseBody env s ctx (.first true Ccb) CanWait).Context).State.Fcbs
          (UDFCommonCloseBody env s ctx (.first true Ccb) CanWait).Context.Fcb).CcbCount =
          ulongDec ((UDFCommonCloseBody env s ctx (.first true Ccb) CanWait).State.Fcbs (UDFCommonCloseBody env s ctx (.first true Ccb) CanWait).Context.Fcb).CcbCount := z2
      rw [p2] at z2b
      rw [z2b, k2, ulongDec_ulongInc]
  · intro h hd he
    have hn : (UDFCommonCloseBody env s ctx (.first true Ccb) CanWait).Disposition ≠ .closed := by rw [h]; decide
    obtain ⟨k1, k2⟩ := f1 hn
    obtain ⟨-, w2, -⟩ := UDFCommonCloseBody_queued env (UDFCommonCloseBody env s ctx (.first true Ccb) CanWait).State
      { (UDFCommonCloseBody env s ctx (.first true Ccb) CanWait).Context with
        Context := { (UDFCommonCloseBody env s ctx (.first true Ccb) CanWait).Context.Context with FlagWait := true, IrpCompleted := false } } true
    have hd2 : (closePostedEntry env (UDFCommonCloseBody env s ctx (.first true Ccb) CanWait).State (UDFCommonCloseBody env s ctx (.first true Ccb) CanWait).Context).Disposition ≠ .closed := by
      rw [hd]; decide
    have w2b : (closePostedEntry env (UDFCommonCloseBody env s ctx (.first true Ccb) CanWait).State (UDFCommonCloseBody env s ctx (.first true Ccb) CanWait).Context).State.Volume = (UDFCommonCloseBody env s ctx (.first true Ccb) CanWait).State.Volume ∧
        (closePostedEntry env (UDFCommonCloseBody env s ctx (.first true Ccb) CanWait).State (UDFCommonCloseBody env s ctx (.first true Ccb) CanWait).Context).State.Fcbs = (UDFCommonCloseBody env s ctx (.first true Ccb) CanWait).State.Fcbs := w2 hd2
    obtain ⟨-, d2, d3⟩ := closeDelayedEntry_counts env
      (closePostedEntry env (UDFCommonCloseBody env s ctx (.first true Ccb) CanWait).State (UDFCommonCloseBody env s ctx (.first true Ccb) CanWait).Context).State entry
    rw [he] at d3
    refine ⟨by rw [d2, w2b.1, k1], ?_⟩
    rw [d3, w2b.2, k2, ulongDec_ulongInc]
  · intro h
    rw [ulongDec_of_pos h]
    omega
  · intro h
    unfold ulongInc
    rw [if_neg (by omega)]

/-- A close that is deferred never lowers `VCBOpenCountRO`: the first call leaves the volume
fields alone, and a call without an IRP writes `VCBOpenCount` only. -/
theorem deferred_close_read_only_count (env : CloseBodyEnv) (s : CloseState)
    (ctx : CloseContext) (Ccb : CloseCcb) (CanWait : Bool) :
    ((UDFCommonCloseBody env s ctx (.first true Ccb) CanWait).Disposition ≠ .closed →
      (UDFCommonCloseBody env s ctx (.first true Ccb) CanWait).State.Volume.VCBOpenCountRO = s.Volume.VCBOpenCountRO) ∧
    (UDFCommonCloseBody env s ctx .queued CanWait).State.Volume.VCBOpenCountRO = s.Volume.VCBOpenCountRO ∧
    ((UDFCommonCloseBody env s ctx (.first true Ccb) CanWait).Disposition = .closed →
      (UDFCommonCloseBody env s ctx (.first true Ccb) CanWait).State.Volume.VCBOpenCountRO =
        if Ccb.ReadOnly then ulongDec s.Volume.VCBOpenCountRO
        else s.Volume.VCBOpenCountRO) := by
  obtain ⟨f1, -, f3⟩ := UDFCommonCloseBody_first env s ctx Ccb CanWait
  obtain ⟨-, q2, q3⟩ := UDFCommonCloseBody_queued env s ctx CanWait
  refine ⟨fun h => by rw [(f1 h).1], ?_, fun h => by rw [(f3 h).2.1]⟩
  by_cases hc : (UDFCommonCloseBody env s ctx .queued CanWait).Disposition = .closed
  · rw [(q3 hc).1]
  · rw [(q2 hc).1]

/-- C29, evaluated on the code: the close of a read-only handle that `UDFClose` hands to
`UDFCommonClose` is posted (or, with `UDF_FCB_DELAY_CLOSE`, put on the delayed-close queue);
when the worker (or `UDFDoDelayedClose`) has run the real close, `VCBOpenCount` has gone from
5 to 4 and `VCBOpenCountRO` is still 1. Only a first call that may wait lowers it. -/
theorem read_only_count_after_deferred_close :
    readOnlyCcb.ReadOnly = true ∧
    (sampleCloseState 5 noDelayState).Volume.VCBOpenCountRO = 1 ∧
    (closeFromDispatch sampleCloseEnv (sampleCloseState 5 noDelayState) freshCloseContext
      readOnlyCcb).Disposition = .posted ∧
    (closePostedEntry sampleCloseEnv
      (closeFromDispatch sampleCloseEnv (sampleCloseState 5 noDelayState) freshCloseContext
        readOnlyCcb).State
      (closeFromDispatch sampleCloseEnv (sampleCloseState 5 noDelayState) freshCloseContext
        readOnlyCcb).Context).Disposition = .closed ∧
    (closePostedEntry sampleCloseEnv
      (closeFromDispatch sampleCloseEnv (sampleCloseState 5 noDelayState) freshCloseContext
        readOnlyCcb).State
      (closeFromDispatch sampleCloseEnv (sampleCloseState 5 noDelayState) freshCloseContext
        readOnlyCcb).Context).State.Volume =
      { VcbCondition := .VcbMounted, NoDelayedClose := false, VCBOpenCount := 4
        VCBOpenCountRO := 1 } ∧
    (closeFromDispatch sampleCloseEnv (sampleCloseState 5 (plainState mediumData))
      freshCloseContext readOnlyCcb).Disposition = .delayed ∧
    (closeFromDispatch sampleCloseEnv (sampleCloseState 5 (plainState mediumData))
      freshCloseContext readOnlyCcb).State.Delay.Data.DelayedCloseQueue = [⟨4, 2, 9⟩] ∧
    (closeDelayedEntry sampleCloseEnv
      (closeFromDispatch sampleCloseEnv (sampleCloseState 5 (plainState mediumData))
        freshCloseContext readOnlyCcb).State ⟨4, 2, 9⟩).State.Volume =
      { VcbCondition := .VcbMounted, NoDelayedClose := false, VCBOpenCount := 4
        VCBOpenCountRO := 1 } ∧
    (UDFCommonCloseBody sampleCloseEnv (sampleCloseState 5 noDelayState) freshCloseContext
      (.first true readOnlyCcb) true).State.Volume =
      { VcbCondition := .VcbMounted, NoDelayedClose := false, VCBOpenCount := 4
        VCBOpenCountRO := 0 } := by
  decide


/-! ## The worklist of `UDFCloseAllXXXDelayedInDir` -/

/-- The build loop does not write the no-delayed-close bit. -/
theorem buildListPtrArray_flag (EA : Nat → Bool) :
    ∀ (L : List Nat) (i : Nat) (s : WorklistState),
      (buildListPtrArray EA i L s).2.NoDelayedClose = s.NoDelayedClose := by
  intro L
  induction L with
  | nil => intro i s; rfl
  | cons k rest ih =>
    intro i s
    unfold buildListPtrArray
    cases hk : s.ListPtr k with
    | none =>
      dsimp only
      by_cases ha : EA i = true
      · rw [if_pos ha, ih]
      · rw [if_neg ha]
    | some e =>
      dsimp only
      rw [ih]

theorem releaseListPtr_flag (s : WorklistState) (k : Nat) :
    (releaseListPtr s k).NoDelayedClose = s.NoDelayedClose := by
  unfold releaseListPtr
  cases s.ListPtr k with
  | none => rfl
  | some e => dsimp only; split_ifs <;> rfl

/-- The loop of the system mode does not write the no-delayed-close bit. -/
theorem drainSystem_flag (FcbOf : Nat → Option Nat) :
    ∀ (L : List Nat) (s : WorklistState),
      (drainSystem FcbOf L s).NoDelayedClose = s.NoDelayedClose := by
  intro L
  induction L with
  | nil => intro s; rfl
  | cons k rest ih =>
    intro s
    unfold drainSystem
    rw [ih, releaseListPtr_flag]

/-- In system mode the no-delayed-close bit has, on every return path, the value it had on
entry. -/
theorem worklist_flag_restored (env : WorklistEnv) (s : WorklistState) :
    (UDFCloseAllXXXDelayedInDirEntries env true s).2.NoDelayedClose = s.NoDelayedClose := by
  have hb := buildListPtrArray_flag env.EntryAllocated env.FoundList 0 s
  unfold UDFCloseAllXXXDelayedInDirEntries
  by_cases h1 : (!NT_SUCCESS env.BuildRC) = true
  · rw [if_pos h1]
  · rw [if_neg h1]
    by_cases h2 : env.FoundList.isEmpty = true
    · rw [if_pos h2]
    · rw [if_neg h2]
      by_cases h3 : (!env.ArrayAllocated) = true
      · rw [if_pos h3]
      · rw [if_neg h3]
        dsimp only
        by_cases h4 : (!(buildListPtrArray env.EntryAllocated 0 env.FoundList s).1) = true
        · rw [if_pos h4]
          exact hb
        · rw [if_neg h4]
          simp only [if_true]
          by_cases h5 :
              (!(buildListPtrArray env.EntryAllocated 0 env.FoundList s).2.NoDelayedClose) = true
          · rw [if_pos h5]
            rw [hb] at h5
            simpa using h5.symm
          · rw [if_neg h5, drainSystem_flag]
            rw [hb] at h5
            simpa using h5


theorem releaseListPtr_entries (s : WorklistState) (k j : Nat) :
    (releaseListPtr s k).ListPtr j = if j = k then dropEntry (s.ListPtr k) else s.ListPtr j := by
  unfold releaseListPtr dropEntry
  by_cases hj : j = k
  · subst hj
    rw [if_pos rfl]
    cases h : s.ListPtr j with
    | none => simp [h]
    | some e => dsimp only; split_ifs <;> simp
  · rw [if_neg hj]
    cases h : s.ListPtr k with
    | none => rfl
    | some e => dsimp only; split_ifs <;> simp [Function.update_noteq hj]

/-- A build loop that ran to its end has passed each item once. -/
theorem buildListPtrArray_entries (EA : Nat → Bool) :
    ∀ (L : List Nat) (i : Nat) (s : WorklistState), L.Nodup →
      (buildListPtrArray EA i L s).1 = true →
      ∀ j, (buildListPtrArray EA i L s).2.ListPtr j =
        if j ∈ L then some (bumpEntry (s.ListPtr j)) else s.ListPtr j := by
  intro L
  induction L with
  | nil => intro i s _ _ j; simp [buildListPtrArray]
  | cons k rest ih =>
    intro i s hn hb j
    have hk : k ∉ rest := (List.nodup_cons.1 hn).1
    have hr : rest.Nodup := (List.nodup_cons.1 hn).2
    unfold buildListPtrArray at hb ⊢
    cases hp : s.ListPtr k with
    | none =>
      rw [hp] at hb
      dsimp only at hb ⊢
      by_cases ha : EA i = true
      · rw [if_pos ha] at hb ⊢
        rw [ih _ _ hr hb j]
        by_cases hj : j = k
        · subst hj
          simp [hk, hp, bumpEntry]
        · by_cases hm : j ∈ rest
          · simp [hm, Function.update_noteq hj]
          · simp [hm, hj, Function.update_noteq hj]
      · rw [if_neg ha] at hb
        exact absurd hb (by simp)
    | some e =>
      rw [hp] at hb
      dsimp only at hb ⊢
      rw [ih _ _ hr hb j]
      by_cases hj : j = k
      · subst hj
        simp [hk, hp, bumpEntry]
      · by_cases hm : j ∈ rest
        · simp [hm, Function.update_noteq hj]
        · simp [hm, hj, Function.update_noteq hj]

/-- The loop of the system mode passes each item once. -/
theorem drainSystem_entries (FcbOf : Nat → Option Nat) :
    ∀ (L : List Nat) (s : WorklistState), L.Nodup →
      ∀ j, (drainSystem FcbOf L s).ListPtr j =
        if j ∈ L then dropEntry (s.ListPtr j) else s.ListPtr j := by
  intro L
  induction L with
  | nil => intro s _ j; simp [drainSystem]
  | cons k rest ih =>
    intro s hn j
    have hk : k ∉ rest := (List.nodup_cons.1 hn).1
    have hr : rest.Nodup := (List.nodup_cons.1 hn).2
    unfold drainSystem
    rw [ih _ hr j, releaseListPtr_entries]
    by_cases hj : j = k
    · subst hj
      simp [hk]
    · by_cases hm : j ∈ rest <;> simp [hm, hj]

/-- The loop of the internal mode passes each item once. -/
theorem drainInternal_entries (FcbOf : Nat → Option Nat) :
    ∀ (L : List Nat) (s : WorklistState), L.Nodup →
      ∀ j, (drainInternal FcbOf L s).ListPtr j =
        if j ∈ L then dropEntry (s.ListPtr j) else s.ListPtr j := by
  intro L
  induction L with
  | nil => intro s _ j; simp [drainInternal]
  | cons k rest ih =>
    intro s hn j
    have hk : k ∉ rest := (List.nodup_cons.1 hn).1
    have hr : rest.Nodup := (List.nodup_cons.1 hn).2
    unfold drainInternal
    rw [ih _ hr j, releaseListPtr_entries]
    by_cases hj : j = k
    · subst hj
      simp [hk]
    · by_cases hm : j ∈ rest <;> simp [hm, hj]

/-- Passing an item in the build loop and in a later loop leaves its list entry as it was,
or frees it when its count is back at zero. -/
theorem dropEntry_bumpEntry (p : Option FE_LIST_ENTRY) :
    dropEntry (some (bumpEntry p)) =
      match p with
      | none => none
      | some e => if e.EntryRefCount = 0 then none else some e := by
  cases p with
  | none => simp [dropEntry, bumpEntry, ulongDec_ulongInc]
  | some e =>
    simp only [dropEntry, bumpEntry, ulongDec_ulongInc]

/-- When the routine returns `STATUS_SUCCESS` (the items of `FoundList` being distinct, as
`UDFBuildTreeItemsList` leaves them), every increment it made is undone: the list entry of
an item is as before the call, or freed and detached when its count is zero, and no other
list entry is touched. -/
theorem worklist_released_on_success (env : WorklistEnv) (System : Bool) (s : WorklistState)
    (hn : env.FoundList.Nodup)
    (hs : (UDFCloseAllXXXDelayedInDirEntries env System s).1 = STATUS_SUCCESS) (j : Nat) :
    (UDFCloseAllXXXDelayedInDirEntries env System s).2.ListPtr j =
      if j ∈ env.FoundList then
        match s.ListPtr j with
        | none => none
        | some e => if e.EntryRefCount = 0 then none else some e
      else s.ListPtr j := by
  have e1 : STATUS_INSUFFICIENT_RESOURCES ≠ STATUS_SUCCESS := by decide
  have e0 : NT_SUCCESS STATUS_SUCCESS = true := by decide
  unfold UDFCloseAllXXXDelayedInDirEntries at hs ⊢
  by_cases h1 : (!NT_SUCCESS env.BuildRC) = true
  · rw [if_pos h1] at hs
    dsimp only at hs
    rw [hs, e0] at h1
    exact absurd h1 (by simp)
  · rw [if_neg h1] at hs ⊢
    by_cases h2 : env.FoundList.isEmpty = true
    · rw [if_pos h2]
      have : env.FoundList = [] := by simpa using h2
      simp [this]
    · rw [if_neg h2] at hs ⊢
      by_cases h3 : (!env.ArrayAllocated) = true
      · rw [if_pos h3] at hs
        exact absurd hs e1
      · rw [if_neg h3] at hs ⊢
        dsimp only at hs ⊢
        by_cases h4 : (!(buildListPtrArray env.EntryAllocated 0 env.FoundList s).1) = true
        · rw [if_pos h4] at hs
          exact absurd hs e1
        · rw [if_neg h4]
          have hb : (buildListPtrArray env.EntryAllocated 0 env.FoundList s).1 = true := by
            simpa using h4
          have hB := buildListPtrArray_entries env.EntryAllocated env.FoundList 0 s hn hb
          have hrev : env.FoundList.reverse.Nodup := List.nodup_reverse.2 hn
          cases System with
          | true =>
            simp only [if_true]
            have hD := drainSystem_entries env.FcbOf env.FoundList.reverse
              { (buildListPtrArray env.EntryAllocated 0 env.FoundList s).2 with
                NoDelayedClose := true } hrev j
            have hgoal : (drainSystem env.FcbOf env.FoundList.reverse
                { (buildListPtrArray env.EntryAllocated 0 env.FoundList s).2 with
                  NoDelayedClose := true }).ListPtr j =
                if j ∈ env.FoundList then
                  match s.ListPtr j with
                  | none => none
                  | some e => if e.EntryRefCount = 0 then none else some e
                else s.ListPtr j := by
              rw [hD]
              simp only [List.mem_reverse]
              rw [hB j]
              by_cases hm : j ∈ env.FoundList
              · simp only [hm, if_true]
                exact dropEntry_bumpEntry _
              · simp only [hm, if_false]
            by_cases h5 : (!(buildListPtrArray env.EntryAllocated 0 env.FoundList
                s).2.NoDelayedClose) = true
            · rw [if_pos h5]
              exact hgoal
            · rw [if_neg h5]
              exact hgoal
          | false =>
            simp only [Bool.false_eq_true, if_false]
            rw [drainInternal_entries env.FcbOf env.FoundList.reverse _ hrev j]
            simp only [List.mem_reverse]
            rw [hB j]
            by_cases hm : j ∈ env.FoundList
            · simp only [hm, if_true]
              exact dropEntry_bumpEntry _
            · simp only [hm, if_false]

/-- C27, evaluated on the code: with two matched items and the allocation of the second
item's list entry failing, the routine returns `STATUS_INSUFFICIENT_RESOURCES` in either
mode, and the list entry it allocated for the first item is still attached with
`EntryRefCount` 1: nothing was freed. An entry that was there before the call with count 1
is left with count 2. The no-delayed-close bit is as on entry. -/
theorem worklist_allocation_failure :
    (UDFCloseAllXXXDelayedInDirEntries failingWorklistEnv true emptyWorklist).1 =
      STATUS_INSUFFICIENT_RESOURCES ∧
    (UDFCloseAllXXXDelayedInDirEntries failingWorklistEnv true emptyWorklist).2.ListPtr 4 =
      some { FileInfo := true, EntryRefCount := 1 } ∧
    (UDFCloseAllXXXDelayedInDirEntries failingWorklistEnv true emptyWorklist).2.events =
      [WorklistEvent.MyAllocatePool 4] ∧
    (UDFCloseAllXXXDelayedInDirEntries failingWorklistEnv false emptyWorklist).1 =
      STATUS_INSUFFICIENT_RESOURCES ∧
    (UDFCloseAllXXXDelayedInDirEntries failingWorklistEnv false emptyWorklist).2.ListPtr 4 =
      some { FileInfo := true, EntryRefCount := 1 } ∧
    (UDFCloseAllXXXDelayedInDirEntries failingWorklistEnv true
      { emptyWorklist with
        ListPtr := fun k => if k = 4 then some { FileInfo := true, EntryRefCount := 1 }
                            else none }).2.ListPtr 4 =
      some { FileInfo := true, EntryRefCount := 2 } ∧
    (UDFCloseAllXXXDelayedInDirEntries failingWorklistEnv true emptyWorklist).2.NoDelayedClose =
      emptyWorklist.NoDelayedClose ∧
    (UDFCloseAllXXXDelayedInDirEntries sampleWorklistEnv true emptyWorklist).2.ListPtr 4 =
      none := by
  decide

/-! ## `UDFCloseAllDelayed` without `DelayedCloseResource` (C14) -/

theorem walkRun_cons (w : WalkState) (a : WalkStep) (rest : List WalkStep) (w1 : WalkState)
    (h : walkStep w a = some w1) : walkRun w (a :: rest) = walkRun w1 rest := by
  simp only [walkRun, h]

theorem nextEntry_append (kept rest : List IRP_CONTEXT_LITE) (e : IRP_CONTEXT_LITE)
    (h : e ∉ kept) : nextEntry (kept ++ e :: rest) e = rest.head? := by
  induction kept with
  | nil => simp [nextEntry, List.dropWhile]
  | cons k kept ih =>
    have hk : k ≠ e := fun hke => h (hke ▸ List.mem_cons_self _ _)
    have hr : e ∉ kept := fun hm => h (List.mem_cons_of_mem _ hm)
    have hd : List.dropWhile (fun x => x != e) (k :: (kept ++ e :: rest)) =
        List.dropWhile (fun x => x != e) (kept ++ e :: rest) := by
      rw [List.dropWhile_cons]
      simp [hk]
    have h1 := ih hr
    unfold nextEntry at h1 ⊢
    rw [List.cons_append, hd]
    exact h1

/-- The statements of the walk, run with no call of another thread in between, compose to
the loop `closeAllQueue`. -/
theorem walk_alone (Vcb : Nat) (acq : Bool) :
    ∀ (rest kept : List IRP_CONTEXT_LITE) (s : DelayState) (o : Nat),
      s.Data.DelayedCloseQueue = kept ++ rest → (kept ++ rest).Nodup →
      ∃ steps w, (∀ a, WalkStep.other a ∉ steps) ∧
        walkRun
          { machine := { state := s, outstanding := o }, GlobalDataAcquired := acq, Vcb := Vcb
            Entry := rest.head?, NextIrpContextLite := none } steps = some w ∧
        w.machine.state = closeAllQueue Vcb kept rest s ∧ w.Entry = none ∧
        w.NextIrpContextLite = none := by
  intro rest
  induction rest with
  | nil =>
    intro kept s o _ _
    exact ⟨[], _, by simp, rfl, rfl, rfl, rfl⟩
  | cons e rest ih =>
    intro kept s o hq hn
    have he : e ∉ kept := by
      intro hm
      have := (List.nodup_append.1 hn).2.2
      exact this hm (List.mem_cons_self _ _)
    have hnext : nextEntry s.Data.DelayedCloseQueue e = rest.head? := by
      rw [hq]; exact nextEntry_append kept rest e he
    by_cases ht : (s.Fcbs e.Fcb).Vcb = Vcb
    · have herase : s.Data.DelayedCloseQueue.erase e = kept ++ rest := by
        rw [hq, List.erase_append_right _ he, List.erase_cons_head]
      have hn1 : (kept ++ rest).Nodup := by
        refine hn.sublist ?_
        exact List.Sublist.append_left (List.sublist_cons_self e rest) kept
      obtain ⟨steps, w, hs, hrun, hst, h1, h2⟩ :=
        ih kept (walkRemove s e)
          (o + (workItems (walkRemove s e).events - workItems s.events))
          (by simp only [walkRemove, UDFDoDelayedClose, herase]) hn1
      refine ⟨.fetch :: .remove :: steps, w, ?_, ?_, ?_, h1, h2⟩
      · intro a hm
        rcases List.mem_cons.1 hm with h | hm
        · cases h
        · rcases List.mem_cons.1 hm with h | hm
          · cases h
          · exact hs a hm
      · have f1 : walkStep
            { machine := { state := s, outstanding := o }, GlobalDataAcquired := acq
              Vcb := Vcb, Entry := (e :: rest).head?, NextIrpContextLite := none } .fetch =
            some { machine := { state := s, outstanding := o }, GlobalDataAcquired := acq
                   Vcb := Vcb, Entry := rest.head?, NextIrpContextLite := some e } := by
          simp only [walkStep, List.head?_cons, hnext, ht, if_true]
        have f2 : walkStep
            { machine := { state := s, outstanding := o }, GlobalDataAcquired := acq
              Vcb := Vcb, Entry := rest.head?, NextIrpContextLite := some e } .remove =
            some { machine :=
                     { state := walkRemove s e
                       outstanding :=
                         o + (workItems (walkRemove s e).events - workItems s.events) }
                   GlobalDataAcquired := acq, Vcb := Vcb, Entry := rest.head?
                   NextIrpContextLite := none } := rfl
        rw [walkRun_cons _ _ _ _ f1, walkRun_cons _ _ _ _ f2]
        exact hrun
      · rw [hst]
        conv_rhs => unfold closeAllQueue
        simp only [ht, if_true, walkRemove, herase]
    · have hq1 : s.Data.DelayedCloseQueue = (kept ++ [e]) ++ rest := by
        rw [hq]; simp
      have hn1 : ((kept ++ [e]) ++ rest).Nodup := by
        simpa using hn
      obtain ⟨steps, w, hs, hrun, hst, h1, h2⟩ := ih (kept ++ [e]) s o hq1 hn1
      refine ⟨.fetch :: steps, w, ?_, ?_, ?_, h1, h2⟩
      · intro a hm
        rcases List.mem_cons.1 hm with h | hm
        · cases h
        · exact hs a hm
      · have f1 : walkStep
            { machine := { state := s, outstanding := o }, GlobalDataAcquired := acq
              Vcb := Vcb, Entry := (e :: rest).head?, NextIrpContextLite := none } .fetch =
            some { machine := { state := s, outstanding := o }, GlobalDataAcquired := acq
                   Vcb := Vcb, Entry := rest.head?, NextIrpContextLite := none } := by
          simp only [walkStep, List.head?_cons, hnext, ht, if_false]
        rw [walkRun_cons _ _ _ _ f1]
        exact hrun
      · rw [hst]
        conv_rhs => unfold closeAllQueue
        simp only [ht, if_false]

/-- A walk that starts on a queue without repeated entries and is not interrupted ends with
the state the first loop of `UDFCloseAllDelayed` gives. -/
theorem walkEnter_alone (GlobalDataExclusive : Bool) (Vcb : Nat) (m : DelayMachine)
    (hn : m.state.Data.DelayedCloseQueue.Nodup) :
    ∃ steps w, (∀ a, WalkStep.other a ∉ steps) ∧
      walkRun (walkEnter GlobalDataExclusive Vcb m) steps = some w ∧
      w.machine.state = closeAllQueue Vcb [] m.state.Data.DelayedCloseQueue m.state ∧
      w.Entry = none ∧ w.NextIrpContextLite = none :=
  walk_alone Vcb (closeAllAcquires GlobalDataExclusive) m.state.Data.DelayedCloseQueue []
    m.state m.outstanding rfl hn

theorem fillState_inv : DelayInv (fillState 9) := by
  have h0 : DelayInv (fillState 0) := plainState_inv smallData rfl rfl rfl rfl
  have h1 : DelayInv (fillState 1) :=
    UDFQueueDelayedClose_inv h0 (by decide) (by decide) true 0 1 7
  have h2 : DelayInv (fillState 2) :=
    UDFQueueDelayedClose_inv h1 (by decide) (by decide) true 2 1 7
  have h3 : DelayInv (fillState 3) :=
    UDFQueueDelayedClose_inv h2 (by decide) (by decide) true 4 1 7
  have h4 : DelayInv (fillState 4) :=
    UDFQueueDelayedClose_inv h3 (by decide) (by decide) true 6 1 7
  have h5 : DelayInv (fillState 5) :=
    UDFQueueDelayedClose_inv h4 (by decide) (by decide) true 8 1 7
  have h6 : DelayInv (fillState 6) :=
    UDFQueueDelayedClose_inv h5 (by decide) (by decide) true 10 1 7
  have h7 : DelayInv (fillState 7) :=
    UDFQueueDelayedClose_inv h6 (by decide) (by decide) true 12 1 7
  have h8 : DelayInv (fillState 8) :=
    UDFQueueDelayedClose_inv h7 (by decide) (by decide) true 14 1 7
  exact UDFQueueDelayedClose_inv h8 (by decide) (by decide) true 16 1 7

/-- C14 fails on the code when `UDFCloseAllDelayed` is called by a thread that holds
`GlobalDataResource` exclusively: the call does not acquire `DelayedCloseResource`, and a
drain task can run between two of its statements. On a small system with empty queues, nine
closes of files of volume 1 are queued, which schedules a drain task; the state is
consistent. Then `UDFCloseAllDelayed(1)` starts without the resource, closes the first six
entries and takes the seventh, that of the file 12; the drain task runs, unlinks that entry,
decrements the count to the low watermark and closes the entry; the walking call unlinks the
same entry again, decrements the count again and closes the entry again. Two entries are left
in the queue with `DelayedCloseCount` at 1, the entry of the file 12 has been freed twice and
closed twice, and the state is not consistent. With the resource acquired the drain task
cannot run at that point. -/
theorem close_all_without_resource_races :
    ∃ m w,
      delayRun smallMachine fillSchedule = some m ∧
      DelayInv m.state ∧
      m.outstanding = 1 ∧
      (walkEnter true 1 m).GlobalDataAcquired = false ∧
      walkRun (walkEnter true 1 m) raceSchedule = some w ∧
      w.machine.state.Data.DelayedCloseQueue = [queuedEntry 14, queuedEntry 16] ∧
      w.machine.state.Data.DelayedCloseCount = 1 ∧
      w.machine.state.events.count (.UDFCommonClose (queuedEntry 12)) = 2 ∧
      w.machine.state.events.count (.MyFreePool (queuedEntry 12)) = 2 ∧
      ¬ DelayInv w.machine.state ∧
      walkRun (walkEnter false 1 m) raceSchedule = none := by
  refine ⟨{ state := fillState 9, outstanding := 1 }, _, by with_unfolding_all rfl,
    fillState_inv, rfl, rfl,
    by with_unfolding_all rfl, by with_unfolding_all rfl, by with_unfolding_all rfl,
    by with_unfolding_all decide, by with_unfolding_all decide, ?_,
    by with_unfolding_all rfl⟩
  intro h
  exact absurd h.count_eq (by with_unfolding_all decide)

end UDF
